import Mathlib

/-! # Streaming NMEA 0183 decoder (nmea.c / nmea.h): shallow embedding

The C sources are embedded as pure functions on an explicit parser value
`nmea` (the C `struct nmea`), one Lean function per C function, under the
same names.

Conventions of the embedding

* Integer model: LP64.  `unsigned char` is 8 bit, `unsigned short` 16 bit,
  `int` / `unsigned int` / enums 32 bit, `unsigned long`,
  `unsigned long long` and `size_t` 64 bit.  Unsigned objects are `Nat`
  reduced `% 2^w` wherever the C operation can leave the range; signed 64 bit
  objects are `Int`, obtained from the 64 bit pattern with `to_s64`.
* A `char` argument is the `Int` value it has after integer promotion, so a
  byte above 127 may be given as a negative number (signed `char`) or as
  itself (unsigned `char`); character constants are written as their codes.
* Pointers into the constant tables are indices: `field_handlers` is the
  field kind whose `HANDLER_LUT` entry is pointed at, `sentence` is a
  `sentence_ptr`.
* `union nmea_fxpse`: `se.scratch[0]` occupies the storage of `fxp.val` and
  `se.scratch[1]` that of `fxp.div`; the embedding has the two cells `val`
  and `div` once and the date handlers use them under those names.
-/

namespace Nmea

/-! ## Integer conversions -/

/-- ULLONG_MAX, also ULONG_MAX and SIZE_MAX in the LP64 model. -/
def ULLONG_MAX : Nat := 18446744073709551615

/-- LLONG_MAX. -/
def LLONG_MAX : Nat := 9223372036854775807

/-- Conversion of a (promoted) integer to a 64 bit unsigned type. -/
def to_u64 (x : Int) : Nat := (x % 18446744073709551616).toNat

/-- Conversion of a (promoted) integer to `unsigned char`. -/
def to_u8 (x : Int) : Nat := (x % 256).toNat

/-- Conversion of a 64 bit pattern to `long long` (two's complement). -/
def to_s64 (x : Nat) : Int :=
  if x % 18446744073709551616 < 9223372036854775808 then
    ((x % 18446744073709551616 : Nat) : Int)
  else ((x % 18446744073709551616 : Nat) : Int) - 18446744073709551616

/-- Reduction of an unsigned 64 bit result. -/
def wrap64 (x : Nat) : Nat := x % 18446744073709551616

/-! ## nmea.h: constants and types -/

def NMEA_MAX_SATS : Nat := 20
def NMEA_MAX_PRNS_TRACKED : Nat := 12
def NMEA_CENTURY : Nat := 2000
def NMEA_CENTURY_OFFSET : Nat := 946684800

/-- The C `enum nmea_fields`. -/
inductive nmea_fields
  | NMEA_FIELD_LONGITUDE
  | NMEA_FIELD_LONGITUDE_DIR
  | NMEA_FIELD_LATITUDE_DIR
  | NMEA_FIELD_LATITUDE
  | NMEA_FIELD_FIX_QUALITY
  | NMEA_FIELD_SATELLITES_TRACKED
  | NMEA_FIELD_SATELLITES_IN_VIEW
  | NMEA_FIELD_ALTITUDE
  | NMEA_FIELD_GEOID_HEIGHT
  | NMEA_FIELD_FIX_3D
  | NMEA_FIELD_PRNS_TRACKED
  | NMEA_FIELD_PRN
  | NMEA_FIELD_PDOP
  | NMEA_FIELD_HDOP
  | NMEA_FIELD_VDOP
  | NMEA_FIELD_GLL_ACTIVE
  | NMEA_FIELD_RMC_ACTIVE
  | NMEA_FIELD_SPEED
  | NMEA_FIELD_TIME
  | NMEA_FIELD_DATE
  | NMEA_FIELD_MAGNETIC_VARIATION
  | NMEA_FIELD_MAGNETIC_VARIATION_DIR
  | NMEA_FIELD_IGNORE
  | NMEA_FIELD_GSV_SENTENCES_TOTAL
  | NMEA_FIELD_SENTENCE_NO
  | NMEA_FIELD_AZIMUTH
  | NMEA_FIELD_ELEVATION
  | NMEA_FIELD_SNR
  | NMEA_FIELD_TRUE_TRACK
  | NMEA_FIELD_MAGNETIC_TRACK
  | NMEA_FIELD_HEADER
  deriving DecidableEq, Repr

open nmea_fields

/-- Numeric value of an enumerator of `enum nmea_fields`. -/
def field_value : nmea_fields → Nat
  | NMEA_FIELD_LONGITUDE => 0
  | NMEA_FIELD_LONGITUDE_DIR => 1
  | NMEA_FIELD_LATITUDE_DIR => 2
  | NMEA_FIELD_LATITUDE => 3
  | NMEA_FIELD_FIX_QUALITY => 4
  | NMEA_FIELD_SATELLITES_TRACKED => 5
  | NMEA_FIELD_SATELLITES_IN_VIEW => 6
  | NMEA_FIELD_ALTITUDE => 7
  | NMEA_FIELD_GEOID_HEIGHT => 8
  | NMEA_FIELD_FIX_3D => 9
  | NMEA_FIELD_PRNS_TRACKED => 10
  | NMEA_FIELD_PRN => 11
  | NMEA_FIELD_PDOP => 12
  | NMEA_FIELD_HDOP => 13
  | NMEA_FIELD_VDOP => 14
  | NMEA_FIELD_GLL_ACTIVE => 15
  | NMEA_FIELD_RMC_ACTIVE => 16
  | NMEA_FIELD_SPEED => 17
  | NMEA_FIELD_TIME => 18
  | NMEA_FIELD_DATE => 19
  | NMEA_FIELD_MAGNETIC_VARIATION => 20
  | NMEA_FIELD_MAGNETIC_VARIATION_DIR => 21
  | NMEA_FIELD_IGNORE => 22
  | NMEA_FIELD_GSV_SENTENCES_TOTAL => 23
  | NMEA_FIELD_SENTENCE_NO => 24
  | NMEA_FIELD_AZIMUTH => 25
  | NMEA_FIELD_ELEVATION => 26
  | NMEA_FIELD_SNR => 27
  | NMEA_FIELD_TRUE_TRACK => 28
  | NMEA_FIELD_MAGNETIC_TRACK => 29
  | NMEA_FIELD_HEADER => 30

/-- The constants `NMEA_FIELD_x_MASK`: `NMEA_FB1 << NMEA_FIELD_x`. -/
def field_mask (f : nmea_fields) : Nat := 1 <<< field_value f

/-- The C expression `r & ~m` on `nmea_field_bitmap_t` (64 bit). -/
def and_not64 (r m : Nat) : Nat := r &&& (ULLONG_MAX ^^^ m)

/-- The table `NMEA_FXP_FRACTIONALS`: fractional bits per field kind, 0 for
the kinds without an initialiser. -/
def NMEA_FXP_FRACTIONALS : nmea_fields → Nat
  | NMEA_FIELD_LONGITUDE => 55
  | NMEA_FIELD_LATITUDE => 56
  | NMEA_FIELD_ALTITUDE => 10
  | NMEA_FIELD_GEOID_HEIGHT => 10
  | NMEA_FIELD_PDOP => 16
  | NMEA_FIELD_HDOP => 16
  | NMEA_FIELD_VDOP => 16
  | NMEA_FIELD_SPEED => 16
  | NMEA_FIELD_MAGNETIC_VARIATION => 24
  | NMEA_FIELD_TRUE_TRACK => 16
  | NMEA_FIELD_MAGNETIC_TRACK => 16
  | _ => 0

/-- Values of `enum nmea_active`. -/
def NMEA_VOID : Nat := 0
def NMEA_ACTIVE : Nat := 1

/-- The C `struct nmea_sat`. -/
structure nmea_sat where
  azimuth : Nat
  prn : Nat
  elevation : Nat
  snr : Nat
  deriving DecidableEq, Repr

/-- The C `union nmea_fxpse`: `struct nmea_fxp_state` whose cells `val` and
`div` are also `se.scratch[0]` and `se.scratch[1]`. -/
structure nmea_fxp_state where
  val : Nat
  div : Nat
  dp : Nat
  neg : Nat
  deriving DecidableEq, Repr

/-- A value of `const struct nmea_sentence_format *`: the address of
`SENTENCE_LUT[i]` or of `IGNORE_SENTENCE`. -/
inductive sentence_ptr
  | lut (i : Nat)
  | ignore
  deriving DecidableEq, Repr

/-- The C `struct nmea_state`. -/
structure nmea_state where
  fxpse : nmea_fxp_state
  scratch : Nat
  field_handlers : nmea_fields
  sentence : sentence_ptr
  received : Nat
  field : nmea_fields
  checksum_recording : Nat
  sentence_bitmap : Nat
  field_bitmap : Nat
  gsv_sentences_received : Nat
  gsv_satellite_count : Nat
  gsv_satellite_index : Nat
  gsv_sentence_no : Nat
  gsv_sentences_total : Nat
  gsa_satellite_index : Nat
  gsa_satellite_count : Nat
  char_count : Nat
  comma_count : Nat
  checksum : Nat
  deriving DecidableEq, Repr

/-- The C `struct nmea_data` (the fix snapshot). -/
structure nmea_data where
  longitude : Int
  latitude : Int
  time : Int
  hdop : Nat
  pdop : Nat
  vdop : Nat
  speed : Nat
  true_track : Int
  magnetic_track : Int
  magnetic_variation : Int
  altitude : Int
  geoid_height : Int
  fix_quality : Nat
  fix_3d : Nat
  gll_active : Nat
  rmc_active : Nat
  sats : List nmea_sat
  prns_tracked : List Nat
  satellites_tracked : Nat
  satellites_in_view : Nat
  deriving DecidableEq, Repr

/-- The C `struct nmea`. -/
structure nmea where
  state : nmea_state
  data : nmea_data
  deriving DecidableEq, Repr

/-- The C `struct nmea_field_handlers`. -/
structure nmea_field_handlers where
  start_handler : nmea → nmea
  char_handler : nmea → Int → nmea
  end_handler : nmea → nmea

/-- The C `struct nmea_sentence_format`; `head` is the 6 byte array, the
header literal followed by its terminating 0. -/
structure nmea_sentence_format where
  fields : List nmea_fields
  start_handler : nmea → nmea
  end_handler : nmea → nmea
  checksum_fail_handler : nmea → nmea
  head : List Int
  length : Nat

/-! ## nmea.c: fixed point decoder -/

def SECONDS_IN_MINUTE : Nat := 60
def SECONDS_IN_HOUR : Nat := 3600
def SECONDS_IN_DAY : Nat := 86400

def check_post_multiply (a b q : Nat) : Int :=
  if b ≠ 0 ∧ q / b ≠ a then -1 else 0

/-- Returns the stored product `*q` and the return code. -/
def check_multiply (a b : Nat) : Nat × Int :=
  (wrap64 (a * b), check_post_multiply a b (wrap64 (a * b)))

def ufxp_init (state : nmea_fxp_state) : nmea_fxp_state :=
  { state with val := 0, dp := 0 }

/-- Decoder step; q is the number of fractional bits.  The division by
`state.div` is reached with `dp` set, which the `.` branch sets together with
`div = 10`; a zero divisor is outside the C semantics and `Nat` division gives
0 there. -/
def ufxp_from_ascii (state : nmea_fxp_state) (c : Int) (q : Nat) : nmea_fxp_state :=
  if c = 46 then                                    -- '.'
    { state with dp := 1, div := 10 }
  else
    let inc := wrap64 (to_u64 (c - 48) <<< q)       -- (c - '0') << q
    if state.dp = 0 then
      let v := wrap64 (wrap64 (state.val * 10) + inc)
      if v < inc then { state with val := ULLONG_MAX } else { state with val := v }
    else
      let v := wrap64 (state.val + inc / state.div)
      if (check_multiply 10 state.div).2 ≠ 0 then
        { state with val := v, div := ULLONG_MAX }
      else
        { state with val := v, div := (check_multiply 10 state.div).1 }

def ufxp_get_val (state : nmea_fxp_state) : Nat := state.val

def fxp_init (state : nmea_fxp_state) : nmea_fxp_state :=
  ufxp_init { state with neg := 0 }

def fxp_from_ascii (state : nmea_fxp_state) (c : Int) (q : Nat) : nmea_fxp_state :=
  if c = 45 then                                    -- '-'
    { state with neg := 1 }
  else ufxp_from_ascii state c q

def fxp_get_val (state : nmea_fxp_state) : Int :=
  let usval := ufxp_get_val state
  let val : Int := if usval > LLONG_MAX then (LLONG_MAX : Int) else (usval : Int)
  if state.neg ≠ 0 then -val else val

/-! ## nmea.c: field handlers -/

def ignore_handler (n : nmea) : nmea := n

def ignore_char_handler (n : nmea) (_c : Int) : nmea := n

def ufxp_init_start_handler (n : nmea) : nmea :=
  { n with state := { n.state with fxpse := ufxp_init n.state.fxpse } }

def fxp_init_start_handler (n : nmea) : nmea :=
  { n with state := { n.state with fxpse := fxp_init n.state.fxpse } }

def ui_char_handler (n : nmea) (c : Int) : nmea :=
  { n with state := { n.state with fxpse := ufxp_from_ascii n.state.fxpse c 0 } }

def reset_cc_start_handler (n : nmea) : nmea :=
  { n with state := { n.state with char_count := 0 } }

def longitude_start_handler (n : nmea) : nmea :=
  { n with state := { n.state with
      fxpse := ufxp_init n.state.fxpse, char_count := 0, scratch := 0 } }

def lon_lat_char_handler (n : nmea) (c : Int) (degc : Nat) (q : Nat) : nmea :=
  if n.state.char_count < degc then
    -- degrees
    { n with state := { n.state with
        scratch := wrap64 (wrap64 (n.state.scratch * 10) + to_u64 (c - 48)),
        char_count := (n.state.char_count + 1) % 256 } }
  else
    -- minutes
    { n with state := { n.state with fxpse := ufxp_from_ascii n.state.fxpse c q } }

def longitude_char_handler (n : nmea) (c : Int) : nmea :=
  lon_lat_char_handler n c 3 (NMEA_FXP_FRACTIONALS NMEA_FIELD_LONGITUDE)

def longitude_end_handler (n : nmea) : nmea :=
  let scratch := wrap64 (n.state.scratch <<< NMEA_FXP_FRACTIONALS NMEA_FIELD_LONGITUDE)
  { state := { n.state with scratch := scratch },
    data := { n.data with
      longitude := to_s64 (wrap64 (scratch + ufxp_get_val n.state.fxpse / 60)) } }

def latitude_start_handler (n : nmea) : nmea :=
  { n with state := { n.state with
      fxpse := ufxp_init n.state.fxpse, char_count := 0, scratch := 0 } }

def latitude_char_handler (n : nmea) (c : Int) : nmea :=
  lon_lat_char_handler n c 2 (NMEA_FXP_FRACTIONALS NMEA_FIELD_LATITUDE)

def latitude_end_handler (n : nmea) : nmea :=
  let scratch := wrap64 (n.state.scratch <<< NMEA_FXP_FRACTIONALS NMEA_FIELD_LATITUDE)
  { state := { n.state with scratch := scratch },
    data := { n.data with
      latitude := to_s64 (wrap64 (scratch + ufxp_get_val n.state.fxpse / 60)) } }

/-- The C expression `-x` on `long long`, reduced to the 64 bit range. -/
def neg64 (x : Int) : Int := to_s64 (to_u64 (-x))

def latitude_dir_char_handler (n : nmea) (c : Int) : nmea :=
  let n1 : nmea :=
    if c = 83 ∧ n.data.latitude > 0 then              -- 'S'
      { n with data := { n.data with latitude := neg64 n.data.latitude } }
    else if c = 78 ∧ n.data.latitude < 0 then         -- 'N'
      { n with data := { n.data with latitude := neg64 n.data.latitude } }
    else n
  { n1 with state := { n1.state with
      received := and_not64 n1.state.received (field_mask NMEA_FIELD_LATITUDE_DIR) } }

def longitude_dir_char_handler (n : nmea) (c : Int) : nmea :=
  let n1 : nmea :=
    if c = 87 ∧ n.data.longitude > 0 then             -- 'W'
      { n with data := { n.data with longitude := neg64 n.data.longitude } }
    else if c = 69 ∧ n.data.longitude < 0 then        -- 'E'
      { n with data := { n.data with longitude := neg64 n.data.longitude } }
    else n
  { n1 with state := { n1.state with
      received := and_not64 n1.state.received (field_mask NMEA_FIELD_LONGITUDE_DIR) } }

/-- Assignment to `enum nmea_fix_quality` (32 bit unsigned). -/
def fix_quality_end_handler (n : nmea) : nmea :=
  { n with data := { n.data with fix_quality := ufxp_get_val n.state.fxpse % 4294967296 } }

def satellites_tracked_end_handler (n : nmea) : nmea :=
  { n with data := { n.data with satellites_tracked := ufxp_get_val n.state.fxpse % 65536 } }

def satellites_in_view_end_handler (n : nmea) : nmea :=
  { n with data := { n.data with satellites_in_view := ufxp_get_val n.state.fxpse % 65536 } }

def altitude_char_handler (n : nmea) (c : Int) : nmea :=
  { n with state := { n.state with
      fxpse := fxp_from_ascii n.state.fxpse c (NMEA_FXP_FRACTIONALS NMEA_FIELD_ALTITUDE) } }

def altitude_end_handler (n : nmea) : nmea :=
  { n with data := { n.data with altitude := fxp_get_val n.state.fxpse } }

def geoid_height_char_handler (n : nmea) (c : Int) : nmea :=
  { n with state := { n.state with
      fxpse := fxp_from_ascii n.state.fxpse c (NMEA_FXP_FRACTIONALS NMEA_FIELD_GEOID_HEIGHT) } }

def geoid_height_end_handler (n : nmea) : nmea :=
  { n with data := { n.data with geoid_height := fxp_get_val n.state.fxpse } }

/-- Assignment to `enum nmea_fix_3d` (32 bit unsigned). -/
def fix_3d_end_handler (n : nmea) : nmea :=
  { n with data := { n.data with fix_3d := ufxp_get_val n.state.fxpse % 4294967296 } }

def prns_tracked_end_handler (n : nmea) : nmea :=
  let prn := ufxp_get_val n.state.fxpse % 256
  let gsa_satellite_index := n.state.gsa_satellite_index
  if prn ≠ 0 ∧ gsa_satellite_index < NMEA_MAX_PRNS_TRACKED then
    -- prns are 1 relative
    { state := { n.state with
        gsa_satellite_index := (n.state.gsa_satellite_index + 1) % 256,
        gsa_satellite_count := (n.state.gsa_satellite_index + 1) % 256 },
      data := { n.data with
        prns_tracked := n.data.prns_tracked.set gsa_satellite_index prn } }
  else n

def pdop_char_handler (n : nmea) (c : Int) : nmea :=
  { n with state := { n.state with
      fxpse := ufxp_from_ascii n.state.fxpse c (NMEA_FXP_FRACTIONALS NMEA_FIELD_PDOP) } }

def pdop_end_handler (n : nmea) : nmea :=
  { n with data := { n.data with pdop := ufxp_get_val n.state.fxpse } }

def hdop_char_handler (n : nmea) (c : Int) : nmea :=
  { n with state := { n.state with
      fxpse := ufxp_from_ascii n.state.fxpse c (NMEA_FXP_FRACTIONALS NMEA_FIELD_HDOP) } }

def hdop_end_handler (n : nmea) : nmea :=
  { n with data := { n.data with hdop := ufxp_get_val n.state.fxpse } }

def vdop_char_handler (n : nmea) (c : Int) : nmea :=
  { n with state := { n.state with
      fxpse := ufxp_from_ascii n.state.fxpse c (NMEA_FXP_FRACTIONALS NMEA_FIELD_VDOP) } }

def vdop_end_handler (n : nmea) : nmea :=
  { n with data := { n.data with vdop := ufxp_get_val n.state.fxpse } }

def gll_active_char_handler (n : nmea) (c : Int) : nmea :=
  { state := { n.state with
      received := and_not64 n.state.received (field_mask NMEA_FIELD_GLL_ACTIVE) },
    data := { n.data with gll_active := if c = 65 then NMEA_ACTIVE else NMEA_VOID } }

def rmc_active_char_handler (n : nmea) (c : Int) : nmea :=
  { state := { n.state with
      received := and_not64 n.state.received (field_mask NMEA_FIELD_RMC_ACTIVE) },
    data := { n.data with rmc_active := if c = 65 then NMEA_ACTIVE else NMEA_VOID } }

def speed_char_handler (n : nmea) (c : Int) : nmea :=
  { n with state := { n.state with
      fxpse := ufxp_from_ascii n.state.fxpse c (NMEA_FXP_FRACTIONALS NMEA_FIELD_SPEED) } }

def speed_end_handler (n : nmea) : nmea :=
  { n with data := { n.data with speed := ufxp_get_val n.state.fxpse } }

def time_char_handler (n : nmea) (c : Int) : nmea :=
  let digit := to_u64 (c - 48)
  let scratch :=
    match n.state.char_count with
    | 0 => wrap64 (digit * 10 * SECONDS_IN_HOUR)
    | 1 => wrap64 (n.state.scratch + wrap64 (digit * SECONDS_IN_HOUR))
    | 2 => wrap64 (n.state.scratch + wrap64 (digit * 10 * SECONDS_IN_MINUTE))
    | 3 => wrap64 (n.state.scratch + wrap64 (digit * SECONDS_IN_MINUTE))
    | 4 => wrap64 (n.state.scratch + wrap64 (digit * 10))
    | 5 => wrap64 (n.state.scratch + digit)
    | _ => n.state.scratch
  { n with state := { n.state with
      scratch := scratch, char_count := (n.state.char_count + 1) % 256 } }

/-- The arithmetic on `data.time` is done in `unsigned long long` (the other
operand is unsigned 64 bit) and stored back into the `long long`. -/
def time_end_handler (n : nmea) : nmea :=
  -- floor time to last day boundary
  let t1 := to_s64 (wrap64 (to_u64 n.data.time / SECONDS_IN_DAY * SECONDS_IN_DAY))
  { n with data := { n.data with time := to_s64 (wrap64 (to_u64 t1 + n.state.scratch)) } }

/-- The table `month_days` of `date_char_handler`. -/
def month_days : List Nat := [31, 28, 31, 30, 31, 30, 31, 31, 30, 31, 30]

/-- The loop `while (i < scratch[0]) { scratch += month_days[i] * SECONDS_IN_DAY; ++i; }`
of `date_char_handler`; the first argument bounds the iterations, the loop is
entered with `limit <= 11` only. -/
def date_month_loop (limit : Nat) : Nat → Nat → Nat → Nat
  | 0, _, scratch => scratch
  | fuel + 1, i, scratch =>
    if i < limit then
      date_month_loop limit fuel (i + 1) (wrap64 (scratch + month_days.getD i 0 * SECONDS_IN_DAY))
    else scratch

/-- The cells `fxpse.se.scratch[0]`, `fxpse.se.scratch[1]` (stored in `val`,
`div`) and `scratch` are read before the switch and written back after it. -/
def date_char_handler (n : nmea) (c : Int) : nmea :=
  let digit := to_u64 (c - 48)
  let se0 := n.state.fxpse.val
  let se1 := n.state.fxpse.div
  let scratch := n.state.scratch
  let r : Nat × Nat × Nat :=
    match n.state.char_count with
    | 0 => -- days e10
      (se0, se1, wrap64 (digit * 10 * SECONDS_IN_DAY))
    | 1 => -- days
      (se0, se1, wrap64 (wrap64 (scratch + wrap64 (digit * SECONDS_IN_DAY))
                  + (18446744073709551616 - SECONDS_IN_DAY)))
    | 2 => -- months e10
      (wrap64 (digit * 10), se1, scratch)
    | 3 => -- months, one relative; then how many months worth of days to add
      let m := wrap64 (wrap64 (se0 + digit) + 18446744073709551615)
      if m > month_days.length then
        -- months > 12
        (m, se1, scratch)
      else
        (m, se1, date_month_loop m 12 0 scratch)
    | 4 => -- years e10
      (se0, wrap64 (digit * 10), scratch)
    | 5 => -- years
      let y := wrap64 (se1 + digit)
      -- this also adds the leap day for this year, removed below if earlier than Mar
      let s1 := wrap64 (scratch
                  + wrap64 (wrap64 (y * SECONDS_IN_DAY * 365) + wrap64 (SECONDS_IN_DAY * (y / 4))))
      -- century is leap year
      let s2 := if NMEA_CENTURY % 400 = 0 then wrap64 (s1 + SECONDS_IN_DAY) else s1
      -- remove 29th Feb for this year if earlier than Mar
      let s3 := if y % 4 = 0 ∧ se0 < 3 then
                  wrap64 (s2 + (18446744073709551616 - SECONDS_IN_DAY)) else s2
      (se0, y, s3)
    | _ => (se0, se1, scratch)
  { n with state := { n.state with
      fxpse := { n.state.fxpse with val := r.1, div := r.2.1 },
      scratch := r.2.2,
      char_count := (n.state.char_count + 1) % 256 } }

def date_end_handler (n : nmea) : nmea :=
  let t := wrap64 (to_u64 n.data.time % SECONDS_IN_DAY + NMEA_CENTURY_OFFSET + n.state.scratch)
  { n with data := { n.data with time := to_s64 t } }

def magnetic_variation_char_handler (n : nmea) (c : Int) : nmea :=
  { n with state := { n.state with
      fxpse := fxp_from_ascii n.state.fxpse c
        (NMEA_FXP_FRACTIONALS NMEA_FIELD_MAGNETIC_VARIATION) } }

def magnetic_variation_end_handler (n : nmea) : nmea :=
  { n with data := { n.data with magnetic_variation := fxp_get_val n.state.fxpse } }

def magnetic_variation_dir_char_handler (n : nmea) (c : Int) : nmea :=
  let n1 : nmea :=
    if c = 87 ∧ n.data.magnetic_variation > 0 then    -- 'W'
      { n with data := { n.data with magnetic_variation := neg64 n.data.magnetic_variation } }
    else if c = 69 ∧ n.data.magnetic_variation < 0 then   -- 'E'
      { n with data := { n.data with magnetic_variation := neg64 n.data.magnetic_variation } }
    else n
  { n1 with state := { n1.state with
      received := and_not64 n1.state.received (field_mask NMEA_FIELD_MAGNETIC_VARIATION_DIR) } }

def gsv_sentences_total_end_handler (n : nmea) : nmea :=
  { n with state := { n.state with gsv_sentences_total := ufxp_get_val n.state.fxpse % 256 } }

def sentence_no_end_handler (n : nmea) : nmea :=
  { n with state := { n.state with gsv_sentence_no := ufxp_get_val n.state.fxpse % 256 } }

/-- The element `sats[i]` read for a member update. -/
def sat_at (sats : List nmea_sat) (i : Nat) : nmea_sat := sats.getD i ⟨0, 0, 0, 0⟩

def prn_end_handler (n : nmea) : nmea :=
  let gsv_satellite_index := n.state.gsv_satellite_index
  if gsv_satellite_index ≥ NMEA_MAX_SATS then n
  else
    let sat : nmea_sat :=
      { sat_at n.data.sats gsv_satellite_index with prn := ufxp_get_val n.state.fxpse % 256 }
    { n with data := { n.data with sats := n.data.sats.set gsv_satellite_index sat } }

def azimuth_end_handler (n : nmea) : nmea :=
  let gsv_satellite_index := n.state.gsv_satellite_index
  if gsv_satellite_index ≥ NMEA_MAX_SATS then n
  else
    let sat : nmea_sat :=
      { sat_at n.data.sats gsv_satellite_index with azimuth := ufxp_get_val n.state.fxpse % 65536 }
    { n with data := { n.data with sats := n.data.sats.set gsv_satellite_index sat } }

def elevation_end_handler (n : nmea) : nmea :=
  let gsv_satellite_index := n.state.gsv_satellite_index
  if gsv_satellite_index ≥ NMEA_MAX_SATS then n
  else
    let sat : nmea_sat :=
      { sat_at n.data.sats gsv_satellite_index with elevation := ufxp_get_val n.state.fxpse % 256 }
    { n with data := { n.data with sats := n.data.sats.set gsv_satellite_index sat } }

def snr_end_handler (n : nmea) : nmea :=
  let gsv_satellite_index := n.state.gsv_satellite_index
  if gsv_satellite_index ≥ NMEA_MAX_SATS then n
  else
    let sat : nmea_sat :=
      { sat_at n.data.sats gsv_satellite_index with snr := ufxp_get_val n.state.fxpse % 256 }
    { state := { n.state with
        gsv_satellite_index := (n.state.gsv_satellite_index + 1) % 256,
        gsv_satellite_count := (n.state.gsv_satellite_index + 1) % 256 },
      data := { n.data with sats := n.data.sats.set gsv_satellite_index sat } }

def true_track_char_handler (n : nmea) (c : Int) : nmea :=
  { n with state := { n.state with
      fxpse := fxp_from_ascii n.state.fxpse c (NMEA_FXP_FRACTIONALS NMEA_FIELD_TRUE_TRACK) } }

def true_track_end_handler (n : nmea) : nmea :=
  { n with data := { n.data with true_track := fxp_get_val n.state.fxpse } }

def magnetic_track_char_handler (n : nmea) (c : Int) : nmea :=
  { n with state := { n.state with
      fxpse := fxp_from_ascii n.state.fxpse c (NMEA_FXP_FRACTIONALS NMEA_FIELD_MAGNETIC_TRACK) } }

def magnetic_track_end_handler (n : nmea) : nmea :=
  { n with data := { n.data with magnetic_track := fxp_get_val n.state.fxpse } }

/-! ## nmea.c: sentence formats and the header classifier -/

def GGA_FIELDS : List nmea_fields :=
  [NMEA_FIELD_TIME, NMEA_FIELD_LATITUDE, NMEA_FIELD_LATITUDE_DIR, NMEA_FIELD_LONGITUDE,
   NMEA_FIELD_LONGITUDE_DIR, NMEA_FIELD_FIX_QUALITY, NMEA_FIELD_SATELLITES_TRACKED,
   NMEA_FIELD_HDOP, NMEA_FIELD_ALTITUDE, NMEA_FIELD_IGNORE, NMEA_FIELD_GEOID_HEIGHT,
   NMEA_FIELD_IGNORE, NMEA_FIELD_IGNORE, NMEA_FIELD_IGNORE]

def GLL_FIELDS : List nmea_fields :=
  [NMEA_FIELD_LATITUDE, NMEA_FIELD_LATITUDE_DIR, NMEA_FIELD_LONGITUDE,
   NMEA_FIELD_LONGITUDE_DIR, NMEA_FIELD_TIME, NMEA_FIELD_GLL_ACTIVE, NMEA_FIELD_IGNORE]

def GSA_FIELDS : List nmea_fields :=
  [NMEA_FIELD_IGNORE, NMEA_FIELD_FIX_3D, NMEA_FIELD_PRNS_TRACKED,
   NMEA_FIELD_PRNS_TRACKED, NMEA_FIELD_PRNS_TRACKED, NMEA_FIELD_PRNS_TRACKED,
   NMEA_FIELD_PRNS_TRACKED, NMEA_FIELD_PRNS_TRACKED, NMEA_FIELD_PRNS_TRACKED,
   NMEA_FIELD_PRNS_TRACKED, NMEA_FIELD_PRNS_TRACKED, NMEA_FIELD_PRNS_TRACKED,
   NMEA_FIELD_PRNS_TRACKED, NMEA_FIELD_PRNS_TRACKED, NMEA_FIELD_PDOP,
   NMEA_FIELD_HDOP, NMEA_FIELD_VDOP]

def GSV_FIELDS : List nmea_fields :=
  [NMEA_FIELD_GSV_SENTENCES_TOTAL, NMEA_FIELD_SENTENCE_NO, NMEA_FIELD_SATELLITES_IN_VIEW,
   NMEA_FIELD_PRN, NMEA_FIELD_ELEVATION, NMEA_FIELD_AZIMUTH, NMEA_FIELD_SNR,
   NMEA_FIELD_PRN, NMEA_FIELD_ELEVATION, NMEA_FIELD_AZIMUTH, NMEA_FIELD_SNR,
   NMEA_FIELD_PRN, NMEA_FIELD_ELEVATION, NMEA_FIELD_AZIMUTH, NMEA_FIELD_SNR,
   NMEA_FIELD_PRN, NMEA_FIELD_ELEVATION, NMEA_FIELD_AZIMUTH, NMEA_FIELD_SNR]

def RMC_FIELDS : List nmea_fields :=
  [NMEA_FIELD_TIME, NMEA_FIELD_RMC_ACTIVE, NMEA_FIELD_LATITUDE, NMEA_FIELD_LATITUDE_DIR,
   NMEA_FIELD_LONGITUDE, NMEA_FIELD_LONGITUDE_DIR, NMEA_FIELD_SPEED, NMEA_FIELD_TRUE_TRACK,
   NMEA_FIELD_DATE, NMEA_FIELD_MAGNETIC_VARIATION, NMEA_FIELD_MAGNETIC_VARIATION_DIR,
   NMEA_FIELD_IGNORE]

def VTG_FIELDS : List nmea_fields :=
  [NMEA_FIELD_TRUE_TRACK, NMEA_FIELD_IGNORE, NMEA_FIELD_MAGNETIC_TRACK,
   NMEA_FIELD_IGNORE, NMEA_FIELD_SPEED, NMEA_FIELD_IGNORE,
   NMEA_FIELD_IGNORE, NMEA_FIELD_IGNORE, NMEA_FIELD_IGNORE]

def gsa_start_handler (n : nmea) : nmea :=
  { n with state := { n.state with gsa_satellite_index := 0 } }

/-- The value `((nmea_gsv_bitmap_t)1) << (gsv_sentence_no - 1)` as it is stored
into the 8 bit bitmap.  For `gsv_sentence_no = 0` the C shift count is
`UINT_MAX`, which is outside the C semantics; the embedding takes the value of
every shift by 8 or more, no bit of the 8 bit bitmap. -/
def gsv_sentence_bit (gsv_sentence_no : Nat) : Nat :=
  if gsv_sentence_no = 0 then 0 else (1 <<< (gsv_sentence_no - 1)) % 256

/-- The comparison value `(1 << gsv_sentences_total) - 1` is taken unbounded
(an `int` shift by 31 or more is outside the C semantics). -/
def gsv_end_handler (n : nmea) : nmea :=
  -- update GSV_sentences_received
  let gsv_sentence_no := n.state.gsv_sentence_no
  if gsv_sentence_no > 8 then n
  else
    let rcv := (n.state.gsv_sentences_received ||| gsv_sentence_bit gsv_sentence_no) % 256
    if rcv = (1 <<< n.state.gsv_sentences_total) - 1 then
      -- all GSV messages received
      { n with state := { n.state with
          received := n.state.received ||| n.state.field_bitmap,
          gsv_sentences_received := 0,
          gsv_satellite_index := 0 } }
    else
      { n with state := { n.state with gsv_sentences_received := rcv } }

def gsv_checksum_fail_handler (n : nmea) : nmea :=
  { n with state := { n.state with gsv_sentences_received := 0, gsv_satellite_index := 0 } }

def generic_end_handler (n : nmea) : nmea :=
  { n with state := { n.state with received := n.state.received ||| n.state.field_bitmap } }

/-- The table `SENTENCE_LUT`; the header literals are written as the 6 byte
arrays they initialise ("GPGGA", "GPGLL", "GPGSA", "GPGSV", "GPRMC", "GPVTG"). -/
def SENTENCE_LUT : List nmea_sentence_format :=
  [ ⟨GGA_FIELDS, ignore_handler, generic_end_handler, ignore_handler,
      [71, 80, 71, 71, 65, 0], GGA_FIELDS.length⟩,
    ⟨GLL_FIELDS, ignore_handler, generic_end_handler, ignore_handler,
      [71, 80, 71, 76, 76, 0], GLL_FIELDS.length⟩,
    ⟨GSA_FIELDS, gsa_start_handler, generic_end_handler, ignore_handler,
      [71, 80, 71, 83, 65, 0], GSA_FIELDS.length⟩,
    ⟨GSV_FIELDS, ignore_handler, gsv_end_handler, gsv_checksum_fail_handler,
      [71, 80, 71, 83, 86, 0], GSV_FIELDS.length⟩,
    ⟨RMC_FIELDS, ignore_handler, generic_end_handler, ignore_handler,
      [71, 80, 82, 77, 67, 0], RMC_FIELDS.length⟩,
    ⟨VTG_FIELDS, ignore_handler, generic_end_handler, ignore_handler,
      [71, 80, 86, 84, 71, 0], VTG_FIELDS.length⟩ ]

/-- The object `IGNORE_SENTENCE`: no field list, 6 zero bytes of head, length 0. -/
def IGNORE_SENTENCE : nmea_sentence_format :=
  ⟨[], ignore_handler, ignore_handler, ignore_handler, [0, 0, 0, 0, 0, 0], 0⟩

/-- Dereference of `state.sentence`.  An index outside `SENTENCE_LUT` is
outside the C semantics; the embedding reads the ignore format there. -/
def sentence_format : sentence_ptr → nmea_sentence_format
  | sentence_ptr.lut i => SENTENCE_LUT.getD i IGNORE_SENTENCE
  | sentence_ptr.ignore => IGNORE_SENTENCE

def header_start_handler (n : nmea) : nmea :=
  { n with state := { n.state with
      char_count := 0,
      comma_count := 0,
      checksum := 0,
      checksum_recording := 0,
      sentence_bitmap := (1 <<< SENTENCE_LUT.length) - 1 } }

/-- The read `SENTENCE_LUT[i].head[k]`: `none` when `k` is outside the 6 byte
array. -/
def head_at (i k : Nat) : Option Int := (SENTENCE_LUT.getD i IGNORE_SENTENCE).head[k]?

/-- The loop of `header_char_handler` over `i`, entered at `i` with
`SENTENCE_LUT.length - i` iterations left (first argument).  A read outside
the head array (`char_count >= 6`) is outside the C semantics; the embedding
counts it as a mismatch. -/
def header_char_loop (c : Int) (char_count : Nat) : Nat → Nat → Nat → Nat
  | 0, _, sentence_bitmap => sentence_bitmap
  | k + 1, i, sentence_bitmap =>
    if head_at i char_count ≠ some c then
      header_char_loop c char_count k (i + 1) (sentence_bitmap &&& (65535 ^^^ (1 <<< i)))
    else
      header_char_loop c char_count k (i + 1) sentence_bitmap

def header_char_handler (n : nmea) (c : Int) : nmea :=
  { n with state := { n.state with
      sentence_bitmap :=
        header_char_loop c n.state.char_count SENTENCE_LUT.length 0 n.state.sentence_bitmap,
      char_count := (n.state.char_count + 1) % 256 } }

/-- The loop `while (oh != 1) { ++n->state.sentence; oh >>= 1; }` of
`header_end_handler`, returning the index reached; the first argument bounds
the iterations (16 covers every nonzero 16 bit value). -/
def header_end_loop : Nat → Nat → Nat → Nat
  | 0, _, i => i
  | fuel + 1, oh, i => if oh ≠ 1 then header_end_loop fuel (oh >>> 1) (i + 1) else i

def header_end_handler (n : nmea) : nmea :=
  let oh := n.state.sentence_bitmap
  -- check that no more than one sentence identified
  if (oh &&& (oh - 1)) = 0 ∧ oh ≠ 0 then
    let sentence := sentence_ptr.lut (header_end_loop 16 oh 0)
    (sentence_format sentence).start_handler { n with state := { n.state with sentence := sentence } }
  else
    { n with state := { n.state with sentence := sentence_ptr.ignore } }

/-! ## nmea.c: dispatch -/

/-- The table `HANDLER_LUT`. -/
def HANDLER_LUT : nmea_fields → nmea_field_handlers
  | NMEA_FIELD_LONGITUDE =>
      ⟨longitude_start_handler, longitude_char_handler, longitude_end_handler⟩
  | NMEA_FIELD_LONGITUDE_DIR => ⟨ignore_handler, longitude_dir_char_handler, ignore_handler⟩
  | NMEA_FIELD_LATITUDE_DIR => ⟨ignore_handler, latitude_dir_char_handler, ignore_handler⟩
  | NMEA_FIELD_LATITUDE => ⟨latitude_start_handler, latitude_char_handler, latitude_end_handler⟩
  | NMEA_FIELD_FIX_QUALITY => ⟨ufxp_init_start_handler, ui_char_handler, fix_quality_end_handler⟩
  | NMEA_FIELD_SATELLITES_TRACKED =>
      ⟨ufxp_init_start_handler, ui_char_handler, satellites_tracked_end_handler⟩
  | NMEA_FIELD_SATELLITES_IN_VIEW =>
      ⟨ufxp_init_start_handler, ui_char_handler, satellites_in_view_end_handler⟩
  | NMEA_FIELD_ALTITUDE => ⟨fxp_init_start_handler, altitude_char_handler, altitude_end_handler⟩
  | NMEA_FIELD_GEOID_HEIGHT =>
      ⟨fxp_init_start_handler, geoid_height_char_handler, geoid_height_end_handler⟩
  | NMEA_FIELD_FIX_3D => ⟨ufxp_init_start_handler, ui_char_handler, fix_3d_end_handler⟩
  | NMEA_FIELD_PRNS_TRACKED =>
      ⟨ufxp_init_start_handler, ui_char_handler, prns_tracked_end_handler⟩
  | NMEA_FIELD_PRN => ⟨ufxp_init_start_handler, ui_char_handler, prn_end_handler⟩
  | NMEA_FIELD_PDOP => ⟨ufxp_init_start_handler, pdop_char_handler, pdop_end_handler⟩
  | NMEA_FIELD_HDOP => ⟨ufxp_init_start_handler, hdop_char_handler, hdop_end_handler⟩
  | NMEA_FIELD_VDOP => ⟨ufxp_init_start_handler, vdop_char_handler, vdop_end_handler⟩
  | NMEA_FIELD_GLL_ACTIVE => ⟨ignore_handler, gll_active_char_handler, ignore_handler⟩
  | NMEA_FIELD_RMC_ACTIVE => ⟨ignore_handler, rmc_active_char_handler, ignore_handler⟩
  | NMEA_FIELD_SPEED => ⟨ufxp_init_start_handler, speed_char_handler, speed_end_handler⟩
  | NMEA_FIELD_TIME => ⟨reset_cc_start_handler, time_char_handler, time_end_handler⟩
  | NMEA_FIELD_DATE => ⟨reset_cc_start_handler, date_char_handler, date_end_handler⟩
  | NMEA_FIELD_MAGNETIC_VARIATION =>
      ⟨fxp_init_start_handler, magnetic_variation_char_handler, magnetic_variation_end_handler⟩
  | NMEA_FIELD_MAGNETIC_VARIATION_DIR =>
      ⟨ignore_handler, magnetic_variation_dir_char_handler, ignore_handler⟩
  | NMEA_FIELD_IGNORE => ⟨ignore_handler, ignore_char_handler, ignore_handler⟩
  | NMEA_FIELD_GSV_SENTENCES_TOTAL =>
      ⟨ufxp_init_start_handler, ui_char_handler, gsv_sentences_total_end_handler⟩
  | NMEA_FIELD_SENTENCE_NO => ⟨ufxp_init_start_handler, ui_char_handler, sentence_no_end_handler⟩
  | NMEA_FIELD_AZIMUTH => ⟨ufxp_init_start_handler, ui_char_handler, azimuth_end_handler⟩
  | NMEA_FIELD_ELEVATION => ⟨ufxp_init_start_handler, ui_char_handler, elevation_end_handler⟩
  | NMEA_FIELD_SNR => ⟨ufxp_init_start_handler, ui_char_handler, snr_end_handler⟩
  | NMEA_FIELD_TRUE_TRACK =>
      ⟨fxp_init_start_handler, true_track_char_handler, true_track_end_handler⟩
  | NMEA_FIELD_MAGNETIC_TRACK =>
      ⟨fxp_init_start_handler, magnetic_track_char_handler, magnetic_track_end_handler⟩
  | NMEA_FIELD_HEADER => ⟨header_start_handler, header_char_handler, header_end_handler⟩

def field_update (n : nmea) : nmea :=
  let comma_count := n.state.comma_count
  if comma_count < (sentence_format n.state.sentence).length then
    let field := (sentence_format n.state.sentence).fields.getD comma_count NMEA_FIELD_IGNORE
    { n with state := { n.state with field := field, field_handlers := field } }
  else
    { n with state := { n.state with
        field := NMEA_FIELD_IGNORE, field_handlers := NMEA_FIELD_IGNORE } }

/-- The result is the `unsigned char` the C function returns. -/
def hex_to_nibble (c : Int) : Nat :=
  if c ≤ 57 then to_u8 (c - 48) else to_u8 ((c - 65) + 10)

def nmea_parse (n : nmea) (c : Int) : nmea :=
  if c = 36 then                                          -- '$'
    -- reset
    let n1 : nmea := { n with state := { n.state with
        field_bitmap := 0, field_handlers := NMEA_FIELD_HEADER } }
    (HANDLER_LUT n1.state.field_handlers).start_handler n1
  else if n.state.checksum_recording ≠ 0 then
    if n.state.char_count = 0 then
      { n with state := { n.state with
          fxpse := { n.state.fxpse with val := hex_to_nibble c <<< 4 },
          char_count := (n.state.char_count + 1) % 256 } }
    else
      let n1 : nmea :=
        if (n.state.fxpse.val ||| hex_to_nibble c) = n.state.checksum then
          -- checksum pass
          (sentence_format n.state.sentence).end_handler n
        else
          -- checksum fail
          (sentence_format n.state.sentence).checksum_fail_handler n
      { n1 with state := { n1.state with checksum_recording := 0 } }
  else if c = 44 then                                     -- ','
    let n1 : nmea := { n with state := { n.state with
        received := and_not64 n.state.received (field_mask n.state.field) } }
    let n2 := (HANDLER_LUT n1.state.field_handlers).end_handler n1
    let n3 := field_update n2
    let n4 : nmea := { n3 with state := { n3.state with
        comma_count := (n3.state.comma_count + 1) % 256 } }
    let n5 := (HANDLER_LUT n4.state.field_handlers).start_handler n4
    { n5 with state := { n5.state with checksum := (n5.state.checksum ^^^ to_u8 c) % 256 } }
  else if c = 42 then                                     -- '*'
    let n1 : nmea := { n with state := { n.state with
        received := and_not64 n.state.received (field_mask n.state.field) } }
    let n2 := (HANDLER_LUT n1.state.field_handlers).end_handler n1
    { n2 with state := { n2.state with checksum_recording := 1, char_count := 0 } }
  else
    -- call handler
    let n1 : nmea := { n with state := { n.state with
        field_bitmap := n.state.field_bitmap ||| field_mask n.state.field } }
    let n2 := (HANDLER_LUT n1.state.field_handlers).char_handler n1 c
    { n2 with state := { n2.state with checksum := (n2.state.checksum ^^^ to_u8 c) % 256 } }

/-- Returns the parser after the call and the value returned. -/
def nmea_fields_ready (n : nmea) (fields : Nat) : nmea × Nat :=
  if (n.state.received &&& fields) = fields then
    ({ n with state := { n.state with received := n.state.received ^^^ fields } }, 1)
  else (n, 0)

/-- The parser value after `memset(n, 0, sizeof(*n))` and the three
assignments; nothing of the previous content is read. -/
def nmea_init (_n : nmea) : nmea :=
  { state :=
      { fxpse := ⟨0, 0, 0, 0⟩, scratch := 0,
        field_handlers := NMEA_FIELD_IGNORE,
        sentence := sentence_ptr.ignore,
        received := 0,
        field := NMEA_FIELD_IGNORE,
        checksum_recording := 0, sentence_bitmap := 0, field_bitmap := 0,
        gsv_sentences_received := 0, gsv_satellite_count := 0, gsv_satellite_index := 0,
        gsv_sentence_no := 0, gsv_sentences_total := 0,
        gsa_satellite_index := 0, gsa_satellite_count := 0,
        char_count := 0, comma_count := 0, checksum := 0 },
    data :=
      { longitude := 0, latitude := 0, time := 0, hdop := 0, pdop := 0, vdop := 0, speed := 0,
        true_track := 0, magnetic_track := 0, magnetic_variation := 0, altitude := 0,
        geoid_height := 0, fix_quality := 0, fix_3d := 0, gll_active := 0, rmc_active := 0,
        sats := List.replicate NMEA_MAX_SATS ⟨0, 0, 0, 0⟩,
        prns_tracked := List.replicate NMEA_MAX_PRNS_TRACKED 0,
        satellites_tracked := 0, satellites_in_view := 0 } }

/-- Feeding a character sequence, one `nmea_parse` call per character
(`test_parse_string` of the tests). -/
def test_parse_string (n : nmea) (s : List Int) : nmea := s.foldl nmea_parse n

/-- The character codes of a string literal. -/
def chars (s : String) : List Int := s.toList.map (fun ch => (ch.toNat : Int))

/-- A parser value to start the concrete examples from. -/
def fresh : nmea := nmea_init ⟨⟨⟨0, 0, 0, 0⟩, 0, NMEA_FIELD_HEADER, sentence_ptr.lut 0, 0,
  NMEA_FIELD_HEADER, 0, 0, 0, 0, 0, 0, 0, 0, 0, 0, 0, 0, 0⟩,
  ⟨0, 0, 0, 0, 0, 0, 0, 0, 0, 0, 0, 0, 0, 0, 0, 0, [], [], 0, 0⟩⟩

/-! ## Vocabulary of the statements -/

/-- Every bit set in `a` is set in `b`. -/
def bits_subset (a b : Nat) : Prop := ∀ i, a.testBit i = true → b.testBit i = true

/-- What the handlers of a field leave alone. -/
structure frame (a b : nmea) : Prop where
  field : b.state.field = a.state.field
  field_handlers : b.state.field_handlers = a.state.field_handlers
  field_bitmap : b.state.field_bitmap = a.state.field_bitmap
  checksum : b.state.checksum = a.state.checksum
  checksum_recording : b.state.checksum_recording = a.state.checksum_recording
  comma_count : b.state.comma_count = a.state.comma_count
  received : bits_subset b.state.received a.state.received

/-- The field kind selected for comma count `j` in the format `p`: the entry
of the field list, the ignore kind past its end. -/
def kind_at (p : sentence_ptr) (j : Nat) : nmea_fields :=
  if j < (sentence_format p).length then (sentence_format p).fields.getD j NMEA_FIELD_IGNORE
  else NMEA_FIELD_IGNORE

/-- The state handed to the char handler: the field kind marked touched. -/
def touch (n : nmea) : nmea :=
  { n with state := { n.state with
      field_bitmap := n.state.field_bitmap ||| field_mask n.state.field } }

/-- The state handed to the end handler at a delimiter: the readiness bit of
the current field kind cleared. -/
def unready (n : nmea) : nmea :=
  { n with state := { n.state with
      received := and_not64 n.state.received (field_mask n.state.field) } }

/-- Storing the running checksum after character `c`. -/
def fold_checksum (n : nmea) (c : Int) : nmea :=
  { n with state := { n.state with checksum := (n.state.checksum ^^^ to_u8 c) % 256 } }

/-- Incrementing the comma count. -/
def next_comma (n : nmea) : nmea :=
  { n with state := { n.state with comma_count := (n.state.comma_count + 1) % 256 } }

/-- The XOR of the character codes (bytes) of a character sequence. -/
def xor_sum (s : List Int) : Nat := s.foldl (fun a c => a ^^^ to_u8 c) 0

/-- One header character: the effect of `nmea_parse` while the header handlers
are current. -/
def hdr_step (n : nmea) (c : Int) : nmea :=
  { n with state := { n.state with
      field_bitmap := n.state.field_bitmap ||| field_mask n.state.field,
      sentence_bitmap :=
        header_char_loop c n.state.char_count SENTENCE_LUT.length 0 n.state.sentence_bitmap,
      char_count := (n.state.char_count + 1) % 256,
      checksum := (n.state.checksum ^^^ to_u8 c) % 256 } }

/-- The candidate bitmap after the header characters `h`, from character
count `cc` and bitmap `bm`. -/
def hdr_bitmap : List Int → Nat → Nat → Nat
  | [], _, bm => bm
  | c :: h, cc, bm =>
    hdr_bitmap h ((cc + 1) % 256) (header_char_loop c cc SENTENCE_LUT.length 0 bm)

/-- The ignore format is selected and the ignore handlers are current. -/
def ignoring (n : nmea) : Prop :=
  n.state.sentence = sentence_ptr.ignore ∧ n.state.field_handlers = NMEA_FIELD_IGNORE

/-- The header characters `h`, read from position `cc` on, agree with the head
array of format `j`. -/
def hdr_match (j : Nat) : List Int → Nat → Bool
  | [], _ => true
  | c :: h, cc => decide (head_at j cc = some c) && hdr_match j h (cc + 1)

/-- The 6 byte head array of format `j` of `SENTENCE_LUT`. -/
def head_array (j : Nat) : List Int := (SENTENCE_LUT.getD j IGNORE_SENTENCE).head

/-- The character sequence `h` is an initial segment of the head array of
format `j` (the header literal followed by its terminating 0). -/
def starts_head (h : List Int) (j : Nat) : Prop := h = (head_array j).take h.length

instance (h : List Int) (j : Nat) : Decidable (starts_head h j) :=
  inferInstanceAs (Decidable (h = (head_array j).take h.length))

/-- The five characters of the header literal of format `i`. -/
def header_literal (i : Nat) : List Int := (head_array i).take 5

/-- The characters of a list of fields, each preceded by its comma. -/
def join_fields : List (List Int) → List Int
  | [] => []
  | f :: fs => 44 :: (f ++ join_fields fs)

/-- The bitmap of the field kinds of the non-empty fields among `fs`, the
first of which is selected at comma count `j` in format `p`. -/
def touched (p : sentence_ptr) : Nat → List (List Int) → Nat
  | _, [] => 0
  | j, f :: fs => (if f = [] then 0 else field_mask (kind_at p j)) ||| touched p (j + 1) fs

/-- The sentence format that is current once the field being read is closed. -/
def closes_to (n : nmea) (p : sentence_ptr) : Prop :=
  ((HANDLER_LUT n.state.field_handlers).end_handler (unready n)).state.sentence = p

/-- The uppercase hexadecimal digit character of a nibble value. -/
def hex_digit (k : Nat) : Int := if k < 10 then 48 + (k : Int) else 55 + (k : Int)

/-- The parser after the first checksum character `x`. -/
def first_digit (m : nmea) (x : Int) : nmea :=
  { m with state := { m.state with
      fxpse := { m.state.fxpse with val := hex_to_nibble x <<< 4 },
      char_count := (m.state.char_count + 1) % 256 } }

/-- The parser with checksum capture switched off. -/
def capture_off (m : nmea) : nmea :=
  { m with state := { m.state with checksum_recording := 0 } }

/-- The characters between `$` and `*` of a sentence of format `i`: the
header literal, the comma, and the rest. -/
def payload (i : Nat) (body : List Int) : List Int := header_literal i ++ 44 :: body

/-- The OR of the masks of a list of field kinds. -/
def mask_of (l : List nmea_fields) : Nat := l.foldl (fun a f => a ||| field_mask f) 0

/-- The fields of the VTG sentence of `test_vtg`, after the header's comma. -/
def vtg_test_body : List Int := chars "213.73,T,,M,34.075,N,63.106,K,A"

/-- The state a header selects: format `i`, with field kind `k` current and
about to be decoded by its own handlers. -/
def selects (r : nmea) (i : Nat) (k : nmea_fields) : Prop :=
  r.state.sentence = sentence_ptr.lut i ∧ r.state.field = k ∧ r.state.field_handlers = k ∧
  r.state.checksum_recording = 0

/-- The fields of the RMC sentence of `test_rmc`, one list per field. -/
def rmc_test_fields : List (List Int) :=
  [chars "175456.00", chars "A", chars "5104.34432", chars "N", chars "00147.29814", chars "W",
   chars "34.075", chars "213.73", chars "080321", [], [], chars "A"]

/-! ### Field decoding as a fold of the field handlers -/

/-- The two parser values agree on everything the field handlers work on: the
fix snapshot, the decode scratch and the GSV and GSA aggregation cells. -/
structure core_eq (a b : nmea) : Prop where
  data : a.data = b.data
  fxpse : a.state.fxpse = b.state.fxpse
  scratch : a.state.scratch = b.state.scratch
  char_count : a.state.char_count = b.state.char_count
  gsv_sentences_received : a.state.gsv_sentences_received = b.state.gsv_sentences_received
  gsv_satellite_count : a.state.gsv_satellite_count = b.state.gsv_satellite_count
  gsv_satellite_index : a.state.gsv_satellite_index = b.state.gsv_satellite_index
  gsv_sentence_no : a.state.gsv_sentence_no = b.state.gsv_sentence_no
  gsv_sentences_total : a.state.gsv_sentences_total = b.state.gsv_sentences_total
  gsa_satellite_index : a.state.gsa_satellite_index = b.state.gsa_satellite_index
  gsa_satellite_count : a.state.gsa_satellite_count = b.state.gsa_satellite_count

/-- The characters of one field handed to the handlers of kind `k`: the start
handler, then the char handler once per character. -/
def read_field (k : nmea_fields) (text : List Int) (n : nmea) : nmea :=
  text.foldl (HANDLER_LUT k).char_handler ((HANDLER_LUT k).start_handler n)

/-- One whole field of kind `k`: start handler, char handler per character,
end handler. -/
def decode_field (k : nmea_fields) (text : List Int) (n : nmea) : nmea :=
  (HANDLER_LUT k).end_handler (read_field k text n)

/-- The fields `fs` decoded in turn with the kinds of format `p`, the first
with the kind at comma count `j`. -/
def decode_fields (p : sentence_ptr) : Nat → List (List Int) → nmea → nmea
  | _, [], n => n
  | j, f :: fs, n => decode_fields p (j + 1) fs (decode_field (kind_at p j) f n)

/-- The parser with the character count `k`. -/
def with_char_count (n : nmea) (k : Nat) : nmea :=
  { n with state := { n.state with char_count := k } }

/-- The parser at the first field of a sentence of format `i`: the five header
characters are counted and the start hook of the format has run. -/
def sentence_open (i : Nat) (n : nmea) : nmea :=
  (sentence_format (sentence_ptr.lut i)).start_handler (with_char_count n 5)

/-- The fields `fs` of a sentence of format `i` decoded in turn by their field
handlers. -/
def decode_sentence (i : Nat) (fs : List (List Int)) (n : nmea) : nmea :=
  decode_fields (sentence_ptr.lut i) 0 fs (sentence_open i n)

/-! ### Vocabulary of the decoding and GSV statements -/

/-- The character of the decimal digit `d`. -/
def digit_char (d : Nat) : Int := 48 + (d : Int)

/-- The characters of a list of decimal digits. -/
def digits (ds : List Nat) : List Int := ds.map digit_char

/-- The snapshot value a direction kind gives the sign of: the latitude, the
longitude or the magnetic variation. -/
def dir_value (k : nmea_fields) (d : nmea_data) : Int :=
  match k with
  | NMEA_FIELD_LATITUDE_DIR => d.latitude
  | NMEA_FIELD_LONGITUDE_DIR => d.longitude
  | _ => d.magnetic_variation

/-- The letter a direction kind reads as the negative side: `S` for the
latitude, `W` for the longitude and the magnetic variation. -/
def dir_negative (k : nmea_fields) : Int := if k = NMEA_FIELD_LATITUDE_DIR then 83 else 87

/-- The letter a direction kind reads as the positive side: `N` for the
latitude, `E` for the longitude and the magnetic variation. -/
def dir_positive (k : nmea_fields) : Int := if k = NMEA_FIELD_LATITUDE_DIR then 78 else 69

/-- The value a direction char handler stores: the branches shared by the
three direction handlers. -/
def dir_step (neg pos c v : Int) : Int :=
  if c = neg ∧ v > 0 then neg64 v else if c = pos ∧ v < 0 then neg64 v else v

/-- The RMC test sentence up to the comma that opens the longitude direction
field. -/
def rmc_at_longitude_dir : nmea :=
  test_parse_string fresh (chars "$GPRMC,175456.00,A,5104.34432,N,00147.29814,")

/-- The checksum comparison of `nmea_parse` is reached with the character `c`
and passes: `c` is not `$`, the capture is on, a first checksum character has
been stored and the value completed by `c` is the running checksum. -/
def checksum_passes (n : nmea) (c : Int) : Bool :=
  decide (c ≠ 36) && decide (n.state.checksum_recording ≠ 0) &&
    decide (n.state.char_count ≠ 0) &&
    decide ((n.state.fxpse.val ||| hex_to_nibble c) = n.state.checksum)

/-- No character of `s`, fed from `n` on, passes the checksum comparison. -/
def no_pass : nmea → List Int → Bool
  | _, [] => true
  | n, c :: s => !checksum_passes n c && no_pass (nmea_parse n c) s

/-- The decoder `ufxp_from_ascii` run over a text, with `q` fractional bits. -/
def ufxp_run (q : Nat) (text : List Int) (st : nmea_fxp_state) : nmea_fxp_state :=
  text.foldl (fun s c => ufxp_from_ascii s c q) st

/-- The unsigned fixed point decode of a text with `q` fractional bits:
`ufxp_init`, `ufxp_from_ascii` per character, `ufxp_get_val`. -/
def ufxp_decode (q : Nat) (text : List Int) : Nat :=
  ufxp_get_val (ufxp_run q text (ufxp_init ⟨0, 0, 0, 0⟩))

/-- The sum of floor(f * 2^q / 10^(i+1)) over the fractional digits `f`, the
first of them at decimal place `i + 1`. -/
def frac_sum (q : Nat) : Nat → List Nat → Nat
  | _, [] => 0
  | i, f :: t => f * 2 ^ q / 10 ^ (i + 1) + frac_sum q (i + 1) t

/-- The exact value of the fractional digits, the first of them at decimal
place `i + 1`. -/
def dec_frac : Nat → List Nat → ℚ
  | _, [] => 0
  | i, f :: t => (f : ℚ) / 10 ^ (i + 1) + dec_frac (i + 1) t

/-- The text of a minutes value: two integer digits and, optionally, `.` and
fractional digits. -/
def minutes_text (m1 m2 : Nat) (frac : Option (List Nat)) : List Int :=
  digits [m1, m2] ++ (match frac with
    | none => []
    | some fr => 46 :: digits fr)

/-- The exact angle in degrees of `dd` degrees and `m1 m2 . frac` minutes. -/
def exact_angle (dd m1 m2 : Nat) (frac : Option (List Nat)) : ℚ :=
  (dd : ℚ) + (((10 * m1 + m2 : Nat) : ℚ) + dec_frac 0 (frac.getD [])) / 60

/-- The divisor the decoder holds for decimal place `i + 1`: the power of ten
while it fits 64 bit, `ULLONG_MAX` afterwards. -/
def place_div (i : Nat) : Nat := if i + 1 ≤ 19 then 10 ^ (i + 1) else ULLONG_MAX

/-- The stored angle: `dd` degrees shifted to `q` fractional bits plus the
sixtieth of the fixed point decode of the minutes text. -/
def fixed_angle (q dd : Nat) (mins : List Int) : Nat := dd * 2 ^ q + ufxp_decode q mins / 60

/-- The field handlers leave the received-sentence bitmap of the GSV
aggregation alone, the sentence total unless the kind is the total, and the
sentence number unless the kind is the number. -/
structure gsv_frame (k : nmea_fields) (a b : nmea) : Prop where
  received : b.state.gsv_sentences_received = a.state.gsv_sentences_received
  total : k ≠ NMEA_FIELD_GSV_SENTENCES_TOTAL →
    b.state.gsv_sentences_total = a.state.gsv_sentences_total
  number : k ≠ NMEA_FIELD_SENTENCE_NO → b.state.gsv_sentence_no = a.state.gsv_sentence_no

/-- The decimal value of a list of digits. -/
def dec (ds : List Nat) : Nat := ds.foldl (fun a d => 10 * a + d) 0

/-- A GSV sentence as it is written: the digits of the total, the digits of
the sentence number, the further fields and the two checksum characters. -/
structure gsv_msg where
  total : List Nat
  number : List Nat
  rest : List (List Int)
  x : Int
  y : Int

/-- The fields of a GSV sentence, one list per field. -/
def gsv_fields (m : gsv_msg) : List (List Int) := digits m.total :: digits m.number :: m.rest

/-- The characters of a GSV sentence between `$` and `*`. -/
def gsv_body (m : gsv_msg) : List Int := header_literal 3 ++ join_fields (gsv_fields m)

/-- The characters of a GSV sentence, from `$` to the second checksum
character. -/
def gsv_text (m : gsv_msg) : List Int := 36 :: (gsv_body m ++ [42, m.x, m.y])

/-- The characters of a sequence of GSV sentences. -/
def gsv_stream : List gsv_msg → List Int
  | [] => []
  | m :: t => gsv_text m ++ gsv_stream t

/-- A correctly checksummed GSV sentence that declares the total `N` and has
a number from 1 to `N`. -/
def gsv_wf (N : Nat) (m : gsv_msg) : Prop :=
  (∀ d ∈ m.total, d < 10) ∧ (∀ d ∈ m.number, d < 10) ∧ dec m.total = N ∧
  1 ≤ dec m.number ∧ dec m.number ≤ N ∧
  (∀ f ∈ m.rest, ∀ c ∈ f, c ≠ 36 ∧ c ≠ 44 ∧ c ≠ 42) ∧ m.rest.length + 2 ≤ 256 ∧
  m.x ≠ 36 ∧ m.y ≠ 36 ∧ (hex_to_nibble m.x <<< 4 ||| hex_to_nibble m.y) = xor_sum (gsv_body m)

instance (N : Nat) (m : gsv_msg) : Decidable (gsv_wf N m) := by
  unfold gsv_wf
  infer_instance

/-- The parser at the `*` of a GSV sentence. -/
def gsv_at_star (a : nmea) (m : gsv_msg) : nmea :=
  test_parse_string a (36 :: (gsv_body m ++ [42]))

/-- The bitmap `b` has exactly the bits `k - 1` of the sentence numbers `k`
in `ks`. -/
def marks (b : Nat) (ks : List Nat) : Prop := ∀ i, b.testBit i = true ↔ i + 1 ∈ ks

/-- The four attributes of a satellite as they are written in a GSV sentence:
digits, possibly none. -/
structure sat_text where
  prn : List Nat
  elevation : List Nat
  azimuth : List Nat
  snr : List Nat

/-- The four fields of a satellite in sentence order. -/
def sat_fields (s : sat_text) : List (List Int) :=
  [digits s.prn, digits s.elevation, digits s.azimuth, digits s.snr]

/-- The satellite entry of the written attributes: the decimal values
reduced to the member types, 0 for an empty attribute. -/
def sat_value (s : sat_text) : nmea_sat :=
  ⟨dec s.azimuth % 65536, dec s.prn % 256, dec s.elevation % 256, dec s.snr % 256⟩

/-- The attributes are digits and their decimal values fit 64 bit. -/
def sat_ok (s : sat_text) : Prop :=
  ((∀ d ∈ s.prn, d < 10) ∧ dec s.prn < 18446744073709551616) ∧
  ((∀ d ∈ s.elevation, d < 10) ∧ dec s.elevation < 18446744073709551616) ∧
  ((∀ d ∈ s.azimuth, d < 10) ∧ dec s.azimuth < 18446744073709551616) ∧
  ((∀ d ∈ s.snr, d < 10) ∧ dec s.snr < 18446744073709551616)

instance (s : sat_text) : Decidable (sat_ok s) := by
  unfold sat_ok
  infer_instance

/-- The fields of a GSV sentence after the number: the satellites in view
and four satellites. -/
def gsv_rest4 (v : List Nat) (s0 s1 s2 s3 : sat_text) : List (List Int) :=
  digits v :: (sat_fields s0 ++ (sat_fields s1 ++ (sat_fields s2 ++ sat_fields s3)))

/-- Satellite 05 of `test_gsv` as written: `05,02,020,`. -/
def test_sat_05 : sat_text := ⟨[0, 5], [0, 2], [0, 2, 0], []⟩

/-- Satellite 07 of `test_gsv` as written: `07,,,33`. -/
def test_sat_07 : sat_text := ⟨[0, 7], [], [], [3, 3]⟩

/-- Satellite 16 of `test_gsv` as written: `16,76,272,33`. -/
def test_sat_16 : sat_text := ⟨[1, 6], [7, 6], [2, 7, 2], [3, 3]⟩

/-- Satellite 18 of `test_gsv` as written: `18,58,069,31`. -/
def test_sat_18 : sat_text := ⟨[1, 8], [5, 8], [0, 6, 9], [3, 1]⟩

/-- Satellite 20 of `test_gsv` as written: `20,,,24`. -/
def test_sat_20 : sat_text := ⟨[2, 0], [], [], [2, 4]⟩

/-- Satellite 23 of `test_gsv` as written: `23,28,121,20`. -/
def test_sat_23 : sat_text := ⟨[2, 3], [2, 8], [1, 2, 1], [2, 0]⟩

/-- Satellite 26 of `test_gsv` as written: `26,,,31`. -/
def test_sat_26 : sat_text := ⟨[2, 6], [], [], [3, 1]⟩

/-- Satellite 27 of `test_gsv` as written: `27,46,274,32`. -/
def test_sat_27 : sat_text := ⟨[2, 7], [4, 6], [2, 7, 4], [3, 2]⟩

/-- The first GSV sentence of `test_gsv`. -/
def gsv_test_msg_1 : gsv_msg :=
  ⟨[2], [1], gsv_rest4 [0, 8] test_sat_05 test_sat_07 test_sat_16 test_sat_18, 52, 56⟩

/-- The second GSV sentence of `test_gsv`. -/
def gsv_test_msg_2 : gsv_msg :=
  ⟨[2], [2], gsv_rest4 [0, 8] test_sat_20 test_sat_23 test_sat_26 test_sat_27, 55, 70⟩

/-- Five GSV sentences of four empty satellites each, none reaching its
checksum, and the start of a sixth up to its first PRN field. -/
def gsv_overfull_text : List Int :=
  chars ("$GPGSV,,,,,,,,,,,,,,,,,,,," ++ "$GPGSV,,,,,,,,,,,,,,,,,,,," ++ "$GPGSV,,,,,,,,,,,,,,,,,,,,"
    ++ "$GPGSV,,,,,,,,,,,,,,,,,,,," ++ "$GPGSV,,,,,,,,,,,,,,,,,,,," ++ "$GPGSV,3,1,21,05")

/-- The fields of the first GSV sentence of `test_gsv`, after the header's comma. -/
def gsv_test_body_1 : List Int := chars "2,1,08,05,02,020,,07,,,33,16,76,272,33,18,58,069,31"

/-- The fields of the second GSV sentence of `test_gsv`, after the header's comma. -/
def gsv_test_body_2 : List Int := chars "2,2,08,20,,,24,23,28,121,20,26,,,31,27,46,274,32"

/-- The parser after the first GSV sentence of `test_gsv`, checksum included. -/
def gsv_after_first : nmea :=
  test_parse_string fresh (36 :: (payload 3 gsv_test_body_1 ++ [42, 52, 56]))

/-- A parser value whose `data.time` is `LLONG_MAX`, everything else as after
`nmea_init`. -/
def late_clock : nmea := { fresh with data := { fresh.data with time := 9223372036854775807 } }

/-- A time field of 257 characters: `175456` followed by 251 zeros. -/
def long_time_field : List Int := digits [1, 7, 5, 4, 5, 6] ++ List.replicate 251 48

/-- The RMC test sentence up to the field before the latitude. -/
def rmc_before_latitude : nmea := test_parse_string fresh (chars "$GPRMC,175456.00,A")

/-- The RMC test sentence up to the field before the longitude. -/
def rmc_before_longitude : nmea :=
  test_parse_string fresh (chars "$GPRMC,175456.00,A,5104.34432,N")

/-- A GSV sentence abandoned after its first satellite: the next character
is the `$` of the next sentence. -/
def gsv_abandoned : List Int := chars "$GPGSV,2,1,08,99,88,077,66,"

/-- The first two sentences of a GSV group of three, without satellites; the
third never arrives. -/
def gsv_unfinished : List Int := chars ("$GPGSV,3,1,12*78" ++ "$GPGSV,3,2,12*7B")

/-! ### Vocabulary of the date, fixed point, PRN and comma statements -/

/-- The signed decoder run over a text with `q` fractional bits:
`fxp_from_ascii` per character. -/
def fxp_run (q : Nat) (text : List Int) (st : nmea_fxp_state) : nmea_fxp_state :=
  text.foldl (fun s c => fxp_from_ascii s c q) st

/-- The flag an active/void status kind stores: `gll_active` for the GLL
status, `rmc_active` otherwise. -/
def active_flag (k : nmea_fields) (d : nmea_data) : Nat :=
  match k with
  | NMEA_FIELD_GLL_ACTIVE => d.gll_active
  | _ => d.rmc_active

/-- The GLL test sentence up to the end of its time field, before the comma
that opens the status field. -/
def gll_before_status : nmea :=
  test_parse_string fresh (chars "$GPGLL,5104.34432,N,00147.29814,W,175456.00")

/-- The RMC test sentence up to the end of its time field, before the comma
that opens the status field. -/
def rmc_before_status : nmea := test_parse_string fresh (chars "$GPRMC,175456.00")

/-- The text of a decimal literal: the integer digits and, optionally, `.`
and fractional digits. -/
def fixed_literal (ip : List Nat) (frac : Option (List Nat)) : List Int :=
  digits ip ++ (match frac with
    | none => []
    | some fr => 46 :: digits fr)

/-- The reference decode of a literal with an unbounded divisor: the integer
part shifted to `q` fractional bits plus the floor of every fractional digit
`f_i` at its place, `floor(f_i * 2^q / 10^i)`. -/
def reference_decode (q : Nat) (ip : List Nat) (frac : Option (List Nat)) : Nat :=
  dec ip * 2 ^ q + frac_sum q 0 (frac.getD [])

/-- The exact value of a literal. -/
def exact_literal (ip : List Nat) (frac : Option (List Nat)) : ℚ :=
  (dec ip : ℚ) + dec_frac 0 (frac.getD [])

/-- The RMC header followed by 257 commas. -/
def rmc_257_commas : List Int := chars "$GPRMC" ++ List.replicate 257 44

/-- The field handlers of kind `k` leave `data.time` alone unless `k` is the
time or the date kind, and the tracked PRN list with its slot index alone
unless `k` is the tracked PRN kind. -/
structure slot_frame (k : nmea_fields) (a b : nmea) : Prop where
  time : k ≠ NMEA_FIELD_TIME → k ≠ NMEA_FIELD_DATE → b.data.time = a.data.time
  prns : k ≠ NMEA_FIELD_PRNS_TRACKED → b.data.prns_tracked = a.data.prns_tracked
  index : k ≠ NMEA_FIELD_PRNS_TRACKED →
    b.state.gsa_satellite_index = a.state.gsa_satellite_index

/-- The values of the non-empty fields among the PRN fields `ps`, in order. -/
def prn_values (ps : List (List Nat)) : List Nat :=
  (ps.filter (fun p => decide (p ≠ []))).map dec

/-- The fields of the GSA test sentence up to the last PRN field. -/
def gsa_test_prns : List (List Nat) := [[1, 8], [1, 6], [2, 3], [], [], [], [], [], [], [], [], []]

/-- The seconds of the day of six time digits `h1 h2 m1 m2 s1 s2`; 0 for any
other list. -/
def time_of_day : List Nat → Nat
  | [h1, h2, m1, m2, s1, s2] => (10 * h1 + h2) * 3600 + (10 * m1 + m2) * 60 + (10 * s1 + s2)
  | _ => 0

/-- The value of `scratch` that `date_char_handler` leaves after the date
digits `dd`, entered with character count 0 from the fresh parser. -/
def date_scratch (dd : List Nat) : Nat :=
  ((digits dd).foldl date_char_handler (reset_cc_start_handler fresh)).state.scratch

/-- The value of `data.time` that the time handlers on the time digits `td`
and then the date handlers on the date digits `dd` leave from the fresh
parser. -/
def time_date_value (td dd : List Nat) : Int :=
  (decode_field NMEA_FIELD_DATE (digits dd)
    (decode_field NMEA_FIELD_TIME (digits td) fresh)).data.time

/-- A switch on the character count with the cases 0 to 5 and a default, as
in `date_char_handler`. -/
def date_switch {α : Type} (char_count : Nat) (h0 h1 h2 h3 h4 h5 h6 : Unit → α) : α :=
  match char_count with
  | 0 => h0 ()
  | 1 => h1 ()
  | 2 => h2 ()
  | 3 => h3 ()
  | 4 => h4 ()
  | 5 => h5 ()
  | _ => h6 ()

/-- Case 3 of the switch of `date_char_handler` (the second month digit) on
the cells `se.scratch[0]`, `se.scratch[1]` and `scratch`. -/
def date_month_regs (se0 se1 scratch digit : Nat) : Nat × Nat × Nat :=
  let m := wrap64 (wrap64 (se0 + digit) + 18446744073709551615)
  if m > month_days.length then (m, se1, scratch)
  else (m, se1, date_month_loop m 12 0 scratch)

/-- Case 5 of the switch of `date_char_handler` (the second year digit) on
the cells `se.scratch[0]`, `se.scratch[1]` and `scratch`. -/
def date_year_regs (se0 se1 scratch digit : Nat) : Nat × Nat × Nat :=
  let y := wrap64 (se1 + digit)
  let s1 := wrap64 (scratch
              + wrap64 (wrap64 (y * SECONDS_IN_DAY * 365) + wrap64 (SECONDS_IN_DAY * (y / 4))))
  let s2 := if NMEA_CENTURY % 400 = 0 then wrap64 (s1 + SECONDS_IN_DAY) else s1
  let s3 := if y % 4 = 0 ∧ se0 < 3 then
              wrap64 (s2 + (18446744073709551616 - SECONDS_IN_DAY)) else s2
  (se0, y, s3)

/-- The handler `date_char_handler` with its switch written as `date_switch`
and the cases 3 and 5 as `date_month_regs` and `date_year_regs`. -/
def date_char_switch (n : nmea) (c : Int) : nmea :=
  let digit := to_u64 (c - 48)
  let se0 := n.state.fxpse.val
  let se1 := n.state.fxpse.div
  let scratch := n.state.scratch
  let r : Nat × Nat × Nat :=
    date_switch n.state.char_count
      (fun _ => (se0, se1, wrap64 (digit * 10 * SECONDS_IN_DAY)))
      (fun _ => (se0, se1, wrap64 (wrap64 (scratch + wrap64 (digit * SECONDS_IN_DAY))
                  + (18446744073709551616 - SECONDS_IN_DAY))))
      (fun _ => (wrap64 (digit * 10), se1, scratch))
      (fun _ => date_month_regs se0 se1 scratch digit)
      (fun _ => (se0, wrap64 (digit * 10), scratch))
      (fun _ => date_year_regs se0 se1 scratch digit)
      (fun _ => (se0, se1, scratch))
  { n with state := { n.state with
      fxpse := { n.state.fxpse with val := r.1, div := r.2.1 },
      scratch := r.2.2,
      char_count := (n.state.char_count + 1) % 256 } }

/-- The fields of an RMC sentence: the time field (six digits `td` and the
further characters `trest`), the seven fields `mid` up to the date, the date
field (the digits `dd`) and the fields `tail` after it. -/
def rmc_fields (td : List Nat) (trest : List Int) (mid : List (List Int)) (dd : List Nat)
    (tail : List (List Int)) : List (List Int) :=
  (digits td ++ trest) :: (mid ++ digits dd :: tail)

/-- The seven fields between the time and the date of the RMC test sentence. -/
def rmc_test_mid : List (List Int) :=
  [chars "A", chars "5104.34432", chars "N", chars "00147.29814", chars "W", chars "34.075",
   chars "213.73"]

/-- The days of a common year before the first day of month `mm` (1 to 12). -/
def days_before_month (mm : Nat) : Nat :=
  ([0, 31, 59, 90, 120, 151, 181, 212, 243, 273, 304, 334] : List Nat).getD (mm - 1) 0

/-- The days from 2000-01-01 to the day `dd` of month `mm` of the year
`2000 + yy`, for `yy` below 100: every year with `yy mod 4 = 0` is a leap
year, and the leap day of the year itself is counted from March on. -/
def days_since_2000 (yy mm dd : Nat) : Nat :=
  365 * yy + (yy + 3) / 4 + days_before_month mm
    + (if yy % 4 = 0 ∧ 3 ≤ mm then 1 else 0) + (dd - 1)

/-- The seconds from 1970-01-01 00:00:00 UTC to the second `secs` of the day
`dd` of month `mm` of the year `2000 + yy`. -/
def epoch_seconds (yy mm dd secs : Nat) : Int :=
  946684800 + 86400 * (days_since_2000 yy mm dd : Int) + (secs : Int)

/-! ### Vocabulary of the frame, dispatch, index and header read statements -/

/-- The GSA sentence of `test_gsa`. -/
def gsa_test_sentence : List Int := chars "$GPGSA,A,2,18,16,23,,,,,,,,,,3.05,2.88,1.00*09"

/-- The VTG sentence of `test_vtg`. -/
def vtg_test_sentence : List Int := chars "$GPVTG,213.73,T,,M,34.075,N,63.106,K,A*3E"

/-- The parser after `nmea_init`, the GSA test sentence and a successful
readiness poll for the VDOP kind. -/
def gsa_polled : nmea :=
  (nmea_fields_ready (test_parse_string (nmea_init fresh) gsa_test_sentence)
    (field_mask NMEA_FIELD_VDOP)).1

/-- A GLL sentence that ends with its status field (no mode field after it),
correctly checksummed. -/
def gll_status_last : List Int := chars "$GPGLL,5104.34432,N,00147.29814,W,175456.00,A*14"

/-- The field kinds whose char handler writes the fix snapshot or clears a
readiness bit: the three direction kinds and the two status kinds. -/
def letter_kinds : List nmea_fields :=
  [NMEA_FIELD_LONGITUDE_DIR, NMEA_FIELD_LATITUDE_DIR, NMEA_FIELD_MAGNETIC_VARIATION_DIR,
   NMEA_FIELD_GLL_ACTIVE, NMEA_FIELD_RMC_ACTIVE]

/-- The positions `(i, k)` of the reads `SENTENCE_LUT[i].head[k]` of
`header_char_handler` in the state `n`: one per format `i` of the table, each
at `k = char_count`. -/
def header_char_handler_reads (n : nmea) : List (Nat × Nat) :=
  (List.range SENTENCE_LUT.length).map (fun i => (i, n.state.char_count))

/-- The reads of head arrays made by the call `nmea_parse n c`: those of
`header_char_handler` when `c` is passed to the char handler and the header
handlers are current, none otherwise. -/
def nmea_parse_head_reads (n : nmea) (c : Int) : List (Nat × Nat) :=
  if c = 36 then []
  else if n.state.checksum_recording ≠ 0 then []
  else if c = 44 then []
  else if c = 42 then []
  else if n.state.field_handlers = NMEA_FIELD_HEADER then header_char_handler_reads (touch n)
  else []

/-- The start handler of the kind initialises the fixed point decoder: from
every parser it leaves `fxp.val = 0` and `fxp.dp = 0`.  These are the kinds
whose `HANDLER_LUT` entry starts with `ufxp_init_start_handler`,
`fxp_init_start_handler`, `latitude_start_handler` or
`longitude_start_handler`. -/
def inits_decoder (k : nmea_fields) : Prop :=
  ∀ m : nmea, ((HANDLER_LUT k).start_handler m).state.fxpse.val = 0 ∧
    ((HANDLER_LUT k).start_handler m).state.fxpse.dp = 0

/-- The four satellite attribute kinds, which commit to the element of the
satellite array at the GSV satellite index. -/
def sat_kinds : List nmea_fields :=
  [NMEA_FIELD_PRN, NMEA_FIELD_ELEVATION, NMEA_FIELD_AZIMUTH, NMEA_FIELD_SNR]

/-- The cell that the end handler of a fixed point kind assigns, as an
integer: a member of the fix snapshot, for the four satellite attributes the
member of the array element `slot`, for the two GSV counters the cell of the
parser state.  The kinds that store no decoded number give -1. -/
def numeric_value (k : nmea_fields) (slot : Nat) (n : nmea) : Int :=
  match k with
  | NMEA_FIELD_LONGITUDE => n.data.longitude
  | NMEA_FIELD_LATITUDE => n.data.latitude
  | NMEA_FIELD_FIX_QUALITY => n.data.fix_quality
  | NMEA_FIELD_SATELLITES_TRACKED => n.data.satellites_tracked
  | NMEA_FIELD_SATELLITES_IN_VIEW => n.data.satellites_in_view
  | NMEA_FIELD_ALTITUDE => n.data.altitude
  | NMEA_FIELD_GEOID_HEIGHT => n.data.geoid_height
  | NMEA_FIELD_FIX_3D => n.data.fix_3d
  | NMEA_FIELD_PRN => (sat_at n.data.sats slot).prn
  | NMEA_FIELD_PDOP => n.data.pdop
  | NMEA_FIELD_HDOP => n.data.hdop
  | NMEA_FIELD_VDOP => n.data.vdop
  | NMEA_FIELD_SPEED => n.data.speed
  | NMEA_FIELD_MAGNETIC_VARIATION => n.data.magnetic_variation
  | NMEA_FIELD_GSV_SENTENCES_TOTAL => n.state.gsv_sentences_total
  | NMEA_FIELD_SENTENCE_NO => n.state.gsv_sentence_no
  | NMEA_FIELD_AZIMUTH => (sat_at n.data.sats slot).azimuth
  | NMEA_FIELD_ELEVATION => (sat_at n.data.sats slot).elevation
  | NMEA_FIELD_SNR => (sat_at n.data.sats slot).snr
  | NMEA_FIELD_TRUE_TRACK => n.data.true_track
  | NMEA_FIELD_MAGNETIC_TRACK => n.data.magnetic_track
  | _ => -1

/-- The RMC test sentence up to the end of its date field, before the comma
that opens the (empty) magnetic variation field. -/
def rmc_before_variation : nmea :=
  test_parse_string (nmea_init fresh)
    (chars "$GPRMC,175456.00,A,5104.34432,N,00147.29814,W,34.075,213.73,080321")

/-- The first GSV test sentence up to the end of the azimuth field of its
first satellite, before the comma that opens the (empty) SNR field. -/
def gsv_before_first_snr : nmea :=
  test_parse_string (nmea_init fresh) (chars "$GPGSV,2,1,08,05,02,020")

/-- The parser after the GSA test sentence and the start of a second GSA
sentence up to its fix mode field, before the comma that opens its first
tracked PRN field. -/
def gsa_before_second_prns : nmea :=
  test_parse_string (test_parse_string (nmea_init fresh) gsa_test_sentence) (chars "$GPGSA,A,2")

/-- Five GSV sentences of four satellites each, every satellite with SNR 9
and none reaching its checksum, which fill the twenty elements of the
satellite array; then the start of a sixth up to the azimuth field of its
first satellite, before the comma that opens its (empty) SNR field. -/
def gsv_full_before_snr : nmea :=
  test_parse_string (nmea_init fresh)
    (chars ("$GPGSV,,,,1,,,9,2,,,9,3,,,9,4,,,9," ++ "$GPGSV,,,,1,,,9,2,,,9,3,,,9,4,,,9,"
      ++ "$GPGSV,,,,1,,,9,2,,,9,3,,,9,4,,,9," ++ "$GPGSV,,,,1,,,9,2,,,9,3,,,9,4,,,9,"
      ++ "$GPGSV,,,,1,,,9,2,,,9,3,,,9,4,,,9," ++ "$GPGSV,,,,7,,"))

/-- A parser whose fixed point accumulator is not in its initial state. -/
def decoder_probe : nmea :=
  { fresh with state := { fresh.state with fxpse := ⟨1, 1, 1, 1⟩ } }

/-- The fields of the GLL sentence of `test_gll`, one list per field. -/
def gll_test_fields : List (List Int) :=
  [chars "5104.34432", chars "N", chars "00147.29814", chars "W", chars "175456.00", chars "A",
   chars "A"]

/-- The parser at the comma that opens the field after the fields `pre` of a
sentence of format `i`: the characters `$`, the header literal, the fields
`pre` each preceded by its comma, and one more comma. -/
def field_opened (n : nmea) (i : Nat) (pre : List (List Int)) : nmea :=
  test_parse_string n (36 :: ((header_literal i ++ join_fields pre) ++ [44]))

/-- The first eight fields of the RMC test sentence: those before the date. -/
def rmc_test_before_date : List (List Int) :=
  [chars "175456.00", chars "A", chars "5104.34432", chars "N", chars "00147.29814", chars "W",
   chars "34.075", chars "213.73"]

/-- An indexed access to one of the fixed size arrays and tables of the
decoder: a write of `data.sats[i]`, a write of `data.prns_tracked[i]`, a read
of `month_days[i]`, a read of `fields[i]` of the format `p`. -/
inductive access
  | sats (i : Nat)
  | prns_tracked (i : Nat)
  | month_days (i : Nat)
  | fields (p : sentence_ptr) (i : Nat)
  deriving DecidableEq, Repr

/-- The index of the access is below the number of elements of its array. -/
def access_in_range : access → Bool
  | access.sats i => decide (i < NMEA_MAX_SATS)
  | access.prns_tracked i => decide (i < NMEA_MAX_PRNS_TRACKED)
  | access.month_days i => decide (i < month_days.length)
  | access.fields p i => decide (i < (sentence_format p).fields.length)

/-- The assignment to a member of `n->data.sats[i]`: the parser with the
element stored and the access made. -/
def sats_write (n : nmea) (i : Nat) (sat : nmea_sat) : nmea × List access :=
  ({ n with data := { n.data with sats := n.data.sats.set i sat } }, [access.sats i])

/-- The assignment `n->data.prns_tracked[i] = prn`: the parser with the
element stored and the access made. -/
def prns_tracked_write (n : nmea) (i : Nat) (prn : Nat) : nmea × List access :=
  ({ n with data := { n.data with prns_tracked := n.data.prns_tracked.set i prn } },
   [access.prns_tracked i])

/-- The read `month_days[i]`: the value and the access made. -/
def month_days_read (i : Nat) : Nat × List access :=
  (month_days.getD i 0, [access.month_days i])

/-- The read `n->state.sentence->fields[i]` with the current format `p`: the
value and the access made. -/
def fields_read (p : sentence_ptr) (i : Nat) : nmea_fields × List access :=
  ((sentence_format p).fields.getD i NMEA_FIELD_IGNORE, [access.fields p i])

/-- The function `prns_tracked_end_handler` with its array access recorded. -/
def prns_tracked_end_handler_traced (n : nmea) : nmea × List access :=
  let prn := ufxp_get_val n.state.fxpse % 256
  let gsa_satellite_index := n.state.gsa_satellite_index
  if prn ≠ 0 ∧ gsa_satellite_index < NMEA_MAX_PRNS_TRACKED then
    -- prns are 1 relative
    let w := prns_tracked_write n gsa_satellite_index prn
    ({ w.1 with state := { w.1.state with
        gsa_satellite_index := (n.state.gsa_satellite_index + 1) % 256,
        gsa_satellite_count := (n.state.gsa_satellite_index + 1) % 256 } }, w.2)
  else (n, [])

/-- The function `prn_end_handler` with its array access recorded. -/
def prn_end_handler_traced (n : nmea) : nmea × List access :=
  let gsv_satellite_index := n.state.gsv_satellite_index
  if gsv_satellite_index ≥ NMEA_MAX_SATS then (n, [])
  else
    sats_write n gsv_satellite_index
      { sat_at n.data.sats gsv_satellite_index with prn := ufxp_get_val n.state.fxpse % 256 }

/-- The function `azimuth_end_handler` with its array access recorded. -/
def azimuth_end_handler_traced (n : nmea) : nmea × List access :=
  let gsv_satellite_index := n.state.gsv_satellite_index
  if gsv_satellite_index ≥ NMEA_MAX_SATS then (n, [])
  else
    sats_write n gsv_satellite_index
      { sat_at n.data.sats gsv_satellite_index with
        azimuth := ufxp_get_val n.state.fxpse % 65536 }

/-- The function `elevation_end_handler` with its array access recorded. -/
def elevation_end_handler_traced (n : nmea) : nmea × List access :=
  let gsv_satellite_index := n.state.gsv_satellite_index
  if gsv_satellite_index ≥ NMEA_MAX_SATS then (n, [])
  else
    sats_write n gsv_satellite_index
      { sat_at n.data.sats gsv_satellite_index with
        elevation := ufxp_get_val n.state.fxpse % 256 }

/-- The function `snr_end_handler` with its array access recorded. -/
def snr_end_handler_traced (n : nmea) : nmea × List access :=
  let gsv_satellite_index := n.state.gsv_satellite_index
  if gsv_satellite_index ≥ NMEA_MAX_SATS then (n, [])
  else
    let w := sats_write n gsv_satellite_index
      { sat_at n.data.sats gsv_satellite_index with snr := ufxp_get_val n.state.fxpse % 256 }
    ({ w.1 with state := { w.1.state with
        gsv_satellite_index := (n.state.gsv_satellite_index + 1) % 256,
        gsv_satellite_count := (n.state.gsv_satellite_index + 1) % 256 } }, w.2)

/-- The loop of `date_char_handler` (`date_month_loop`) with its reads of
`month_days` recorded. -/
def date_month_loop_traced (limit : Nat) : Nat → Nat → Nat → Nat × List access
  | 0, _, scratch => (scratch, [])
  | fuel + 1, i, scratch =>
    if i < limit then
      let r := month_days_read i
      let t := date_month_loop_traced limit fuel (i + 1) (wrap64 (scratch + r.1 * SECONDS_IN_DAY))
      (t.1, r.2 ++ t.2)
    else (scratch, [])

/-- The part of case 3 of the switch of `date_char_handler` after the month
cell `se.scratch[0]` has got its value `m`: the guard and the loop, with the
reads of `month_days` recorded. -/
def date_month_table_traced (m se1 scratch : Nat) : (Nat × Nat × Nat) × List access :=
  if m > month_days.length then ((m, se1, scratch), [])
  else ((m, se1, (date_month_loop_traced m 12 0 scratch).1),
        (date_month_loop_traced m 12 0 scratch).2)

/-- Case 3 of the switch of `date_char_handler` (`date_month_regs`) with the
reads of `month_days` recorded. -/
def date_month_regs_traced (se0 se1 scratch digit : Nat) : (Nat × Nat × Nat) × List access :=
  date_month_table_traced (wrap64 (wrap64 (se0 + digit) + 18446744073709551615)) se1 scratch

/-- The parser `date_char_handler` leaves when the switch has computed the
cells `r` (`se.scratch[0]`, `se.scratch[1]`, `scratch`). -/
def date_char_store (n : nmea) (r : Nat × Nat × Nat) : nmea :=
  { n with state := { n.state with
      fxpse := { n.state.fxpse with val := r.1, div := r.2.1 },
      scratch := r.2.2,
      char_count := (n.state.char_count + 1) % 256 } }

/-- The function `date_char_handler` with its reads of `month_days` recorded. -/
def date_char_handler_traced (n : nmea) (c : Int) : nmea × List access :=
  let digit := to_u64 (c - 48)
  let se0 := n.state.fxpse.val
  let se1 := n.state.fxpse.div
  let scratch := n.state.scratch
  let r : (Nat × Nat × Nat) × List access :=
    date_switch n.state.char_count
      (fun _ => ((se0, se1, wrap64 (digit * 10 * SECONDS_IN_DAY)), []))
      (fun _ => ((se0, se1, wrap64 (wrap64 (scratch + wrap64 (digit * SECONDS_IN_DAY))
                  + (18446744073709551616 - SECONDS_IN_DAY))), []))
      (fun _ => ((wrap64 (digit * 10), se1, scratch), []))
      (fun _ => date_month_regs_traced se0 se1 scratch digit)
      (fun _ => ((se0, wrap64 (digit * 10), scratch), []))
      (fun _ => (date_year_regs se0 se1 scratch digit, []))
      (fun _ => ((se0, se1, scratch), []))
  (date_char_store n r.1, r.2)

/-- The function `field_update` with its read of the field list recorded. -/
def field_update_traced (n : nmea) : nmea × List access :=
  let comma_count := n.state.comma_count
  if comma_count < (sentence_format n.state.sentence).length then
    let r := fields_read n.state.sentence comma_count
    ({ n with state := { n.state with field := r.1, field_handlers := r.1 } }, r.2)
  else
    ({ n with state := { n.state with
        field := NMEA_FIELD_IGNORE, field_handlers := NMEA_FIELD_IGNORE } }, [])

/-- The end handler of `HANDLER_LUT[k]` with the accesses to the satellite
array and the tracked PRN list recorded; the other end handlers index neither
of the four arrays. -/
def end_handler_traced (k : nmea_fields) (n : nmea) : nmea × List access :=
  match k with
  | NMEA_FIELD_PRNS_TRACKED => prns_tracked_end_handler_traced n
  | NMEA_FIELD_PRN => prn_end_handler_traced n
  | NMEA_FIELD_AZIMUTH => azimuth_end_handler_traced n
  | NMEA_FIELD_ELEVATION => elevation_end_handler_traced n
  | NMEA_FIELD_SNR => snr_end_handler_traced n
  | _ => ((HANDLER_LUT k).end_handler n, [])

/-- The char handler of `HANDLER_LUT[k]` with the reads of the month table
recorded; the other char handlers index neither of the four arrays. -/
def char_handler_traced (k : nmea_fields) (n : nmea) (c : Int) : nmea × List access :=
  match k with
  | NMEA_FIELD_DATE => date_char_handler_traced n c
  | _ => ((HANDLER_LUT k).char_handler n c, [])

/-- The function `nmea_parse` with the accesses to the satellite array, the
tracked PRN list, the month table and the field list recorded.  The `$`
branch and the checksum branch index none of them. -/
def nmea_parse_traced (n : nmea) (c : Int) : nmea × List access :=
  if c = 36 then (nmea_parse n c, [])
  else if n.state.checksum_recording ≠ 0 then (nmea_parse n c, [])
  else if c = 44 then                                     -- ','
    let n1 : nmea := { n with state := { n.state with
        received := and_not64 n.state.received (field_mask n.state.field) } }
    let n2 := end_handler_traced n1.state.field_handlers n1
    let n3 := field_update_traced n2.1
    let n4 : nmea := { n3.1 with state := { n3.1.state with
        comma_count := (n3.1.state.comma_count + 1) % 256 } }
    let n5 := (HANDLER_LUT n4.state.field_handlers).start_handler n4
    ({ n5 with state := { n5.state with checksum := (n5.state.checksum ^^^ to_u8 c) % 256 } },
     n2.2 ++ n3.2)
  else if c = 42 then                                     -- '*'
    let n1 : nmea := { n with state := { n.state with
        received := and_not64 n.state.received (field_mask n.state.field) } }
    let n2 := end_handler_traced n1.state.field_handlers n1
    ({ n2.1 with state := { n2.1.state with checksum_recording := 1, char_count := 0 } }, n2.2)
  else
    -- call handler
    let n1 : nmea := { n with state := { n.state with
        field_bitmap := n.state.field_bitmap ||| field_mask n.state.field } }
    let n2 := char_handler_traced n1.state.field_handlers n1 c
    ({ n2.1 with state := { n2.1.state with
        checksum := (n2.1.state.checksum ^^^ to_u8 c) % 256 } }, n2.2)

/-- A call of the interface: `nmea_parse` with a character or
`nmea_fields_ready` with a mask. -/
inductive call
  | parse (c : Int)
  | fields_ready (fields : Nat)
  deriving DecidableEq, Repr

/-- The parser after a call. -/
def run_call (n : nmea) : call → nmea
  | call.parse c => nmea_parse n c
  | call.fields_ready fields => (nmea_fields_ready n fields).1

/-- The parser after a sequence of calls. -/
def run_calls (n : nmea) (cs : List call) : nmea := cs.foldl run_call n

/-- The call that led from `a` to `b` stored nothing beyond the satellite array
and the tracked PRN list: in lists of any length, also longer than the arrays,
the elements from index `NMEA_MAX_SATS` and `NMEA_MAX_PRNS_TRACKED` on are
those of `a`. -/
def beyond_kept (a b : nmea) : Prop :=
  (∀ j, NMEA_MAX_SATS ≤ j → b.data.sats[j]? = a.data.sats[j]?) ∧
  (∀ j, NMEA_MAX_PRNS_TRACKED ≤ j → b.data.prns_tracked[j]? = a.data.prns_tracked[j]?)

/-- The index cells are within their bounds and the two arrays of the fix
snapshot have their declared sizes. -/
def index_inv (n : nmea) : Prop :=
  n.state.gsv_satellite_index ≤ NMEA_MAX_SATS ∧
  n.state.gsa_satellite_index ≤ NMEA_MAX_PRNS_TRACKED ∧
  n.data.sats.length = NMEA_MAX_SATS ∧
  n.data.prns_tracked.length = NMEA_MAX_PRNS_TRACKED

/-- The members of `struct nmea_data`, the fix snapshot. -/
inductive snapshot_member
  | longitude
  | latitude
  | time
  | hdop
  | pdop
  | vdop
  | speed
  | true_track
  | magnetic_track
  | magnetic_variation
  | altitude
  | geoid_height
  | fix_quality
  | fix_3d
  | gll_active
  | rmc_active
  | sats
  | prns_tracked
  | satellites_tracked
  | satellites_in_view
  deriving DecidableEq, Repr

/-- The two snapshots hold the same value in the member. -/
def member_eq (f : snapshot_member) (a b : nmea_data) : Prop :=
  match f with
  | snapshot_member.longitude => a.longitude = b.longitude
  | snapshot_member.latitude => a.latitude = b.latitude
  | snapshot_member.time => a.time = b.time
  | snapshot_member.hdop => a.hdop = b.hdop
  | snapshot_member.pdop => a.pdop = b.pdop
  | snapshot_member.vdop => a.vdop = b.vdop
  | snapshot_member.speed => a.speed = b.speed
  | snapshot_member.true_track => a.true_track = b.true_track
  | snapshot_member.magnetic_track => a.magnetic_track = b.magnetic_track
  | snapshot_member.magnetic_variation => a.magnetic_variation = b.magnetic_variation
  | snapshot_member.altitude => a.altitude = b.altitude
  | snapshot_member.geoid_height => a.geoid_height = b.geoid_height
  | snapshot_member.fix_quality => a.fix_quality = b.fix_quality
  | snapshot_member.fix_3d => a.fix_3d = b.fix_3d
  | snapshot_member.gll_active => a.gll_active = b.gll_active
  | snapshot_member.rmc_active => a.rmc_active = b.rmc_active
  | snapshot_member.sats => a.sats = b.sats
  | snapshot_member.prns_tracked => a.prns_tracked = b.prns_tracked
  | snapshot_member.satellites_tracked => a.satellites_tracked = b.satellites_tracked
  | snapshot_member.satellites_in_view => a.satellites_in_view = b.satellites_in_view

/-- The snapshot member that the handlers of a field kind assign (each kind
assigns at most one): read off the char and end handlers of its `HANDLER_LUT`
entry. -/
def written_by : nmea_fields → Option snapshot_member
  | NMEA_FIELD_LONGITUDE => some snapshot_member.longitude
  | NMEA_FIELD_LONGITUDE_DIR => some snapshot_member.longitude
  | NMEA_FIELD_LATITUDE_DIR => some snapshot_member.latitude
  | NMEA_FIELD_LATITUDE => some snapshot_member.latitude
  | NMEA_FIELD_FIX_QUALITY => some snapshot_member.fix_quality
  | NMEA_FIELD_SATELLITES_TRACKED => some snapshot_member.satellites_tracked
  | NMEA_FIELD_SATELLITES_IN_VIEW => some snapshot_member.satellites_in_view
  | NMEA_FIELD_ALTITUDE => some snapshot_member.altitude
  | NMEA_FIELD_GEOID_HEIGHT => some snapshot_member.geoid_height
  | NMEA_FIELD_FIX_3D => some snapshot_member.fix_3d
  | NMEA_FIELD_PRNS_TRACKED => some snapshot_member.prns_tracked
  | NMEA_FIELD_PRN => some snapshot_member.sats
  | NMEA_FIELD_PDOP => some snapshot_member.pdop
  | NMEA_FIELD_HDOP => some snapshot_member.hdop
  | NMEA_FIELD_VDOP => some snapshot_member.vdop
  | NMEA_FIELD_GLL_ACTIVE => some snapshot_member.gll_active
  | NMEA_FIELD_RMC_ACTIVE => some snapshot_member.rmc_active
  | NMEA_FIELD_SPEED => some snapshot_member.speed
  | NMEA_FIELD_TIME => some snapshot_member.time
  | NMEA_FIELD_DATE => some snapshot_member.time
  | NMEA_FIELD_MAGNETIC_VARIATION => some snapshot_member.magnetic_variation
  | NMEA_FIELD_MAGNETIC_VARIATION_DIR => some snapshot_member.magnetic_variation
  | NMEA_FIELD_IGNORE => none
  | NMEA_FIELD_GSV_SENTENCES_TOTAL => none
  | NMEA_FIELD_SENTENCE_NO => none
  | NMEA_FIELD_AZIMUTH => some snapshot_member.sats
  | NMEA_FIELD_ELEVATION => some snapshot_member.sats
  | NMEA_FIELD_SNR => some snapshot_member.sats
  | NMEA_FIELD_TRUE_TRACK => some snapshot_member.true_track
  | NMEA_FIELD_MAGNETIC_TRACK => some snapshot_member.magnetic_track
  | NMEA_FIELD_HEADER => none

/-- The snapshot members written by the handlers of the kinds in a field
list. -/
def written_members (l : List nmea_fields) : List snapshot_member :=
  (l.filterMap written_by).dedup

/-- The kind is the ignore kind or an entry of the field list of format `i`. -/
def listed (i : Nat) (k : nmea_fields) : Prop :=
  k = NMEA_FIELD_IGNORE ∨ k ∈ (sentence_format (sentence_ptr.lut i)).fields

/-- While a sentence of format `i` is read: either the header handlers are
current and the candidate bitmap holds the candidate `i` alone or nothing, or
the handlers of a kind of format `i` (or the ignore kind) are current and the
selected format is format `i` or the ignore format. -/
def frame_inv (i : Nat) (n : nmea) : Prop :=
  (n.state.field_handlers = NMEA_FIELD_HEADER ∧
    (n.state.sentence_bitmap = 1 <<< i ∨ n.state.sentence_bitmap = 0)) ∨
  (listed i n.state.field_handlers ∧
    (n.state.sentence = sentence_ptr.lut i ∨ n.state.sentence = sentence_ptr.ignore))


/-! ## Lemmas on the handlers and on `nmea_parse` -/

theorem bits_subset_refl (a : Nat) : bits_subset a a := fun _ h => h

theorem bits_subset_trans {a b c : Nat} (h1 : bits_subset a b) (h2 : bits_subset b c) :
    bits_subset a c := fun i h => h2 i (h1 i h)

theorem bits_subset_and_not64 (r m : Nat) : bits_subset (and_not64 r m) r := by
  intro i h
  unfold and_not64 at h
  rw [Nat.testBit_and] at h
  simp only [Bool.and_eq_true] at h
  exact h.1

theorem frame_refl (a : nmea) : frame a a :=
  ⟨rfl, rfl, rfl, rfl, rfl, rfl, bits_subset_refl _⟩

theorem frame_char (f : nmea_fields) (n : nmea) (c : Int) :
    frame n ((HANDLER_LUT f).char_handler n c) := by
  cases f <;>
    simp only [HANDLER_LUT, longitude_char_handler, latitude_char_handler, lon_lat_char_handler,
      longitude_dir_char_handler, latitude_dir_char_handler, ui_char_handler,
      altitude_char_handler, geoid_height_char_handler, pdop_char_handler, hdop_char_handler,
      vdop_char_handler, gll_active_char_handler, rmc_active_char_handler, speed_char_handler,
      time_char_handler, date_char_handler, magnetic_variation_char_handler,
      magnetic_variation_dir_char_handler, ignore_char_handler, true_track_char_handler,
      magnetic_track_char_handler, header_char_handler] <;>
    first
    | exact frame_refl _
    | exact ⟨rfl, rfl, rfl, rfl, rfl, rfl, bits_subset_refl _⟩
    | exact ⟨rfl, rfl, rfl, rfl, rfl, rfl, bits_subset_and_not64 _ _⟩
    | (split_ifs <;> first
        | exact ⟨rfl, rfl, rfl, rfl, rfl, rfl, bits_subset_refl _⟩
        | exact ⟨rfl, rfl, rfl, rfl, rfl, rfl, bits_subset_and_not64 _ _⟩)

theorem sentence_format_cases (p : sentence_ptr) :
    sentence_format p = IGNORE_SENTENCE ∨
    p = sentence_ptr.lut 0 ∨ p = sentence_ptr.lut 1 ∨ p = sentence_ptr.lut 2 ∨
    p = sentence_ptr.lut 3 ∨ p = sentence_ptr.lut 4 ∨ p = sentence_ptr.lut 5 := by
  cases p with
  | ignore => exact Or.inl rfl
  | lut i =>
    rcases i with _ | _ | _ | _ | _ | _ | i
    · exact Or.inr (Or.inl rfl)
    · exact Or.inr (Or.inr (Or.inl rfl))
    · exact Or.inr (Or.inr (Or.inr (Or.inl rfl)))
    · exact Or.inr (Or.inr (Or.inr (Or.inr (Or.inl rfl))))
    · exact Or.inr (Or.inr (Or.inr (Or.inr (Or.inr (Or.inl rfl)))))
    · exact Or.inr (Or.inr (Or.inr (Or.inr (Or.inr (Or.inr rfl)))))
    · exact Or.inl rfl

/-- The start hook of a sentence format touches at most the GSA slot index. -/
theorem sentence_start_handler_eq (p : sentence_ptr) (n : nmea) :
    (sentence_format p).start_handler n = n ∨
    (sentence_format p).start_handler n = gsa_start_handler n := by
  rcases sentence_format_cases p with h | h | h | h | h | h | h
  · rw [h]; exact Or.inl rfl
  all_goals subst h
  · exact Or.inl rfl
  · exact Or.inl rfl
  · exact Or.inr rfl
  · exact Or.inl rfl
  · exact Or.inl rfl
  · exact Or.inl rfl

/-- The checksum-fail hook of a sentence format is the no-op or the GSV one. -/
theorem sentence_fail_handler_eq (p : sentence_ptr) (n : nmea) :
    (sentence_format p).checksum_fail_handler n = n ∨
    (sentence_format p).checksum_fail_handler n = gsv_checksum_fail_handler n := by
  rcases sentence_format_cases p with h | h | h | h | h | h | h
  · rw [h]; exact Or.inl rfl
  all_goals subst h
  · exact Or.inl rfl
  · exact Or.inl rfl
  · exact Or.inl rfl
  · exact Or.inr rfl
  · exact Or.inl rfl
  · exact Or.inl rfl

/-- The end hook of a sentence format is the no-op, the generic or the GSV one. -/
theorem sentence_end_handler_eq (p : sentence_ptr) (n : nmea) :
    (sentence_format p).end_handler n = n ∨
    (sentence_format p).end_handler n = generic_end_handler n ∨
    (sentence_format p).end_handler n = gsv_end_handler n := by
  rcases sentence_format_cases p with h | h | h | h | h | h | h
  · rw [h]; exact Or.inl rfl
  all_goals subst h
  · exact Or.inr (Or.inl rfl)
  · exact Or.inr (Or.inl rfl)
  · exact Or.inr (Or.inl rfl)
  · exact Or.inr (Or.inr rfl)
  · exact Or.inr (Or.inl rfl)
  · exact Or.inr (Or.inl rfl)

theorem frame_sentence_start (p : sentence_ptr) (n : nmea) :
    frame n ((sentence_format p).start_handler n) := by
  rcases sentence_start_handler_eq p n with h | h <;> rw [h]
  · exact frame_refl _
  · exact ⟨rfl, rfl, rfl, rfl, rfl, rfl, bits_subset_refl _⟩

theorem frame_header_end (n : nmea) : frame n (header_end_handler n) := by
  unfold header_end_handler
  simp only
  split_ifs
  · have h := frame_sentence_start (sentence_ptr.lut (header_end_loop 16 n.state.sentence_bitmap 0))
      { n with state := { n.state with
          sentence := sentence_ptr.lut (header_end_loop 16 n.state.sentence_bitmap 0) } }
    exact ⟨h.1, h.2, h.3, h.4, h.5, h.6, h.7⟩
  · exact ⟨rfl, rfl, rfl, rfl, rfl, rfl, bits_subset_refl _⟩

theorem frame_end (f : nmea_fields) (n : nmea) :
    frame n ((HANDLER_LUT f).end_handler n) := by
  cases f <;>
    simp only [HANDLER_LUT, longitude_end_handler, latitude_end_handler, ignore_handler,
      fix_quality_end_handler, satellites_tracked_end_handler, satellites_in_view_end_handler,
      altitude_end_handler, geoid_height_end_handler, fix_3d_end_handler,
      prns_tracked_end_handler, prn_end_handler, pdop_end_handler, hdop_end_handler,
      vdop_end_handler, speed_end_handler, time_end_handler, date_end_handler,
      magnetic_variation_end_handler, gsv_sentences_total_end_handler, sentence_no_end_handler,
      azimuth_end_handler, elevation_end_handler, snr_end_handler, true_track_end_handler,
      magnetic_track_end_handler] <;>
    first
    | exact frame_header_end _
    | exact ⟨rfl, rfl, rfl, rfl, rfl, rfl, bits_subset_refl _⟩
    | (split_ifs <;> exact ⟨rfl, rfl, rfl, rfl, rfl, rfl, bits_subset_refl _⟩)

theorem frame_start (f : nmea_fields) (hf : f ≠ NMEA_FIELD_HEADER) (n : nmea) :
    frame n ((HANDLER_LUT f).start_handler n) := by
  cases f <;>
    first
    | exact absurd rfl hf
    | exact ⟨rfl, rfl, rfl, rfl, rfl, rfl, bits_subset_refl _⟩

theorem sentence_char (f : nmea_fields) (n : nmea) (c : Int) :
    ((HANDLER_LUT f).char_handler n c).state.sentence = n.state.sentence := by
  cases f <;>
    simp only [HANDLER_LUT, longitude_char_handler, latitude_char_handler, lon_lat_char_handler,
      longitude_dir_char_handler, latitude_dir_char_handler, ui_char_handler,
      altitude_char_handler, geoid_height_char_handler, pdop_char_handler, hdop_char_handler,
      vdop_char_handler, gll_active_char_handler, rmc_active_char_handler, speed_char_handler,
      time_char_handler, date_char_handler, magnetic_variation_char_handler,
      magnetic_variation_dir_char_handler, ignore_char_handler, true_track_char_handler,
      magnetic_track_char_handler, header_char_handler] <;>
    first
    | done
    | (split_ifs <;> rfl)

theorem sentence_end (f : nmea_fields) (hf : f ≠ NMEA_FIELD_HEADER) (n : nmea) :
    ((HANDLER_LUT f).end_handler n).state.sentence = n.state.sentence := by
  cases f <;>
    first
    | exact absurd rfl hf
    | (simp only [HANDLER_LUT, longitude_end_handler, latitude_end_handler, ignore_handler,
      fix_quality_end_handler, satellites_tracked_end_handler, satellites_in_view_end_handler,
      altitude_end_handler, geoid_height_end_handler, fix_3d_end_handler,
      prns_tracked_end_handler, prn_end_handler, pdop_end_handler, hdop_end_handler,
      vdop_end_handler, speed_end_handler, time_end_handler, date_end_handler,
      magnetic_variation_end_handler, gsv_sentences_total_end_handler, sentence_no_end_handler,
      azimuth_end_handler, elevation_end_handler, snr_end_handler, true_track_end_handler,
      magnetic_track_end_handler] <;>
        first
        | done
        | (split_ifs <;> rfl))

theorem sentence_start (f : nmea_fields) (n : nmea) :
    ((HANDLER_LUT f).start_handler n).state.sentence = n.state.sentence := by
  cases f <;> simp only [HANDLER_LUT, longitude_start_handler, latitude_start_handler, ignore_handler,
      ufxp_init_start_handler, fxp_init_start_handler, reset_cc_start_handler,
      header_start_handler]

theorem field_update_eq (n : nmea) :
    field_update n = { n with state := { n.state with
      field := kind_at n.state.sentence n.state.comma_count,
      field_handlers := kind_at n.state.sentence n.state.comma_count } } := by
  unfold field_update kind_at
  simp only
  split_ifs <;> rfl

theorem getD_ne_of_forall {l : List nmea_fields} {x d : nmea_fields}
    (hl : ∀ y ∈ l, y ≠ x) (hd : d ≠ x) (j : Nat) : l.getD j d ≠ x := by
  induction l generalizing j with
  | nil => simpa using hd
  | cons a t ih =>
    cases j with
    | zero => simpa using hl a (List.mem_cons_self _ _)
    | succ k =>
      simp only [List.getD_cons_succ]
      exact ih (fun y hy => hl y (List.mem_cons_of_mem _ hy)) k

theorem kind_at_ne_header (p : sentence_ptr) (j : Nat) : kind_at p j ≠ NMEA_FIELD_HEADER := by
  unfold kind_at
  split_ifs
  · apply getD_ne_of_forall _ (by decide)
    rcases sentence_format_cases p with h | h | h | h | h | h | h
    · rw [h]; intro y hy; simp [IGNORE_SENTENCE] at hy
    all_goals subst h
    all_goals decide
  · decide

theorem nmea_parse_dollar (n : nmea) :
    nmea_parse n 36 = header_start_handler { n with state := { n.state with
      field_bitmap := 0, field_handlers := NMEA_FIELD_HEADER } } := rfl

theorem nmea_parse_char (n : nmea) (c : Int) (h36 : c ≠ 36) (h44 : c ≠ 44) (h42 : c ≠ 42)
    (hr : n.state.checksum_recording = 0) :
    nmea_parse n c =
      fold_checksum ((HANDLER_LUT n.state.field_handlers).char_handler (touch n) c) c := by
  unfold nmea_parse
  rw [if_neg h36, if_neg (not_not.mpr hr), if_neg h44, if_neg h42]
  rfl

theorem nmea_parse_comma (n : nmea) (hr : n.state.checksum_recording = 0) :
    nmea_parse n 44 =
      fold_checksum
        ((HANDLER_LUT (field_update ((HANDLER_LUT n.state.field_handlers).end_handler
              (unready n))).state.field_handlers).start_handler
          (next_comma (field_update
            ((HANDLER_LUT n.state.field_handlers).end_handler (unready n))))) 44 := by
  unfold nmea_parse
  rw [if_neg (by decide), if_neg (not_not.mpr hr), if_pos rfl]
  rfl

theorem nmea_parse_star (n : nmea) (hr : n.state.checksum_recording = 0) :
    nmea_parse n 42 =
      { (HANDLER_LUT n.state.field_handlers).end_handler (unready n) with
        state := { ((HANDLER_LUT n.state.field_handlers).end_handler (unready n)).state with
          checksum_recording := 1, char_count := 0 } } := by
  unfold nmea_parse
  rw [if_neg (by decide), if_neg (not_not.mpr hr), if_neg (by decide), if_pos rfl]
  rfl

theorem nmea_parse_first_digit (n : nmea) (c : Int) (h36 : c ≠ 36)
    (hr : n.state.checksum_recording ≠ 0) (hc : n.state.char_count = 0) :
    nmea_parse n c = { n with state := { n.state with
      fxpse := { n.state.fxpse with val := hex_to_nibble c <<< 4 },
      char_count := (n.state.char_count + 1) % 256 } } := by
  unfold nmea_parse
  rw [if_neg h36, if_pos hr, if_pos hc]

theorem nmea_parse_second_digit_pass (n : nmea) (c : Int) (h36 : c ≠ 36)
    (hr : n.state.checksum_recording ≠ 0) (hc : n.state.char_count ≠ 0)
    (hm : (n.state.fxpse.val ||| hex_to_nibble c) = n.state.checksum) :
    nmea_parse n c =
      { (sentence_format n.state.sentence).end_handler n with
        state := { ((sentence_format n.state.sentence).end_handler n).state with
          checksum_recording := 0 } } := by
  unfold nmea_parse
  rw [if_neg h36, if_pos hr, if_neg hc]
  simp only [hm, if_true]

theorem nmea_parse_second_digit_fail (n : nmea) (c : Int) (h36 : c ≠ 36)
    (hr : n.state.checksum_recording ≠ 0) (hc : n.state.char_count ≠ 0)
    (hm : (n.state.fxpse.val ||| hex_to_nibble c) ≠ n.state.checksum) :
    nmea_parse n c =
      { (sentence_format n.state.sentence).checksum_fail_handler n with
        state := { ((sentence_format n.state.sentence).checksum_fail_handler n).state with
          checksum_recording := 0 } } := by
  unfold nmea_parse
  rw [if_neg h36, if_pos hr, if_neg hc]
  simp only [hm, if_false]

/-- An ordinary character outside checksum capture: the current field's char
handler runs, the field kind is marked touched, the character is folded into
the checksum. -/
theorem parse_char (n : nmea) (c : Int) (h36 : c ≠ 36) (h44 : c ≠ 44) (h42 : c ≠ 42)
    (hr : n.state.checksum_recording = 0) :
    (nmea_parse n c).state.field = n.state.field ∧
    (nmea_parse n c).state.field_handlers = n.state.field_handlers ∧
    (nmea_parse n c).state.field_bitmap = n.state.field_bitmap ||| field_mask n.state.field ∧
    (nmea_parse n c).state.checksum = (n.state.checksum ^^^ to_u8 c) % 256 ∧
    (nmea_parse n c).state.checksum_recording = 0 ∧
    (nmea_parse n c).state.comma_count = n.state.comma_count ∧
    bits_subset (nmea_parse n c).state.received n.state.received ∧
    (nmea_parse n c).state.sentence = n.state.sentence := by
  have hf := frame_char n.state.field_handlers (touch n) c
  have hs := sentence_char n.state.field_handlers (touch n) c
  rw [nmea_parse_char n c h36 h44 h42 hr]
  refine ⟨hf.field, hf.field_handlers, hf.field_bitmap, ?_, ?_, hf.comma_count, hf.received, hs⟩
  · show (_ ^^^ _) % 256 = _
    rw [hf.checksum]; rfl
  · exact hf.checksum_recording.trans hr

/-- A comma outside checksum capture: the current field is closed, the next
field kind is selected from the comma count, the comma is folded into the
checksum. -/
theorem parse_comma (n : nmea) (hr : n.state.checksum_recording = 0) :
    (nmea_parse n 44).state.field =
      kind_at (nmea_parse n 44).state.sentence n.state.comma_count ∧
    (nmea_parse n 44).state.field_handlers = (nmea_parse n 44).state.field ∧
    (nmea_parse n 44).state.field_bitmap = n.state.field_bitmap ∧
    (nmea_parse n 44).state.checksum = (n.state.checksum ^^^ 44) % 256 ∧
    (nmea_parse n 44).state.checksum_recording = 0 ∧
    (nmea_parse n 44).state.comma_count = (n.state.comma_count + 1) % 256 ∧
    bits_subset (nmea_parse n 44).state.received n.state.received ∧
    (nmea_parse n 44).state.sentence =
      ((HANDLER_LUT n.state.field_handlers).end_handler (unready n)).state.sentence := by
  have he := frame_end n.state.field_handlers (unready n)
  rw [nmea_parse_comma n hr, field_update_eq]
  generalize hE : (HANDLER_LUT n.state.field_handlers).end_handler (unready n) = e at he ⊢
  have hk := kind_at_ne_header e.state.sentence e.state.comma_count
  generalize hK : kind_at e.state.sentence e.state.comma_count = k at hk ⊢
  have hst := frame_start k hk (next_comma { e with state := { e.state with
      field := k, field_handlers := k } })
  have hss := sentence_start k (next_comma { e with state := { e.state with
      field := k, field_handlers := k } })
  have hcc : e.state.comma_count = n.state.comma_count := he.comma_count
  refine ⟨?_, ?_, ?_, ?_, ?_, ?_, ?_, ?_⟩
  · show ((HANDLER_LUT k).start_handler _).state.field = kind_at ((HANDLER_LUT k).start_handler _).state.sentence _
    rw [hst.field, hss, ← hcc]; exact hK.symm
  · show ((HANDLER_LUT k).start_handler _).state.field_handlers = ((HANDLER_LUT k).start_handler _).state.field
    rw [hst.field, hst.field_handlers]; rfl
  · show ((HANDLER_LUT k).start_handler _).state.field_bitmap = _
    rw [hst.field_bitmap]; exact he.field_bitmap
  · show (((HANDLER_LUT k).start_handler _).state.checksum ^^^ to_u8 44) % 256 = _
    rw [hst.checksum]
    show (e.state.checksum ^^^ to_u8 44) % 256 = _
    rw [he.checksum]; rfl
  · show ((HANDLER_LUT k).start_handler _).state.checksum_recording = _
    rw [hst.checksum_recording]
    exact he.checksum_recording.trans hr
  · show ((HANDLER_LUT k).start_handler _).state.comma_count = _
    rw [hst.comma_count]
    show (e.state.comma_count + 1) % 256 = _
    rw [hcc]
  · exact bits_subset_trans hst.received
      (bits_subset_trans he.received (bits_subset_and_not64 _ _))
  · exact hss

/-- The checksum delimiter outside checksum capture: the current field is
closed and checksum capture starts. -/
theorem parse_star (n : nmea) (hr : n.state.checksum_recording = 0) :
    (nmea_parse n 42).state.field = n.state.field ∧
    (nmea_parse n 42).state.field_handlers = n.state.field_handlers ∧
    (nmea_parse n 42).state.field_bitmap = n.state.field_bitmap ∧
    (nmea_parse n 42).state.checksum = n.state.checksum ∧
    (nmea_parse n 42).state.checksum_recording = 1 ∧
    (nmea_parse n 42).state.char_count = 0 ∧
    (nmea_parse n 42).state.comma_count = n.state.comma_count ∧
    bits_subset (nmea_parse n 42).state.received n.state.received ∧
    (nmea_parse n 42).state.sentence =
      ((HANDLER_LUT n.state.field_handlers).end_handler (unready n)).state.sentence := by
  have he := frame_end n.state.field_handlers (unready n)
  rw [nmea_parse_star n hr]
  exact ⟨he.field, he.field_handlers, he.field_bitmap, he.checksum, rfl, rfl, he.comma_count,
    bits_subset_trans he.received (bits_subset_and_not64 _ _), rfl⟩

theorem test_parse_string_cons (n : nmea) (c : Int) (s : List Int) :
    test_parse_string n (c :: s) = test_parse_string (nmea_parse n c) s := rfl

theorem test_parse_string_append (n : nmea) (s t : List Int) :
    test_parse_string n (s ++ t) = test_parse_string (test_parse_string n s) t := by
  unfold test_parse_string
  exact List.foldl_append _ _ _ _

theorem to_u8_lt (c : Int) : to_u8 c < 256 := by
  unfold to_u8
  omega

theorem xor_lt_256 {a b : Nat} (ha : a < 256) (hb : b < 256) : a ^^^ b < 256 :=
  Nat.xor_lt_two_pow (n := 8) ha hb

theorem foldl_xor_lt (s : List Int) (a : Nat) (ha : a < 256) :
    s.foldl (fun a c => a ^^^ to_u8 c) a < 256 := by
  induction s generalizing a with
  | nil => exact ha
  | cons c t ih => exact ih _ (xor_lt_256 ha (to_u8_lt c))

theorem xor_sum_lt (s : List Int) : xor_sum s < 256 := foldl_xor_lt s 0 (by decide)

theorem foldl_xor_mod (s : List Int) (a : Nat) (ha : a < 256) :
    s.foldl (fun a c => (a ^^^ to_u8 c) % 256) a = s.foldl (fun a c => a ^^^ to_u8 c) a := by
  induction s generalizing a with
  | nil => rfl
  | cons c t ih =>
    have h1 : a ^^^ to_u8 c < 256 := xor_lt_256 ha (to_u8_lt c)
    simp only [List.foldl_cons, Nat.mod_eq_of_lt h1]
    exact ih _ h1

/-- A run of characters without `$` and `*`, started outside checksum capture. -/
theorem run_plain (s : List Int) (n : nmea) (hs : ∀ c ∈ s, c ≠ 36 ∧ c ≠ 42)
    (hr : n.state.checksum_recording = 0) :
    (test_parse_string n s).state.checksum_recording = 0 ∧
    (test_parse_string n s).state.checksum
      = s.foldl (fun a c => (a ^^^ to_u8 c) % 256) n.state.checksum ∧
    bits_subset (test_parse_string n s).state.received n.state.received ∧
    (n.state.field_handlers ≠ NMEA_FIELD_HEADER →
      (test_parse_string n s).state.sentence = n.state.sentence ∧
      (test_parse_string n s).state.field_handlers ≠ NMEA_FIELD_HEADER) := by
  induction s generalizing n with
  | nil => exact ⟨hr, rfl, bits_subset_refl _, fun h => ⟨rfl, h⟩⟩
  | cons c t ih =>
    have hc := hs c (List.mem_cons_self _ _)
    have ht : ∀ x ∈ t, x ≠ 36 ∧ x ≠ 42 := fun x hx => hs x (List.mem_cons_of_mem _ hx)
    rw [test_parse_string_cons]
    have step : (nmea_parse n c).state.checksum_recording = 0 ∧
        (nmea_parse n c).state.checksum = (n.state.checksum ^^^ to_u8 c) % 256 ∧
        bits_subset (nmea_parse n c).state.received n.state.received ∧
        (n.state.field_handlers ≠ NMEA_FIELD_HEADER →
          (nmea_parse n c).state.sentence = n.state.sentence ∧
          (nmea_parse n c).state.field_handlers ≠ NMEA_FIELD_HEADER) := by
      by_cases h44 : c = 44
      · subst h44
        have h := parse_comma n hr
        refine ⟨h.2.2.2.2.1, h.2.2.2.1, h.2.2.2.2.2.2.1, ?_⟩
        intro hh
        refine ⟨?_, ?_⟩
        · rw [h.2.2.2.2.2.2.2]; exact sentence_end _ hh _
        · rw [h.2.1, h.1]; exact kind_at_ne_header _ _
      · have h := parse_char n c hc.1 h44 hc.2 hr
        refine ⟨h.2.2.2.2.1, h.2.2.2.1, h.2.2.2.2.2.2.1, ?_⟩
        intro hh
        exact ⟨h.2.2.2.2.2.2.2, by rw [h.2.1]; exact hh⟩
    have := ih (nmea_parse n c) ht step.1
    refine ⟨this.1, ?_, bits_subset_trans this.2.2.1 step.2.2.1, ?_⟩
    · rw [this.2.1, step.2.1]; rfl
    · intro hh
      have h1 := step.2.2.2 hh
      have h2 := this.2.2.2 h1.2
      exact ⟨h2.1.trans h1.1, h2.2⟩

theorem nmea_parse_hdr (n : nmea) (c : Int) (h36 : c ≠ 36) (h44 : c ≠ 44) (h42 : c ≠ 42)
    (hr : n.state.checksum_recording = 0) (hf : n.state.field_handlers = NMEA_FIELD_HEADER) :
    nmea_parse n c = hdr_step n c := by
  rw [nmea_parse_char n c h36 h44 h42 hr, hf]
  rfl

theorem hdr_run (h : List Int) (n : nmea) (hh : ∀ c ∈ h, c ≠ 36 ∧ c ≠ 44 ∧ c ≠ 42)
    (hr : n.state.checksum_recording = 0) (hf : n.state.field_handlers = NMEA_FIELD_HEADER) :
    (test_parse_string n h).state.checksum_recording = 0 ∧
    (test_parse_string n h).state.field_handlers = NMEA_FIELD_HEADER ∧
    (test_parse_string n h).state.sentence_bitmap
      = hdr_bitmap h n.state.char_count n.state.sentence_bitmap ∧
    (test_parse_string n h).state.field = n.state.field ∧
    (test_parse_string n h).state.comma_count = n.state.comma_count ∧
    (test_parse_string n h).state.received = n.state.received ∧
    (test_parse_string n h).state.field_bitmap
      = (if h = [] then n.state.field_bitmap
         else n.state.field_bitmap ||| field_mask n.state.field) ∧
    (test_parse_string n h).data = n.data := by
  induction h generalizing n with
  | nil => exact ⟨hr, hf, rfl, rfl, rfl, rfl, rfl, rfl⟩
  | cons c t ih =>
    have hc := hh c (List.mem_cons_self _ _)
    have ht : ∀ x ∈ t, x ≠ 36 ∧ x ≠ 44 ∧ x ≠ 42 := fun x hx => hh x (List.mem_cons_of_mem _ hx)
    rw [test_parse_string_cons, nmea_parse_hdr n c hc.1 hc.2.1 hc.2.2 hr hf]
    have := ih (hdr_step n c) ht hr hf
    refine ⟨this.1, this.2.1, this.2.2.1, this.2.2.2.1, this.2.2.2.2.1, this.2.2.2.2.2.1, ?_,
      this.2.2.2.2.2.2.2⟩
    rw [this.2.2.2.2.2.2.1]
    simp only [reduceCtorEq, if_false]
    show (if t = [] then n.state.field_bitmap ||| field_mask n.state.field
          else (n.state.field_bitmap ||| field_mask n.state.field) ||| field_mask n.state.field) = _
    split_ifs
    · rfl
    · rw [Nat.or_assoc, Nat.or_self]

theorem header_end_sentence (n : nmea) :
    (header_end_handler n).state.sentence =
      (if (n.state.sentence_bitmap &&& (n.state.sentence_bitmap - 1)) = 0
          ∧ n.state.sentence_bitmap ≠ 0
       then sentence_ptr.lut (header_end_loop 16 n.state.sentence_bitmap 0)
       else sentence_ptr.ignore) := by
  unfold header_end_handler
  simp only
  split_ifs
  · rcases sentence_start_handler_eq
      (sentence_ptr.lut (header_end_loop 16 n.state.sentence_bitmap 0))
      { n with state := { n.state with
          sentence := sentence_ptr.lut (header_end_loop 16 n.state.sentence_bitmap 0) } }
      with h | h <;> rw [h] <;> rfl
  · rfl

theorem header_end_data (n : nmea) : (header_end_handler n).data = n.data := by
  unfold header_end_handler
  simp only
  split_ifs
  · rcases sentence_start_handler_eq
      (sentence_ptr.lut (header_end_loop 16 n.state.sentence_bitmap 0))
      { n with state := { n.state with
          sentence := sentence_ptr.lut (header_end_loop 16 n.state.sentence_bitmap 0) } }
      with h | h <;> rw [h] <;> rfl
  · rfl

theorem kind_at_ignore (j : Nat) : kind_at sentence_ptr.ignore j = NMEA_FIELD_IGNORE := by
  unfold kind_at
  split_ifs <;> rfl

/-- Under the ignore format every character other than `$` leaves the fix
snapshot alone, adds no readiness bit and stays under the ignore format. -/
theorem ignoring_step (n : nmea) (c : Int) (h36 : c ≠ 36) (hi : ignoring n) :
    ignoring (nmea_parse n c) ∧ (nmea_parse n c).data = n.data ∧
    bits_subset (nmea_parse n c).state.received n.state.received := by
  obtain ⟨hs, hf⟩ := hi
  by_cases hr : n.state.checksum_recording = 0
  · by_cases h44 : c = 44
    · subst h44
      rw [nmea_parse_comma n hr, field_update_eq, hf]
      show ignoring _ ∧ _
      have : kind_at (unready n).state.sentence (unready n).state.comma_count
          = NMEA_FIELD_IGNORE := by
        show kind_at n.state.sentence _ = _
        rw [hs]; exact kind_at_ignore _
      simp only [HANDLER_LUT, ignore_handler, this]
      exact ⟨⟨hs, rfl⟩, rfl, bits_subset_and_not64 _ _⟩
    · by_cases h42 : c = 42
      · subst h42
        rw [nmea_parse_star n hr, hf]
        exact ⟨⟨hs, hf⟩, rfl, bits_subset_and_not64 _ _⟩
      · rw [nmea_parse_char n c h36 h44 h42 hr, hf]
        exact ⟨⟨hs, hf⟩, rfl, bits_subset_refl _⟩
  · by_cases hc : n.state.char_count = 0
    · rw [nmea_parse_first_digit n c h36 hr hc]
      exact ⟨⟨hs, hf⟩, rfl, bits_subset_refl _⟩
    · by_cases hm : (n.state.fxpse.val ||| hex_to_nibble c) = n.state.checksum
      · rw [nmea_parse_second_digit_pass n c h36 hr hc hm, hs]
        exact ⟨⟨hs, hf⟩, rfl, bits_subset_refl _⟩
      · rw [nmea_parse_second_digit_fail n c h36 hr hc hm, hs]
        exact ⟨⟨hs, hf⟩, rfl, bits_subset_refl _⟩

theorem ignoring_run (s : List Int) (n : nmea) (hs : ∀ c ∈ s, c ≠ 36) (hi : ignoring n) :
    ignoring (test_parse_string n s) ∧ (test_parse_string n s).data = n.data ∧
    bits_subset (test_parse_string n s).state.received n.state.received := by
  induction s generalizing n with
  | nil => exact ⟨hi, rfl, bits_subset_refl _⟩
  | cons c t ih =>
    have h1 := ignoring_step n c (hs c (List.mem_cons_self _ _)) hi
    have h2 := ih (nmea_parse n c) (fun x hx => hs x (List.mem_cons_of_mem _ hx)) h1.1
    rw [test_parse_string_cons]
    exact ⟨h2.1, h2.2.1.trans h1.2.1, bits_subset_trans h2.2.2 h1.2.2⟩

theorem testBit_clear (bm i j : Nat) (hj : j < 16) :
    (bm &&& (65535 ^^^ (1 <<< i))).testBit j = (bm.testBit j && !decide (i = j)) := by
  rw [Nat.testBit_and, Nat.testBit_xor, Nat.one_shiftLeft, Nat.testBit_two_pow]
  have h : (65535 : Nat).testBit j = true := by
    have := Nat.testBit_two_pow_sub_one 16 j
    simp only [hj, decide_True] at this
    exact this
  rw [h]
  cases bm.testBit j <;> cases decide (i = j) <;> rfl

theorem header_char_loop_testBit (c : Int) (cc : Nat) (k i0 bm j : Nat) (hj : j < 16) :
    (header_char_loop c cc k i0 bm).testBit j
      = (bm.testBit j && !(decide (i0 ≤ j ∧ j < i0 + k) && decide (head_at j cc ≠ some c))) := by
  induction k generalizing i0 bm with
  | zero =>
    simp only [header_char_loop]
    have : ¬ (i0 ≤ j ∧ j < i0 + 0) := by omega
    rw [decide_eq_false this]
    simp
  | succ k ih =>
    simp only [header_char_loop]
    split_ifs with hne
    · rw [ih, testBit_clear _ _ _ hj]
      by_cases hij : i0 = j
      · subst hij
        have h1 : ¬ (i0 + 1 ≤ i0 ∧ i0 < i0 + 1 + k) := by omega
        have h2 : (i0 ≤ i0 ∧ i0 < i0 + (k + 1)) := by omega
        simp [h1, h2, hne]
      · have h3 : (i0 + 1 ≤ j ∧ j < i0 + 1 + k) ↔ (i0 ≤ j ∧ j < i0 + (k + 1)) := by omega
        simp [hij, h3]
    · rw [ih]
      by_cases hij : i0 = j
      · subst hij
        have h1 : ¬ (i0 + 1 ≤ i0 ∧ i0 < i0 + 1 + k) := by omega
        have hne' : head_at i0 cc = some c := not_not.mp hne
        simp [h1, hne']
      · have h3 : (i0 + 1 ≤ j ∧ j < i0 + 1 + k) ↔ (i0 ≤ j ∧ j < i0 + (k + 1)) := by omega
        simp [h3]

theorem header_char_loop_le (c : Int) (cc : Nat) (k i0 bm : Nat) :
    header_char_loop c cc k i0 bm ≤ bm := by
  induction k generalizing i0 bm with
  | zero => exact Nat.le_refl _
  | succ k ih =>
    simp only [header_char_loop]
    split_ifs
    · exact Nat.le_trans (ih _ _) Nat.and_le_left
    · exact ih _ _

theorem hdr_bitmap_le (h : List Int) (cc bm : Nat) : hdr_bitmap h cc bm ≤ bm := by
  induction h generalizing cc bm with
  | nil => exact Nat.le_refl _
  | cons c t ih => exact Nat.le_trans (ih _ _) (header_char_loop_le _ _ _ _ _)

theorem hdr_bitmap_append (a b : List Int) (cc bm : Nat) :
    ∃ cc1, hdr_bitmap (a ++ b) cc bm = hdr_bitmap b cc1 (hdr_bitmap a cc bm) := by
  induction a generalizing cc bm with
  | nil => exact ⟨cc, rfl⟩
  | cons c t ih => exact ih _ _

theorem hdr_bitmap_testBit (h : List Int) (cc bm j : Nat) (hj : j < 6)
    (hlen : cc + h.length ≤ 256) :
    (hdr_bitmap h cc bm).testBit j = (bm.testBit j && hdr_match j h cc) := by
  induction h generalizing cc bm with
  | nil => simp [hdr_bitmap, hdr_match]
  | cons c t ih =>
    simp only [hdr_bitmap, hdr_match]
    simp only [List.length_cons] at hlen
    by_cases ht : t = []
    · subst ht
      simp only [hdr_bitmap, hdr_match, Bool.and_true]
      rw [header_char_loop_testBit _ _ _ _ _ _ (by omega)]
      have h2 : j < SENTENCE_LUT.length := by simpa [SENTENCE_LUT] using hj
      simp [h2]
    · have hl : 0 < t.length := List.length_pos.mpr ht
      have hm : (cc + 1) % 256 = cc + 1 := Nat.mod_eq_of_lt (by omega)
      rw [hm, ih (cc + 1) _ (by omega), header_char_loop_testBit _ _ _ _ _ _ (by omega)]
      have h2 : j < SENTENCE_LUT.length := by simpa [SENTENCE_LUT] using hj
      simp [h2, Bool.and_assoc]

theorem hdr_match_iff (j : Nat) (h : List Int) (cc : Nat) :
    hdr_match j h cc = true ↔ h = ((head_array j).drop cc).take h.length := by
  induction h generalizing cc with
  | nil => simp [hdr_match]
  | cons c t ih =>
    simp only [hdr_match, Bool.and_eq_true, decide_eq_true_eq, ih, List.length_cons]
    have hat : head_at j cc = (head_array j)[cc]? := rfl
    rw [hat]
    by_cases hcc : cc < (head_array j).length
    · rw [List.drop_eq_getElem_cons hcc, List.take_succ_cons, List.getElem?_eq_getElem hcc]
      simp only [Option.some.injEq, List.cons.injEq]
      constructor
      · rintro ⟨h1, h2⟩; exact ⟨h1.symm, h2⟩
      · rintro ⟨h1, h2⟩; exact ⟨h1.symm, h2⟩
    · have hge : (head_array j).length ≤ cc := Nat.le_of_not_lt hcc
      rw [List.getElem?_eq_none hge, List.drop_eq_nil_of_le hge]
      simp

/-- The candidate bitmap after `$` and at most six header characters: bit `j`
is set exactly when the characters are an initial segment of head array `j`. -/
theorem hdr_bitmap_spec (h : List Int) (hlen : h.length ≤ 6) :
    hdr_bitmap h 0 63 < 64 ∧
    ∀ j, j < 6 → ((hdr_bitmap h 0 63).testBit j = true ↔ starts_head h j) := by
  refine ⟨Nat.lt_of_le_of_lt (hdr_bitmap_le _ _ _) (by decide), ?_⟩
  intro j hj
  rw [hdr_bitmap_testBit h 0 63 j hj (by omega)]
  have h63 : (63 : Nat).testBit j = true := by
    have := Nat.testBit_two_pow_sub_one 6 j
    simp only [hj, decide_True] at this
    exact this
  rw [h63, Bool.true_and, hdr_match_iff]
  rfl

theorem loop_zero (c : Int) (cc k i0 : Nat) : header_char_loop c cc k i0 0 = 0 :=
  Nat.le_zero.mp (header_char_loop_le c cc k i0 0)

theorem hdr_bitmap_zero (h : List Int) (cc : Nat) : hdr_bitmap h cc 0 = 0 :=
  Nat.le_zero.mp (hdr_bitmap_le h cc 0)

theorem eq_zero_of_bits {bm : Nat} (hlt : bm < 64) (hb : ∀ j, j < 6 → bm.testBit j = false) :
    bm = 0 := by
  apply Nat.eq_of_testBit_eq
  intro j
  rw [Nat.zero_testBit]
  by_cases hj : j < 6
  · exact hb j hj
  · apply Nat.testBit_lt_two_pow
    calc bm < 2 ^ 6 := hlt
      _ ≤ 2 ^ j := Nat.pow_le_pow_right (by decide) (Nat.le_of_not_lt hj)

/-- No format survives when the first six header characters are an initial
segment of no head array. -/
theorem hdr_bitmap_none (h : List Int) (hn : ∀ j, j < 6 → ¬ starts_head (h.take 6) j) :
    hdr_bitmap h 0 63 = 0 := by
  have hsp := hdr_bitmap_spec (h.take 6) (by simp)
  have h0 : hdr_bitmap (h.take 6) 0 63 = 0 := by
    apply eq_zero_of_bits hsp.1
    intro j hj
    cases hb : (hdr_bitmap (List.take 6 h) 0 63).testBit j
    · rfl
    · exact absurd ((hsp.2 j hj).1 hb) (hn j hj)
  obtain ⟨cc1, he⟩ := hdr_bitmap_append (h.take 6) (h.drop 6) 0 63
  rw [List.take_append_drop] at he
  rw [he, h0, hdr_bitmap_zero]

/-- The header characters are over and a comma arrives: what the comma does
when the header handlers are current. -/
theorem header_comma (m : nmea) (hr : m.state.checksum_recording = 0)
    (hf : m.state.field_handlers = NMEA_FIELD_HEADER) :
    (nmea_parse m 44).state.sentence =
      (if (m.state.sentence_bitmap &&& (m.state.sentence_bitmap - 1)) = 0
          ∧ m.state.sentence_bitmap ≠ 0
       then sentence_ptr.lut (header_end_loop 16 m.state.sentence_bitmap 0)
       else sentence_ptr.ignore) ∧
    (nmea_parse m 44).data = m.data := by
  have hc := parse_comma m hr
  refine ⟨?_, ?_⟩
  · rw [hc.2.2.2.2.2.2.2, hf]
    exact header_end_sentence (unready m)
  · rw [nmea_parse_comma m hr, field_update_eq, hf]
    generalize hE : (HANDLER_LUT NMEA_FIELD_HEADER).end_handler (unready m) = e
    have hed : e.data = m.data := by rw [← hE]; exact header_end_data (unready m)
    have hk := kind_at_ne_header e.state.sentence e.state.comma_count
    generalize kind_at e.state.sentence e.state.comma_count = k at hk
    rw [← hed]
    cases k <;>
      first
      | exact absurd rfl hk
      | rfl

/-- After `$`, header characters that leave no single candidate, and the
comma, the ignore format is selected. -/
theorem select_ignore (n : nmea) (h : List Int) (hh : ∀ c ∈ h, c ≠ 36 ∧ c ≠ 44 ∧ c ≠ 42)
    (hb : ¬ ((hdr_bitmap h 0 63 &&& (hdr_bitmap h 0 63 - 1)) = 0 ∧ hdr_bitmap h 0 63 ≠ 0)) :
    ignoring (test_parse_string n (36 :: (h ++ [44]))) ∧
    (test_parse_string n (36 :: (h ++ [44]))).state.field = NMEA_FIELD_IGNORE ∧
    (test_parse_string n (36 :: (h ++ [44]))).data = n.data ∧
    bits_subset (test_parse_string n (36 :: (h ++ [44]))).state.received n.state.received := by
  rw [test_parse_string_cons, test_parse_string_append]
  have hrun := hdr_run h (nmea_parse n 36) hh rfl rfl
  generalize test_parse_string (nmea_parse n 36) h = m at hrun
  obtain ⟨hr, hf, hbm, -, -, hrc, -, hd⟩ := hrun
  have hbm' : m.state.sentence_bitmap = hdr_bitmap h 0 63 := hbm
  have hc := parse_comma m hr
  have hhc := header_comma m hr hf
  rw [hbm', if_neg hb] at hhc
  show ignoring (nmea_parse m 44) ∧ _
  have hfield : (nmea_parse m 44).state.field = NMEA_FIELD_IGNORE := by
    rw [hc.1, hhc.1]; exact kind_at_ignore _
  refine ⟨⟨hhc.1, by rw [hc.2.1]; exact hfield⟩, hfield, hhc.2.trans hd, ?_⟩
  have : bits_subset m.state.received n.state.received := by
    rw [hrc]; exact bits_subset_refl _
  exact bits_subset_trans hc.2.2.2.2.2.2.1 this

theorem hdr_bitmap_literal (i : Nat) (hi : i < 6) :
    hdr_bitmap (header_literal i) 0 63 = 1 <<< i ∧
    (∀ c ∈ header_literal i, c ≠ 36 ∧ c ≠ 44 ∧ c ≠ 42) ∧
    header_literal i ≠ [] ∧
    header_end_loop 16 (1 <<< i) 0 = i ∧
    (((1 <<< i) &&& ((1 <<< i) - 1)) = 0 ∧ 1 <<< i ≠ 0) := by
  interval_cases i <;> decide

/-- After `$`, the header literal of format `i` and the comma, format `i` is
selected and its first field kind is current. -/
theorem select_literal (n : nmea) (i : Nat) (hi : i < 6) :
    (test_parse_string n (36 :: (header_literal i ++ [44]))).state.sentence = sentence_ptr.lut i ∧
    (test_parse_string n (36 :: (header_literal i ++ [44]))).state.field
      = kind_at (sentence_ptr.lut i) 0 ∧
    (test_parse_string n (36 :: (header_literal i ++ [44]))).state.field_handlers
      = kind_at (sentence_ptr.lut i) 0 ∧
    (test_parse_string n (36 :: (header_literal i ++ [44]))).state.checksum_recording = 0 ∧
    (test_parse_string n (36 :: (header_literal i ++ [44]))).state.comma_count = 1 ∧
    (test_parse_string n (36 :: (header_literal i ++ [44]))).state.field_bitmap
      = field_mask n.state.field ∧
    (test_parse_string n (36 :: (header_literal i ++ [44]))).data = n.data ∧
    bits_subset (test_parse_string n (36 :: (header_literal i ++ [44]))).state.received
      n.state.received := by
  obtain ⟨hbl, hh, hne, hloop, hpow⟩ := hdr_bitmap_literal i hi
  rw [test_parse_string_cons, test_parse_string_append]
  have hrun := hdr_run (header_literal i) (nmea_parse n 36) hh rfl rfl
  generalize test_parse_string (nmea_parse n 36) (header_literal i) = m at hrun
  obtain ⟨hr, hf, hbm, hfld, hcc, hrc, hfb, hd⟩ := hrun
  have hbm' : m.state.sentence_bitmap = 1 <<< i := hbm.trans hbl
  have hc := parse_comma m hr
  have hhc := header_comma m hr hf
  rw [hbm', if_pos hpow, hloop] at hhc
  have hsingle : test_parse_string m [44] = nmea_parse m 44 := rfl
  rw [hsingle]
  have hcc0 : m.state.comma_count = 0 := hcc
  have hfield : (nmea_parse m 44).state.field = kind_at (sentence_ptr.lut i) 0 := by
    rw [hc.1, hhc.1, hcc0]
  refine ⟨hhc.1, hfield, by rw [hc.2.1]; exact hfield, hc.2.2.2.2.1, ?_, ?_, hhc.2.trans hd, ?_⟩
  · rw [hc.2.2.2.2.2.1, hcc0]
  · rw [hc.2.2.1, hfb, if_neg hne]
    show 0 ||| field_mask n.state.field = _
    exact Nat.zero_or _
  · have : bits_subset m.state.received n.state.received := by
      rw [hrc]; exact bits_subset_refl _
    exact bits_subset_trans hc.2.2.2.2.2.2.1 this

/-- A run of ordinary characters inside one field. -/
theorem field_run (f : List Int) (n : nmea) (hf : ∀ c ∈ f, c ≠ 36 ∧ c ≠ 44 ∧ c ≠ 42)
    (hr : n.state.checksum_recording = 0) :
    (test_parse_string n f).state.checksum_recording = 0 ∧
    (test_parse_string n f).state.field = n.state.field ∧
    (test_parse_string n f).state.field_handlers = n.state.field_handlers ∧
    (test_parse_string n f).state.comma_count = n.state.comma_count ∧
    (test_parse_string n f).state.sentence = n.state.sentence ∧
    (test_parse_string n f).state.field_bitmap
      = (if f = [] then n.state.field_bitmap
         else n.state.field_bitmap ||| field_mask n.state.field) := by
  induction f generalizing n with
  | nil => exact ⟨hr, rfl, rfl, rfl, rfl, rfl⟩
  | cons c t ih =>
    have hc := hf c (List.mem_cons_self _ _)
    have ht : ∀ x ∈ t, x ≠ 36 ∧ x ≠ 44 ∧ x ≠ 42 := fun x hx => hf x (List.mem_cons_of_mem _ hx)
    have hp := parse_char n c hc.1 hc.2.1 hc.2.2 hr
    have := ih (nmea_parse n c) ht hp.2.2.2.2.1
    rw [test_parse_string_cons]
    refine ⟨this.1, this.2.1.trans hp.1, this.2.2.1.trans hp.2.1,
      this.2.2.2.1.trans hp.2.2.2.2.2.1, this.2.2.2.2.1.trans hp.2.2.2.2.2.2.2, ?_⟩
    rw [this.2.2.2.2.2, hp.2.2.1, hp.1]
    simp only [reduceCtorEq, if_false]
    split_ifs
    · rfl
    · rw [Nat.or_assoc, Nat.or_self]

theorem closes_to_of_body (n : nmea) (p : sentence_ptr)
    (hf : n.state.field_handlers ≠ NMEA_FIELD_HEADER) (hs : n.state.sentence = p) :
    closes_to n p := by
  unfold closes_to
  rw [sentence_end _ hf]
  exact hs

/-- A list of comma-led fields: the touched bitmap gains exactly the kinds
of the non-empty fields. -/
theorem fields_run (fs : List (List Int)) (n : nmea) (p : sentence_ptr)
    (hfs : ∀ f ∈ fs, ∀ c ∈ f, c ≠ 36 ∧ c ≠ 44 ∧ c ≠ 42)
    (hr : n.state.checksum_recording = 0) (hp : closes_to n p)
    (hlen : n.state.comma_count + fs.length ≤ 256) :
    (test_parse_string n (join_fields fs)).state.checksum_recording = 0 ∧
    closes_to (test_parse_string n (join_fields fs)) p ∧
    (test_parse_string n (join_fields fs)).state.field_bitmap
      = n.state.field_bitmap ||| touched p n.state.comma_count fs := by
  induction fs generalizing n with
  | nil => exact ⟨hr, hp, (Nat.or_zero _).symm⟩
  | cons f t ih =>
    have hf := hfs f (List.mem_cons_self _ _)
    have ht : ∀ g ∈ t, ∀ c ∈ g, c ≠ 36 ∧ c ≠ 44 ∧ c ≠ 42 :=
      fun g hg => hfs g (List.mem_cons_of_mem _ hg)
    simp only [List.length_cons] at hlen
    have hc := parse_comma n hr
    have hsel : (nmea_parse n 44).state.sentence = p := hc.2.2.2.2.2.2.2.trans hp
    have hfr := field_run f (nmea_parse n 44) hf hc.2.2.2.2.1
    show (test_parse_string n (44 :: (f ++ join_fields t))).state.checksum_recording = 0 ∧
      closes_to (test_parse_string n (44 :: (f ++ join_fields t))) p ∧
      (test_parse_string n (44 :: (f ++ join_fields t))).state.field_bitmap = _
    rw [test_parse_string_cons, test_parse_string_append]
    generalize test_parse_string (nmea_parse n 44) f = m at hfr
    obtain ⟨hmr, hmf, hmfh, hmcc, hms, hmfb⟩ := hfr
    have hkind : (nmea_parse n 44).state.field = kind_at p n.state.comma_count := by
      rw [hc.1, hsel]
    have hmne : m.state.field_handlers ≠ NMEA_FIELD_HEADER := by
      rw [hmfh, hc.2.1, hkind]; exact kind_at_ne_header _ _
    have hmp : closes_to m p := closes_to_of_body m p hmne (hms.trans hsel)
    have hmfb' : m.state.field_bitmap = n.state.field_bitmap |||
        (if f = [] then 0 else field_mask (kind_at p n.state.comma_count)) := by
      rw [hmfb, hc.2.2.1, hkind]
      split_ifs
      · exact (Nat.or_zero _).symm
      · rfl
    by_cases hte : t = []
    · subst hte
      refine ⟨hmr, hmp, ?_⟩
      show m.state.field_bitmap = _
      rw [hmfb']
      simp [touched]
    · have htl : 0 < t.length := List.length_pos.mpr hte
      have hmcc' : m.state.comma_count = n.state.comma_count + 1 := by
        rw [hmcc, hc.2.2.2.2.2.1]
        exact Nat.mod_eq_of_lt (by omega)
      have := ih m ht hmr hmp (by rw [hmcc']; omega)
      refine ⟨this.1, this.2.1, ?_⟩
      rw [this.2.2, hmfb', hmcc', Nat.or_assoc]
      rfl

set_option maxRecDepth 100000 in
theorem hex_digits_value_fin : ∀ x : Fin 256,
    (hex_to_nibble (hex_digit (x.val / 16)) <<< 4 ||| hex_to_nibble (hex_digit (x.val % 16)))
      = x.val := by
  decide

theorem hex_digits_value (x : Nat) (hx : x < 256) :
    (hex_to_nibble (hex_digit (x / 16)) <<< 4 ||| hex_to_nibble (hex_digit (x % 16))) = x :=
  hex_digits_value_fin ⟨x, hx⟩

theorem hex_digit_ne_dollar (k : Nat) : hex_digit k ≠ 36 := by
  unfold hex_digit
  split_ifs <;> omega

/-- Two checksum characters whose value equals the running checksum: the end
hook of the current format runs on the second. -/
theorem digits_pass (m : nmea) (x y : Int) (hx : x ≠ 36) (hy : y ≠ 36)
    (hr : m.state.checksum_recording ≠ 0) (hc : m.state.char_count = 0)
    (hv : (hex_to_nibble x <<< 4 ||| hex_to_nibble y) = m.state.checksum) :
    test_parse_string m [x, y] =
      capture_off ((sentence_format m.state.sentence).end_handler (first_digit m x)) := by
  show nmea_parse (nmea_parse m x) y = _
  rw [nmea_parse_first_digit m x hx hr hc]
  have h1 : (first_digit m x).state.char_count ≠ 0 := by
    show (m.state.char_count + 1) % 256 ≠ 0
    rw [hc]; decide
  exact nmea_parse_second_digit_pass (first_digit m x) y hy hr h1 hv

/-- Two checksum characters whose value differs from the running checksum:
the checksum-fail hook of the current format runs on the second. -/
theorem digits_fail (m : nmea) (x y : Int) (hx : x ≠ 36) (hy : y ≠ 36)
    (hr : m.state.checksum_recording ≠ 0) (hc : m.state.char_count = 0)
    (hv : (hex_to_nibble x <<< 4 ||| hex_to_nibble y) ≠ m.state.checksum) :
    test_parse_string m [x, y] =
      capture_off ((sentence_format m.state.sentence).checksum_fail_handler (first_digit m x)) := by
  show nmea_parse (nmea_parse m x) y = _
  rw [nmea_parse_first_digit m x hx hr hc]
  have h1 : (first_digit m x).state.char_count ≠ 0 := by
    show (m.state.char_count + 1) % 256 ≠ 0
    rw [hc]; decide
  exact nmea_parse_second_digit_fail (first_digit m x) y hy hr h1 hv

/-- The checksum-fail hooks leave the readiness bitmap and the snapshot alone. -/
theorem fail_handler_received (p : sentence_ptr) (n : nmea) :
    ((sentence_format p).checksum_fail_handler n).state.received = n.state.received ∧
    ((sentence_format p).checksum_fail_handler n).data = n.data := by
  rcases sentence_fail_handler_eq p n with h | h <;> rw [h] <;> exact ⟨rfl, rfl⟩

theorem field_mask_testBit (f : nmea_fields) (b : Nat) :
    (field_mask f).testBit b = decide (field_value f = b) := by
  unfold field_mask
  rw [Nat.one_shiftLeft, Nat.testBit_two_pow]

theorem touched_testBit (p : sentence_ptr) (fs : List (List Int)) (j b : Nat) :
    (touched p j fs).testBit b = true ↔
      ∃ t f, fs[t]? = some f ∧ f ≠ [] ∧ field_value (kind_at p (j + t)) = b := by
  induction fs generalizing j with
  | nil => simp [touched]
  | cons g gs ih =>
    simp only [touched, Nat.testBit_or, Bool.or_eq_true, ih]
    constructor
    · rintro (h | ⟨t, f, h1, h2, h3⟩)
      · by_cases hg : g = []
        · simp [hg] at h
        · simp only [hg, if_false, field_mask_testBit, decide_eq_true_eq] at h
          exact ⟨0, g, List.getElem?_cons_zero, hg, h⟩
      · refine ⟨t + 1, f, by simpa using h1, h2, ?_⟩
        rw [← h3]; congr 2; omega
    · rintro ⟨t, f, h1, h2, h3⟩
      cases t with
      | zero =>
        simp only [List.getElem?_cons_zero, Option.some.injEq] at h1
        subst h1
        left
        simp only [h2, if_false, field_mask_testBit, decide_eq_true_eq]
        exact h3
      | succ t =>
        right
        refine ⟨t, f, by simpa using h1, h2, ?_⟩
        rw [← h3]; congr 2; omega

theorem eq_zero_of_bits_subset_zero {a : Nat} (h : bits_subset a 0) : a = 0 := by
  apply Nat.eq_of_testBit_eq
  intro i
  rw [Nat.zero_testBit]
  cases hb : a.testBit i
  · rfl
  · have := h i hb
    rw [Nat.zero_testBit] at this
    exact absurd this (by decide)

theorem header_literal_plain (i : Nat) (hi : i < 6) :
    ∀ c ∈ header_literal i, c ≠ 36 ∧ c ≠ 42 := by
  intro c hc
  have := (hdr_bitmap_literal i hi).2.1 c hc
  exact ⟨this.1, this.2.2⟩

theorem payload_plain (i : Nat) (hi : i < 6) (body : List Int)
    (hb : ∀ c ∈ body, c ≠ 36 ∧ c ≠ 42) : ∀ c ∈ payload i body, c ≠ 36 ∧ c ≠ 42 := by
  intro c hc
  unfold payload at hc
  rcases List.mem_append.mp hc with h | h
  · exact header_literal_plain i hi c h
  · rcases List.mem_cons.mp h with h | h
    · subst h; decide
    · exact hb c h

/-- After `$` and characters without `$` and `*`, then `*`: checksum capture
is on, waiting for the first character, and the running checksum is the XOR
of the characters. -/
theorem to_star (n : nmea) (w : List Int) (hw : ∀ c ∈ w, c ≠ 36 ∧ c ≠ 42) :
    (test_parse_string n (36 :: w)).state.checksum_recording = 0 ∧
    (test_parse_string n (36 :: w)).state.checksum = xor_sum w ∧
    bits_subset (test_parse_string n (36 :: w)).state.received n.state.received ∧
    (test_parse_string n (36 :: (w ++ [42]))).state.checksum_recording = 1 ∧
    (test_parse_string n (36 :: (w ++ [42]))).state.char_count = 0 ∧
    (test_parse_string n (36 :: (w ++ [42]))).state.checksum = xor_sum w ∧
    bits_subset (test_parse_string n (36 :: (w ++ [42]))).state.received n.state.received ∧
    (test_parse_string n (36 :: (w ++ [42]))).state.field_bitmap
      = (test_parse_string n (36 :: w)).state.field_bitmap := by
  have h1 := run_plain w (nmea_parse n 36) hw rfl
  have hx : w.foldl (fun a c => (a ^^^ to_u8 c) % 256) (nmea_parse n 36).state.checksum
      = xor_sum w := foldl_xor_mod w 0 (by decide)
  rw [hx] at h1
  have e1 : test_parse_string n (36 :: w) = test_parse_string (nmea_parse n 36) w := rfl
  have e2 : test_parse_string n (36 :: (w ++ [42]))
      = nmea_parse (test_parse_string (nmea_parse n 36) w) 42 := by
    rw [test_parse_string_cons, test_parse_string_append]; rfl
  rw [e1, e2]
  generalize test_parse_string (nmea_parse n 36) w = m at h1
  have hs := parse_star m h1.1
  have hrec : bits_subset m.state.received n.state.received := h1.2.2.1
  exact ⟨h1.1, h1.2.1, hrec, hs.2.2.2.2.1, hs.2.2.2.2.2.1, hs.2.2.2.1.trans h1.2.1,
    bits_subset_trans hs.2.2.2.2.2.2.2.1 hrec, hs.2.2.1⟩

/-- A sentence of format `i` up to its `*`: format `i` is still selected. -/
theorem format_at_star (n : nmea) (i : Nat) (hi : i < 6) (body : List Int)
    (hb : ∀ c ∈ body, c ≠ 36 ∧ c ≠ 42) :
    (test_parse_string n (36 :: (payload i body ++ [42]))).state.sentence = sentence_ptr.lut i := by
  have e : test_parse_string n (36 :: (payload i body ++ [42]))
      = nmea_parse (test_parse_string
          (test_parse_string n (36 :: (header_literal i ++ [44]))) body) 42 := by
    unfold payload
    simp only [test_parse_string, List.foldl_cons, List.foldl_append, List.foldl_nil]
  rw [e]
  have hsel := select_literal n i hi
  generalize test_parse_string n (36 :: (header_literal i ++ [44])) = a at hsel
  have hne : a.state.field_handlers ≠ NMEA_FIELD_HEADER := by
    rw [hsel.2.2.1]; exact kind_at_ne_header _ _
  have hrun := run_plain body a hb hsel.2.2.2.1
  have hb2 := hrun.2.2.2 hne
  generalize test_parse_string a body = b at hrun hb2
  have hs := parse_star b hrun.1
  rw [hs.2.2.2.2.2.2.2.2, sentence_end _ hb2.2]
  exact hb2.1.trans hsel.1

theorem sentence_tail (n : nmea) (w t : List Int) :
    test_parse_string n (36 :: (w ++ 42 :: t))
      = test_parse_string (test_parse_string n (36 :: (w ++ [42]))) t := by
  simp only [test_parse_string, List.foldl_cons, List.foldl_append, List.foldl_nil]

/-- After a sentence body and two checksum characters whose value differs
from the running checksum, the checksum-fail hook has run on the state after
the first of them. -/
theorem mismatch_runs_fail_hook (n : nmea) (w : List Int) (hw : ∀ c ∈ w, c ≠ 36 ∧ c ≠ 42)
    (x y : Int) (hx : x ≠ 36) (hy : y ≠ 36)
    (hv : (hex_to_nibble x <<< 4 ||| hex_to_nibble y) ≠ xor_sum w) :
    test_parse_string n (36 :: (w ++ [42, x, y]))
      = capture_off ((sentence_format
          (test_parse_string n (36 :: (w ++ [42]))).state.sentence).checksum_fail_handler
          (first_digit (test_parse_string n (36 :: (w ++ [42]))) x)) := by
  have h := to_star n w hw
  rw [sentence_tail]
  obtain ⟨-, -, -, hr, hc, hck, -, -⟩ := h
  generalize test_parse_string n (36 :: (w ++ [42])) = m at hr hc hck
  have hr' : m.state.checksum_recording ≠ 0 := by rw [hr]; decide
  exact digits_fail m x y hx hy hr' hc (fun h => hv (h.trans hck))

theorem hex_pair_value_fin : ∀ a b : Fin 16,
    (hex_to_nibble (hex_digit a.val) <<< 4 ||| hex_to_nibble (hex_digit b.val))
      = 16 * a.val + b.val := by
  decide

/-- After `$`, a header that leaves no single candidate, the comma and any
further characters without `$`: the ignore format stays selected, the fix
snapshot is as before the `$` and no readiness bit is gained. -/
theorem ignored_sentence (n : nmea) (h rest : List Int)
    (hh : ∀ c ∈ h, c ≠ 36 ∧ c ≠ 44 ∧ c ≠ 42) (hrest : ∀ c ∈ rest, c ≠ 36)
    (hb : ¬ ((hdr_bitmap h 0 63 &&& (hdr_bitmap h 0 63 - 1)) = 0 ∧ hdr_bitmap h 0 63 ≠ 0)) :
    ignoring (test_parse_string n (36 :: (h ++ 44 :: rest))) ∧
    (test_parse_string n (36 :: (h ++ 44 :: rest))).data = n.data ∧
    bits_subset (test_parse_string n (36 :: (h ++ 44 :: rest))).state.received
      n.state.received := by
  have e : test_parse_string n (36 :: (h ++ 44 :: rest))
      = test_parse_string (test_parse_string n (36 :: (h ++ [44]))) rest := by
    simp only [test_parse_string, List.foldl_cons, List.foldl_append, List.foldl_nil]
  rw [e]
  have h1 := select_ignore n h hh hb
  have h2 := ignoring_run rest _ hrest h1.1
  exact ⟨h2.1, h2.2.1.trans h1.2.2.1, bits_subset_trans h2.2.2 h1.2.2.2⟩

theorem not_single_of_none (h : List Int) (hn : ∀ j, j < 6 → ¬ starts_head (h.take 6) j) :
    ¬ ((hdr_bitmap h 0 63 &&& (hdr_bitmap h 0 63 - 1)) = 0 ∧ hdr_bitmap h 0 63 ≠ 0) := by
  rw [hdr_bitmap_none h hn]
  decide

theorem selects_of_literal (n : nmea) (i : Nat) (hi : i < 6) (s : String) (k : nmea_fields)
    (hs : chars s = 36 :: (header_literal i ++ [44])) (hk : kind_at (sentence_ptr.lut i) 0 = k) :
    selects (test_parse_string n (chars s)) i k := by
  have h := select_literal n i hi
  rw [hs, ← hk]
  exact ⟨h.1, h.2.1, h.2.2.1, h.2.2.2.1⟩

theorem join_fields_plain (fs : List (List Int))
    (hfs : ∀ f ∈ fs, ∀ c ∈ f, c ≠ 36 ∧ c ≠ 44 ∧ c ≠ 42) :
    ∀ c ∈ join_fields fs, c ≠ 36 ∧ c ≠ 42 := by
  induction fs with
  | nil => intro c hc; simp [join_fields] at hc
  | cons f t ih =>
    intro c hc
    simp only [join_fields, List.mem_cons, List.mem_append] at hc
    rcases hc with hc | hc | hc
    · subst hc; decide
    · have := hfs f (List.mem_cons_self _ _) c hc
      exact ⟨this.1, this.2.2⟩
    · exact ih (fun g hg => hfs g (List.mem_cons_of_mem _ hg)) c hc

/-- A sentence of format `i` made of comma-led fields, up to its `*`: format
`i` is selected and the touched bitmap holds the kind that was current during
the header and the kinds of the non-empty fields. -/
theorem fields_at_star (n : nmea) (i : Nat) (hi : i < 6) (fs : List (List Int))
    (hfs : ∀ f ∈ fs, ∀ c ∈ f, c ≠ 36 ∧ c ≠ 44 ∧ c ≠ 42) (hlen : fs.length ≤ 256) :
    (test_parse_string n (36 :: ((header_literal i ++ join_fields fs) ++ [42]))).state.sentence
      = sentence_ptr.lut i ∧
    (test_parse_string n (36 :: ((header_literal i ++ join_fields fs) ++ [42]))).state.field_bitmap
      = field_mask n.state.field ||| touched (sentence_ptr.lut i) 0 fs := by
  obtain ⟨hbl, hh, hne, hloop, hpow⟩ := hdr_bitmap_literal i hi
  have e : test_parse_string n (36 :: ((header_literal i ++ join_fields fs) ++ [42]))
      = nmea_parse (test_parse_string
          (test_parse_string (nmea_parse n 36) (header_literal i)) (join_fields fs)) 42 := by
    simp only [test_parse_string, List.foldl_cons, List.foldl_append, List.foldl_nil]
  rw [e]
  have hrun := hdr_run (header_literal i) (nmea_parse n 36) hh rfl rfl
  generalize test_parse_string (nmea_parse n 36) (header_literal i) = a at hrun
  obtain ⟨hr, hf, hbm, -, hcc, -, hfb, -⟩ := hrun
  have hbm' : a.state.sentence_bitmap = 1 <<< i := hbm.trans hbl
  have hcl : closes_to a (sentence_ptr.lut i) := by
    unfold closes_to
    rw [hf]
    have := header_end_sentence (unready a)
    have hub : (unready a).state.sentence_bitmap = 1 <<< i := hbm'
    rw [hub, if_pos hpow, hloop] at this
    exact this
  have hcc0 : a.state.comma_count = 0 := hcc
  have hfb' : a.state.field_bitmap = field_mask n.state.field := by
    rw [hfb, if_neg hne]
    exact Nat.zero_or _
  have hfr := fields_run fs a (sentence_ptr.lut i) hfs hr hcl (by rw [hcc0]; omega)
  generalize test_parse_string a (join_fields fs) = b at hfr
  obtain ⟨hbr, hbc, hbf⟩ := hfr
  have hs := parse_star b hbr
  refine ⟨hs.2.2.2.2.2.2.2.2.trans hbc, ?_⟩
  rw [hs.2.2.1, hbf, hfb', hcc0]

theorem and_eq_right_iff_testBit (a m : Nat) :
    a &&& m = m ↔ ∀ i, m.testBit i = true → a.testBit i = true := by
  constructor
  · intro h i hi
    have := congrArg (fun x => x.testBit i) h
    simp only [Nat.testBit_and, hi, Bool.and_true] at this
    exact this
  · intro h
    apply Nat.eq_of_testBit_eq
    intro i
    rw [Nat.testBit_and]
    cases hm : m.testBit i
    · simp
    · simp [h i hm]

/-! ### Dispatch: the parser agrees with the fold of the field handlers -/

theorem core_eq_refl (a : nmea) : core_eq a a :=
  ⟨rfl, rfl, rfl, rfl, rfl, rfl, rfl, rfl, rfl, rfl, rfl⟩

theorem core_eq_symm {a b : nmea} (h : core_eq a b) : core_eq b a :=
  ⟨h.1.symm, h.2.symm, h.3.symm, h.4.symm, h.5.symm, h.6.symm, h.7.symm, h.8.symm, h.9.symm,
    h.10.symm, h.11.symm⟩

theorem core_eq_trans {a b c : nmea} (h : core_eq a b) (g : core_eq b c) : core_eq a c :=
  ⟨h.1.trans g.1, h.2.trans g.2, h.3.trans g.3, h.4.trans g.4, h.5.trans g.5, h.6.trans g.6,
    h.7.trans g.7, h.8.trans g.8, h.9.trans g.9, h.10.trans g.10, h.11.trans g.11⟩

theorem core_char (k : nmea_fields) (a b : nmea) (h : core_eq a b) (c : Int) :
    core_eq ((HANDLER_LUT k).char_handler a c) ((HANDLER_LUT k).char_handler b c) := by
  obtain ⟨⟨fx, sc, fh, se, rc, fl, cr, sb, fb, g1, g2, g3, g4, g5, g6, g7, cc, cm, ck⟩, d⟩ := a
  obtain ⟨⟨fx', sc', fh', se', rc', fl', cr', sb', fb', g1', g2', g3', g4', g5', g6', g7', cc',
    cm', ck'⟩, d'⟩ := b
  obtain ⟨h1, h2, h3, h4, h5, h6, h7, h8, h9, h10, h11⟩ := h
  simp only at h1 h2 h3 h4 h5 h6 h7 h8 h9 h10 h11
  subst h1 h2 h3 h4 h5 h6 h7 h8 h9 h10 h11
  cases k <;>
    simp only [HANDLER_LUT, longitude_char_handler, latitude_char_handler, lon_lat_char_handler,
      longitude_dir_char_handler, latitude_dir_char_handler, ui_char_handler,
      altitude_char_handler, geoid_height_char_handler, pdop_char_handler, hdop_char_handler,
      vdop_char_handler, gll_active_char_handler, rmc_active_char_handler, speed_char_handler,
      time_char_handler, date_char_handler, magnetic_variation_char_handler,
      magnetic_variation_dir_char_handler, ignore_char_handler, true_track_char_handler,
      magnetic_track_char_handler, header_char_handler] <;>
    first
    | exact ⟨rfl, rfl, rfl, rfl, rfl, rfl, rfl, rfl, rfl, rfl, rfl⟩
    | (split_ifs <;> exact ⟨rfl, rfl, rfl, rfl, rfl, rfl, rfl, rfl, rfl, rfl, rfl⟩)

theorem core_end (k : nmea_fields) (hk : k ≠ NMEA_FIELD_HEADER) (a b : nmea) (h : core_eq a b) :
    core_eq ((HANDLER_LUT k).end_handler a) ((HANDLER_LUT k).end_handler b) := by
  obtain ⟨⟨fx, sc, fh, se, rc, fl, cr, sb, fb, g1, g2, g3, g4, g5, g6, g7, cc, cm, ck⟩, d⟩ := a
  obtain ⟨⟨fx', sc', fh', se', rc', fl', cr', sb', fb', g1', g2', g3', g4', g5', g6', g7', cc',
    cm', ck'⟩, d'⟩ := b
  obtain ⟨h1, h2, h3, h4, h5, h6, h7, h8, h9, h10, h11⟩ := h
  simp only at h1 h2 h3 h4 h5 h6 h7 h8 h9 h10 h11
  subst h1 h2 h3 h4 h5 h6 h7 h8 h9 h10 h11
  cases k <;>
    first
    | exact absurd rfl hk
    | (simp only [HANDLER_LUT, longitude_end_handler, latitude_end_handler, ignore_handler,
        fix_quality_end_handler, satellites_tracked_end_handler, satellites_in_view_end_handler,
        altitude_end_handler, geoid_height_end_handler, fix_3d_end_handler,
        prns_tracked_end_handler, prn_end_handler, pdop_end_handler, hdop_end_handler,
        vdop_end_handler, speed_end_handler, time_end_handler, date_end_handler,
        magnetic_variation_end_handler, gsv_sentences_total_end_handler, sentence_no_end_handler,
        azimuth_end_handler, elevation_end_handler, snr_end_handler, true_track_end_handler,
        magnetic_track_end_handler] <;>
      first
      | exact ⟨rfl, rfl, rfl, rfl, rfl, rfl, rfl, rfl, rfl, rfl, rfl⟩
      | (split_ifs <;> exact ⟨rfl, rfl, rfl, rfl, rfl, rfl, rfl, rfl, rfl, rfl, rfl⟩))

theorem core_start (k : nmea_fields) (hk : k ≠ NMEA_FIELD_HEADER) (a b : nmea)
    (h : core_eq a b) :
    core_eq ((HANDLER_LUT k).start_handler a) ((HANDLER_LUT k).start_handler b) := by
  obtain ⟨⟨fx, sc, fh, se, rc, fl, cr, sb, fb, g1, g2, g3, g4, g5, g6, g7, cc, cm, ck⟩, d⟩ := a
  obtain ⟨⟨fx', sc', fh', se', rc', fl', cr', sb', fb', g1', g2', g3', g4', g5', g6', g7', cc',
    cm', ck'⟩, d'⟩ := b
  obtain ⟨h1, h2, h3, h4, h5, h6, h7, h8, h9, h10, h11⟩ := h
  simp only at h1 h2 h3 h4 h5 h6 h7 h8 h9 h10 h11
  subst h1 h2 h3 h4 h5 h6 h7 h8 h9 h10 h11
  cases k <;>
    first
    | exact absurd rfl hk
    | exact ⟨rfl, rfl, rfl, rfl, rfl, rfl, rfl, rfl, rfl, rfl, rfl⟩

/-- The start hooks of the sentence formats respect agreement on the core. -/
theorem core_sentence_start (p : sentence_ptr) (a b : nmea) (h : core_eq a b) :
    core_eq ((sentence_format p).start_handler a) ((sentence_format p).start_handler b) := by
  rcases sentence_format_cases p with hp | hp | hp | hp | hp | hp | hp
  · rw [hp]; exact h
  all_goals subst hp
  · exact h
  · exact h
  · exact ⟨h.1, h.2, h.3, h.4, h.5, h.6, h.7, h.8, h.9, rfl, h.11⟩
  · exact h
  · exact h
  · exact h

theorem core_touch (n : nmea) : core_eq (touch n) n :=
  ⟨rfl, rfl, rfl, rfl, rfl, rfl, rfl, rfl, rfl, rfl, rfl⟩

theorem core_unready (n : nmea) : core_eq (unready n) n :=
  ⟨rfl, rfl, rfl, rfl, rfl, rfl, rfl, rfl, rfl, rfl, rfl⟩

theorem core_fold_checksum (n : nmea) (c : Int) : core_eq (fold_checksum n c) n :=
  ⟨rfl, rfl, rfl, rfl, rfl, rfl, rfl, rfl, rfl, rfl, rfl⟩

theorem core_next_comma (n : nmea) : core_eq (next_comma n) n :=
  ⟨rfl, rfl, rfl, rfl, rfl, rfl, rfl, rfl, rfl, rfl, rfl⟩

theorem core_field_update (n : nmea) : core_eq (field_update n) n := by
  rw [field_update_eq]; exact ⟨rfl, rfl, rfl, rfl, rfl, rfl, rfl, rfl, rfl, rfl, rfl⟩

theorem core_select (e : nmea) (k : nmea_fields) :
    core_eq { e with state := { e.state with field := k, field_handlers := k } } e :=
  ⟨rfl, rfl, rfl, rfl, rfl, rfl, rfl, rfl, rfl, rfl, rfl⟩

/-- One ordinary character: on the core, `nmea_parse` is the char handler of
the current field kind. -/
theorem core_parse_char (x y : nmea) (c : Int) (h : core_eq x y) (h36 : c ≠ 36) (h44 : c ≠ 44)
    (h42 : c ≠ 42) (hr : x.state.checksum_recording = 0) :
    core_eq (nmea_parse x c) ((HANDLER_LUT x.state.field_handlers).char_handler y c) := by
  rw [nmea_parse_char x c h36 h44 h42 hr]
  exact core_eq_trans (core_fold_checksum _ c)
    (core_char _ _ _ (core_eq_trans (core_touch x) h) c)

/-- A run of ordinary characters: on the core, the fold of the char handler
of the current field kind. -/
theorem core_field_run (text : List Int) (x y : nmea) (h : core_eq x y)
    (ht : ∀ c ∈ text, c ≠ 36 ∧ c ≠ 44 ∧ c ≠ 42) (hr : x.state.checksum_recording = 0) :
    core_eq (test_parse_string x text)
      (text.foldl (HANDLER_LUT x.state.field_handlers).char_handler y) := by
  induction text generalizing x y with
  | nil => exact h
  | cons c t ih =>
    have hc := ht c (List.mem_cons_self _ _)
    have hp := parse_char x c hc.1 hc.2.1 hc.2.2 hr
    have h1 := core_parse_char x y c h hc.1 hc.2.1 hc.2.2 hr
    have := ih (nmea_parse x c) _ h1 (fun z hz => ht z (List.mem_cons_of_mem _ hz)) hp.2.2.2.2.1
    rw [hp.2.1] at this
    exact this

/-- A comma while a field other than the header is current: on the core, the
end handler of the current kind, then the start handler of the next kind. -/
theorem core_parse_comma (x y : nmea) (h : core_eq x y)
    (hr : x.state.checksum_recording = 0) (hf : x.state.field_handlers ≠ NMEA_FIELD_HEADER) :
    core_eq (nmea_parse x 44)
      ((HANDLER_LUT (kind_at x.state.sentence x.state.comma_count)).start_handler
        ((HANDLER_LUT x.state.field_handlers).end_handler y)) := by
  rw [nmea_parse_comma x hr, field_update_eq]
  have he := frame_end x.state.field_handlers (unready x)
  have hs := sentence_end x.state.field_handlers hf (unready x)
  have hce := core_end x.state.field_handlers hf (unready x) y (core_eq_trans (core_unready x) h)
  generalize (HANDLER_LUT x.state.field_handlers).end_handler (unready x) = e at he hs hce
  have hs' : e.state.sentence = x.state.sentence := hs
  have hc' : e.state.comma_count = x.state.comma_count := he.comma_count
  show core_eq (fold_checksum ((HANDLER_LUT (kind_at e.state.sentence e.state.comma_count)).start_handler _) 44) _
  rw [hs', hc']
  refine core_eq_trans (core_fold_checksum _ 44) ?_
  exact core_start _ (kind_at_ne_header _ _) _ _
    (core_eq_trans (core_next_comma _) (core_eq_trans (core_select e _) hce))

theorem core_foldl_char (k : nmea_fields) (text : List Int) (a b : nmea) (h : core_eq a b) :
    core_eq (text.foldl (HANDLER_LUT k).char_handler a)
      (text.foldl (HANDLER_LUT k).char_handler b) := by
  induction text generalizing a b with
  | nil => exact h
  | cons c t ih => exact ih _ _ (core_char k a b h c)

theorem core_decode_field (k : nmea_fields) (hk : k ≠ NMEA_FIELD_HEADER) (text : List Int)
    (a b : nmea) (h : core_eq a b) :
    core_eq (decode_field k text a) (decode_field k text b) :=
  core_end k hk _ _ (core_foldl_char k text _ _ (core_start k hk a b h))

theorem core_decode_fields (p : sentence_ptr) (fs : List (List Int)) (j : Nat) (a b : nmea)
    (h : core_eq a b) : core_eq (decode_fields p j fs a) (decode_fields p j fs b) := by
  induction fs generalizing j a b with
  | nil => exact h
  | cons f t ih =>
    exact ih (j + 1) _ _ (core_decode_field _ (kind_at_ne_header p j) f a b h)

/-- Field dispatch on the core: after the comma-led fields `fs`, closing the
field that is current gives the fields decoded in turn by their handlers. -/
theorem core_fields_run (fs : List (List Int)) (x yc : nmea) (p : sentence_ptr)
    (hfs : ∀ f ∈ fs, ∀ c ∈ f, c ≠ 36 ∧ c ≠ 44 ∧ c ≠ 42)
    (hr : x.state.checksum_recording = 0) (hp : closes_to x p)
    (hc : core_eq ((HANDLER_LUT x.state.field_handlers).end_handler (unready x)) yc)
    (hlen : x.state.comma_count + fs.length ≤ 256) :
    (test_parse_string x (join_fields fs)).state.checksum_recording = 0 ∧
    closes_to (test_parse_string x (join_fields fs)) p ∧
    core_eq ((HANDLER_LUT (test_parse_string x (join_fields fs)).state.field_handlers).end_handler
        (unready (test_parse_string x (join_fields fs))))
      (decode_fields p x.state.comma_count fs yc) := by
  induction fs generalizing x yc with
  | nil => exact ⟨hr, hp, hc⟩
  | cons f t ih =>
    have hf := hfs f (List.mem_cons_self _ _)
    have ht : ∀ g ∈ t, ∀ c ∈ g, c ≠ 36 ∧ c ≠ 44 ∧ c ≠ 42 :=
      fun g hg => hfs g (List.mem_cons_of_mem _ hg)
    simp only [List.length_cons] at hlen
    have hcm := parse_comma x hr
    have hsel : (nmea_parse x 44).state.sentence = p := hcm.2.2.2.2.2.2.2.trans hp
    have hkind : (nmea_parse x 44).state.field_handlers = kind_at p x.state.comma_count := by
      rw [hcm.2.1, hcm.1, hsel]
    -- the core after the comma
    have hcore1 : core_eq (nmea_parse x 44)
        ((HANDLER_LUT (kind_at p x.state.comma_count)).start_handler yc) := by
      rw [nmea_parse_comma x hr, field_update_eq]
      have he := frame_end x.state.field_handlers (unready x)
      have hs' : ((HANDLER_LUT x.state.field_handlers).end_handler (unready x)).state.sentence = p := hp
      generalize (HANDLER_LUT x.state.field_handlers).end_handler (unready x) = e at he hc hs'
      have hc' : e.state.comma_count = x.state.comma_count := he.comma_count
      show core_eq (fold_checksum
        ((HANDLER_LUT (kind_at e.state.sentence e.state.comma_count)).start_handler _) 44) _
      rw [hs', hc']
      refine core_eq_trans (core_fold_checksum _ 44) ?_
      exact core_start _ (kind_at_ne_header _ _) _ _
        (core_eq_trans (core_next_comma _) (core_eq_trans (core_select e _) hc))
    have hfr := field_run f (nmea_parse x 44) hf hcm.2.2.2.2.1
    have hcore2 := core_field_run f (nmea_parse x 44) _ hcore1 hf hcm.2.2.2.2.1
    rw [hkind] at hcore2
    show (test_parse_string x (44 :: (f ++ join_fields t))).state.checksum_recording = 0 ∧
      closes_to (test_parse_string x (44 :: (f ++ join_fields t))) p ∧
      core_eq ((HANDLER_LUT (test_parse_string x (44 :: (f ++ join_fields t))).state.field_handlers).end_handler
        (unready (test_parse_string x (44 :: (f ++ join_fields t))))) _
    rw [test_parse_string_cons, test_parse_string_append]
    generalize test_parse_string (nmea_parse x 44) f = m at hfr hcore2
    obtain ⟨hmr, -, hmfh, hmcc, hms, -⟩ := hfr
    have hmk : m.state.field_handlers = kind_at p x.state.comma_count := hmfh.trans hkind
    have hmne : m.state.field_handlers ≠ NMEA_FIELD_HEADER := by
      rw [hmk]; exact kind_at_ne_header _ _
    have hmp : closes_to m p := closes_to_of_body m p hmne (hms.trans hsel)
    have hmc : core_eq ((HANDLER_LUT m.state.field_handlers).end_handler (unready m))
        (decode_field (kind_at p x.state.comma_count) f yc) := by
      rw [hmk]
      exact core_end _ (kind_at_ne_header _ _) _ _ (core_eq_trans (core_unready m) hcore2)
    by_cases hte : t = []
    · subst hte
      exact ⟨hmr, hmp, hmc⟩
    · have htl : 0 < t.length := List.length_pos.mpr hte
      have hmcc' : m.state.comma_count = x.state.comma_count + 1 := by
        rw [hmcc, hcm.2.2.2.2.2.1]
        exact Nat.mod_eq_of_lt (by omega)
      have := ih m _ ht hmr hmp hmc (by rw [hmcc']; omega)
      rw [hmcc'] at this
      exact this

theorem core_with_char_count (a b : nmea) (h : core_eq a b) (k : Nat) :
    core_eq (with_char_count a k) (with_char_count b k) :=
  ⟨h.data, h.fxpse, h.scratch, rfl, h.gsv_sentences_received, h.gsv_satellite_count,
    h.gsv_satellite_index, h.gsv_sentence_no, h.gsv_sentences_total, h.gsa_satellite_index,
    h.gsa_satellite_count⟩

theorem core_hdr_run (h : List Int) (x : nmea) (hh : ∀ c ∈ h, c ≠ 36 ∧ c ≠ 44 ∧ c ≠ 42)
    (hr : x.state.checksum_recording = 0) (hf : x.state.field_handlers = NMEA_FIELD_HEADER)
    (hlen : x.state.char_count + h.length < 256) :
    core_eq (test_parse_string x h) (with_char_count x (x.state.char_count + h.length)) := by
  induction h generalizing x with
  | nil => exact ⟨rfl, rfl, rfl, rfl, rfl, rfl, rfl, rfl, rfl, rfl, rfl⟩
  | cons c t ih =>
    have hc := hh c (List.mem_cons_self _ _)
    have ht : ∀ d ∈ t, d ≠ 36 ∧ d ≠ 44 ∧ d ≠ 42 := fun d hd => hh d (List.mem_cons_of_mem _ hd)
    simp only [List.length_cons] at hlen
    rw [test_parse_string_cons, nmea_parse_hdr x c hc.1 hc.2.1 hc.2.2 hr hf]
    have hcc : (hdr_step x c).state.char_count = x.state.char_count + 1 :=
      Nat.mod_eq_of_lt (by omega)
    have := ih (hdr_step x c) ht hr hf (by rw [hcc]; omega)
    refine core_eq_trans this ?_
    refine ⟨rfl, rfl, rfl, ?_, rfl, rfl, rfl, rfl, rfl, rfl, rfl⟩
    show (hdr_step x c).state.char_count + t.length = x.state.char_count + (t.length + 1)
    rw [hcc]; omega

theorem header_literal_length (i : Nat) (hi : i < 6) : (header_literal i).length = 5 := by
  interval_cases i <;> rfl

/-- Sentence dispatch on the core: at the `*` of a sentence of format `i` the
fix snapshot, the decode scratch and the aggregation cells are those of the
fields decoded in turn by their handlers, with the character count cleared. -/
theorem sentence_core (n : nmea) (i : Nat) (hi : i < 6) (fs : List (List Int))
    (hfs : ∀ f ∈ fs, ∀ c ∈ f, c ≠ 36 ∧ c ≠ 44 ∧ c ≠ 42) (hlen : fs.length ≤ 256) :
    core_eq (test_parse_string n (36 :: ((header_literal i ++ join_fields fs) ++ [42])))
      (with_char_count (decode_sentence i fs n) 0) := by
  obtain ⟨hbl, hh, hne, hloop, hpow⟩ := hdr_bitmap_literal i hi
  have e : test_parse_string n (36 :: ((header_literal i ++ join_fields fs) ++ [42]))
      = nmea_parse (test_parse_string
          (test_parse_string (nmea_parse n 36) (header_literal i)) (join_fields fs)) 42 := by
    simp only [test_parse_string, List.foldl_cons, List.foldl_append, List.foldl_nil]
  rw [e]
  have hrun := hdr_run (header_literal i) (nmea_parse n 36) hh rfl rfl
  have hcore := core_hdr_run (header_literal i) (nmea_parse n 36) hh rfl rfl
    (by rw [header_literal_length i hi]; exact (by decide : (0 : Nat) + 5 < 256))
  rw [header_literal_length i hi] at hcore
  have hcore' : core_eq (test_parse_string (nmea_parse n 36) (header_literal i))
      (with_char_count n 5) :=
    core_eq_trans hcore ⟨rfl, rfl, rfl, rfl, rfl, rfl, rfl, rfl, rfl, rfl, rfl⟩
  generalize test_parse_string (nmea_parse n 36) (header_literal i) = a at hrun hcore'
  obtain ⟨hr, hf, hbm, -, hcc, -, hfb, -⟩ := hrun
  have hbm' : a.state.sentence_bitmap = 1 <<< i := hbm.trans hbl
  have hub : (unready a).state.sentence_bitmap = 1 <<< i := hbm'
  have hend : header_end_handler (unready a)
      = (sentence_format (sentence_ptr.lut i)).start_handler
          { unready a with state := { (unready a).state with sentence := sentence_ptr.lut i } } := by
    unfold header_end_handler
    simp only
    rw [hub, if_pos hpow, hloop]
  have hcl : closes_to a (sentence_ptr.lut i) := by
    unfold closes_to
    rw [hf]
    have := header_end_sentence (unready a)
    rw [hub, if_pos hpow, hloop] at this
    exact this
  have hca : core_eq ((HANDLER_LUT a.state.field_handlers).end_handler (unready a))
      (sentence_open i n) := by
    rw [hf]
    show core_eq (header_end_handler (unready a)) _
    rw [hend]
    have hsel : core_eq
        { unready a with state := { (unready a).state with sentence := sentence_ptr.lut i } } a :=
      ⟨rfl, rfl, rfl, rfl, rfl, rfl, rfl, rfl, rfl, rfl, rfl⟩
    exact core_sentence_start _ _ _ (core_eq_trans hsel hcore')
  have hcc0 : a.state.comma_count = 0 := hcc
  have hfr := core_fields_run fs a (sentence_open i n) (sentence_ptr.lut i) hfs hr hcl hca
    (by rw [hcc0]; omega)
  rw [hcc0] at hfr
  generalize test_parse_string a (join_fields fs) = b at hfr
  obtain ⟨hbr, -, hbc⟩ := hfr
  rw [nmea_parse_star b hbr]
  generalize (HANDLER_LUT b.state.field_handlers).end_handler (unready b) = e at hbc
  have hstar : core_eq
      { e with state := { e.state with checksum_recording := 1, char_count := 0 } }
      (with_char_count e 0) := ⟨rfl, rfl, rfl, rfl, rfl, rfl, rfl, rfl, rfl, rfl, rfl⟩
  exact core_eq_trans hstar (core_with_char_count _ _ hbc 0)

/-! ### Field decoding, fixed point values and the GSV aggregation -/

theorem start_data (k : nmea_fields) (n : nmea) :
    ((HANDLER_LUT k).start_handler n).data = n.data := by
  cases k <;> rfl

theorem start_gsv_satellite_index (k : nmea_fields) (n : nmea) :
    ((HANDLER_LUT k).start_handler n).state.gsv_satellite_index = n.state.gsv_satellite_index := by
  cases k <;> rfl

/-- A delimiter outside the checksum capture: the fix snapshot is the one the
end handler of the current field leaves. -/
theorem close_data (x : nmea) (d : Int) (hr : x.state.checksum_recording = 0)
    (hd : d = 44 ∨ d = 42) :
    (nmea_parse x d).data
      = ((HANDLER_LUT x.state.field_handlers).end_handler (unready x)).data := by
  rcases hd with rfl | rfl
  · rw [nmea_parse_comma x hr, field_update_eq]
    exact start_data _ _
  · rw [nmea_parse_star x hr]

/-- One comma-led field on the core: closing the field gives the field decoded
by the handlers of the kind the comma selected. -/
theorem field_core (x e : nmea) (text : List Int) (hr : x.state.checksum_recording = 0)
    (ht : ∀ c ∈ text, c ≠ 36 ∧ c ≠ 44 ∧ c ≠ 42)
    (he : core_eq ((HANDLER_LUT x.state.field_handlers).end_handler (unready x)) e) :
    (test_parse_string x (44 :: text)).state.checksum_recording = 0 ∧
    (test_parse_string x (44 :: text)).state.field_handlers
      = (nmea_parse x 44).state.field_handlers ∧
    (test_parse_string x (44 :: text)).state.sentence = (nmea_parse x 44).state.sentence ∧
    (test_parse_string x (44 :: text)).state.comma_count = (nmea_parse x 44).state.comma_count ∧
    core_eq ((HANDLER_LUT (test_parse_string x (44 :: text)).state.field_handlers).end_handler
        (unready (test_parse_string x (44 :: text))))
      (decode_field (nmea_parse x 44).state.field_handlers text e) := by
  have hcm := parse_comma x hr
  have hkind : (nmea_parse x 44).state.field_handlers
      = kind_at (nmea_parse x 44).state.sentence x.state.comma_count := by
    rw [hcm.2.1, hcm.1]
  have hne : (nmea_parse x 44).state.field_handlers ≠ NMEA_FIELD_HEADER := by
    rw [hkind]; exact kind_at_ne_header _ _
  have hcore1 : core_eq (nmea_parse x 44)
      ((HANDLER_LUT (nmea_parse x 44).state.field_handlers).start_handler e) := by
    rw [hkind, hcm.2.2.2.2.2.2.2]
    rw [nmea_parse_comma x hr, field_update_eq]
    have hfe := frame_end x.state.field_handlers (unready x)
    generalize (HANDLER_LUT x.state.field_handlers).end_handler (unready x) = e0 at hfe he
    have hc' : e0.state.comma_count = x.state.comma_count := hfe.comma_count
    show core_eq (fold_checksum
      ((HANDLER_LUT (kind_at e0.state.sentence e0.state.comma_count)).start_handler _) 44) _
    rw [hc']
    refine core_eq_trans (core_fold_checksum _ 44) ?_
    exact core_start _ (kind_at_ne_header _ _) _ _
      (core_eq_trans (core_next_comma _) (core_eq_trans (core_select e0 _) he))
  have hfr := field_run text (nmea_parse x 44) ht hcm.2.2.2.2.1
  have hcore2 := core_field_run text (nmea_parse x 44) _ hcore1 ht hcm.2.2.2.2.1
  rw [test_parse_string_cons]
  generalize test_parse_string (nmea_parse x 44) text = m at hfr hcore2
  obtain ⟨hmr, -, hmfh, hmcc, hms, -⟩ := hfr
  refine ⟨hmr, hmfh, hms, hmcc, ?_⟩
  rw [hmfh]
  exact core_end _ hne _ _ (core_eq_trans (core_unready m) hcore2)

/-- One comma-led field and its closing delimiter: the fix snapshot is that of
the field decoded by the handlers of the kind the comma selected. -/
theorem field_decoded (x : nmea) (text : List Int) (d : Int)
    (hr : x.state.checksum_recording = 0)
    (ht : ∀ c ∈ text, c ≠ 36 ∧ c ≠ 44 ∧ c ≠ 42) (hd : d = 44 ∨ d = 42) :
    (test_parse_string x (44 :: (text ++ [d]))).data
      = (decode_field (nmea_parse x 44).state.field_handlers text
          ((HANDLER_LUT x.state.field_handlers).end_handler (unready x))).data := by
  have h := field_core x _ text hr ht (core_eq_refl _)
  have e : test_parse_string x (44 :: (text ++ [d]))
      = nmea_parse (test_parse_string x (44 :: text)) d := by
    simp only [test_parse_string, List.foldl_cons, List.foldl_append, List.foldl_nil]
  rw [e, close_data _ d h.1 hd]
  exact h.2.2.2.2.data

/-- Two comma-led fields and the closing delimiter: the fix snapshot is that
of the two fields decoded in turn, the second by the next kind of the format. -/
theorem two_fields_decoded (x : nmea) (t1 t2 : List Int) (d : Int)
    (hr : x.state.checksum_recording = 0)
    (h1 : ∀ c ∈ t1, c ≠ 36 ∧ c ≠ 44 ∧ c ≠ 42) (h2 : ∀ c ∈ t2, c ≠ 36 ∧ c ≠ 44 ∧ c ≠ 42)
    (hd : d = 44 ∨ d = 42) :
    (test_parse_string x (44 :: (t1 ++ 44 :: (t2 ++ [d])))).data
      = (decode_field
          (kind_at (nmea_parse x 44).state.sentence (nmea_parse x 44).state.comma_count) t2
          (decode_field (nmea_parse x 44).state.field_handlers t1
            ((HANDLER_LUT x.state.field_handlers).end_handler (unready x)))).data := by
  have h := field_core x _ t1 hr h1 (core_eq_refl _)
  have e : test_parse_string x (44 :: (t1 ++ 44 :: (t2 ++ [d])))
      = nmea_parse (test_parse_string (test_parse_string x (44 :: t1)) (44 :: t2)) d := by
    simp only [test_parse_string, List.foldl_cons, List.foldl_append, List.foldl_nil]
  rw [e]
  generalize test_parse_string x (44 :: t1) = r at h
  obtain ⟨hrr, hrf, hrs, hrc, hcore⟩ := h
  have h' := field_core r _ t2 hrr h2 hcore
  have hne : r.state.field_handlers ≠ NMEA_FIELD_HEADER := by
    have hcm := parse_comma x hr
    rw [hrf, hcm.2.1, hcm.1]; exact kind_at_ne_header _ _
  have hk : (nmea_parse r 44).state.field_handlers
      = kind_at (nmea_parse x 44).state.sentence (nmea_parse x 44).state.comma_count := by
    have hcm := parse_comma r hrr
    rw [hcm.2.1, hcm.1, hcm.2.2.2.2.2.2.2, hrc]
    have : ((HANDLER_LUT r.state.field_handlers).end_handler (unready r)).state.sentence
        = r.state.sentence := closes_to_of_body r _ hne rfl
    rw [this, hrs]
  rw [hk] at h'
  rw [close_data _ d h'.1 hd]
  exact h'.2.2.2.2.data

theorem to_u64_digit (d : Nat) (hd : d < 10) : to_u64 (digit_char d - 48) = d := by
  unfold to_u64 digit_char
  have : (48 + (d : Int)) - 48 = (d : Int) := by ring
  rw [this, Int.emod_eq_of_lt (by omega) (by omega)]
  exact Int.toNat_ofNat d

theorem digit_char_plain (d : Nat) (hd : d < 10) :
    digit_char d ≠ 36 ∧ digit_char d ≠ 44 ∧ digit_char d ≠ 42 := by
  unfold digit_char
  omega

theorem digits_plain (ds : List Nat) (h : ∀ d ∈ ds, d < 10) :
    ∀ c ∈ digits ds, c ≠ 36 ∧ c ≠ 44 ∧ c ≠ 42 := by
  intro c hc
  unfold digits at hc
  rw [List.mem_map] at hc
  obtain ⟨d, hd, rfl⟩ := hc
  exact digit_char_plain d (h d hd)

theorem wrap64_of_lt (x : Nat) (h : x < 18446744073709551616) : wrap64 x = x :=
  Nat.mod_eq_of_lt h

/-- The six digits of a time field, entered with character count 0. -/
theorem time_six (n : nmea) (h1 h2 m1 m2 s1 s2 : Nat)
    (a1 : h1 < 10) (a2 : h2 < 10) (a3 : m1 < 10) (a4 : m2 < 10) (a5 : s1 < 10) (a6 : s2 < 10)
    (hcc : n.state.char_count = 0) :
    ((digits [h1, h2, m1, m2, s1, s2]).foldl time_char_handler n).state.scratch
      = (10 * h1 + h2) * 3600 + (10 * m1 + m2) * 60 + (10 * s1 + s2) ∧
    ((digits [h1, h2, m1, m2, s1, s2]).foldl time_char_handler n).state.char_count = 6 ∧
    ((digits [h1, h2, m1, m2, s1, s2]).foldl time_char_handler n).data = n.data := by
  simp only [digits, List.map, List.foldl, time_char_handler, hcc, to_u64_digit _ a1,
    to_u64_digit _ a2, to_u64_digit _ a3, to_u64_digit _ a4, to_u64_digit _ a5,
    to_u64_digit _ a6, Nat.reduceAdd, Nat.reduceMod, SECONDS_IN_HOUR, SECONDS_IN_MINUTE]
  refine ⟨?_, trivial, trivial⟩
  simp only [wrap64]
  omega

/-- The characters of a time field after the sixth, up to the 256th, are
counted and otherwise ignored. -/
theorem time_rest (rest : List Int) (n : nmea) (h6 : 6 ≤ n.state.char_count)
    (hlen : n.state.char_count + rest.length ≤ 256) :
    (rest.foldl time_char_handler n).state.scratch = n.state.scratch ∧
    (rest.foldl time_char_handler n).data = n.data := by
  induction rest generalizing n with
  | nil => exact ⟨rfl, rfl⟩
  | cons c t ih =>
    simp only [List.length_cons] at hlen
    have hs : (time_char_handler n c).state.scratch = n.state.scratch := by
      unfold time_char_handler
      simp only
      split <;> omega
    have hd : (time_char_handler n c).data = n.data := rfl
    have hc : (time_char_handler n c).state.char_count = (n.state.char_count + 1) % 256 := rfl
    rw [List.foldl_cons]
    by_cases ht : t = []
    · subst ht
      exact ⟨hs, hd⟩
    · have : 0 < t.length := List.length_pos.mpr ht
      have hc' : (time_char_handler n c).state.char_count = n.state.char_count + 1 := by
        rw [hc]; exact Nat.mod_eq_of_lt (by omega)
      have := ih (time_char_handler n c) (by omega) (by omega)
      rw [this.1, this.2]
      exact ⟨hs, hd⟩

theorem to_s64_of_lt (x : Nat) (h : x < 9223372036854775808) : to_s64 x = (x : Int) := by
  unfold to_s64
  rw [Nat.mod_eq_of_lt (by omega), if_pos h]

theorem to_u64_of_nonneg (v : Int) (h0 : 0 ≤ v) (h1 : v < 18446744073709551616) :
    to_u64 v = v.toNat := by
  unfold to_u64
  rw [Int.emod_eq_of_lt h0 h1]

/-- The end of a time field: without overflow the seconds in `scratch` are
added to the old time floored to the day. -/
theorem time_end_value (n : nmea) (h0 : 0 ≤ n.data.time)
    (hmax : n.data.time / 86400 * 86400 + (n.state.scratch : Int) < 9223372036854775808) :
    (time_end_handler n).data.time = n.data.time / 86400 * 86400 + (n.state.scratch : Int) := by
  have hs0 : (0 : Int) ≤ (n.state.scratch : Int) := Int.ofNat_nonneg _
  have hfl : 0 ≤ n.data.time / 86400 * 86400 :=
    Int.mul_nonneg (Int.ediv_nonneg h0 (by decide)) (by decide)
  have hle : n.data.time / 86400 * 86400 ≤ n.data.time := Int.ediv_mul_le _ (by decide)
  obtain ⟨t, ht⟩ := Int.eq_ofNat_of_zero_le h0
  have htd : n.data.time / 86400 * 86400 = ((t / 86400 * 86400 : Nat) : Int) := by
    rw [ht]; push_cast; rfl
  rw [htd] at hmax ⊢
  have hmax' : t / 86400 * 86400 + n.state.scratch < 9223372036854775808 := by
    exact_mod_cast hmax
  have htle : t / 86400 * 86400 ≤ t := Nat.div_mul_le_self t 86400
  by_cases hbig : t < 18446744073709551616
  · have hu : to_u64 n.data.time = t := by
      rw [to_u64_of_nonneg _ h0 (by rw [ht]; exact_mod_cast hbig), ht]
      exact Int.toNat_ofNat t
    unfold time_end_handler
    simp only [hu, SECONDS_IN_DAY]
    rw [wrap64_of_lt (t / 86400 * 86400) (by omega),
      to_s64_of_lt (t / 86400 * 86400) (by omega)]
    have hu2 : to_u64 ((t / 86400 * 86400 : Nat) : Int) = t / 86400 * 86400 := by
      rw [to_u64_of_nonneg _ (Int.ofNat_nonneg _) (by exact_mod_cast (by omega : t / 86400 * 86400 < 18446744073709551616))]
      exact Int.toNat_ofNat _
    rw [hu2, wrap64_of_lt _ (by omega), to_s64_of_lt _ hmax']
    push_cast
    rfl
  · exfalso
    have : 18446744073709551616 / 86400 * 86400 ≤ t / 86400 * 86400 :=
      Nat.mul_le_mul_right _ (Nat.div_le_div_right (by omega))
    omega

theorem neg64_eq (v : Int) (h1 : -9223372036854775808 < v) (h2 : v < 9223372036854775808) :
    neg64 v = -v := by
  unfold neg64 to_s64 to_u64
  have hm : ((-v % 18446744073709551616).toNat : Int) = -v % 18446744073709551616 :=
    Int.toNat_of_nonneg (Int.emod_nonneg _ (by decide))
  have hmod : (-v % 18446744073709551616).toNat % 18446744073709551616
      = (-v % 18446744073709551616).toNat := by
    apply Nat.mod_eq_of_lt
    have := Int.emod_lt_of_pos (-v) (by decide : (0 : Int) < 18446744073709551616)
    omega
  rw [hmod]
  split_ifs with h <;> omega

theorem dir_char_value (k : nmea_fields)
    (hk : k = NMEA_FIELD_LATITUDE_DIR ∨ k = NMEA_FIELD_LONGITUDE_DIR ∨
      k = NMEA_FIELD_MAGNETIC_VARIATION_DIR) (n : nmea) (c : Int) :
    dir_value k ((HANDLER_LUT k).char_handler n c).data
      = dir_step (dir_negative k) (dir_positive k) c (dir_value k n.data) := by
  rcases hk with rfl | rfl | rfl
  · show (latitude_dir_char_handler n c).data.latitude = dir_step 83 78 c n.data.latitude
    unfold latitude_dir_char_handler dir_step
    simp only
    split_ifs <;> rfl
  · show (longitude_dir_char_handler n c).data.longitude = dir_step 87 69 c n.data.longitude
    unfold longitude_dir_char_handler dir_step
    simp only
    split_ifs <;> rfl
  · show (magnetic_variation_dir_char_handler n c).data.magnetic_variation
      = dir_step 87 69 c n.data.magnetic_variation
    unfold magnetic_variation_dir_char_handler dir_step
    simp only
    split_ifs <;> rfl

theorem dir_step_eq (neg pos c v : Int)
    (h1 : -9223372036854775808 < v) (h2 : v < 9223372036854775808) :
    dir_step neg pos c v = if c = neg ∧ v > 0 then -v else if c = pos ∧ v < 0 then -v else v := by
  unfold dir_step
  rw [neg64_eq v h1 h2]

theorem dir_step_spec (neg pos c v : Int) (hnp : neg ≠ pos)
    (h1 : -9223372036854775808 < v) (h2 : v < 9223372036854775808) :
    |dir_step neg pos c v| = |v| ∧
    (c = neg → dir_step neg pos c v ≤ 0) ∧
    (c = pos → 0 ≤ dir_step neg pos c v) ∧
    (c ≠ neg → c ≠ pos → dir_step neg pos c v = v) ∧
    dir_step neg pos c (dir_step neg pos c v) = dir_step neg pos c v := by
  have he := dir_step_eq neg pos c v h1 h2
  have hr1 : -9223372036854775808 < dir_step neg pos c v := by
    rw [he]; split_ifs <;> omega
  have hr2 : dir_step neg pos c v < 9223372036854775808 := by
    rw [he]; split_ifs <;> omega
  have he2 := dir_step_eq neg pos c (dir_step neg pos c v) hr1 hr2
  refine ⟨?_, ?_, ?_, ?_, ?_⟩
  · rw [he]
    split_ifs
    · exact abs_neg v
    · exact abs_neg v
    · rfl
  · intro h
    rw [he]
    split_ifs <;> omega
  · intro h
    rw [he]
    split_ifs <;> omega
  · intro h h'
    rw [he]
    split_ifs <;> omega
  · rw [he2]
    generalize dir_step neg pos c v = w at he
    subst he
    split_ifs <;> omega

/-- A character that does not pass the checksum comparison adds no readiness
bit. -/
theorem step_without_pass (n : nmea) (c : Int) (h : checksum_passes n c = false) :
    bits_subset (nmea_parse n c).state.received n.state.received := by
  by_cases h36 : c = 36
  · subst h36
    rw [nmea_parse_dollar]
    exact bits_subset_refl _
  · by_cases hr : n.state.checksum_recording = 0
    · by_cases h44 : c = 44
      · subst h44
        exact (parse_comma n hr).2.2.2.2.2.2.1
      · by_cases h42 : c = 42
        · subst h42
          exact (parse_star n hr).2.2.2.2.2.2.2.1
        · exact (parse_char n c h36 h44 h42 hr).2.2.2.2.2.2.1
    · by_cases hc : n.state.char_count = 0
      · rw [nmea_parse_first_digit n c h36 hr hc]
        exact bits_subset_refl _
      · have hv : (n.state.fxpse.val ||| hex_to_nibble c) ≠ n.state.checksum := by
          intro hv
          simp [checksum_passes, h36, hr, hc, hv] at h
        rw [nmea_parse_second_digit_fail n c h36 hr hc hv]
        have := (fail_handler_received n.state.sentence n).1
        show bits_subset ((sentence_format n.state.sentence).checksum_fail_handler n).state.received _
        rw [this]
        exact bits_subset_refl _

theorem run_without_pass (s : List Int) (n : nmea) (h : no_pass n s = true) :
    bits_subset (test_parse_string n s).state.received n.state.received := by
  induction s generalizing n with
  | nil => exact bits_subset_refl _
  | cons c t ih =>
    simp only [no_pass, Bool.and_eq_true, Bool.not_eq_true'] at h
    rw [test_parse_string_cons]
    exact bits_subset_trans (ih _ h.2) (step_without_pass n c h.1)

/-- Without `*` the checksum capture is never switched on, so no character
passes the checksum comparison. -/
theorem no_star_no_pass (s : List Int) (n : nmea) (hr : n.state.checksum_recording = 0)
    (hs : (42 : Int) ∉ s) : no_pass n s = true := by
  induction s generalizing n with
  | nil => rfl
  | cons c t ih =>
    have hc : c ≠ 42 := fun h => hs (h ▸ List.mem_cons_self _ _)
    have ht : (42 : Int) ∉ t := fun h => hs (List.mem_cons_of_mem _ h)
    have hp : checksum_passes n c = false := by
      simp [checksum_passes, hr]
    have hr' : (nmea_parse n c).state.checksum_recording = 0 := by
      by_cases h36 : c = 36
      · subst h36; rfl
      · by_cases h44 : c = 44
        · subst h44; exact (parse_comma n hr).2.2.2.2.1
        · exact (parse_char n c h36 h44 hc hr).2.2.2.2.1
    simp only [no_pass, hp, Bool.not_false, Bool.true_and]
    exact ih _ hr' ht

theorem bits_subset_zero (a : Nat) (h : bits_subset a 0) : a = 0 := by
  apply Nat.eq_of_testBit_eq
  intro i
  cases hb : a.testBit i
  · simp
  · have := h i hb
    simp at this

theorem ufxp_step_rel (q : Nat) (c : Int) (s t : nmea_fxp_state)
    (hv : s.val = t.val) (hp : s.dp = t.dp) (hd : s.dp ≠ 0 → s.div = t.div) :
    (ufxp_from_ascii s c q).val = (ufxp_from_ascii t c q).val ∧
    (ufxp_from_ascii s c q).dp = (ufxp_from_ascii t c q).dp ∧
    ((ufxp_from_ascii s c q).dp ≠ 0 → (ufxp_from_ascii s c q).div = (ufxp_from_ascii t c q).div) := by
  obtain ⟨sv, sd, sp, sn⟩ := s
  obtain ⟨tv, td, tp, tn⟩ := t
  simp only at hv hp hd
  subst hv
  subst hp
  unfold ufxp_from_ascii
  by_cases hc : c = 46
  · rw [if_pos hc, if_pos hc]
    exact ⟨rfl, rfl, fun _ => rfl⟩
  · by_cases h0 : sp = 0
    · subst h0
      simp only [hc, if_true, if_false]
      split_ifs <;> exact ⟨rfl, rfl, fun h => absurd rfl h⟩
    · have hdv := hd h0
      subst hdv
      simp only [hc, h0, if_false]
      split_ifs <;> exact ⟨rfl, rfl, fun _ => rfl⟩

/-- The value of the decoder does not depend on the divisor and the sign
flag it is started with. -/
theorem ufxp_run_val (q : Nat) (text : List Int) (s t : nmea_fxp_state)
    (hv : s.val = t.val) (hp : s.dp = t.dp) (hd : s.dp ≠ 0 → s.div = t.div) :
    (ufxp_run q text s).val = (ufxp_run q text t).val := by
  induction text generalizing s t with
  | nil => exact hv
  | cons c r ih =>
    have h := ufxp_step_rel q c s t hv hp hd
    exact ih _ _ h.1 h.2.1 h.2.2

theorem inc_digit (d q : Nat) (hd : d < 10) (hq : q ≤ 56) :
    wrap64 (to_u64 (digit_char d - 48) <<< q) = d * 2 ^ q ∧ d * 2 ^ q ≤ 9 * 2 ^ 56 := by
  have hp : 2 ^ q ≤ 2 ^ 56 := Nat.pow_le_pow_right (by decide) hq
  have hb : d * 2 ^ q ≤ 9 * 2 ^ 56 := Nat.mul_le_mul (by omega) hp
  refine ⟨?_, hb⟩
  rw [to_u64_digit d hd, Nat.shiftLeft_eq]
  apply wrap64_of_lt
  have : 9 * 2 ^ 56 < 18446744073709551616 := by decide
  omega

/-- The two integer digits of a minutes text, from the cleared decoder. -/
theorem ufxp_run_int (q : Nat) (hq : q ≤ 56) (m1 m2 : Nat) (h1 : m1 < 10) (h2 : m2 < 10)
    (s : nmea_fxp_state) (hv : s.val = 0) (hp : s.dp = 0) :
    ufxp_run q (digits [m1, m2]) s = { s with val := (10 * m1 + m2) * 2 ^ q } := by
  obtain ⟨sv, sd, sp, sn⟩ := s
  simp only at hv hp
  subst hv
  subst hp
  have i1 := inc_digit m1 q h1 hq
  have i2 := inc_digit m2 q h2 hq
  have hne1 : digit_char m1 ≠ 46 := by unfold digit_char; omega
  have hne2 : digit_char m2 ≠ 46 := by unfold digit_char; omega
  have h56 : 9 * 2 ^ 56 = 648518346341351424 := by decide
  rw [h56] at i1 i2
  simp only [ufxp_run, digits, List.map, List.foldl, ufxp_from_ascii, hne1, hne2, if_false,
    if_true, i1.1, i2.1]
  have hfin : (10 * m1 + m2) * 2 ^ q = m1 * 2 ^ q * 10 + m2 * 2 ^ q := by ring
  rw [hfin]
  generalize m1 * 2 ^ q = a at i1 ⊢
  generalize m2 * 2 ^ q = b at i2 ⊢
  have e1 : wrap64 (wrap64 (0 * 10) + a) = a := by
    simp only [wrap64]; omega
  have n1 : ¬ a < a := lt_irrefl a
  simp only [e1, n1, if_false]
  have e2 : wrap64 (wrap64 (a * 10) + b) = a * 10 + b := by
    simp only [wrap64]; omega
  have n2 : ¬ a * 10 + b < b := by omega
  simp only [e2, n2, if_false, if_true]

theorem place_div_pos (i : Nat) : 0 < place_div i := by
  unfold place_div
  split_ifs
  · exact Nat.pos_pow_of_pos _ (by decide)
  · decide

/-- The divisor step of the decoder: ten times the divisor while that fits
64 bit, `ULLONG_MAX` from then on. -/
theorem place_div_step (i : Nat) :
    (if (check_multiply 10 (place_div i)).2 ≠ 0 then ULLONG_MAX
      else (check_multiply 10 (place_div i)).1) = place_div (i + 1) := by
  by_cases h : i + 1 ≤ 18
  · have hlt : 10 ^ (i + 1) ≤ 10 ^ 18 := Nat.pow_le_pow_right (by decide) h
    have h18 : 10 ^ 18 = 1000000000000000000 := by decide
    have e1 : place_div i = 10 ^ (i + 1) := by
      unfold place_div; rw [if_pos (by omega)]
    have e2 : place_div (i + 1) = 10 * 10 ^ (i + 1) := by
      unfold place_div; rw [if_pos (by omega)]; exact Nat.pow_succ'
    have hpos : 0 < 10 ^ (i + 1) := Nat.pos_pow_of_pos _ (by decide)
    rw [e1, e2]
    generalize 10 ^ (i + 1) = p at hlt hpos
    have hw : wrap64 (10 * p) = 10 * p := wrap64_of_lt _ (by omega)
    have hq : 10 * p / p = 10 := Nat.mul_div_cancel _ hpos
    simp only [check_multiply, check_post_multiply, hw, hq, ne_eq, not_true_eq_false, and_false,
      if_false]
  · by_cases h19 : i + 1 = 19
    · have hi : i = 18 := by omega
      subst hi
      decide
    · have e1 : place_div i = ULLONG_MAX := by
        unfold place_div; rw [if_neg (by omega)]
      have e2 : place_div (i + 1) = ULLONG_MAX := by
        unfold place_div; rw [if_neg (by omega)]
      rw [e1, e2]
      decide

/-- The term a fractional digit adds at decimal place `i + 1`. -/
theorem place_term (i f q : Nat) (hf : f < 10) (hq : q ≤ 56) :
    f * 2 ^ q / place_div i = f * 2 ^ q / 10 ^ (i + 1) := by
  have hp : 2 ^ q ≤ 2 ^ 56 := Nat.pow_le_pow_right (by decide) hq
  have hb : f * 2 ^ q ≤ 9 * 2 ^ 56 := Nat.mul_le_mul (by omega) hp
  have h56 : 9 * 2 ^ 56 = 648518346341351424 := by decide
  unfold place_div
  split_ifs with h
  · rfl
  · have h20 : 10 ^ 20 ≤ 10 ^ (i + 1) := Nat.pow_le_pow_right (by decide) (by omega)
    have e20 : 10 ^ 20 = 100000000000000000000 := by decide
    rw [Nat.div_eq_of_lt (by unfold ULLONG_MAX; omega), Nat.div_eq_of_lt (by omega)]

/-- The fractional digits of a minutes text: each adds the floor of its
value at its decimal place. -/
theorem ufxp_run_frac (q : Nat) (hq : q ≤ 56) (fr : List Nat) (hfr : ∀ f ∈ fr, f < 10)
    (i : Nat) (s : nmea_fxp_state) (hp : s.dp ≠ 0) (hd : s.div = place_div i)
    (hb : s.val + frac_sum q i fr < 18446744073709551616) :
    (ufxp_run q (digits fr) s).val = s.val + frac_sum q i fr := by
  induction fr generalizing i s with
  | nil => rfl
  | cons f t ih =>
    have hf : f < 10 := hfr f (List.mem_cons_self _ _)
    have ht : ∀ g ∈ t, g < 10 := fun g hg => hfr g (List.mem_cons_of_mem _ hg)
    have hne : digit_char f ≠ 46 := by unfold digit_char; omega
    have hinc := inc_digit f q hf hq
    have hterm := place_term i f q hf hq
    simp only [frac_sum] at hb ⊢
    have hstep : ufxp_from_ascii s (digit_char f) q
        = { s with val := s.val + f * 2 ^ q / 10 ^ (i + 1), div := place_div (i + 1) } := by
      have hds := place_div_step i
      unfold ufxp_from_ascii
      rw [if_neg hne, if_neg hp, hinc.1, hd, hterm, wrap64_of_lt _ (by omega)]
      split_ifs with hc
      · rw [if_pos hc] at hds; rw [hds]
      · rw [if_neg hc] at hds; rw [hds]
    show (ufxp_run q (digits t) (ufxp_from_ascii s (digit_char f) q)).val = _
    rw [hstep]
    have := ih ht (i + 1)
      { s with val := s.val + f * 2 ^ q / 10 ^ (i + 1), div := place_div (i + 1) } hp rfl
      (by show s.val + f * 2 ^ q / 10 ^ (i + 1) + frac_sum q (i + 1) t < _; omega)
    rw [this]
    show s.val + f * 2 ^ q / 10 ^ (i + 1) + frac_sum q (i + 1) t = _
    omega

/-- The floors never exceed the exact value of the fractional digits. -/
theorem frac_sum_le (q : Nat) (fr : List Nat) (i : Nat) :
    (frac_sum q i fr : ℚ) ≤ dec_frac i fr * 2 ^ q := by
  induction fr generalizing i with
  | nil => simp [frac_sum, dec_frac]
  | cons f t ih =>
    simp only [frac_sum, dec_frac]
    have h1 : ((f * 2 ^ q / 10 ^ (i + 1) : Nat) : ℚ) ≤ ((f * 2 ^ q : Nat) : ℚ) / ((10 ^ (i + 1) : Nat) : ℚ) :=
      Nat.cast_div_le
    have h2 := ih (i + 1)
    push_cast at h1 ⊢
    have e : ((f : ℚ) / 10 ^ (i + 1) + dec_frac (i + 1) t) * 2 ^ q
        = (f : ℚ) * 2 ^ q / 10 ^ (i + 1) + dec_frac (i + 1) t * 2 ^ q := by ring
    rw [e]
    linarith

/-- Each floor loses less than one unit. -/
theorem frac_sum_ge (q : Nat) (fr : List Nat) (i : Nat) :
    dec_frac i fr * 2 ^ q - (frac_sum q i fr : ℚ) ≤ fr.length := by
  induction fr generalizing i with
  | nil => simp [frac_sum, dec_frac]
  | cons f t ih =>
    simp only [frac_sum, dec_frac, List.length_cons]
    have hpos : (0 : ℚ) < 10 ^ (i + 1) := by positivity
    have hmod := Nat.div_add_mod (f * 2 ^ q) (10 ^ (i + 1))
    have hlt : (f * 2 ^ q) % 10 ^ (i + 1) < 10 ^ (i + 1) :=
      Nat.mod_lt _ (Nat.pos_pow_of_pos _ (by decide))
    have h1 : ((f * 2 ^ q : Nat) : ℚ) / 10 ^ (i + 1) - ((f * 2 ^ q / 10 ^ (i + 1) : Nat) : ℚ) ≤ 1 := by
      rw [div_sub' _ _ _ (ne_of_gt hpos), div_le_one hpos]
      have : ((f * 2 ^ q : Nat) : ℚ)
          = ((10 ^ (i + 1) : Nat) : ℚ) * ((f * 2 ^ q / 10 ^ (i + 1) : Nat) : ℚ)
            + (((f * 2 ^ q) % 10 ^ (i + 1) : Nat) : ℚ) := by
        exact_mod_cast hmod.symm
      have hlt' : (((f * 2 ^ q) % 10 ^ (i + 1) : Nat) : ℚ) < ((10 ^ (i + 1) : Nat) : ℚ) := by
        exact_mod_cast hlt
      push_cast at this hlt' ⊢
      linarith
    have h2 := ih (i + 1)
    push_cast at h1 ⊢
    have e : ((f : ℚ) / 10 ^ (i + 1) + dec_frac (i + 1) t) * 2 ^ q
        = (f : ℚ) * 2 ^ q / 10 ^ (i + 1) + dec_frac (i + 1) t * 2 ^ q := by ring
    rw [e]
    linarith

/-- The fractional digits from decimal place `i + 1` on are worth at most one
unit of place `i`. -/
theorem dec_frac_le (fr : List Nat) (hfr : ∀ f ∈ fr, f < 10) (i : Nat) :
    dec_frac i fr ≤ 1 / 10 ^ i := by
  induction fr generalizing i with
  | nil =>
    simp only [dec_frac]
    positivity
  | cons f t ih =>
    have hf : f < 10 := hfr f (List.mem_cons_self _ _)
    have ht : ∀ g ∈ t, g < 10 := fun g hg => hfr g (List.mem_cons_of_mem _ hg)
    simp only [dec_frac]
    have h2 := ih ht (i + 1)
    have hpos : (0 : ℚ) < 10 ^ (i + 1) := by positivity
    have hf' : (f : ℚ) ≤ 9 := by exact_mod_cast (by omega : f ≤ 9)
    have h1 : (f : ℚ) / 10 ^ (i + 1) ≤ 9 / 10 ^ (i + 1) := by
      apply div_le_div_of_nonneg_right hf' (le_of_lt hpos)
    have e : (1 : ℚ) / 10 ^ i = 9 / 10 ^ (i + 1) + 1 / 10 ^ (i + 1) := by
      rw [pow_succ]
      field_simp
      ring
    rw [e]
    linarith

theorem dec_frac_nonneg (fr : List Nat) (i : Nat) : 0 ≤ dec_frac i fr := by
  induction fr generalizing i with
  | nil => simp [dec_frac]
  | cons f t ih =>
    simp only [dec_frac]
    have := ih (i + 1)
    positivity

theorem frac_sum_le_pow (q : Nat) (fr : List Nat) (hfr : ∀ f ∈ fr, f < 10) :
    frac_sum q 0 fr ≤ 2 ^ q := by
  have h1 := frac_sum_le q fr 0
  have h2 := dec_frac_le fr hfr 0
  have hp : (0 : ℚ) < 2 ^ q := by positivity
  have h3 : dec_frac 0 fr * 2 ^ q ≤ 1 * 2 ^ q := by
    apply mul_le_mul_of_nonneg_right _ (le_of_lt hp)
    simpa using h2
  have : (frac_sum q 0 fr : ℚ) ≤ ((2 ^ q : Nat) : ℚ) := by
    push_cast
    linarith
  exact_mod_cast this

/-- The decode of a minutes text in closed form. -/
theorem minutes_value (q : Nat) (hq : q ≤ 56) (m1 m2 : Nat) (h1 : m1 < 10) (h2 : m2 < 10)
    (frac : Option (List Nat)) (hfr : ∀ f ∈ frac.getD [], f < 10)
    (s : nmea_fxp_state) (hv : s.val = 0) (hp : s.dp = 0) :
    (ufxp_run q (minutes_text m1 m2 frac) s).val
      = (10 * m1 + m2) * 2 ^ q + frac_sum q 0 (frac.getD []) := by
  have hpw : 2 ^ q ≤ 2 ^ 56 := Nat.pow_le_pow_right (by decide) hq
  have h56 : 2 ^ 56 = 72057594037927936 := by decide
  have hmm : (10 * m1 + m2) * 2 ^ q ≤ 99 * 2 ^ 56 := Nat.mul_le_mul (by omega) hpw
  have hrun : ∀ t, ufxp_run q (digits [m1, m2] ++ t) s
      = ufxp_run q t (ufxp_run q (digits [m1, m2]) s) := by
    intro t
    unfold ufxp_run
    rw [List.foldl_append]
  cases frac with
  | none =>
    show (ufxp_run q (digits [m1, m2] ++ []) s).val = _
    rw [hrun, ufxp_run_int q hq m1 m2 h1 h2 s hv hp]
    rfl
  | some fr =>
    have hfr' : ∀ f ∈ fr, f < 10 := hfr
    show (ufxp_run q (digits [m1, m2] ++ 46 :: digits fr) s).val = _
    rw [hrun, ufxp_run_int q hq m1 m2 h1 h2 s hv hp]
    have hb := frac_sum_le_pow q fr hfr'
    show (ufxp_run q (digits fr) (ufxp_from_ascii _ 46 q)).val = _
    have hdot : ufxp_from_ascii { s with val := (10 * m1 + m2) * 2 ^ q } 46 q
        = { s with val := (10 * m1 + m2) * 2 ^ q, dp := 1, div := 10 } := by
      unfold ufxp_from_ascii
      rw [if_pos rfl]
    rw [hdot, ufxp_run_frac q hq fr hfr' 0 _ (by show (1 : Nat) ≠ 0; decide)
      (by show (10 : Nat) = place_div 0; decide)
      (by show (10 * m1 + m2) * 2 ^ q + _ < _; omega)]
    rfl

/-- The minutes phase of `lon_lat_char_handler`: with the degree digits
counted, every character goes to the fixed point decoder. -/
theorem lon_lat_minutes (degc q : Nat) (text : List Int) (n : nmea)
    (hc : ¬ n.state.char_count < degc) :
    text.foldl (fun m c => lon_lat_char_handler m c degc q) n
      = { n with state := { n.state with fxpse := ufxp_run q text n.state.fxpse } } := by
  induction text generalizing n with
  | nil => rfl
  | cons c t ih =>
    rw [List.foldl_cons]
    have hstep : lon_lat_char_handler n c degc q
        = { n with state := { n.state with fxpse := ufxp_from_ascii n.state.fxpse c q } } := by
      unfold lon_lat_char_handler
      rw [if_neg hc]
    rw [hstep, ih { n with state := { n.state with fxpse := ufxp_from_ascii n.state.fxpse c q } } hc]
    rfl

/-- The latitude field: two degree digits, then the minutes text. -/
theorem latitude_field (n : nmea) (d1 d2 : Nat) (h1 : d1 < 10) (h2 : d2 < 10)
    (mins : List Int) :
    (decode_field NMEA_FIELD_LATITUDE (digits [d1, d2] ++ mins) n).data.latitude
      = to_s64 (wrap64 (wrap64 ((10 * d1 + d2) <<< 56)
          + (ufxp_run 56 mins (ufxp_init n.state.fxpse)).val / 60)) := by
  show (latitude_end_handler ((digits [d1, d2] ++ mins).foldl latitude_char_handler
    (latitude_start_handler n))).data.latitude = _
  rw [List.foldl_append]
  have hdeg : (digits [d1, d2]).foldl latitude_char_handler (latitude_start_handler n)
      = { n with state := { n.state with
            fxpse := ufxp_init n.state.fxpse, char_count := 2, scratch := 10 * d1 + d2 } } := by
    simp only [digits, List.map, List.foldl, latitude_char_handler, lon_lat_char_handler,
      latitude_start_handler, to_u64_digit _ h1, to_u64_digit _ h2, Nat.reduceAdd, Nat.reduceMod,
      Nat.reduceLT, if_true]
    have e : wrap64 (wrap64 (wrap64 (wrap64 (0 * 10) + d1) * 10) + d2) = 10 * d1 + d2 := by
      simp only [wrap64]; omega
    rw [e]
  rw [hdeg]
  have hmin := lon_lat_minutes 2 56 mins
    { n with state := { n.state with
        fxpse := ufxp_init n.state.fxpse, char_count := 2, scratch := 10 * d1 + d2 } }
    (by show ¬ (2 : Nat) < 2; decide)
  have hfold : mins.foldl latitude_char_handler
      { n with state := { n.state with
        fxpse := ufxp_init n.state.fxpse, char_count := 2, scratch := 10 * d1 + d2 } }
      = mins.foldl (fun m c => lon_lat_char_handler m c 2 56) _ := rfl
  rw [hfold, hmin]
  rfl

/-- The longitude field: three degree digits, then the minutes text. -/
theorem longitude_field (n : nmea) (d1 d2 d3 : Nat) (h1 : d1 < 10) (h2 : d2 < 10)
    (h3 : d3 < 10) (mins : List Int) :
    (decode_field NMEA_FIELD_LONGITUDE (digits [d1, d2, d3] ++ mins) n).data.longitude
      = to_s64 (wrap64 (wrap64 ((100 * d1 + 10 * d2 + d3) <<< 55)
          + (ufxp_run 55 mins (ufxp_init n.state.fxpse)).val / 60)) := by
  show (longitude_end_handler ((digits [d1, d2, d3] ++ mins).foldl longitude_char_handler
    (longitude_start_handler n))).data.longitude = _
  rw [List.foldl_append]
  have hdeg : (digits [d1, d2, d3]).foldl longitude_char_handler (longitude_start_handler n)
      = { n with state := { n.state with
            fxpse := ufxp_init n.state.fxpse, char_count := 3,
            scratch := 100 * d1 + 10 * d2 + d3 } } := by
    simp only [digits, List.map, List.foldl, longitude_char_handler, lon_lat_char_handler,
      longitude_start_handler, to_u64_digit _ h1, to_u64_digit _ h2, to_u64_digit _ h3,
      Nat.reduceAdd, Nat.reduceMod, Nat.reduceLT, if_true]
    have e : wrap64 (wrap64 (wrap64 (wrap64 (wrap64 (wrap64 (0 * 10) + d1) * 10) + d2) * 10) + d3)
        = 100 * d1 + 10 * d2 + d3 := by
      simp only [wrap64]; omega
    rw [e]
  rw [hdeg]
  have hmin := lon_lat_minutes 3 55 mins
    { n with state := { n.state with
        fxpse := ufxp_init n.state.fxpse, char_count := 3,
        scratch := 100 * d1 + 10 * d2 + d3 } }
    (by show ¬ (3 : Nat) < 3; decide)
  have hfold : mins.foldl longitude_char_handler
      { n with state := { n.state with
        fxpse := ufxp_init n.state.fxpse, char_count := 3,
        scratch := 100 * d1 + 10 * d2 + d3 } }
      = mins.foldl (fun m c => lon_lat_char_handler m c 3 55) _ := rfl
  rw [hfold, hmin]
  rfl

/-- The decoder value of a field does not depend on what the decoder held
before `ufxp_init`. -/
theorem ufxp_run_init (q : Nat) (text : List Int) (st : nmea_fxp_state) :
    (ufxp_run q text (ufxp_init st)).val = ufxp_decode q text :=
  ufxp_run_val q text _ _ rfl rfl (fun h => absurd rfl h)

theorem minutes_text_plain (m1 m2 : Nat) (h1 : m1 < 10) (h2 : m2 < 10)
    (frac : Option (List Nat)) (hfr : ∀ f ∈ frac.getD [], f < 10) :
    ∀ c ∈ minutes_text m1 m2 frac, c ≠ 36 ∧ c ≠ 44 ∧ c ≠ 42 := by
  intro c hc
  unfold minutes_text at hc
  rcases List.mem_append.mp hc with h | h
  · apply digits_plain [m1, m2] _ c h
    intro k hk
    simp only [List.mem_cons, List.mem_singleton, List.not_mem_nil, or_false] at hk
    omega
  · cases frac with
    | none => simp at h
    | some fr =>
      rcases List.mem_cons.mp h with h | h
      · subst h; decide
      · exact digits_plain fr hfr c h

theorem ufxp_decode_minutes (q : Nat) (hq : q ≤ 56) (m1 m2 : Nat) (h1 : m1 < 10) (h2 : m2 < 10)
    (frac : Option (List Nat)) (hfr : ∀ f ∈ frac.getD [], f < 10) :
    ufxp_decode q (minutes_text m1 m2 frac)
      = (10 * m1 + m2) * 2 ^ q + frac_sum q 0 (frac.getD []) :=
  minutes_value q hq m1 m2 h1 h2 frac hfr _ rfl rfl

/-- The stored angle never exceeds the exact one and falls short of it by
less than the number of fractional digits plus one. -/
theorem fixed_angle_bounds (q : Nat) (hq : q ≤ 56) (dd m1 m2 : Nat) (h1 : m1 < 10) (h2 : m2 < 10)
    (frac : Option (List Nat)) (hfr : ∀ f ∈ frac.getD [], f < 10) :
    (fixed_angle q dd (minutes_text m1 m2 frac) : ℚ) ≤ exact_angle dd m1 m2 frac * 2 ^ q ∧
    exact_angle dd m1 m2 frac * 2 ^ q - (fixed_angle q dd (minutes_text m1 m2 frac) : ℚ)
      < ((frac.getD []).length : ℚ) + 1 := by
  have hM := ufxp_decode_minutes q hq m1 m2 h1 h2 frac hfr
  unfold fixed_angle exact_angle
  rw [hM]
  generalize frac.getD [] = fr
  have hA := frac_sum_le q fr 0
  have hB := frac_sum_ge q fr 0
  have hk : (0 : ℚ) ≤ (fr.length : ℚ) := Nat.cast_nonneg _
  set M : Nat := (10 * m1 + m2) * 2 ^ q + frac_sum q 0 fr with hMdef
  have hMq : (M : ℚ) = ((10 * m1 + m2 : Nat) : ℚ) * 2 ^ q + (frac_sum q 0 fr : ℚ) := by
    rw [hMdef]; push_cast; ring
  have hfl1 : ((M / 60 : Nat) : ℚ) ≤ (M : ℚ) / 60 := by
    have := @Nat.cast_div_le ℚ _ M 60
    simpa using this
  have hfl2 : (M : ℚ) / 60 - ((M / 60 : Nat) : ℚ) < 1 := by
    have hmod := Nat.div_add_mod M 60
    have hlt : M % 60 < 60 := Nat.mod_lt _ (by decide)
    have e : (M : ℚ) = 60 * ((M / 60 : Nat) : ℚ) + ((M % 60 : Nat) : ℚ) := by
      exact_mod_cast hmod.symm
    have hlt' : ((M % 60 : Nat) : ℚ) < 60 := by exact_mod_cast hlt
    rw [div_sub' _ _ _ (by norm_num : (60 : ℚ) ≠ 0), div_lt_one (by norm_num)]
    linarith
  have e : ((dd : ℚ) + (((10 * m1 + m2 : Nat) : ℚ) + dec_frac 0 fr) / 60) * 2 ^ q
      = (dd : ℚ) * 2 ^ q
        + (((10 * m1 + m2 : Nat) : ℚ) * 2 ^ q + dec_frac 0 fr * 2 ^ q) / 60 := by ring
  rw [e]
  push_cast at hMq hfl1 hfl2 ⊢
  constructor
  · linarith
  · linarith

theorem gsv_frame_start (k : nmea_fields) (hk : k ≠ NMEA_FIELD_HEADER) (n : nmea) :
    gsv_frame k n ((HANDLER_LUT k).start_handler n) := by
  cases k <;> first
    | exact absurd rfl hk
    | exact ⟨rfl, fun _ => rfl, fun _ => rfl⟩

theorem gsv_frame_char (k : nmea_fields) (hk : k ≠ NMEA_FIELD_HEADER) (n : nmea) (c : Int) :
    gsv_frame k n ((HANDLER_LUT k).char_handler n c) := by
  cases k <;>
    simp only [HANDLER_LUT, longitude_char_handler, latitude_char_handler, lon_lat_char_handler,
      longitude_dir_char_handler, latitude_dir_char_handler, ui_char_handler,
      altitude_char_handler, geoid_height_char_handler, pdop_char_handler, hdop_char_handler,
      vdop_char_handler, gll_active_char_handler, rmc_active_char_handler, speed_char_handler,
      time_char_handler, date_char_handler, magnetic_variation_char_handler,
      magnetic_variation_dir_char_handler, ignore_char_handler, true_track_char_handler,
      magnetic_track_char_handler] <;>
    first
    | exact absurd rfl hk
    | exact ⟨rfl, fun _ => rfl, fun _ => rfl⟩
    | (split_ifs <;> exact ⟨rfl, fun _ => rfl, fun _ => rfl⟩)

theorem gsv_frame_end (k : nmea_fields) (hk : k ≠ NMEA_FIELD_HEADER) (n : nmea) :
    gsv_frame k n ((HANDLER_LUT k).end_handler n) := by
  cases k <;>
    simp only [HANDLER_LUT, longitude_end_handler, latitude_end_handler, ignore_handler,
      fix_quality_end_handler, satellites_tracked_end_handler, satellites_in_view_end_handler,
      altitude_end_handler, geoid_height_end_handler, fix_3d_end_handler,
      prns_tracked_end_handler, prn_end_handler, pdop_end_handler, hdop_end_handler,
      vdop_end_handler, speed_end_handler, time_end_handler, date_end_handler,
      magnetic_variation_end_handler, gsv_sentences_total_end_handler, sentence_no_end_handler,
      azimuth_end_handler, elevation_end_handler, snr_end_handler, true_track_end_handler,
      magnetic_track_end_handler] <;>
    first
    | exact absurd rfl hk
    | exact ⟨rfl, fun _ => rfl, fun _ => rfl⟩
    | exact ⟨rfl, fun h => absurd rfl h, fun _ => rfl⟩
    | exact ⟨rfl, fun _ => rfl, fun h => absurd rfl h⟩
    | (split_ifs <;> exact ⟨rfl, fun _ => rfl, fun _ => rfl⟩)

theorem gsv_frame_trans {k : nmea_fields} {a b c : nmea} (h1 : gsv_frame k a b)
    (h2 : gsv_frame k b c) : gsv_frame k a c :=
  ⟨h2.received.trans h1.received, fun h => (h2.total h).trans (h1.total h),
    fun h => (h2.number h).trans (h1.number h)⟩

theorem gsv_frame_foldl (k : nmea_fields) (hk : k ≠ NMEA_FIELD_HEADER) (text : List Int)
    (n : nmea) : gsv_frame k n (text.foldl (HANDLER_LUT k).char_handler n) := by
  induction text generalizing n with
  | nil => exact ⟨rfl, fun _ => rfl, fun _ => rfl⟩
  | cons c t ih => exact gsv_frame_trans (gsv_frame_char k hk n c) (ih _)

theorem gsv_frame_decode_field (k : nmea_fields) (hk : k ≠ NMEA_FIELD_HEADER) (text : List Int)
    (n : nmea) : gsv_frame k n (decode_field k text n) :=
  gsv_frame_trans (gsv_frame_start k hk n)
    (gsv_frame_trans (gsv_frame_foldl k hk text _) (gsv_frame_end k hk _))

theorem dec_foldl_ge (ds : List Nat) (v : Nat) : v ≤ ds.foldl (fun a d => 10 * a + d) v := by
  induction ds generalizing v with
  | nil => exact le_refl _
  | cons d t ih =>
    rw [List.foldl_cons]
    exact le_trans (by omega) (ih (10 * v + d))

/-- The integer decode of digits: the decimal value, as long as it fits 64
bit. -/
theorem ufxp_run_digits (ds : List Nat) (hds : ∀ d ∈ ds, d < 10) (s : nmea_fxp_state)
    (hp : s.dp = 0)
    (hb : ds.foldl (fun a d => 10 * a + d) s.val < 18446744073709551616) :
    (ufxp_run 0 (digits ds) s).val = ds.foldl (fun a d => 10 * a + d) s.val := by
  induction ds generalizing s with
  | nil => rfl
  | cons d t ih =>
    have hd : d < 10 := hds d (List.mem_cons_self _ _)
    have ht : ∀ e ∈ t, e < 10 := fun e he => hds e (List.mem_cons_of_mem _ he)
    rw [List.foldl_cons] at hb ⊢
    have hge := dec_foldl_ge t (10 * s.val + d)
    have hne : digit_char d ≠ 46 := by unfold digit_char; omega
    have hinc : wrap64 (to_u64 (digit_char d - 48) <<< 0) = d := by
      rw [to_u64_digit d hd]
      exact wrap64_of_lt _ (by show d < _; omega)
    have hstep : ufxp_from_ascii s (digit_char d) 0 = { s with val := 10 * s.val + d } := by
      unfold ufxp_from_ascii
      rw [if_neg hne, if_pos hp, hinc]
      have e : wrap64 (wrap64 (s.val * 10) + d) = 10 * s.val + d := by
        simp only [wrap64]; omega
      rw [e, if_neg (by omega)]
    show (ufxp_run 0 (digits t) (ufxp_from_ascii s (digit_char d) 0)).val = _
    rw [hstep]
    exact ih ht { s with val := 10 * s.val + d } hp hb

theorem ufxp_decode_digits (ds : List Nat) (hds : ∀ d ∈ ds, d < 10)
    (hb : dec ds < 18446744073709551616) : ufxp_decode 0 (digits ds) = dec ds :=
  ufxp_run_digits ds hds _ rfl hb

/-- The characters of an integer field go to the decoder with no fractional
bits. -/
theorem ui_fold (text : List Int) (n : nmea) :
    text.foldl ui_char_handler n
      = { n with state := { n.state with fxpse := ufxp_run 0 text n.state.fxpse } } := by
  induction text generalizing n with
  | nil => rfl
  | cons c t ih =>
    rw [List.foldl_cons, ih]
    rfl

/-- An integer field read: the decoder holds the decode of the text. -/
theorem ui_read (text : List Int) (n : nmea) :
    text.foldl ui_char_handler (ufxp_init_start_handler n)
      = { n with state := { n.state with
            fxpse := ufxp_run 0 text (ufxp_init n.state.fxpse) } } := by
  rw [ui_fold]
  rfl

theorem ui_read_val (text : List Int) (n : nmea) :
    ufxp_get_val (text.foldl ui_char_handler (ufxp_init_start_handler n)).state.fxpse
      = ufxp_decode 0 text := by
  rw [ui_read]
  exact ufxp_run_init 0 text n.state.fxpse

theorem gsv_kind_rest (j : Nat) (hj : 2 ≤ j) :
    kind_at (sentence_ptr.lut 3) j ≠ NMEA_FIELD_GSV_SENTENCES_TOTAL ∧
    kind_at (sentence_ptr.lut 3) j ≠ NMEA_FIELD_SENTENCE_NO := by
  by_cases h : j < 19
  · interval_cases j <;> decide
  · have : kind_at (sentence_ptr.lut 3) j = NMEA_FIELD_IGNORE := by
      unfold kind_at
      rw [if_neg (by show ¬ j < 19; exact h)]
    rw [this]
    decide

/-- The GSV fields after the sentence number leave the total, the number and
the received-sentence bitmap alone. -/
theorem gsv_rest_fields (fs : List (List Int)) (j : Nat) (hj : 2 ≤ j) (y : nmea) :
    (decode_fields (sentence_ptr.lut 3) j fs y).state.gsv_sentences_received
      = y.state.gsv_sentences_received ∧
    (decode_fields (sentence_ptr.lut 3) j fs y).state.gsv_sentences_total
      = y.state.gsv_sentences_total ∧
    (decode_fields (sentence_ptr.lut 3) j fs y).state.gsv_sentence_no
      = y.state.gsv_sentence_no := by
  induction fs generalizing j y with
  | nil => exact ⟨rfl, rfl, rfl⟩
  | cons f t ih =>
    have hk := gsv_kind_rest j hj
    have hf := gsv_frame_decode_field (kind_at (sentence_ptr.lut 3) j)
      (kind_at_ne_header _ _) f y
    have := ih (j + 1) (by omega) (decode_field (kind_at (sentence_ptr.lut 3) j) f y)
    simp only [decode_fields]
    rw [this.1, this.2.1, this.2.2, hf.received, hf.total hk.1, hf.number hk.2]
    exact ⟨rfl, rfl, rfl⟩

/-- The aggregation cells after the fields of a GSV sentence whose first two
fields are `total` and `number`. -/
theorem gsv_sentence_cells (total number : List Int) (rest : List (List Int)) (a : nmea) :
    (decode_sentence 3 (total :: number :: rest) a).state.gsv_sentences_received
      = a.state.gsv_sentences_received ∧
    (decode_sentence 3 (total :: number :: rest) a).state.gsv_sentences_total
      = ufxp_decode 0 total % 256 ∧
    (decode_sentence 3 (total :: number :: rest) a).state.gsv_sentence_no
      = ufxp_decode 0 number % 256 := by
  unfold decode_sentence
  simp only [decode_fields]
  have h := gsv_rest_fields rest 2 (le_refl _)
    (decode_field (kind_at (sentence_ptr.lut 3) (0 + 1)) number
      (decode_field (kind_at (sentence_ptr.lut 3) 0) total (sentence_open 3 a)))
  rw [h.1, h.2.1, h.2.2]
  have k0 : kind_at (sentence_ptr.lut 3) 0 = NMEA_FIELD_GSV_SENTENCES_TOTAL := by decide
  have k1 : kind_at (sentence_ptr.lut 3) (0 + 1) = NMEA_FIELD_SENTENCE_NO := by decide
  rw [k0, k1]
  have f1 := gsv_frame_decode_field NMEA_FIELD_SENTENCE_NO (by decide) number
    (decode_field NMEA_FIELD_GSV_SENTENCES_TOTAL total (sentence_open 3 a))
  have f0 := gsv_frame_decode_field NMEA_FIELD_GSV_SENTENCES_TOTAL (by decide) total
    (sentence_open 3 a)
  refine ⟨?_, ?_, ?_⟩
  · rw [f1.received, f0.received]; rfl
  · rw [f1.total (by decide)]
    show ufxp_get_val (total.foldl ui_char_handler
      (ufxp_init_start_handler (sentence_open 3 a))).state.fxpse % 256 = _
    rw [ui_read_val]
  · show ufxp_get_val (number.foldl ui_char_handler (ufxp_init_start_handler
      (decode_field NMEA_FIELD_GSV_SENTENCES_TOTAL total (sentence_open 3 a)))).state.fxpse % 256 = _
    rw [ui_read_val]

theorem gsv_fields_plain (N : Nat) (m : gsv_msg) (h : gsv_wf N m) :
    ∀ f ∈ gsv_fields m, ∀ c ∈ f, c ≠ 36 ∧ c ≠ 44 ∧ c ≠ 42 := by
  intro f hf
  unfold gsv_fields at hf
  rcases List.mem_cons.mp hf with rfl | hf
  · exact digits_plain _ h.1
  · rcases List.mem_cons.mp hf with rfl | hf
    · exact digits_plain _ h.2.1
    · exact h.2.2.2.2.2.1 f hf

theorem gsv_body_plain (N : Nat) (m : gsv_msg) (h : gsv_wf N m) :
    ∀ c ∈ gsv_body m, c ≠ 36 ∧ c ≠ 42 := by
  intro c hc
  unfold gsv_body at hc
  rcases List.mem_append.mp hc with hc | hc
  · exact header_literal_plain 3 (by decide) c hc
  · exact join_fields_plain _ (gsv_fields_plain N m h) c hc

/-- One correctly checksummed GSV sentence: the end hook runs on the cells
the fields left, with the sentence's own total and number. -/
theorem gsv_sentence_pass (a : nmea) (N : Nat) (m : gsv_msg) (hN : N ≤ 8) (h : gsv_wf N m) :
    test_parse_string a (gsv_text m)
      = capture_off (gsv_end_handler (first_digit (gsv_at_star a m) m.x)) ∧
    (gsv_at_star a m).state.gsv_sentences_received = a.state.gsv_sentences_received ∧
    (gsv_at_star a m).state.gsv_sentences_total = N ∧
    (gsv_at_star a m).state.gsv_sentence_no = dec m.number ∧
    bits_subset (gsv_at_star a m).state.received a.state.received ∧
    (gsv_at_star a m).state.field_bitmap
      = field_mask a.state.field ||| touched (sentence_ptr.lut 3) 0 (gsv_fields m) := by
  have hplain := gsv_fields_plain N m h
  have hbody := gsv_body_plain N m h
  have hlen : (gsv_fields m).length ≤ 256 := by
    show m.rest.length + 1 + 1 ≤ 256
    have := h.2.2.2.2.2.2.1
    omega
  have hstar := to_star a (gsv_body m) hbody
  have hfs := fields_at_star a 3 (by decide) (gsv_fields m) hplain hlen
  have hcore := sentence_core a 3 (by decide) (gsv_fields m) hplain hlen
  have hcells := gsv_sentence_cells (digits m.total) (digits m.number) m.rest a
  have ht : ufxp_decode 0 (digits m.total) % 256 = N := by
    rw [ufxp_decode_digits _ h.1 (by rw [h.2.2.1]; omega), h.2.2.1]
    exact Nat.mod_eq_of_lt (by omega)
  have hn : ufxp_decode 0 (digits m.number) % 256 = dec m.number := by
    have := h.2.2.2.2.1
    rw [ufxp_decode_digits _ h.2.1 (by omega)]
    exact Nat.mod_eq_of_lt (by omega)
  rw [ht, hn] at hcells
  have e : test_parse_string a (gsv_text m)
      = test_parse_string (gsv_at_star a m) [m.x, m.y] := by
    unfold gsv_text gsv_at_star
    simp only [test_parse_string, List.foldl_cons, List.foldl_append, List.foldl_nil]
  have hgs : gsv_at_star a m
      = test_parse_string a (36 :: ((header_literal 3 ++ join_fields (gsv_fields m)) ++ [42])) := rfl
  rw [e]
  rw [← hgs] at hfs hcore
  have hst : gsv_at_star a m = test_parse_string a (36 :: (gsv_body m ++ [42])) := rfl
  rw [← hst] at hstar
  obtain ⟨-, -, -, hr, hc, hck, hsub, -⟩ := hstar
  generalize gsv_at_star a m = s at hfs hcore hr hc hck hsub
  have hr' : s.state.checksum_recording ≠ 0 := by rw [hr]; decide
  have hp := digits_pass s m.x m.y h.2.2.2.2.2.2.2.1 h.2.2.2.2.2.2.2.2.1 hr' hc
    (h.2.2.2.2.2.2.2.2.2.trans hck.symm)
  rw [hfs.1] at hp
  refine ⟨hp, ?_, ?_, ?_, hsub, hfs.2⟩
  · rw [hcore.gsv_sentences_received]; exact hcells.1
  · rw [hcore.gsv_sentences_total]; exact hcells.2.1
  · rw [hcore.gsv_sentence_no]; exact hcells.2.2

theorem marks_lt (b : Nat) (ks : List Nat) (h : marks b ks) (hk : ∀ k ∈ ks, k ≤ 8) :
    b < 256 := by
  show b < 2 ^ 8
  apply Nat.lt_pow_two_of_testBit b
  intro i hi
  cases hb : b.testBit i
  · rfl
  · have := hk _ ((h i).mp hb)
    omega

theorem marks_or (b : Nat) (ks : List Nat) (h : marks b ks) (k : Nat) (hk : 1 ≤ k) :
    marks (b ||| 1 <<< (k - 1)) (k :: ks) := by
  intro i
  rw [Nat.testBit_or, Nat.one_shiftLeft, Nat.testBit_two_pow, Bool.or_eq_true, h i,
    decide_eq_true_iff, List.mem_cons]
  constructor
  · rintro (h1 | h1)
    · exact Or.inr h1
    · exact Or.inl (by omega)
  · rintro (h1 | h1)
    · exact Or.inr (by omega)
    · exact Or.inl h1

theorem full_iff (b N : Nat) : b = (1 <<< N) - 1 ↔ ∀ i, b.testBit i = true ↔ i < N := by
  rw [Nat.one_shiftLeft]
  constructor
  · intro h i
    rw [h, Nat.testBit_two_pow_sub_one, decide_eq_true_iff]
  · intro h
    apply Nat.eq_of_testBit_eq
    intro i
    rw [Nat.testBit_two_pow_sub_one]
    cases hb : b.testBit i
    · have : ¬ i < N := fun hi => by
        have := (h i).mpr hi
        rw [hb] at this
        exact Bool.false_ne_true this
      simp [this]
    · have := (h i).mp hb
      simp [this]

/-- Distinct numbers from 1 to `N`: all of them are marked exactly when there
are `N` of them. -/
theorem marks_full_iff (b N : Nat) (ks : List Nat) (h : marks b ks) (hnd : ks.Nodup)
    (hr : ∀ k ∈ ks, 1 ≤ k ∧ k ≤ N) : b = (1 <<< N) - 1 ↔ ks.length = N := by
  have hsub : ks ⊆ List.range' 1 N := by
    intro k hk
    have := hr k hk
    rw [List.mem_range']
    exact ⟨k - 1, by omega, by omega⟩
  have hle : ks.length ≤ N := by
    have := (hnd.subperm hsub).length_le
    rwa [List.length_range'] at this
  rw [full_iff]
  constructor
  · intro hf
    have hsup : List.range' 1 N ⊆ ks := by
      intro k hk
      rw [List.mem_range'] at hk
      obtain ⟨i, hi, rfl⟩ := hk
      have := (h i).mp ((hf i).mpr hi)
      have e : 1 + 1 * i = i + 1 := by omega
      rw [e]
      exact this
    have hge := ((List.nodup_range' 1 N).subperm hsup).length_le
    rw [List.length_range'] at hge
    omega
  · intro hl i
    have hperm : ks.Perm (List.range' 1 N) :=
      (hnd.subperm hsub).perm_of_length_le (by rw [List.length_range']; omega)
    rw [h i, hperm.mem_iff, List.mem_range']
    constructor
    · rintro ⟨j, hj, e⟩
      omega
    · intro hi
      exact ⟨i, hi, by omega⟩

/-- The end hook of a GSV sentence numbered `k` of `N`, with the numbers `ks`
marked before: it commits exactly when `k` completes the `N` numbers. -/
theorem gsv_end_step (s : nmea) (N k : Nat) (ks : List Nat) (hN : N ≤ 8)
    (hno : s.state.gsv_sentence_no = k) (htot : s.state.gsv_sentences_total = N)
    (hm : marks s.state.gsv_sentences_received ks) (hnd : (k :: ks).Nodup)
    (hk : 1 ≤ k ∧ k ≤ N) (hr : ∀ j ∈ ks, 1 ≤ j ∧ j ≤ N) :
    (ks.length + 1 = N →
      gsv_end_handler s = { s with state := { s.state with
        received := s.state.received ||| s.state.field_bitmap,
        gsv_sentences_received := 0, gsv_satellite_index := 0 } }) ∧
    (ks.length + 1 ≠ N →
      gsv_end_handler s = { s with state := { s.state with
        gsv_sentences_received := s.state.gsv_sentences_received ||| 1 <<< (k - 1) } }) ∧
    marks (s.state.gsv_sentences_received ||| 1 <<< (k - 1)) (k :: ks) := by
  have hb := marks_lt _ ks hm (fun j hj => le_trans (hr j hj).2 hN)
  have hm' := marks_or _ ks hm k hk.1
  have hbit : 1 <<< (k - 1) < 256 := by
    rw [Nat.one_shiftLeft]
    have : k - 1 < 8 := by omega
    calc 2 ^ (k - 1) < 2 ^ 8 := Nat.pow_lt_pow_right (by decide) this
      _ = 256 := by decide
  have hor : s.state.gsv_sentences_received ||| 1 <<< (k - 1) < 2 ^ 8 :=
    Nat.or_lt_two_pow hb hbit
  have hrcv : (s.state.gsv_sentences_received ||| gsv_sentence_bit s.state.gsv_sentence_no) % 256
      = s.state.gsv_sentences_received ||| 1 <<< (k - 1) := by
    unfold gsv_sentence_bit
    rw [hno, if_neg (by omega), Nat.mod_eq_of_lt hbit]
    exact Nat.mod_eq_of_lt hor
  have hfull := marks_full_iff _ N (k :: ks) hm' hnd (by
    intro j hj
    rcases List.mem_cons.mp hj with rfl | hj
    · exact hk
    · exact hr j hj)
  have hgt : ¬ s.state.gsv_sentence_no > 8 := by rw [hno]; omega
  refine ⟨?_, ?_, hm'⟩
  · intro hl
    have : s.state.gsv_sentences_received ||| 1 <<< (k - 1) = (1 <<< N) - 1 :=
      hfull.mpr (by simpa using hl)
    unfold gsv_end_handler
    simp only [hgt, if_false, hrcv, htot, this, if_true]
  · intro hl
    have : s.state.gsv_sentences_received ||| 1 <<< (k - 1) ≠ (1 <<< N) - 1 :=
      fun h => hl (by simpa using hfull.mp h)
    unfold gsv_end_handler
    simp only [hgt, if_false, hrcv, htot, this]

/-- One correctly checksummed GSV sentence of a group of `N`, the numbers
`ks` received before. -/
theorem gsv_step (a : nmea) (N : Nat) (m : gsv_msg) (ks : List Nat) (hN : N ≤ 8)
    (h : gsv_wf N m) (hm : marks a.state.gsv_sentences_received ks)
    (hnd : (dec m.number :: ks).Nodup) (hr : ∀ j ∈ ks, 1 ≤ j ∧ j ≤ N) :
    (ks.length + 1 = N →
      (test_parse_string a (gsv_text m)).state.received
        = (gsv_at_star a m).state.received ||| (gsv_at_star a m).state.field_bitmap ∧
      (test_parse_string a (gsv_text m)).state.gsv_sentences_received = 0 ∧
      (test_parse_string a (gsv_text m)).state.gsv_satellite_index = 0) ∧
    (ks.length + 1 ≠ N →
      (test_parse_string a (gsv_text m)).state.received = (gsv_at_star a m).state.received ∧
      marks (test_parse_string a (gsv_text m)).state.gsv_sentences_received
        (dec m.number :: ks) ∧
      (test_parse_string a (gsv_text m)).state.gsv_satellite_index
        = (gsv_at_star a m).state.gsv_satellite_index) ∧
    bits_subset (gsv_at_star a m).state.received a.state.received ∧
    (gsv_at_star a m).state.field_bitmap
      = field_mask a.state.field ||| touched (sentence_ptr.lut 3) 0 (gsv_fields m) := by
  obtain ⟨hp, hrc, htot, hno, hsub, hfb⟩ := gsv_sentence_pass a N m hN h
  have hs := gsv_end_step (first_digit (gsv_at_star a m) m.x) N (dec m.number) ks hN hno htot
    (by show marks (gsv_at_star a m).state.gsv_sentences_received ks; rw [hrc]; exact hm)
    hnd ⟨h.2.2.2.1, h.2.2.2.2.1⟩ hr
  refine ⟨?_, ?_, hsub, hfb⟩
  · intro hl
    rw [hp, hs.1 hl]
    exact ⟨rfl, rfl, rfl⟩
  · intro hl
    rw [hp, hs.2.1 hl]
    exact ⟨rfl, hs.2.2, rfl⟩

theorem sat_at_set (l : List nmea_sat) (i : Nat) (v : nmea_sat) (h : i < l.length) :
    sat_at (l.set i v) i = v := by
  induction l generalizing i with
  | nil => simp at h
  | cons a t ih =>
    cases i with
    | zero => rfl
    | succ j =>
      simp only [List.length_cons] at h
      exact ih j (by omega)

theorem sat_set_set (l : List nmea_sat) (i : Nat) (v w : nmea_sat) :
    (l.set i v).set i w = l.set i w := by
  induction l generalizing i with
  | nil => rfl
  | cons a t ih =>
    cases i with
    | zero => rfl
    | succ j =>
      show a :: (t.set j v).set j w = a :: t.set j w
      rw [ih]

/-- The satellite array and the satellite index after one PRN, ELEVATION or
AZIMUTH field below the capacity: the member of the current slot is replaced
by the decode of the text. -/
theorem sat_member_field (f : List Int) (y : nmea)
    (h : y.state.gsv_satellite_index < NMEA_MAX_SATS) :
    ((decode_field NMEA_FIELD_PRN f y).data.sats
        = y.data.sats.set y.state.gsv_satellite_index
            { sat_at y.data.sats y.state.gsv_satellite_index with
              prn := ufxp_decode 0 f % 256 } ∧
      (decode_field NMEA_FIELD_PRN f y).state.gsv_satellite_index
        = y.state.gsv_satellite_index) ∧
    ((decode_field NMEA_FIELD_ELEVATION f y).data.sats
        = y.data.sats.set y.state.gsv_satellite_index
            { sat_at y.data.sats y.state.gsv_satellite_index with
              elevation := ufxp_decode 0 f % 256 } ∧
      (decode_field NMEA_FIELD_ELEVATION f y).state.gsv_satellite_index
        = y.state.gsv_satellite_index) ∧
    ((decode_field NMEA_FIELD_AZIMUTH f y).data.sats
        = y.data.sats.set y.state.gsv_satellite_index
            { sat_at y.data.sats y.state.gsv_satellite_index with
              azimuth := ufxp_decode 0 f % 65536 } ∧
      (decode_field NMEA_FIELD_AZIMUTH f y).state.gsv_satellite_index
        = y.state.gsv_satellite_index) ∧
    ((decode_field NMEA_FIELD_SNR f y).data.sats
        = y.data.sats.set y.state.gsv_satellite_index
            { sat_at y.data.sats y.state.gsv_satellite_index with
              snr := ufxp_decode 0 f % 256 } ∧
      (decode_field NMEA_FIELD_SNR f y).state.gsv_satellite_index
        = (y.state.gsv_satellite_index + 1) % 256) := by
  have hv := ui_read_val f y
  have hr := ui_read f y
  have hn : ¬ y.state.gsv_satellite_index ≥ NMEA_MAX_SATS := by omega
  refine ⟨?_, ?_, ?_, ?_⟩
  · show (prn_end_handler (f.foldl ui_char_handler (ufxp_init_start_handler y))).data.sats = _ ∧
      (prn_end_handler (f.foldl ui_char_handler (ufxp_init_start_handler y))).state.gsv_satellite_index
        = _
    unfold prn_end_handler
    simp only
    rw [hv, hr]
    rw [if_neg hn]
    exact ⟨rfl, rfl⟩
  · show (elevation_end_handler (f.foldl ui_char_handler (ufxp_init_start_handler y))).data.sats = _ ∧
      (elevation_end_handler
        (f.foldl ui_char_handler (ufxp_init_start_handler y))).state.gsv_satellite_index = _
    unfold elevation_end_handler
    simp only
    rw [hv, hr]
    rw [if_neg hn]
    exact ⟨rfl, rfl⟩
  · show (azimuth_end_handler (f.foldl ui_char_handler (ufxp_init_start_handler y))).data.sats = _ ∧
      (azimuth_end_handler
        (f.foldl ui_char_handler (ufxp_init_start_handler y))).state.gsv_satellite_index = _
    unfold azimuth_end_handler
    simp only
    rw [hv, hr]
    rw [if_neg hn]
    exact ⟨rfl, rfl⟩
  · show (snr_end_handler (f.foldl ui_char_handler (ufxp_init_start_handler y))).data.sats = _ ∧
      (snr_end_handler
        (f.foldl ui_char_handler (ufxp_init_start_handler y))).state.gsv_satellite_index = _
    unfold snr_end_handler
    simp only
    rw [hv, hr]
    rw [if_neg hn]
    exact ⟨rfl, rfl⟩

/-- The four fields of one satellite below the capacity: the current slot
holds the written values and the index moves on. -/
theorem sat_block (s : sat_text) (hs : sat_ok s) (y : nmea)
    (hi : y.state.gsv_satellite_index < NMEA_MAX_SATS)
    (hl : y.state.gsv_satellite_index < y.data.sats.length) :
    (decode_field NMEA_FIELD_SNR (digits s.snr)
      (decode_field NMEA_FIELD_AZIMUTH (digits s.azimuth)
        (decode_field NMEA_FIELD_ELEVATION (digits s.elevation)
          (decode_field NMEA_FIELD_PRN (digits s.prn) y)))).data.sats
      = y.data.sats.set y.state.gsv_satellite_index (sat_value s) ∧
    (decode_field NMEA_FIELD_SNR (digits s.snr)
      (decode_field NMEA_FIELD_AZIMUTH (digits s.azimuth)
        (decode_field NMEA_FIELD_ELEVATION (digits s.elevation)
          (decode_field NMEA_FIELD_PRN (digits s.prn) y)))).state.gsv_satellite_index
      = y.state.gsv_satellite_index + 1 := by
  obtain ⟨⟨p1, p2⟩, ⟨e1, e2⟩, ⟨a1, a2⟩, ⟨s1, s2⟩⟩ := hs
  have hp := (sat_member_field (digits s.prn) y hi).1
  rw [ufxp_decode_digits _ p1 p2] at hp
  generalize decode_field NMEA_FIELD_PRN (digits s.prn) y = y1 at hp
  have hi1 : y1.state.gsv_satellite_index < NMEA_MAX_SATS := by rw [hp.2]; exact hi
  have he := (sat_member_field (digits s.elevation) y1 hi1).2.1
  rw [ufxp_decode_digits _ e1 e2] at he
  generalize decode_field NMEA_FIELD_ELEVATION (digits s.elevation) y1 = y2 at he
  have hi2 : y2.state.gsv_satellite_index < NMEA_MAX_SATS := by rw [he.2]; exact hi1
  have ha := (sat_member_field (digits s.azimuth) y2 hi2).2.2.1
  rw [ufxp_decode_digits _ a1 a2] at ha
  generalize decode_field NMEA_FIELD_AZIMUTH (digits s.azimuth) y2 = y3 at ha
  have hi3 : y3.state.gsv_satellite_index < NMEA_MAX_SATS := by rw [ha.2]; exact hi2
  have hn := (sat_member_field (digits s.snr) y3 hi3).2.2.2
  rw [ufxp_decode_digits _ s1 s2] at hn
  generalize decode_field NMEA_FIELD_SNR (digits s.snr) y3 = y4 at hn
  have hidx : y3.state.gsv_satellite_index = y.state.gsv_satellite_index := by
    rw [ha.2, he.2, hp.2]
  refine ⟨?_, ?_⟩
  · rw [hn.1, ha.1, he.1, hp.1, ha.2, he.2, hp.2]
    generalize y.state.gsv_satellite_index = i at hl
    simp only [sat_set_set, sat_at_set _ _ _ hl]
    rfl
  · rw [hn.2, hidx]
    exact Nat.mod_eq_of_lt (by unfold NMEA_MAX_SATS at hi; omega)

/-- The total, number and in-view fields of a GSV sentence leave the
satellite array and the satellite index alone. -/
theorem sat_lead (t k v : List Int) (y : nmea) :
    (decode_field NMEA_FIELD_SATELLITES_IN_VIEW v
      (decode_field NMEA_FIELD_SENTENCE_NO k
        (decode_field NMEA_FIELD_GSV_SENTENCES_TOTAL t y))).data.sats = y.data.sats ∧
    (decode_field NMEA_FIELD_SATELLITES_IN_VIEW v
      (decode_field NMEA_FIELD_SENTENCE_NO k
        (decode_field NMEA_FIELD_GSV_SENTENCES_TOTAL t y))).state.gsv_satellite_index
      = y.state.gsv_satellite_index := by
  have h1 : decode_field NMEA_FIELD_GSV_SENTENCES_TOTAL t y
      = gsv_sentences_total_end_handler (t.foldl ui_char_handler (ufxp_init_start_handler y)) := rfl
  have h2 : ∀ z, decode_field NMEA_FIELD_SENTENCE_NO k z
      = sentence_no_end_handler (k.foldl ui_char_handler (ufxp_init_start_handler z)) :=
    fun _ => rfl
  have h3 : ∀ z, decode_field NMEA_FIELD_SATELLITES_IN_VIEW v z
      = satellites_in_view_end_handler (v.foldl ui_char_handler (ufxp_init_start_handler z)) :=
    fun _ => rfl
  rw [h3, h2, h1, ui_read, ui_read, ui_read]
  exact ⟨rfl, rfl⟩

theorem gsv_kinds :
    kind_at (sentence_ptr.lut 3) 0 = NMEA_FIELD_GSV_SENTENCES_TOTAL ∧
    kind_at (sentence_ptr.lut 3) 1 = NMEA_FIELD_SENTENCE_NO ∧
    kind_at (sentence_ptr.lut 3) 2 = NMEA_FIELD_SATELLITES_IN_VIEW ∧
    (kind_at (sentence_ptr.lut 3) 3 = NMEA_FIELD_PRN ∧
     kind_at (sentence_ptr.lut 3) 4 = NMEA_FIELD_ELEVATION ∧
     kind_at (sentence_ptr.lut 3) 5 = NMEA_FIELD_AZIMUTH ∧
     kind_at (sentence_ptr.lut 3) 6 = NMEA_FIELD_SNR) ∧
    (kind_at (sentence_ptr.lut 3) 7 = NMEA_FIELD_PRN ∧
     kind_at (sentence_ptr.lut 3) 8 = NMEA_FIELD_ELEVATION ∧
     kind_at (sentence_ptr.lut 3) 9 = NMEA_FIELD_AZIMUTH ∧
     kind_at (sentence_ptr.lut 3) 10 = NMEA_FIELD_SNR) ∧
    (kind_at (sentence_ptr.lut 3) 11 = NMEA_FIELD_PRN ∧
     kind_at (sentence_ptr.lut 3) 12 = NMEA_FIELD_ELEVATION ∧
     kind_at (sentence_ptr.lut 3) 13 = NMEA_FIELD_AZIMUTH ∧
     kind_at (sentence_ptr.lut 3) 14 = NMEA_FIELD_SNR) ∧
    (kind_at (sentence_ptr.lut 3) 15 = NMEA_FIELD_PRN ∧
     kind_at (sentence_ptr.lut 3) 16 = NMEA_FIELD_ELEVATION ∧
     kind_at (sentence_ptr.lut 3) 17 = NMEA_FIELD_AZIMUTH ∧
     kind_at (sentence_ptr.lut 3) 18 = NMEA_FIELD_SNR) := by
  decide

/-- The satellite array and index after the fields of a GSV sentence with
four satellites: four slots from the index on hold the written values. -/
theorem gsv_sentence_sats (t k : List Int) (v : List Nat) (s0 s1 s2 s3 : sat_text)
    (h0 : sat_ok s0) (h1 : sat_ok s1) (h2 : sat_ok s2) (h3 : sat_ok s3) (a : nmea)
    (hi : a.state.gsv_satellite_index + 4 ≤ NMEA_MAX_SATS)
    (hl : a.state.gsv_satellite_index + 4 ≤ a.data.sats.length) :
    (decode_sentence 3 (t :: k :: gsv_rest4 v s0 s1 s2 s3) a).data.sats
      = (((a.data.sats.set a.state.gsv_satellite_index (sat_value s0)).set
            (a.state.gsv_satellite_index + 1) (sat_value s1)).set
            (a.state.gsv_satellite_index + 2) (sat_value s2)).set
            (a.state.gsv_satellite_index + 3) (sat_value s3) ∧
    (decode_sentence 3 (t :: k :: gsv_rest4 v s0 s1 s2 s3) a).state.gsv_satellite_index
      = a.state.gsv_satellite_index + 4 := by
  obtain ⟨k0, k1, k2, ⟨k3, k4, k5, k6⟩, ⟨k7, k8, k9, k10⟩, ⟨k11, k12, k13, k14⟩,
    ⟨k15, k16, k17, k18⟩⟩ := gsv_kinds
  unfold decode_sentence gsv_rest4 sat_fields
  simp only [List.cons_append, List.nil_append, decode_fields, Nat.reduceAdd, k0, k1, k2, k3, k4,
    k5, k6, k7, k8, k9, k10, k11, k12, k13, k14, k15, k16, k17, k18]
  have hlead := sat_lead t k (digits v) (sentence_open 3 a)
  generalize decode_field NMEA_FIELD_SATELLITES_IN_VIEW (digits v)
    (decode_field NMEA_FIELD_SENTENCE_NO k
      (decode_field NMEA_FIELD_GSV_SENTENCES_TOTAL t (sentence_open 3 a))) = y0 at hlead
  have hs : (sentence_open 3 a).data.sats = a.data.sats := rfl
  have hx : (sentence_open 3 a).state.gsv_satellite_index = a.state.gsv_satellite_index := rfl
  rw [hs, hx] at hlead
  obtain ⟨hy0s, hy0i⟩ := hlead
  unfold NMEA_MAX_SATS at hi
  have b0 := sat_block s0 h0 y0 (by rw [hy0i]; unfold NMEA_MAX_SATS; omega)
    (by rw [hy0i, hy0s]; omega)
  generalize decode_field NMEA_FIELD_SNR (digits s0.snr)
    (decode_field NMEA_FIELD_AZIMUTH (digits s0.azimuth)
      (decode_field NMEA_FIELD_ELEVATION (digits s0.elevation)
        (decode_field NMEA_FIELD_PRN (digits s0.prn) y0))) = y1 at b0
  rw [hy0s, hy0i] at b0
  obtain ⟨hy1s, hy1i⟩ := b0
  have b1 := sat_block s1 h1 y1 (by rw [hy1i]; unfold NMEA_MAX_SATS; omega)
    (by rw [hy1i, hy1s, List.length_set]; omega)
  generalize decode_field NMEA_FIELD_SNR (digits s1.snr)
    (decode_field NMEA_FIELD_AZIMUTH (digits s1.azimuth)
      (decode_field NMEA_FIELD_ELEVATION (digits s1.elevation)
        (decode_field NMEA_FIELD_PRN (digits s1.prn) y1))) = y2 at b1
  rw [hy1s, hy1i] at b1
  obtain ⟨hy2s, hy2i⟩ := b1
  have b2 := sat_block s2 h2 y2 (by rw [hy2i]; unfold NMEA_MAX_SATS; omega)
    (by rw [hy2i, hy2s, List.length_set, List.length_set]; omega)
  generalize decode_field NMEA_FIELD_SNR (digits s2.snr)
    (decode_field NMEA_FIELD_AZIMUTH (digits s2.azimuth)
      (decode_field NMEA_FIELD_ELEVATION (digits s2.elevation)
        (decode_field NMEA_FIELD_PRN (digits s2.prn) y2))) = y3 at b2
  rw [hy2s, hy2i] at b2
  obtain ⟨hy3s, hy3i⟩ := b2
  have b3 := sat_block s3 h3 y3 (by rw [hy3i]; unfold NMEA_MAX_SATS; omega)
    (by rw [hy3i, hy3s, List.length_set, List.length_set, List.length_set]; omega)
  rw [hy3s, hy3i] at b3
  exact b3

/-- After a non-empty list of comma-led fields the current field kind is the
one the format has at the last comma count. -/
theorem fields_run_field (fs : List (List Int)) (x : nmea) (p : sentence_ptr)
    (hfs : ∀ f ∈ fs, ∀ c ∈ f, c ≠ 36 ∧ c ≠ 44 ∧ c ≠ 42)
    (hr : x.state.checksum_recording = 0) (hp : closes_to x p)
    (hlen : x.state.comma_count + fs.length ≤ 256) (hne : fs ≠ []) :
    (test_parse_string x (join_fields fs)).state.field
      = kind_at p (x.state.comma_count + fs.length - 1) ∧
    (test_parse_string x (join_fields fs)).state.checksum_recording = 0 := by
  induction fs generalizing x with
  | nil => exact absurd rfl hne
  | cons f t ih =>
    have hf := hfs f (List.mem_cons_self _ _)
    have ht : ∀ g ∈ t, ∀ c ∈ g, c ≠ 36 ∧ c ≠ 44 ∧ c ≠ 42 :=
      fun g hg => hfs g (List.mem_cons_of_mem _ hg)
    simp only [List.length_cons] at hlen ⊢
    have hcm := parse_comma x hr
    have hsel : (nmea_parse x 44).state.sentence = p := hcm.2.2.2.2.2.2.2.trans hp
    have hfr := field_run f (nmea_parse x 44) hf hcm.2.2.2.2.1
    show (test_parse_string x (44 :: (f ++ join_fields t))).state.field = _ ∧
      (test_parse_string x (44 :: (f ++ join_fields t))).state.checksum_recording = 0
    rw [test_parse_string_cons, test_parse_string_append]
    generalize test_parse_string (nmea_parse x 44) f = m at hfr
    obtain ⟨hmr, hmf, hmfh, hmcc, hms, -⟩ := hfr
    have hkind : m.state.field = kind_at p x.state.comma_count := by
      rw [hmf, hcm.1, hsel]
    by_cases hte : t = []
    · subst hte
      refine ⟨?_, hmr⟩
      show m.state.field = _
      rw [hkind]
      simp
    · have htl : 0 < t.length := List.length_pos.mpr hte
      have hmne : m.state.field_handlers ≠ NMEA_FIELD_HEADER := by
        rw [hmfh, hcm.2.1, hcm.1]; exact kind_at_ne_header _ _
      have hmp : closes_to m p := closes_to_of_body m p hmne (hms.trans hsel)
      have hmcc' : m.state.comma_count = x.state.comma_count + 1 := by
        rw [hmcc, hcm.2.2.2.2.2.1]
        exact Nat.mod_eq_of_lt (by omega)
      have := ih m ht hmr hmp (by rw [hmcc']; omega) hte
      rw [hmcc'] at this
      refine ⟨?_, this.2⟩
      rw [this.1]
      congr 1
      omega

/-- At the `*` of a sentence of format `i` with at least one field the
current field kind is the one of the last field. -/
theorem field_at_star (n : nmea) (i : Nat) (hi : i < 6) (fs : List (List Int))
    (hfs : ∀ f ∈ fs, ∀ c ∈ f, c ≠ 36 ∧ c ≠ 44 ∧ c ≠ 42) (hlen : fs.length ≤ 256)
    (hne : fs ≠ []) :
    (test_parse_string n (36 :: ((header_literal i ++ join_fields fs) ++ [42]))).state.field
      = kind_at (sentence_ptr.lut i) (fs.length - 1) := by
  obtain ⟨hbl, hh, -, hloop, hpow⟩ := hdr_bitmap_literal i hi
  have e : test_parse_string n (36 :: ((header_literal i ++ join_fields fs) ++ [42]))
      = nmea_parse (test_parse_string
          (test_parse_string (nmea_parse n 36) (header_literal i)) (join_fields fs)) 42 := by
    simp only [test_parse_string, List.foldl_cons, List.foldl_append, List.foldl_nil]
  rw [e]
  have hrun := hdr_run (header_literal i) (nmea_parse n 36) hh rfl rfl
  generalize test_parse_string (nmea_parse n 36) (header_literal i) = b at hrun
  obtain ⟨hr, hf, hbm, -, hcc, -, -, -⟩ := hrun
  have hbm' : b.state.sentence_bitmap = 1 <<< i := hbm.trans hbl
  have hcl : closes_to b (sentence_ptr.lut i) := by
    unfold closes_to
    rw [hf]
    have := header_end_sentence (unready b)
    have hub : (unready b).state.sentence_bitmap = 1 <<< i := hbm'
    rw [hub, if_pos hpow, hloop] at this
    exact this
  have hcc0 : b.state.comma_count = 0 := hcc
  have := fields_run_field fs b (sentence_ptr.lut i) hfs hr hcl (by rw [hcc0]; omega) hne
  rw [hcc0, Nat.zero_add] at this
  rw [(parse_star _ this.2).1, this.1]

theorem with_char_count_frame (n : nmea) (k : Nat) :
    (with_char_count n k).data = n.data ∧
    (with_char_count n k).state.gsv_satellite_index = n.state.gsv_satellite_index :=
  ⟨rfl, rfl⟩

theorem gsv_end_handler_frame (n : nmea) :
    (gsv_end_handler n).state.field = n.state.field ∧ (gsv_end_handler n).data = n.data := by
  unfold gsv_end_handler
  simp only
  split_ifs <;> exact ⟨rfl, rfl⟩

/-- After a correctly checksummed GSV sentence: the current field kind is
that of its last field, the fix snapshot is that of its fields decoded in
turn, and at its `*` the satellite index is the one the fields left. -/
theorem gsv_sentence_after (a : nmea) (N : Nat) (m : gsv_msg) (hN : N ≤ 8) (h : gsv_wf N m) :
    (test_parse_string a (gsv_text m)).state.field
      = kind_at (sentence_ptr.lut 3) (m.rest.length + 1) ∧
    (test_parse_string a (gsv_text m)).data = (decode_sentence 3 (gsv_fields m) a).data ∧
    (gsv_at_star a m).state.gsv_satellite_index
      = (decode_sentence 3 (gsv_fields m) a).state.gsv_satellite_index := by
  have hplain := gsv_fields_plain N m h
  have hlen : (gsv_fields m).length ≤ 256 := by
    show m.rest.length + 1 + 1 ≤ 256
    have := h.2.2.2.2.2.2.1
    omega
  have hcore := sentence_core a 3 (by decide) (gsv_fields m) hplain hlen
  have hp := (gsv_sentence_pass a N m hN h).1
  have hfield := field_at_star a 3 (by decide) (gsv_fields m) hplain hlen
    (by unfold gsv_fields; exact List.cons_ne_nil _ _)
  have hfl : (gsv_fields m).length - 1 = m.rest.length + 1 := rfl
  rw [hfl] at hfield
  have hgs : gsv_at_star a m
      = test_parse_string a (36 :: ((header_literal 3 ++ join_fields (gsv_fields m)) ++ [42])) := rfl
  rw [← hgs] at hcore hfield
  have hcd := hcore.data.trans (with_char_count_frame _ 0).1
  have hci := hcore.gsv_satellite_index.trans (with_char_count_frame _ 0).2
  generalize decode_sentence 3 (gsv_fields m) a = dm at hcd hci
  generalize gsv_at_star a m = s at hp hfield hcd hci
  refine ⟨?_, ?_, hci⟩
  · rw [hp]
    show (gsv_end_handler (first_digit s m.x)).state.field = _
    rw [(gsv_end_handler_frame _).1]
    exact hfield
  · rw [hp]
    show (gsv_end_handler (first_digit s m.x)).data = _
    rw [(gsv_end_handler_frame _).2]
    exact hcd

theorem marks_zero : marks 0 [] := by
  intro i
  simp

theorem dec_ne_zero_ne_nil (ds : List Nat) (h : dec ds ≠ 0) : digits ds ≠ [] := by
  intro he
  cases ds with
  | nil => exact h rfl
  | cons d t => simp [digits] at he

theorem gsv_rest4_length (v : List Nat) (s0 s1 s2 s3 : sat_text) :
    (gsv_rest4 v s0 s1 s2 s3).length = 17 := rfl

/-! ### Signed decode, literals, sentence fields, tracked PRNs, time and date -/

theorem fxp_run_neg (q : Nat) (text : List Int) (s : nmea_fxp_state) :
    (fxp_run q text s).neg ≠ 0 ↔ (s.neg ≠ 0 ∨ (45 : Int) ∈ text) := by
  induction text generalizing s with
  | nil => simp [fxp_run]
  | cons c t ih =>
    show (fxp_run q t (fxp_from_ascii s c q)).neg ≠ 0 ↔ _
    rw [ih]
    by_cases hc : c = 45
    · subst hc
      simp [fxp_from_ascii]
    · have hn : (fxp_from_ascii s c q).neg = s.neg := by
        unfold fxp_from_ascii ufxp_from_ascii
        rw [if_neg hc]
        simp only []
        split_ifs <;> rfl
      rw [hn, List.mem_cons]
      constructor
      · rintro (h | h)
        · exact Or.inl h
        · exact Or.inr (Or.inr h)
      · rintro (h | h | h)
        · exact Or.inl h
        · exact absurd h.symm hc
        · exact Or.inr h

theorem fxp_run_val (q : Nat) (text : List Int) (s t : nmea_fxp_state)
    (hv : s.val = t.val) (hd : s.div = t.div) (hp : s.dp = t.dp) :
    (fxp_run q text s).val = (ufxp_run q (text.filter (fun c => decide (c ≠ 45))) t).val := by
  induction text generalizing s t with
  | nil => exact hv
  | cons c r ih =>
    show (fxp_run q r (fxp_from_ascii s c q)).val = _
    by_cases hc : c = 45
    · subst hc
      rw [List.filter_cons_of_neg (by simp)]
      exact ih _ _ hv hd hp
    · rw [List.filter_cons_of_pos (by simpa using hc)]
      show _ = (ufxp_run q _ (ufxp_from_ascii t c q)).val
      have hstep : (fxp_from_ascii s c q).val = (ufxp_from_ascii t c q).val ∧
          (fxp_from_ascii s c q).div = (ufxp_from_ascii t c q).div ∧
          (fxp_from_ascii s c q).dp = (ufxp_from_ascii t c q).dp := by
        unfold fxp_from_ascii
        rw [if_neg hc]
        unfold ufxp_from_ascii
        simp only [hv, hd, hp]
        split_ifs <;> exact ⟨rfl, rfl, rfl⟩
      exact ih _ _ hstep.1 hstep.2.1 hstep.2.2

/-- The integer digits of a literal from a decoder that holds `a * 2^q`: the
value is the decimal continuation of `a`, shifted, as long as that fits 64
bit. -/
theorem ufxp_run_intpart (q : Nat) (hq : q ≤ 56) (ds : List Nat) (hds : ∀ d ∈ ds, d < 10)
    (s : nmea_fxp_state) (a : Nat) (hp : s.dp = 0) (hv : s.val = a * 2 ^ q)
    (hb : ds.foldl (fun a d => 10 * a + d) a * 2 ^ q < 18446744073709551616) :
    ufxp_run q (digits ds) s
      = { s with val := ds.foldl (fun a d => 10 * a + d) a * 2 ^ q } := by
  induction ds generalizing s a with
  | nil =>
    obtain ⟨sv, sd, sp, sn⟩ := s
    simp only at hv
    subst hv
    rfl
  | cons d t ih =>
    have hd : d < 10 := hds d (List.mem_cons_self _ _)
    have ht : ∀ e ∈ t, e < 10 := fun e he => hds e (List.mem_cons_of_mem _ he)
    rw [List.foldl_cons] at hb ⊢
    have hge := dec_foldl_ge t (10 * a + d)
    have hne : digit_char d ≠ 46 := by unfold digit_char; omega
    have hinc := (inc_digit d q hd hq).1
    have hle : (10 * a + d) * 2 ^ q ≤ t.foldl (fun a d => 10 * a + d) (10 * a + d) * 2 ^ q :=
      Nat.mul_le_mul_right _ hge
    have hfin : (10 * a + d) * 2 ^ q = a * 2 ^ q * 10 + d * 2 ^ q := by ring
    have hstep : ufxp_from_ascii s (digit_char d) q
        = { s with val := (10 * a + d) * 2 ^ q } := by
      unfold ufxp_from_ascii
      rw [if_neg hne, if_pos hp, hinc, hv, hfin]
      rw [hfin] at hle
      generalize a * 2 ^ q = A at hle ⊢
      generalize d * 2 ^ q = B at hle ⊢
      have e : wrap64 (wrap64 (A * 10) + B) = A * 10 + B := by
        simp only [wrap64]; omega
      rw [e, if_neg (by omega)]
    show ufxp_run q (digits t) (ufxp_from_ascii s (digit_char d) q) = _
    rw [hstep]
    exact ih ht { s with val := (10 * a + d) * 2 ^ q } (10 * a + d) hp rfl hb

/-- The fractional digits from decimal place `i + 1` on are worth less than
one unit of place `i`. -/
theorem dec_frac_lt (fr : List Nat) (hfr : ∀ f ∈ fr, f < 10) (i : Nat) :
    dec_frac i fr < 1 / 10 ^ i := by
  induction fr generalizing i with
  | nil =>
    simp only [dec_frac]
    positivity
  | cons f t ih =>
    have hf : f < 10 := hfr f (List.mem_cons_self _ _)
    have ht : ∀ g ∈ t, g < 10 := fun g hg => hfr g (List.mem_cons_of_mem _ hg)
    simp only [dec_frac]
    have h2 := ih ht (i + 1)
    have hpos : (0 : ℚ) < 10 ^ (i + 1) := by positivity
    have hf' : (f : ℚ) ≤ 9 := by exact_mod_cast (by omega : f ≤ 9)
    have h1 : (f : ℚ) / 10 ^ (i + 1) ≤ 9 / 10 ^ (i + 1) := by
      apply div_le_div_of_nonneg_right hf' (le_of_lt hpos)
    have e : (1 : ℚ) / 10 ^ i = 9 / 10 ^ (i + 1) + 1 / 10 ^ (i + 1) := by
      rw [pow_succ]
      field_simp
      ring
    rw [e]
    linarith

theorem frac_sum_lt_pow (q : Nat) (fr : List Nat) (hfr : ∀ f ∈ fr, f < 10) :
    frac_sum q 0 fr < 2 ^ q := by
  have h1 := frac_sum_le q fr 0
  have h2 := dec_frac_lt fr hfr 0
  have hp : (0 : ℚ) < 2 ^ q := by positivity
  have h3 : dec_frac 0 fr * 2 ^ q < 1 * 2 ^ q := by
    apply mul_lt_mul_of_pos_right _ hp
    simpa using h2
  have : (frac_sum q 0 fr : ℚ) < ((2 ^ q : Nat) : ℚ) := by
    push_cast
    linarith
  exact_mod_cast this

/-- At least one fractional digit: the floors together lose less than one
unit per digit. -/
theorem frac_sum_gt (q : Nat) (fr : List Nat) (hne : fr ≠ []) (i : Nat) :
    dec_frac i fr * 2 ^ q - (frac_sum q i fr : ℚ) < fr.length := by
  cases fr with
  | nil => exact absurd rfl hne
  | cons f t =>
    simp only [frac_sum, dec_frac, List.length_cons]
    have hpos : (0 : ℚ) < 10 ^ (i + 1) := by positivity
    have hmod := Nat.div_add_mod (f * 2 ^ q) (10 ^ (i + 1))
    have hlt : (f * 2 ^ q) % 10 ^ (i + 1) < 10 ^ (i + 1) :=
      Nat.mod_lt _ (Nat.pos_pow_of_pos _ (by decide))
    have h1 : ((f * 2 ^ q : Nat) : ℚ) / 10 ^ (i + 1) - ((f * 2 ^ q / 10 ^ (i + 1) : Nat) : ℚ) < 1 := by
      rw [div_sub' _ _ _ (ne_of_gt hpos), div_lt_one hpos]
      have : ((f * 2 ^ q : Nat) : ℚ)
          = ((10 ^ (i + 1) : Nat) : ℚ) * ((f * 2 ^ q / 10 ^ (i + 1) : Nat) : ℚ)
            + (((f * 2 ^ q) % 10 ^ (i + 1) : Nat) : ℚ) := by
        exact_mod_cast hmod.symm
      have hlt' : (((f * 2 ^ q) % 10 ^ (i + 1) : Nat) : ℚ) < ((10 ^ (i + 1) : Nat) : ℚ) := by
        exact_mod_cast hlt
      push_cast at this hlt' ⊢
      linarith
    have h2 := frac_sum_ge q t (i + 1)
    push_cast at h1 ⊢
    have e : ((f : ℚ) / 10 ^ (i + 1) + dec_frac (i + 1) t) * 2 ^ q
        = (f : ℚ) * 2 ^ q / 10 ^ (i + 1) + dec_frac (i + 1) t * 2 ^ q := by ring
    rw [e]
    linarith

/-- The decode of a literal below the 64 bit limit, in closed form. -/
theorem literal_value (q : Nat) (hq : q ≤ 56) (ip : List Nat) (hip : ∀ d ∈ ip, d < 10)
    (frac : Option (List Nat)) (hfr : ∀ f ∈ frac.getD [], f < 10)
    (hfit : (dec ip + 1) * 2 ^ q ≤ 18446744073709551616) (s : nmea_fxp_state)
    (hv : s.val = 0) (hp : s.dp = 0) :
    (ufxp_run q (fixed_literal ip frac) s).val = reference_decode q ip frac := by
  have hI : dec ip * 2 ^ q + 2 ^ q ≤ 18446744073709551616 := by
    have : (dec ip + 1) * 2 ^ q = dec ip * 2 ^ q + 2 ^ q := by ring
    omega
  have hpos : 0 < 2 ^ q := Nat.pos_pow_of_pos _ (by decide)
  have hint := ufxp_run_intpart q hq ip hip s 0 hp (by rw [hv]; simp)
    (by show dec ip * 2 ^ q < _; omega)
  unfold fixed_literal reference_decode
  show (List.foldl _ s (_ ++ _)).val = _
  rw [List.foldl_append]
  change (List.foldl (fun s c => ufxp_from_ascii s c q) (ufxp_run q (digits ip) s) _).val = _
  rw [hint]
  cases frac with
  | none =>
    show dec ip * 2 ^ q = dec ip * 2 ^ q + frac_sum q 0 []
    simp [frac_sum]
  | some fr =>
    have hlt := frac_sum_lt_pow q fr hfr
    have hd0 : place_div 0 = 10 := by decide
    show (ufxp_run q (digits fr)
      (ufxp_from_ascii { s with val := dec ip * 2 ^ q } 46 q)).val = _
    have hdot : ufxp_from_ascii { s with val := dec ip * 2 ^ q } 46 q
        = { s with val := dec ip * 2 ^ q, dp := 1, div := 10 } := by
      unfold ufxp_from_ascii
      rw [if_pos rfl]
    rw [hdot]
    rw [ufxp_run_frac q hq fr hfr 0 _ (by show (1 : Nat) ≠ 0; decide) hd0.symm
      (by show dec ip * 2 ^ q + frac_sum q 0 fr < _; omega)]
    rfl

/-- After `$` and the header literal of format `i`: outside checksum capture,
no comma counted, and closing the header selects format `i` and runs its
start hook. -/
theorem header_closed (n : nmea) (i : Nat) (hi : i < 6) :
    (test_parse_string n (36 :: header_literal i)).state.checksum_recording = 0 ∧
    closes_to (test_parse_string n (36 :: header_literal i)) (sentence_ptr.lut i) ∧
    (test_parse_string n (36 :: header_literal i)).state.comma_count = 0 ∧
    core_eq ((HANDLER_LUT (test_parse_string n (36 :: header_literal i)).state.field_handlers).end_handler
        (unready (test_parse_string n (36 :: header_literal i))))
      (sentence_open i n) := by
  obtain ⟨hbl, hh, hne, hloop, hpow⟩ := hdr_bitmap_literal i hi
  rw [test_parse_string_cons]
  have hrun := hdr_run (header_literal i) (nmea_parse n 36) hh rfl rfl
  have hcore := core_hdr_run (header_literal i) (nmea_parse n 36) hh rfl rfl
    (by rw [header_literal_length i hi]; exact (by decide : (0 : Nat) + 5 < 256))
  rw [header_literal_length i hi] at hcore
  have hcore' : core_eq (test_parse_string (nmea_parse n 36) (header_literal i))
      (with_char_count n 5) :=
    core_eq_trans hcore ⟨rfl, rfl, rfl, rfl, rfl, rfl, rfl, rfl, rfl, rfl, rfl⟩
  generalize test_parse_string (nmea_parse n 36) (header_literal i) = a at hrun hcore'
  obtain ⟨hr, hf, hbm, -, hcc, -, hfb, -⟩ := hrun
  have hbm' : a.state.sentence_bitmap = 1 <<< i := hbm.trans hbl
  have hub : (unready a).state.sentence_bitmap = 1 <<< i := hbm'
  have hend : header_end_handler (unready a)
      = (sentence_format (sentence_ptr.lut i)).start_handler
          { unready a with state := { (unready a).state with sentence := sentence_ptr.lut i } } := by
    unfold header_end_handler
    simp only
    rw [hub, if_pos hpow, hloop]
  have hcl : closes_to a (sentence_ptr.lut i) := by
    unfold closes_to
    rw [hf]
    have := header_end_sentence (unready a)
    rw [hub, if_pos hpow, hloop] at this
    exact this
  refine ⟨hr, hcl, hcc, ?_⟩
  rw [hf]
  show core_eq (header_end_handler (unready a)) _
  rw [hend]
  have hsel : core_eq
      { unready a with state := { (unready a).state with sentence := sentence_ptr.lut i } } a :=
    ⟨rfl, rfl, rfl, rfl, rfl, rfl, rfl, rfl, rfl, rfl, rfl⟩
  exact core_sentence_start _ _ _ (core_eq_trans hsel hcore')

/-- After `$`, the header literal of format `i` and the comma-led fields
`fs`: closing the field that is current gives the fields decoded in turn. -/
theorem sentence_fields_core (n : nmea) (i : Nat) (hi : i < 6) (fs : List (List Int))
    (hfs : ∀ f ∈ fs, ∀ c ∈ f, c ≠ 36 ∧ c ≠ 44 ∧ c ≠ 42) (hlen : fs.length ≤ 256) :
    (test_parse_string n (36 :: (header_literal i ++ join_fields fs))).state.checksum_recording
      = 0 ∧
    closes_to (test_parse_string n (36 :: (header_literal i ++ join_fields fs)))
      (sentence_ptr.lut i) ∧
    core_eq ((HANDLER_LUT (test_parse_string n
          (36 :: (header_literal i ++ join_fields fs))).state.field_handlers).end_handler
        (unready (test_parse_string n (36 :: (header_literal i ++ join_fields fs)))))
      (decode_sentence i fs n) := by
  have e : test_parse_string n (36 :: (header_literal i ++ join_fields fs))
      = test_parse_string (test_parse_string n (36 :: header_literal i)) (join_fields fs) := by
    simp only [test_parse_string, List.foldl_cons, List.foldl_append]
  rw [e]
  obtain ⟨hr, hcl, hcc, hca⟩ := header_closed n i hi
  generalize test_parse_string n (36 :: header_literal i) = a at hr hcl hcc hca
  have hfr := core_fields_run fs a (sentence_open i n) (sentence_ptr.lut i) hfs hr hcl hca
    (by rw [hcc]; omega)
  rw [hcc] at hfr
  exact hfr

/-- The fix snapshot at the delimiter that closes the last of the fields `fs`
of a sentence of format `i` is that of the fields decoded in turn. -/
theorem sentence_close_data (n : nmea) (i : Nat) (hi : i < 6) (fs : List (List Int))
    (hfs : ∀ f ∈ fs, ∀ c ∈ f, c ≠ 36 ∧ c ≠ 44 ∧ c ≠ 42) (hlen : fs.length ≤ 256)
    (d : Int) (hd : d = 44 ∨ d = 42) :
    (test_parse_string n (36 :: ((header_literal i ++ join_fields fs) ++ [d]))).data
      = (decode_sentence i fs n).data := by
  have e : test_parse_string n (36 :: ((header_literal i ++ join_fields fs) ++ [d]))
      = nmea_parse (test_parse_string n (36 :: (header_literal i ++ join_fields fs))) d := by
    simp only [test_parse_string, List.foldl_cons, List.foldl_append, List.foldl_nil]
  rw [e]
  obtain ⟨hr, -, hc⟩ := sentence_fields_core n i hi fs hfs hlen
  rw [close_data _ d hr hd]
  exact hc.data

/-- The comma count after a list of comma-led fields, modulo 256. -/
theorem fields_run_count (fs : List (List Int)) (n : nmea) (p : sentence_ptr)
    (hfs : ∀ f ∈ fs, ∀ c ∈ f, c ≠ 36 ∧ c ≠ 44 ∧ c ≠ 42)
    (hr : n.state.checksum_recording = 0) (hp : closes_to n p)
    (hcc : n.state.comma_count < 256) :
    (test_parse_string n (join_fields fs)).state.checksum_recording = 0 ∧
    closes_to (test_parse_string n (join_fields fs)) p ∧
    (test_parse_string n (join_fields fs)).state.comma_count
      = (n.state.comma_count + fs.length) % 256 := by
  induction fs generalizing n with
  | nil => exact ⟨hr, hp, (Nat.mod_eq_of_lt hcc).symm⟩
  | cons f t ih =>
    have hf := hfs f (List.mem_cons_self _ _)
    have ht : ∀ g ∈ t, ∀ c ∈ g, c ≠ 36 ∧ c ≠ 44 ∧ c ≠ 42 :=
      fun g hg => hfs g (List.mem_cons_of_mem _ hg)
    have hc := parse_comma n hr
    have hsel : (nmea_parse n 44).state.sentence = p := hc.2.2.2.2.2.2.2.trans hp
    have hfr := field_run f (nmea_parse n 44) hf hc.2.2.2.2.1
    show (test_parse_string n (44 :: (f ++ join_fields t))).state.checksum_recording = 0 ∧
      closes_to (test_parse_string n (44 :: (f ++ join_fields t))) p ∧
      (test_parse_string n (44 :: (f ++ join_fields t))).state.comma_count = _
    rw [test_parse_string_cons, test_parse_string_append]
    generalize test_parse_string (nmea_parse n 44) f = m at hfr
    obtain ⟨hmr, -, hmfh, hmcc, hms, -⟩ := hfr
    have hmne : m.state.field_handlers ≠ NMEA_FIELD_HEADER := by
      rw [hmfh, hc.2.1, hc.1]; exact kind_at_ne_header _ _
    have hmp : closes_to m p := closes_to_of_body m p hmne (hms.trans hsel)
    have hmcc' : m.state.comma_count = (n.state.comma_count + 1) % 256 :=
      hmcc.trans hc.2.2.2.2.2.1
    have := ih m ht hmr hmp (by rw [hmcc']; exact Nat.mod_lt _ (by decide))
    refine ⟨this.1, this.2.1, ?_⟩
    rw [this.2.2, hmcc', List.length_cons]
    omega

theorem decode_field_ignore (text : List Int) (n : nmea) :
    decode_field NMEA_FIELD_IGNORE text n = n := by
  show ignore_handler (List.foldl ignore_char_handler (ignore_handler n) text) = n
  induction text with
  | nil => rfl
  | cons c t ih => exact ih

theorem slot_frame_refl (k : nmea_fields) (a : nmea) : slot_frame k a a :=
  ⟨fun _ _ => rfl, fun _ => rfl, fun _ => rfl⟩

theorem slot_frame_trans {k : nmea_fields} {a b c : nmea} (h1 : slot_frame k a b)
    (h2 : slot_frame k b c) : slot_frame k a c :=
  ⟨fun h h' => (h2.time h h').trans (h1.time h h'), fun h => (h2.prns h).trans (h1.prns h),
    fun h => (h2.index h).trans (h1.index h)⟩

theorem slot_frame_start (k : nmea_fields) (hk : k ≠ NMEA_FIELD_HEADER) (n : nmea) :
    slot_frame k n ((HANDLER_LUT k).start_handler n) := by
  cases k <;> first
    | exact absurd rfl hk
    | exact ⟨fun _ _ => rfl, fun _ => rfl, fun _ => rfl⟩

theorem slot_frame_char (k : nmea_fields) (hk : k ≠ NMEA_FIELD_HEADER) (n : nmea) (c : Int) :
    slot_frame k n ((HANDLER_LUT k).char_handler n c) := by
  cases k <;>
    simp only [HANDLER_LUT, longitude_char_handler, latitude_char_handler, lon_lat_char_handler,
      longitude_dir_char_handler, latitude_dir_char_handler, ui_char_handler,
      altitude_char_handler, geoid_height_char_handler, pdop_char_handler, hdop_char_handler,
      vdop_char_handler, gll_active_char_handler, rmc_active_char_handler, speed_char_handler,
      time_char_handler, date_char_handler, magnetic_variation_char_handler,
      magnetic_variation_dir_char_handler, ignore_char_handler, true_track_char_handler,
      magnetic_track_char_handler] <;>
    first
    | exact absurd rfl hk
    | exact ⟨fun _ _ => rfl, fun _ => rfl, fun _ => rfl⟩
    | (split_ifs <;> exact ⟨fun _ _ => rfl, fun _ => rfl, fun _ => rfl⟩)

theorem slot_frame_end (k : nmea_fields) (hk : k ≠ NMEA_FIELD_HEADER) (n : nmea) :
    slot_frame k n ((HANDLER_LUT k).end_handler n) := by
  cases k <;>
    simp only [HANDLER_LUT, longitude_end_handler, latitude_end_handler, ignore_handler,
      fix_quality_end_handler, satellites_tracked_end_handler, satellites_in_view_end_handler,
      altitude_end_handler, geoid_height_end_handler, fix_3d_end_handler,
      prns_tracked_end_handler, prn_end_handler, pdop_end_handler, hdop_end_handler,
      vdop_end_handler, speed_end_handler, time_end_handler, date_end_handler,
      magnetic_variation_end_handler, gsv_sentences_total_end_handler, sentence_no_end_handler,
      azimuth_end_handler, elevation_end_handler, snr_end_handler, true_track_end_handler,
      magnetic_track_end_handler] <;>
    first
    | exact absurd rfl hk
    | exact ⟨fun _ _ => rfl, fun _ => rfl, fun _ => rfl⟩
    | exact ⟨fun h _ => absurd rfl h, fun _ => rfl, fun _ => rfl⟩
    | exact ⟨fun _ h => absurd rfl h, fun _ => rfl, fun _ => rfl⟩
    | exact ⟨fun _ _ => rfl, fun h => absurd rfl h, fun h => absurd rfl h⟩
    | (split_ifs <;> first
        | exact ⟨fun _ _ => rfl, fun _ => rfl, fun _ => rfl⟩
        | exact ⟨fun _ _ => rfl, fun h => absurd rfl h, fun h => absurd rfl h⟩)

theorem slot_frame_foldl (k : nmea_fields) (hk : k ≠ NMEA_FIELD_HEADER) (text : List Int)
    (n : nmea) : slot_frame k n (text.foldl (HANDLER_LUT k).char_handler n) := by
  induction text generalizing n with
  | nil => exact slot_frame_refl k n
  | cons c t ih => exact slot_frame_trans (slot_frame_char k hk n c) (ih _)

theorem slot_frame_decode_field (k : nmea_fields) (hk : k ≠ NMEA_FIELD_HEADER) (text : List Int)
    (n : nmea) : slot_frame k n (decode_field k text n) :=
  slot_frame_trans (slot_frame_start k hk n)
    (slot_frame_trans (slot_frame_foldl k hk text _) (slot_frame_end k hk _))

/-- One tracked PRN field holding the digits `ds` of a value below 256: a
non-zero value is stored at the slot index, which moves on, while there is
room; an empty or zero field stores nothing. -/
theorem prn_field (ds : List Nat) (hds : ∀ d ∈ ds, d < 10) (hb : dec ds < 256) (y : nmea) :
    (decode_field NMEA_FIELD_PRNS_TRACKED (digits ds) y).data.prns_tracked
      = (if dec ds ≠ 0 ∧ y.state.gsa_satellite_index < 12
         then y.data.prns_tracked.set y.state.gsa_satellite_index (dec ds)
         else y.data.prns_tracked) ∧
    (decode_field NMEA_FIELD_PRNS_TRACKED (digits ds) y).state.gsa_satellite_index
      = (if dec ds ≠ 0 ∧ y.state.gsa_satellite_index < 12
         then (y.state.gsa_satellite_index + 1) % 256
         else y.state.gsa_satellite_index) := by
  have hv : ufxp_get_val
      (List.foldl ui_char_handler (ufxp_init_start_handler y) (digits ds)).state.fxpse = dec ds :=
    (ui_read_val _ y).trans (ufxp_decode_digits ds hds (by omega))
  have hd : (List.foldl ui_char_handler (ufxp_init_start_handler y) (digits ds)).data = y.data := by
    rw [ui_read]
  have hi : (List.foldl ui_char_handler (ufxp_init_start_handler y)
      (digits ds)).state.gsa_satellite_index = y.state.gsa_satellite_index := by
    rw [ui_read]
  show (prns_tracked_end_handler
      (List.foldl ui_char_handler (ufxp_init_start_handler y) (digits ds))).data.prns_tracked = _ ∧
    (prns_tracked_end_handler
      (List.foldl ui_char_handler (ufxp_init_start_handler y)
        (digits ds))).state.gsa_satellite_index = _
  generalize List.foldl ui_char_handler (ufxp_init_start_handler y) (digits ds) = m at hv hd hi
  unfold prns_tracked_end_handler NMEA_MAX_PRNS_TRACKED
  simp only [hv, hi, hd, Nat.mod_eq_of_lt hb]
  split_ifs
  · exact ⟨rfl, rfl⟩
  · exact ⟨hd ▸ rfl, hi⟩

theorem kind_at_prn (j : Nat) (h2 : 2 ≤ j) (h14 : j < 14) :
    kind_at (sentence_ptr.lut 2) j = NMEA_FIELD_PRNS_TRACKED := by
  interval_cases j <;> rfl

/-- The tracked PRN fields `ps` of a GSA sentence decoded in turn: the values
of the non-empty fields fill the slots from the slot index on. -/
theorem prn_fields (ps : List (List Nat)) (j : Nat) (y : nmea) (h2 : 2 ≤ j)
    (h14 : j + ps.length ≤ 14)
    (hps : ∀ p ∈ ps, (∀ d ∈ p, d < 10) ∧ (p = [] ∨ (1 ≤ dec p ∧ dec p ≤ 255)))
    (hidx : y.state.gsa_satellite_index + ps.length ≤ 12)
    (harr : y.data.prns_tracked.length = 12) :
    (decode_fields (sentence_ptr.lut 2) j (ps.map digits) y).data.prns_tracked
      = y.data.prns_tracked.take y.state.gsa_satellite_index ++ (prn_values ps ++
          y.data.prns_tracked.drop (y.state.gsa_satellite_index + (prn_values ps).length)) ∧
    (decode_fields (sentence_ptr.lut 2) j (ps.map digits) y).state.gsa_satellite_index
      = y.state.gsa_satellite_index + (prn_values ps).length := by
  induction ps generalizing j y with
  | nil =>
    refine ⟨?_, rfl⟩
    show y.data.prns_tracked = _
    simp [prn_values]
  | cons p t ih =>
    have hp := hps p (List.mem_cons_self _ _)
    have ht : ∀ r ∈ t, (∀ d ∈ r, d < 10) ∧ (r = [] ∨ (1 ≤ dec r ∧ dec r ≤ 255)) :=
      fun r hr => hps r (List.mem_cons_of_mem _ hr)
    simp only [List.length_cons] at h14 hidx
    have hb : dec p < 256 := by
      rcases hp.2 with h | h
      · subst h; decide
      · omega
    have hstep := prn_field p hp.1 hb y
    show (decode_fields (sentence_ptr.lut 2) (j + 1) (t.map digits)
        (decode_field (kind_at (sentence_ptr.lut 2) j) (digits p) y)).data.prns_tracked = _ ∧
      (decode_fields (sentence_ptr.lut 2) (j + 1) (t.map digits)
        (decode_field (kind_at (sentence_ptr.lut 2) j) (digits p) y)).state.gsa_satellite_index = _
    rw [kind_at_prn j h2 (by omega)]
    generalize decode_field NMEA_FIELD_PRNS_TRACKED (digits p) y = y1 at hstep
    obtain ⟨hs1, hs2⟩ := hstep
    by_cases hpe : p = []
    · subst hpe
      have h0 : dec [] = 0 := rfl
      rw [h0] at hs1 hs2
      rw [if_neg (by simp)] at hs1 hs2
      have := ih (j + 1) y1 (by omega) (by omega) ht (by rw [hs2]; omega) (by rw [hs1]; exact harr)
      rw [hs1, hs2] at this
      have hv : prn_values ([] :: t) = prn_values t := by
        simp [prn_values]
      rw [hv]
      exact this
    · have hne : dec p ≠ 0 := by
        rcases hp.2 with h | h
        · exact absurd h hpe
        · omega
      have hlt : y.state.gsa_satellite_index < 12 := by omega
      rw [if_pos ⟨hne, hlt⟩] at hs1 hs2
      rw [Nat.mod_eq_of_lt (by omega)] at hs2
      have := ih (j + 1) y1 (by omega) (by omega) ht (by rw [hs2]; omega)
        (by rw [hs1, List.length_set]; exact harr)
      rw [hs2] at this
      have hv : prn_values (p :: t) = dec p :: prn_values t := by
        simp [prn_values, hpe]
      rw [hv, this.1, this.2, hs1]
      refine ⟨?_, by simp only [List.length_cons]; omega⟩
      have hl : y.state.gsa_satellite_index < y.data.prns_tracked.length := by omega
      generalize y.state.gsa_satellite_index = i at hl ⊢
      generalize y.data.prns_tracked = l at hl ⊢
      generalize (prn_values t) = vs
      rw [List.set_eq_take_append_cons_drop]
      rw [if_pos hl]
      have hlen : (List.take i l).length = i := by
        rw [List.length_take]; omega
      have e1 : List.take (i + 1) (List.take i l ++ dec p :: List.drop (i + 1) l)
          = List.take i l ++ [dec p] := by
        rw [List.take_append_eq_append_take, hlen]
        have : i + 1 - i = 1 := by omega
        rw [this, List.take_of_length_le (by rw [hlen]; omega)]
        rfl
      have e2 : List.drop (i + 1 + vs.length) (List.take i l ++ dec p :: List.drop (i + 1) l)
          = List.drop (i + (dec p :: vs).length) l := by
        rw [List.drop_append_eq_append_drop, hlen]
        rw [List.drop_of_length_le (by rw [hlen]; omega)]
        have : i + 1 + vs.length - i = vs.length + 1 := by omega
        rw [this, List.nil_append, List.drop_succ_cons, List.drop_drop, List.length_cons]
        congr 1
        omega
      rw [e1, e2]
      simp

theorem start_gsa_satellite_index (k : nmea_fields) (n : nmea) :
    ((HANDLER_LUT k).start_handler n).state.gsa_satellite_index = n.state.gsa_satellite_index := by
  cases k <;> rfl

/-- A delimiter outside the checksum capture: the slot index of the tracked
PRN list is the one the end handler of the current field leaves. -/
theorem close_gsa_index (x : nmea) (d : Int) (hr : x.state.checksum_recording = 0)
    (hd : d = 44 ∨ d = 42) :
    (nmea_parse x d).state.gsa_satellite_index
      = ((HANDLER_LUT x.state.field_handlers).end_handler (unready x)).state.gsa_satellite_index := by
  rcases hd with rfl | rfl
  · rw [nmea_parse_comma x hr, field_update_eq]
    exact start_gsa_satellite_index _ _
  · rw [nmea_parse_star x hr]

theorem prn_values_length (ps : List (List Nat)) : (prn_values ps).length ≤ ps.length := by
  unfold prn_values
  rw [List.length_map]
  exact List.length_filter_le _ _

theorem date_switch_0 {α : Type} (h0 h1 h2 h3 h4 h5 h6 : Unit → α) :
    date_switch 0 h0 h1 h2 h3 h4 h5 h6 = h0 () := rfl

theorem date_switch_1 {α : Type} (h0 h1 h2 h3 h4 h5 h6 : Unit → α) :
    date_switch 1 h0 h1 h2 h3 h4 h5 h6 = h1 () := rfl

theorem date_switch_2 {α : Type} (h0 h1 h2 h3 h4 h5 h6 : Unit → α) :
    date_switch 2 h0 h1 h2 h3 h4 h5 h6 = h2 () := rfl

theorem date_switch_3 {α : Type} (h0 h1 h2 h3 h4 h5 h6 : Unit → α) :
    date_switch 3 h0 h1 h2 h3 h4 h5 h6 = h3 () := rfl

theorem date_switch_4 {α : Type} (h0 h1 h2 h3 h4 h5 h6 : Unit → α) :
    date_switch 4 h0 h1 h2 h3 h4 h5 h6 = h4 () := rfl

theorem date_switch_5 {α : Type} (h0 h1 h2 h3 h4 h5 h6 : Unit → α) :
    date_switch 5 h0 h1 h2 h3 h4 h5 h6 = h5 () := rfl

theorem date_char_handler_eq (n : nmea) (c : Int) :
    date_char_handler n c = date_char_switch n c := rfl

theorem date_month_regs_eq (se0 se1 scratch digit M : Nat)
    (hM : M = wrap64 (wrap64 (se0 + digit) + 18446744073709551615)) :
    date_month_regs se0 se1 scratch digit
      = (M, se1, if M > month_days.length then scratch else date_month_loop M 12 0 scratch) := by
  unfold date_month_regs
  rw [← hM]
  simp only []
  split_ifs <;> rfl

/-- The cells after one character of a date field, by character count: the
character count, `se.scratch[0]`, `se.scratch[1]` and `scratch`. -/
theorem date_char_cells (n : nmea) (c : Int) :
    (date_char_handler n c).state.char_count = (n.state.char_count + 1) % 256 ∧
    (date_char_handler n c).state.fxpse.val
      = (date_switch n.state.char_count
          (fun _ => (n.state.fxpse.val, n.state.fxpse.div,
            wrap64 (to_u64 (c - 48) * 10 * SECONDS_IN_DAY)))
          (fun _ => (n.state.fxpse.val, n.state.fxpse.div,
            wrap64 (wrap64 (n.state.scratch + wrap64 (to_u64 (c - 48) * SECONDS_IN_DAY))
              + (18446744073709551616 - SECONDS_IN_DAY))))
          (fun _ => (wrap64 (to_u64 (c - 48) * 10), n.state.fxpse.div, n.state.scratch))
          (fun _ => date_month_regs n.state.fxpse.val n.state.fxpse.div n.state.scratch
            (to_u64 (c - 48)))
          (fun _ => (n.state.fxpse.val, wrap64 (to_u64 (c - 48) * 10), n.state.scratch))
          (fun _ => date_year_regs n.state.fxpse.val n.state.fxpse.div n.state.scratch
            (to_u64 (c - 48)))
          (fun _ => (n.state.fxpse.val, n.state.fxpse.div, n.state.scratch))).1 ∧
    (date_char_handler n c).state.fxpse.div
      = (date_switch n.state.char_count
          (fun _ => (n.state.fxpse.val, n.state.fxpse.div,
            wrap64 (to_u64 (c - 48) * 10 * SECONDS_IN_DAY)))
          (fun _ => (n.state.fxpse.val, n.state.fxpse.div,
            wrap64 (wrap64 (n.state.scratch + wrap64 (to_u64 (c - 48) * SECONDS_IN_DAY))
              + (18446744073709551616 - SECONDS_IN_DAY))))
          (fun _ => (wrap64 (to_u64 (c - 48) * 10), n.state.fxpse.div, n.state.scratch))
          (fun _ => date_month_regs n.state.fxpse.val n.state.fxpse.div n.state.scratch
            (to_u64 (c - 48)))
          (fun _ => (n.state.fxpse.val, wrap64 (to_u64 (c - 48) * 10), n.state.scratch))
          (fun _ => date_year_regs n.state.fxpse.val n.state.fxpse.div n.state.scratch
            (to_u64 (c - 48)))
          (fun _ => (n.state.fxpse.val, n.state.fxpse.div, n.state.scratch))).2.1 ∧
    (date_char_handler n c).state.scratch
      = (date_switch n.state.char_count
          (fun _ => (n.state.fxpse.val, n.state.fxpse.div,
            wrap64 (to_u64 (c - 48) * 10 * SECONDS_IN_DAY)))
          (fun _ => (n.state.fxpse.val, n.state.fxpse.div,
            wrap64 (wrap64 (n.state.scratch + wrap64 (to_u64 (c - 48) * SECONDS_IN_DAY))
              + (18446744073709551616 - SECONDS_IN_DAY))))
          (fun _ => (wrap64 (to_u64 (c - 48) * 10), n.state.fxpse.div, n.state.scratch))
          (fun _ => date_month_regs n.state.fxpse.val n.state.fxpse.div n.state.scratch
            (to_u64 (c - 48)))
          (fun _ => (n.state.fxpse.val, wrap64 (to_u64 (c - 48) * 10), n.state.scratch))
          (fun _ => date_year_regs n.state.fxpse.val n.state.fxpse.div n.state.scratch
            (to_u64 (c - 48)))
          (fun _ => (n.state.fxpse.val, n.state.fxpse.div, n.state.scratch))).2.2 := by
  rw [date_char_handler_eq]
  exact ⟨rfl, rfl, rfl, rfl⟩

/-- The first day digit (character count 0). -/
theorem date_char_0 (n : nmea) (c : Int) (h : n.state.char_count = 0) :
    (date_char_handler n c).state.char_count = 1 ∧
    (date_char_handler n c).state.fxpse.val = n.state.fxpse.val ∧
    (date_char_handler n c).state.fxpse.div = n.state.fxpse.div ∧
    (date_char_handler n c).state.scratch = wrap64 (to_u64 (c - 48) * 10 * SECONDS_IN_DAY) := by
  obtain ⟨h1, h2, h3, h4⟩ := date_char_cells n c
  rw [h] at h1 h2 h3 h4
  rw [date_switch_0] at h2 h3 h4
  exact ⟨h1, h2, h3, h4⟩

/-- The second day digit (character count 1). -/
theorem date_char_1 (n : nmea) (c : Int) (h : n.state.char_count = 1) :
    (date_char_handler n c).state.char_count = 2 ∧
    (date_char_handler n c).state.fxpse.val = n.state.fxpse.val ∧
    (date_char_handler n c).state.fxpse.div = n.state.fxpse.div ∧
    (date_char_handler n c).state.scratch
      = wrap64 (wrap64 (n.state.scratch + wrap64 (to_u64 (c - 48) * SECONDS_IN_DAY))
          + (18446744073709551616 - SECONDS_IN_DAY)) := by
  obtain ⟨h1, h2, h3, h4⟩ := date_char_cells n c
  rw [h] at h1 h2 h3 h4
  rw [date_switch_1] at h2 h3 h4
  exact ⟨h1, h2, h3, h4⟩

/-- The first month digit (character count 2). -/
theorem date_char_2 (n : nmea) (c : Int) (h : n.state.char_count = 2) :
    (date_char_handler n c).state.char_count = 3 ∧
    (date_char_handler n c).state.fxpse.val = wrap64 (to_u64 (c - 48) * 10) ∧
    (date_char_handler n c).state.fxpse.div = n.state.fxpse.div ∧
    (date_char_handler n c).state.scratch = n.state.scratch := by
  obtain ⟨h1, h2, h3, h4⟩ := date_char_cells n c
  rw [h] at h1 h2 h3 h4
  rw [date_switch_2] at h2 h3 h4
  exact ⟨h1, h2, h3, h4⟩

/-- The second month digit (character count 3): the month register and the
seconds of the months before. -/
theorem date_char_3 (n : nmea) (c : Int) (M : Nat) (h : n.state.char_count = 3)
    (hM : M = wrap64 (wrap64 (n.state.fxpse.val + to_u64 (c - 48)) + 18446744073709551615)) :
    (date_char_handler n c).state.char_count = 4 ∧
    (date_char_handler n c).state.fxpse.val = M ∧
    (date_char_handler n c).state.fxpse.div = n.state.fxpse.div ∧
    (date_char_handler n c).state.scratch
      = (if M > month_days.length then n.state.scratch
         else date_month_loop M 12 0 n.state.scratch) := by
  obtain ⟨h1, h2, h3, h4⟩ := date_char_cells n c
  rw [h] at h1 h2 h3 h4
  rw [date_switch_3, date_month_regs_eq _ _ _ _ M hM] at h2 h3 h4
  exact ⟨h1, h2, h3, h4⟩

/-- The first year digit (character count 4). -/
theorem date_char_4 (n : nmea) (c : Int) (h : n.state.char_count = 4) :
    (date_char_handler n c).state.char_count = 5 ∧
    (date_char_handler n c).state.fxpse.val = n.state.fxpse.val ∧
    (date_char_handler n c).state.fxpse.div = wrap64 (to_u64 (c - 48) * 10) ∧
    (date_char_handler n c).state.scratch = n.state.scratch := by
  obtain ⟨h1, h2, h3, h4⟩ := date_char_cells n c
  rw [h] at h1 h2 h3 h4
  rw [date_switch_4] at h2 h3 h4
  exact ⟨h1, h2, h3, h4⟩

/-- The second year digit (character count 5). -/
theorem date_char_5 (n : nmea) (c : Int) (h : n.state.char_count = 5) :
    (date_char_handler n c).state.char_count = 6 ∧
    (date_char_handler n c).state.scratch
      = (date_year_regs n.state.fxpse.val n.state.fxpse.div n.state.scratch
          (to_u64 (c - 48))).2.2 := by
  obtain ⟨h1, -, -, h4⟩ := date_char_cells n c
  rw [h] at h1 h4
  rw [date_switch_5] at h4
  exact ⟨h1, h4⟩

theorem date_foldl_data (text : List Int) (n : nmea) :
    (text.foldl date_char_handler n).data = n.data := by
  induction text generalizing n with
  | nil => rfl
  | cons c t ih =>
    rw [List.foldl_cons, ih, date_char_handler_eq]
    rfl

/-- The six digits of a date field, entered with character count 0: `scratch`
depends on the digits only. -/
theorem date_six (z : nmea) (dd : List Nat) (hlen : dd.length = 6)
    (hcc : z.state.char_count = 0) :
    ((digits dd).foldl date_char_handler z).state.scratch = date_scratch dd := by
  have key : ∀ (a b : nmea) (c0 c1 c2 c3 c4 c5 : Int), a.state.char_count = 0 →
      b.state.char_count = 0 →
      (date_char_handler (date_char_handler (date_char_handler (date_char_handler
        (date_char_handler (date_char_handler a c0) c1) c2) c3) c4) c5).state.scratch
      = (date_char_handler (date_char_handler (date_char_handler (date_char_handler
        (date_char_handler (date_char_handler b c0) c1) c2) c3) c4) c5).state.scratch := by
    intro a b c0 c1 c2 c3 c4 c5 ha hb
    have a0 := date_char_0 a c0 ha
    have b0 := date_char_0 b c0 hb
    have a1 := date_char_1 _ c1 a0.1
    have b1 := date_char_1 _ c1 b0.1
    have a2 := date_char_2 _ c2 a1.1
    have b2 := date_char_2 _ c2 b1.1
    have a3 := date_char_3 _ c3 _ a2.1 rfl
    have b3 := date_char_3 _ c3 _ b2.1 rfl
    have a4 := date_char_4 _ c4 a3.1
    have b4 := date_char_4 _ c4 b3.1
    have a5 := date_char_5 _ c5 a4.1
    have b5 := date_char_5 _ c5 b4.1
    rw [a5.2, b5.2, a4.2.1, b4.2.1, a4.2.2.1, b4.2.2.1, a4.2.2.2, b4.2.2.2,
      a3.2.1, b3.2.1, a3.2.2.2, b3.2.2.2, a2.2.1, b2.2.1, a2.2.2.2, b2.2.2.2,
      a1.2.2.2, b1.2.2.2, a0.2.2.2, b0.2.2.2]
  match dd, hlen with
  | [a, b, c, d, e, f], _ =>
    exact key z (reset_cc_start_handler fresh) _ _ _ _ _ _ hcc rfl

theorem to_u64_to_s64 (x : Nat) : to_u64 (to_s64 x) = x % 18446744073709551616 := by
  unfold to_s64 to_u64
  have hlt : x % 18446744073709551616 < 18446744073709551616 := Nat.mod_lt _ (by decide)
  generalize x % 18446744073709551616 = k at hlt
  split_ifs with h
  · have : ((k : Nat) : Int) % 18446744073709551616 = (k : Int) := by omega
    rw [this]
    exact Int.toNat_ofNat k
  · have : (((k : Nat) : Int) - 18446744073709551616) % 18446744073709551616 = (k : Int) := by
      omega
    rw [this]
    exact Int.toNat_ofNat k

theorem decode_fields_append (p : sentence_ptr) (a b : List (List Int)) (j : Nat) (y : nmea) :
    decode_fields p j (a ++ b) y = decode_fields p (j + a.length) b (decode_fields p j a y) := by
  induction a generalizing j y with
  | nil => rfl
  | cons f t ih =>
    show decode_fields p (j + 1) (t ++ b) _ = _
    rw [ih]
    have e : j + 1 + t.length = j + (f :: t).length := by
      simp only [List.length_cons]; omega
    rw [e]
    rfl

/-- Fields whose kinds are neither the time nor the date kind leave
`data.time` alone. -/
theorem decode_fields_time (p : sentence_ptr) (gs : List (List Int)) (j : Nat) (y : nmea)
    (h : ∀ t, t < gs.length →
      kind_at p (j + t) ≠ NMEA_FIELD_TIME ∧ kind_at p (j + t) ≠ NMEA_FIELD_DATE) :
    (decode_fields p j gs y).data.time = y.data.time := by
  induction gs generalizing j y with
  | nil => rfl
  | cons f t ih =>
    have h0 := h 0 (by simp)
    have hf := slot_frame_decode_field (kind_at p j) (kind_at_ne_header _ _) f y
    show (decode_fields p (j + 1) t (decode_field (kind_at p j) f y)).data.time = _
    rw [ih (j + 1) _ (by
      intro u hu
      have := h (u + 1) (by simp only [List.length_cons]; omega)
      have e : j + (u + 1) = j + 1 + u := by omega
      rw [e] at this
      exact this)]
    exact hf.time h0.1 h0.2

/-- In the RMC format only the kinds at comma counts 0 and 8 are the time and
the date kind. -/
theorem rmc_kind_other (j : Nat) (h0 : j ≠ 0) (h8 : j ≠ 8) :
    kind_at (sentence_ptr.lut 4) j ≠ NMEA_FIELD_TIME ∧
    kind_at (sentence_ptr.lut 4) j ≠ NMEA_FIELD_DATE := by
  by_cases h : j < 12
  · interval_cases j <;> first
      | exact absurd rfl h0
      | exact absurd rfl h8
      | decide
  · have : kind_at (sentence_ptr.lut 4) j = NMEA_FIELD_IGNORE := by
      unfold kind_at
      rw [if_neg (by show ¬ j < 12; exact h)]
    rw [this]
    decide

/-- A time field that starts with six digits of a time of day and has at most
256 characters, read with a representable non-negative old time: the stored
time is congruent to the seconds of the day modulo the day. -/
theorem time_field_residue (y : nmea) (td : List Nat) (trest : List Int)
    (htd : td.length = 6) (htd10 : ∀ x ∈ td, x < 10) (hday : time_of_day td < 86400)
    (htl : trest.length ≤ 250) (h0 : 0 ≤ y.data.time)
    (h1 : y.data.time ≤ 9223372036854775807) :
    to_u64 (decode_field NMEA_FIELD_TIME (digits td ++ trest) y).data.time % 86400
      = time_of_day td := by
  match td, htd with
  | [a, b, c, d, e, f], _ =>
    have hs := time_six (reset_cc_start_handler y) a b c d e f
      (htd10 a (by simp)) (htd10 b (by simp)) (htd10 c (by simp)) (htd10 d (by simp))
      (htd10 e (by simp)) (htd10 f (by simp)) rfl
    show to_u64 (time_end_handler (List.foldl time_char_handler (reset_cc_start_handler y)
        (digits [a, b, c, d, e, f] ++ trest))).data.time % 86400 = _
    rw [List.foldl_append]
    generalize List.foldl time_char_handler (reset_cc_start_handler y)
      (digits [a, b, c, d, e, f]) = m at hs
    obtain ⟨hms, hmc, hmd⟩ := hs
    have hr := time_rest trest m (by rw [hmc]) (by rw [hmc]; omega)
    generalize List.foldl time_char_handler m trest = w at hr
    obtain ⟨hws, hwd⟩ := hr
    have hsec : w.state.scratch = time_of_day [a, b, c, d, e, f] := hws.trans hms
    have hwt : w.data.time = y.data.time := by rw [hwd, hmd]; rfl
    obtain ⟨t, ht⟩ := Int.eq_ofNat_of_zero_le h0
    have htlt : t < 9223372036854775808 := by
      rw [ht] at h1; omega
    have hu : to_u64 w.data.time = t := by
      rw [hwt, to_u64_of_nonneg _ h0 (by rw [ht]; omega), ht]
      exact Int.toNat_ofNat t
    unfold time_end_handler
    simp only [hu, SECONDS_IN_DAY, hsec, to_u64_to_s64]
    generalize time_of_day [a, b, c, d, e, f] = s at hday ⊢
    have hfl : t / 86400 * 86400 ≤ t := Nat.div_mul_le_self t 86400
    have hF : t / 86400 * 86400 % 86400 = 0 := Nat.mul_mod_left _ _
    generalize t / 86400 * 86400 = F at hfl hF ⊢
    have e1 : F % 18446744073709551616 = F := Nat.mod_eq_of_lt (by omega)
    have e2 : (F + s) % 18446744073709551616 = F + s := Nat.mod_eq_of_lt (by omega)
    simp only [wrap64, e1, e2]
    omega

/-- A date field of six digits: the stored time is the old time modulo the
day plus the century offset plus the seconds the digits give. -/
theorem date_field_value (z : nmea) (dd : List Nat) (hlen : dd.length = 6) :
    (decode_field NMEA_FIELD_DATE (digits dd) z).data.time
      = to_s64 (wrap64 (to_u64 z.data.time % 86400 + 946684800 + date_scratch dd)) := by
  have hs := date_six (reset_cc_start_handler z) dd hlen rfl
  have hd := date_foldl_data (digits dd) (reset_cc_start_handler z)
  show (date_end_handler (List.foldl date_char_handler (reset_cc_start_handler z)
      (digits dd))).data.time = _
  generalize List.foldl date_char_handler (reset_cc_start_handler z) (digits dd) = m at hs hd
  unfold date_end_handler
  simp only [hs, hd, SECONDS_IN_DAY, NMEA_CENTURY_OFFSET]
  rfl

theorem time_date_value_eq (td dd : List Nat) (htd : td.length = 6) (htd10 : ∀ x ∈ td, x < 10)
    (hday : time_of_day td < 86400) (hdd : dd.length = 6) :
    time_date_value td dd
      = to_s64 (wrap64 (time_of_day td + 946684800 + date_scratch dd)) := by
  unfold time_date_value
  rw [date_field_value _ dd hdd]
  have := time_field_residue fresh td [] htd htd10 hday (by simp) (by decide) (by decide)
  rw [List.append_nil] at this
  rw [this]

/-- The time of an RMC sentence: with a time field that starts with six
digits of a time of day and has at most 256 characters, a date field of six
digits and at most 256 fields, read with a non-negative old time, `data.time`
at the delimiter that closes the last field is the value the two fields give
from the fresh parser. -/
theorem rmc_sentence_time (n : nmea) (td dd : List Nat) (trest : List Int)
    (mid tail : List (List Int)) (d : Int)
    (hn0 : 0 ≤ n.data.time) (hn1 : n.data.time ≤ 9223372036854775807)
    (htd : td.length = 6) (htd10 : ∀ x ∈ td, x < 10) (hday : time_of_day td < 86400)
    (hdd : dd.length = 6) (hdd10 : ∀ x ∈ dd, x < 10)
    (htr : ∀ c ∈ trest, c ≠ 36 ∧ c ≠ 44 ∧ c ≠ 42) (htl : trest.length ≤ 250)
    (hmid : ∀ f ∈ mid, ∀ c ∈ f, c ≠ 36 ∧ c ≠ 44 ∧ c ≠ 42) (hml : mid.length = 7)
    (htail : ∀ f ∈ tail, ∀ c ∈ f, c ≠ 36 ∧ c ≠ 44 ∧ c ≠ 42) (htll : tail.length ≤ 247)
    (hd : d = 44 ∨ d = 42) :
    (test_parse_string n (36 :: ((header_literal 4
        ++ join_fields (rmc_fields td trest mid dd tail)) ++ [d]))).data.time
      = time_date_value td dd := by
  have hfs : ∀ f ∈ rmc_fields td trest mid dd tail, ∀ c ∈ f, c ≠ 36 ∧ c ≠ 44 ∧ c ≠ 42 := by
    intro f hf
    unfold rmc_fields at hf
    rcases List.mem_cons.mp hf with h | h
    · rw [h]
      intro c hc
      rcases List.mem_append.mp hc with h' | h'
      · exact digits_plain td htd10 c h'
      · exact htr c h'
    · rcases List.mem_append.mp h with h' | h'
      · exact hmid f h'
      · rcases List.mem_cons.mp h' with hq | hq
        · rw [hq]; exact digits_plain dd hdd10
        · exact htail f hq
  have hl : (rmc_fields td trest mid dd tail).length ≤ 256 := by
    unfold rmc_fields
    simp only [List.length_cons, List.length_append, hml]
    omega
  rw [sentence_close_data n 4 (by decide) _ hfs hl d hd]
  show (decode_fields (sentence_ptr.lut 4) 1 (mid ++ digits dd :: tail)
    (decode_field (kind_at (sentence_ptr.lut 4) 0) (digits td ++ trest)
      (sentence_open 4 n))).data.time = _
  rw [decode_fields_append]
  show (decode_fields (sentence_ptr.lut 4) (1 + mid.length + 1) tail
    (decode_field (kind_at (sentence_ptr.lut 4) (1 + mid.length)) (digits dd)
      (decode_fields (sentence_ptr.lut 4) 1 mid
        (decode_field (kind_at (sentence_ptr.lut 4) 0) (digits td ++ trest)
          (sentence_open 4 n))))).data.time = _
  rw [decode_fields_time _ tail _ _ (fun t _ => rmc_kind_other _ (by omega) (by omega)), hml]
  have hk8 : kind_at (sentence_ptr.lut 4) (1 + 7) = NMEA_FIELD_DATE := rfl
  have hk0 : kind_at (sentence_ptr.lut 4) 0 = NMEA_FIELD_TIME := rfl
  rw [hk8, hk0, date_field_value _ dd hdd,
    decode_fields_time _ mid _ _ (fun t ht => rmc_kind_other _ (by omega) (by omega)),
    time_field_residue (sentence_open 4 n) td trest htd htd10 hday htl hn0 hn1,
    time_date_value_eq td dd htd htd10 hday hdd]

theorem wrap64_add_left (a b : Nat) : wrap64 (wrap64 a + b) = wrap64 (a + b) :=
  Nat.mod_add_mod a _ b

theorem wrap64_add_right (a b : Nat) : wrap64 (a + wrap64 b) = wrap64 (a + b) :=
  Nat.add_mod_mod a b _

theorem wrap64_idem (a : Nat) : wrap64 (wrap64 a) = wrap64 a :=
  Nat.mod_mod _ _

/-- The loop over the months before month `m + 1`: their days are added. -/
theorem date_month_loop_eq (m s : Nat) (hm : m ≤ 11) :
    wrap64 (date_month_loop m 12 0 s) = wrap64 (s + 86400 * days_before_month (m + 1)) := by
  interval_cases m <;>
    simp only [date_month_loop, month_days, List.getD_cons_zero, List.getD_cons_succ,
      SECONDS_IN_DAY, wrap64_add_left, wrap64_idem, days_before_month, Nat.lt_irrefl,
      if_true, if_false, Nat.reduceLT, Nat.reduceAdd, Nat.reduceMul, Nat.reduceSub,
      Nat.add_assoc, Nat.add_zero]

theorem days_before_month_le (m : Nat) (hm : m ≤ 11) : days_before_month (m + 1) ≤ 334 := by
  interval_cases m <;> decide

/-- The scratch cell after the second year digit, with the sums collected. -/
theorem date_year_scratch (se0 se1 s d : Nat) :
    (date_year_regs se0 se1 s d).2.2
      = (if wrap64 (se1 + d) % 4 = 0 ∧ se0 < 3 then
          wrap64 (s + wrap64 (se1 + d) * 86400 * 365 + 86400 * (wrap64 (se1 + d) / 4) + 86400
            + 18446744073709465216)
         else
          wrap64 (s + wrap64 (se1 + d) * 86400 * 365 + 86400 * (wrap64 (se1 + d) / 4)
            + 86400)) := by
  unfold date_year_regs
  simp only []
  generalize wrap64 (se1 + d) = y
  have hc : NMEA_CENTURY % 400 = 0 := rfl
  have e : (18446744073709551616 : Nat) - SECONDS_IN_DAY = 18446744073709465216 := rfl
  rw [if_pos hc, e]
  simp only [SECONDS_IN_DAY, wrap64_add_left, wrap64_add_right, Nat.add_assoc]

/-- The scratch cell after the six digits of a date with a month from 1 to 12
and a day of at least 1: the seconds of the days since 2000-01-01, one day
short in March of a year with `yy mod 4 = 0`. -/
theorem date_scratch_value (d1 d2 m1 m2 y1 y2 : Nat)
    (a1 : d1 < 10) (a2 : d2 < 10) (a3 : m1 < 10) (a4 : m2 < 10) (a5 : y1 < 10) (a6 : y2 < 10)
    (hm1 : 1 ≤ 10 * m1 + m2) (hm12 : 10 * m1 + m2 ≤ 12) (hd : 1 ≤ 10 * d1 + d2) :
    date_scratch [d1, d2, m1, m2, y1, y2]
        + (if (10 * y1 + y2) % 4 = 0 ∧ 10 * m1 + m2 = 3 then 86400 else 0)
      = 86400 * days_since_2000 (10 * y1 + y2) (10 * m1 + m2) (10 * d1 + d2) := by
  unfold date_scratch
  have hw : (reset_cc_start_handler fresh).state.char_count = 0 := rfl
  generalize reset_cc_start_handler fresh = w at hw
  show (date_char_handler (date_char_handler (date_char_handler (date_char_handler
        (date_char_handler (date_char_handler w (digit_char d1)) (digit_char d2))
        (digit_char m1)) (digit_char m2)) (digit_char y1)) (digit_char y2)).state.scratch
      + _ = _
  have b0 := date_char_0 w (digit_char d1) hw
  have b1 := date_char_1 _ (digit_char d2) b0.1
  have b2 := date_char_2 _ (digit_char m1) b1.1
  have hM : 10 * m1 + m2 - 1
      = wrap64 (wrap64 ((date_char_handler (date_char_handler (date_char_handler w
          (digit_char d1)) (digit_char d2)) (digit_char m1)).state.fxpse.val
          + to_u64 (digit_char m2 - 48)) + 18446744073709551615) := by
    rw [b2.2.1, to_u64_digit m1 a3, to_u64_digit m2 a4]
    have e1 : wrap64 (m1 * 10) = m1 * 10 := wrap64_of_lt _ (by omega)
    have e2 : wrap64 (m1 * 10 + m2) = m1 * 10 + m2 := wrap64_of_lt _ (by omega)
    rw [e1, e2]
    show _ = (m1 * 10 + m2 + 18446744073709551615) % 18446744073709551616
    omega
  have b3 := date_char_3 _ (digit_char m2) _ b2.1 hM
  have b4 := date_char_4 _ (digit_char y1) b3.1
  have b5 := date_char_5 _ (digit_char y2) b4.1
  have hle : 10 * m1 + m2 - 1 ≤ 11 := by omega
  have hml : days_before_month (10 * m1 + m2 - 1 + 1) ≤ 334 := days_before_month_le _ hle
  have hmm : 10 * m1 + m2 - 1 + 1 = 10 * m1 + m2 := by omega
  rw [hmm] at hml
  have hloop := date_month_loop_eq (10 * m1 + m2 - 1)
    (date_char_handler (date_char_handler (date_char_handler w
      (digit_char d1)) (digit_char d2)) (digit_char m1)).state.scratch hle
  rw [hmm] at hloop
  have hnot : ¬ 10 * m1 + m2 - 1 > month_days.length := by
    show ¬ 10 * m1 + m2 - 1 > 11
    omega
  rw [b5.2, date_year_scratch, b4.2.1, b4.2.2.1, b4.2.2.2, b3.2.1, b3.2.2.2,
    if_neg hnot, to_u64_digit y1 a5, to_u64_digit y2 a6]
  have ey1 : wrap64 (y1 * 10) = y1 * 10 := wrap64_of_lt _ (by omega)
  have ey : wrap64 (y1 * 10 + y2) = 10 * y1 + y2 := by
    rw [wrap64_of_lt _ (by omega)]; omega
  rw [ey1, ey]
  -- the scratch cell before the year digits
  have hs : wrap64 (date_month_loop (10 * m1 + m2 - 1) 12 0
      (date_char_handler (date_char_handler (date_char_handler w
        (digit_char d1)) (digit_char d2)) (digit_char m1)).state.scratch)
      = 86400 * (10 * d1 + d2 - 1) + 86400 * days_before_month (10 * m1 + m2) := by
    rw [hloop, b2.2.2.2, b1.2.2.2, b0.2.2.2, to_u64_digit d1 a1, to_u64_digit d2 a2]
    simp only [SECONDS_IN_DAY, wrap64_add_left, wrap64_add_right]
    generalize days_before_month (10 * m1 + m2) = c at hml ⊢
    show (d1 * 10 * 86400 + d2 * 86400 + (18446744073709551616 - 86400) + 86400 * c)
      % 18446744073709551616 = _
    omega
  unfold days_since_2000
  generalize days_before_month (10 * m1 + m2) = c at hml hs ⊢
  generalize date_month_loop (10 * m1 + m2 - 1) 12 0
      (date_char_handler (date_char_handler (date_char_handler w
        (digit_char d1)) (digit_char d2)) (digit_char m1)).state.scratch = L at hs ⊢
  clear b0 b1 b2 b3 b4 b5 hM hloop hnot
  have hyy : 10 * y1 + y2 ≤ 99 := by omega
  have hdd : 10 * d1 + d2 - 1 ≤ 98 := by omega
  generalize 10 * y1 + y2 = yy at hyy ⊢
  generalize 10 * d1 + d2 - 1 = dm at hdd hs ⊢
  have hX2 : wrap64 (L + yy * 86400 * 365 + 86400 * (yy / 4) + 86400)
      = 86400 * dm + 86400 * c + yy * 86400 * 365 + 86400 * (yy / 4) + 86400 := by
    have e : wrap64 (L + yy * 86400 * 365 + 86400 * (yy / 4) + 86400)
        = wrap64 (wrap64 L + (yy * 86400 * 365 + (86400 * (yy / 4) + 86400))) := by
      rw [wrap64_add_left]
      simp only [Nat.add_assoc]
    rw [e, hs, wrap64_of_lt _ (by omega)]
    omega
  have hX1 : wrap64 (L + yy * 86400 * 365 + 86400 * (yy / 4) + 86400 + 18446744073709465216)
      = 86400 * dm + 86400 * c + yy * 86400 * 365 + 86400 * (yy / 4) := by
    have e : wrap64 (L + yy * 86400 * 365 + 86400 * (yy / 4) + 86400 + 18446744073709465216)
        = wrap64 (wrap64 L + (yy * 86400 * 365 + (86400 * (yy / 4)
            + (86400 + 18446744073709465216)))) := by
      rw [wrap64_add_left]
      simp only [Nat.add_assoc]
    have e2 : 86400 * dm + 86400 * c + (yy * 86400 * 365 + (86400 * (yy / 4)
          + (86400 + 18446744073709465216)))
        = (86400 * dm + 86400 * c + yy * 86400 * 365 + 86400 * (yy / 4))
          + 18446744073709551616 := by omega
    rw [e, hs, e2]
    show (_ + 18446744073709551616) % 18446744073709551616 = _
    rw [Nat.add_mod_right]
    exact Nat.mod_eq_of_lt (by omega)
  rw [hX1, hX2]
  split_ifs <;> omega

/-- The stored time of a time of day and a date with a month from 1 to 12 and
a day of at least 1, against the calendar: it is the epoch time of that
instant, except in March of a year with `yy mod 4 = 0`, where it is one day
(86400 seconds) short. -/
theorem time_date_value_calendar (td : List Nat) (d1 d2 m1 m2 y1 y2 : Nat)
    (htd : td.length = 6) (htd10 : ∀ x ∈ td, x < 10) (hday : time_of_day td < 86400)
    (a1 : d1 < 10) (a2 : d2 < 10) (a3 : m1 < 10) (a4 : m2 < 10) (a5 : y1 < 10) (a6 : y2 < 10)
    (hm1 : 1 ≤ 10 * m1 + m2) (hm12 : 10 * m1 + m2 ≤ 12) (hd : 1 ≤ 10 * d1 + d2) :
    time_date_value td [d1, d2, m1, m2, y1, y2]
      = epoch_seconds (10 * y1 + y2) (10 * m1 + m2) (10 * d1 + d2) (time_of_day td)
        - (if (10 * y1 + y2) % 4 = 0 ∧ 10 * m1 + m2 = 3 then 86400 else 0) := by
  rw [time_date_value_eq td [d1, d2, m1, m2, y1, y2] htd htd10 hday rfl]
  have hv := date_scratch_value d1 d2 m1 m2 y1 y2 a1 a2 a3 a4 a5 a6 hm1 hm12 hd
  have hc := days_before_month_le (10 * m1 + m2 - 1) (by omega)
  have hmm : 10 * m1 + m2 - 1 + 1 = 10 * m1 + m2 := by omega
  rw [hmm] at hc
  have hdays : days_since_2000 (10 * y1 + y2) (10 * m1 + m2) (10 * d1 + d2) ≤ 36594 := by
    unfold days_since_2000
    generalize days_before_month (10 * m1 + m2) = c at hc
    split_ifs <;> omega
  unfold epoch_seconds
  generalize days_since_2000 (10 * y1 + y2) (10 * m1 + m2) (10 * d1 + d2) = D at hv hdays
  generalize date_scratch [d1, d2, m1, m2, y1, y2] = S at hv
  generalize time_of_day td = s at hday
  have hS : S ≤ 86400 * D := by
    split_ifs at hv <;> omega
  rw [wrap64_of_lt _ (by omega), to_s64_of_lt _ (by omega)]
  split_ifs at hv ⊢ <;> push_cast <;> omega

/-- The time of an RMC sentence against the calendar: under the conditions of
`rmc_sentence_time`, with a month from 1 to 12 and a day of at least 1,
`data.time` is the epoch time of the sentence's instant, except in March of a
year with `yy mod 4 = 0`, where it is one day short. -/
theorem rmc_date_epoch (n : nmea) (td : List Nat) (d1 d2 m1 m2 y1 y2 : Nat) (trest : List Int)
    (mid tail : List (List Int)) (d : Int)
    (hn0 : 0 ≤ n.data.time) (hn1 : n.data.time ≤ 9223372036854775807)
    (htd : td.length = 6) (htd10 : ∀ x ∈ td, x < 10) (hday : time_of_day td < 86400)
    (a1 : d1 < 10) (a2 : d2 < 10) (a3 : m1 < 10) (a4 : m2 < 10) (a5 : y1 < 10) (a6 : y2 < 10)
    (hm1 : 1 ≤ 10 * m1 + m2) (hm12 : 10 * m1 + m2 ≤ 12) (hdd : 1 ≤ 10 * d1 + d2)
    (htr : ∀ c ∈ trest, c ≠ 36 ∧ c ≠ 44 ∧ c ≠ 42) (htl : trest.length ≤ 250)
    (hmid : ∀ f ∈ mid, ∀ c ∈ f, c ≠ 36 ∧ c ≠ 44 ∧ c ≠ 42) (hml : mid.length = 7)
    (htail : ∀ f ∈ tail, ∀ c ∈ f, c ≠ 36 ∧ c ≠ 44 ∧ c ≠ 42) (htll : tail.length ≤ 247)
    (hd : d = 44 ∨ d = 42) :
    (test_parse_string n (36 :: ((header_literal 4
        ++ join_fields (rmc_fields td trest mid [d1, d2, m1, m2, y1, y2] tail)) ++ [d]))).data.time
      = epoch_seconds (10 * y1 + y2) (10 * m1 + m2) (10 * d1 + d2) (time_of_day td)
        - (if (10 * y1 + y2) % 4 = 0 ∧ 10 * m1 + m2 = 3 then 86400 else 0) := by
  have h10 : ∀ x ∈ [d1, d2, m1, m2, y1, y2], x < 10 := by
    intro x hx
    simp only [List.mem_cons, List.mem_singleton, List.not_mem_nil, or_false] at hx
    rcases hx with h | h | h | h | h | h <;> omega
  rw [rmc_sentence_time n td [d1, d2, m1, m2, y1, y2] trest mid tail d hn0 hn1 htd htd10 hday rfl h10 htr htl hmid hml
    htail htll hd]
  exact time_date_value_calendar td d1 d2 m1 m2 y1 y2 htd htd10 hday a1 a2 a3 a4 a5 a6 hm1 hm12
    hdd

/-! ### Characters after the checksum, empty fields, dispatch, indices, snapshot frame -/

theorem init_ignoring (m : nmea) : ignoring (nmea_init m) := ⟨rfl, rfl⟩

/-- The char handler of a kind other than the direction and status kinds
leaves the fix snapshot and the readiness bitmap alone. -/
theorem silent_char (k : nmea_fields) (hk : k ∉ letter_kinds) (n : nmea) (c : Int) :
    ((HANDLER_LUT k).char_handler n c).data = n.data ∧
    ((HANDLER_LUT k).char_handler n c).state.received = n.state.received := by
  cases k <;> first
    | exact ⟨rfl, rfl⟩
    | exact absurd (by decide) hk
    | (simp only [HANDLER_LUT, longitude_char_handler, latitude_char_handler,
        lon_lat_char_handler]
       split_ifs <;> exact ⟨rfl, rfl⟩)

theorem silent_step (n : nmea) (c : Int) (h36 : c ≠ 36) (h44 : c ≠ 44) (h42 : c ≠ 42)
    (hr : n.state.checksum_recording = 0) (hk : n.state.field_handlers ∉ letter_kinds) :
    (nmea_parse n c).data = n.data ∧ (nmea_parse n c).state.received = n.state.received := by
  rw [nmea_parse_char n c h36 h44 h42 hr]
  have h := silent_char n.state.field_handlers hk (touch n) c
  exact ⟨h.1, h.2⟩

theorem silent_run (s : List Int) (n : nmea) (hs : ∀ c ∈ s, c ≠ 36 ∧ c ≠ 44 ∧ c ≠ 42)
    (hr : n.state.checksum_recording = 0) (hk : n.state.field_handlers ∉ letter_kinds) :
    (test_parse_string n s).data = n.data ∧
    (test_parse_string n s).state.received = n.state.received := by
  induction s generalizing n with
  | nil => exact ⟨rfl, rfl⟩
  | cons c t ih =>
    have hc := hs c (List.mem_cons_self _ _)
    have hp := parse_char n c hc.1 hc.2.1 hc.2.2 hr
    have hst := silent_step n c hc.1 hc.2.1 hc.2.2 hr hk
    have := ih (nmea_parse n c) (fun d hd => hs d (List.mem_cons_of_mem _ hd)) hp.2.2.2.2.1
      (by rw [hp.2.1]; exact hk)
    rw [test_parse_string_cons]
    exact ⟨this.1.trans hst.1, this.2.trans hst.2⟩

/-- The sentence hooks leave the current field kind and its handlers alone. -/
theorem hooks_field (p : sentence_ptr) (n : nmea) :
    ((sentence_format p).end_handler n).state.field = n.state.field ∧
    ((sentence_format p).end_handler n).state.field_handlers = n.state.field_handlers ∧
    ((sentence_format p).checksum_fail_handler n).state.field = n.state.field ∧
    ((sentence_format p).checksum_fail_handler n).state.field_handlers
      = n.state.field_handlers := by
  refine ⟨?_, ?_, ?_, ?_⟩
  · rcases sentence_end_handler_eq p n with h | h | h <;> rw [h]
    · rfl
    · exact (gsv_end_handler_frame n).1
  · rcases sentence_end_handler_eq p n with h | h | h <;> rw [h]
    · rfl
    · unfold gsv_end_handler
      simp only
      split_ifs <;> rfl
  · rcases sentence_fail_handler_eq p n with h | h <;> rw [h]
    rfl
  · rcases sentence_fail_handler_eq p n with h | h <;> rw [h]
    rfl

/-- The two checksum characters leave the current field kind and its handlers
alone and switch the capture off. -/
theorem after_checksum (m : nmea) (x y : Int) (hx : x ≠ 36) (hy : y ≠ 36)
    (hr : m.state.checksum_recording ≠ 0) (hc : m.state.char_count = 0) :
    (test_parse_string m [x, y]).state.checksum_recording = 0 ∧
    (test_parse_string m [x, y]).state.field = m.state.field ∧
    (test_parse_string m [x, y]).state.field_handlers = m.state.field_handlers := by
  by_cases hv : (hex_to_nibble x <<< 4 ||| hex_to_nibble y) = m.state.checksum
  · rw [digits_pass m x y hx hy hr hc hv]
    have h := hooks_field m.state.sentence (first_digit m x)
    exact ⟨rfl, h.1, h.2.1⟩
  · rw [digits_fail m x y hx hy hr hc hv]
    have h := hooks_field m.state.sentence (first_digit m x)
    exact ⟨rfl, h.2.2.1, h.2.2.2⟩

theorem handlers_field_step (n : nmea) (c : Int) (h36 : c ≠ 36)
    (h : n.state.field_handlers = n.state.field) :
    (nmea_parse n c).state.field_handlers = (nmea_parse n c).state.field := by
  by_cases hr : n.state.checksum_recording = 0
  · by_cases h44 : c = 44
    · subst h44
      exact (parse_comma n hr).2.1
    · by_cases h42 : c = 42
      · subst h42
        have hp := parse_star n hr
        rw [hp.1, hp.2.1]
        exact h
      · have hp := parse_char n c h36 h44 h42 hr
        rw [hp.1, hp.2.1]
        exact h
  · by_cases hc : n.state.char_count = 0
    · rw [nmea_parse_first_digit n c h36 hr hc]
      exact h
    · have hk := hooks_field n.state.sentence n
      by_cases hv : (n.state.fxpse.val ||| hex_to_nibble c) = n.state.checksum
      · rw [nmea_parse_second_digit_pass n c h36 hr hc hv]
        show ((sentence_format n.state.sentence).end_handler n).state.field_handlers
          = ((sentence_format n.state.sentence).end_handler n).state.field
        rw [hk.1, hk.2.1]
        exact h
      · rw [nmea_parse_second_digit_fail n c h36 hr hc hv]
        show ((sentence_format n.state.sentence).checksum_fail_handler n).state.field_handlers
          = ((sentence_format n.state.sentence).checksum_fail_handler n).state.field
        rw [hk.2.2.1, hk.2.2.2]
        exact h

theorem handlers_field_run (s : List Int) (n : nmea) (hs : ∀ c ∈ s, c ≠ 36)
    (h : n.state.field_handlers = n.state.field) :
    (test_parse_string n s).state.field_handlers = (test_parse_string n s).state.field := by
  induction s generalizing n with
  | nil => exact h
  | cons c t ih =>
    rw [test_parse_string_cons]
    exact ih _ (fun d hd => hs d (List.mem_cons_of_mem _ hd))
      (handlers_field_step n c (hs c (List.mem_cons_self _ _)) h)

/-- After a sentence of format `i` with the fields `fs` and two checksum
characters the capture is off and the handlers of the last field are
current. -/
theorem sentence_end_state (n : nmea) (i : Nat) (hi : i < 6) (fs : List (List Int))
    (hfs : ∀ f ∈ fs, ∀ c ∈ f, c ≠ 36 ∧ c ≠ 44 ∧ c ≠ 42) (hlen : fs.length ≤ 256)
    (hne : fs ≠ []) (x y : Int) (hx : x ≠ 36) (hy : y ≠ 36) :
    (test_parse_string n
      (36 :: ((header_literal i ++ join_fields fs) ++ [42, x, y]))).state.checksum_recording = 0 ∧
    (test_parse_string n
      (36 :: ((header_literal i ++ join_fields fs) ++ [42, x, y]))).state.field_handlers
      = kind_at (sentence_ptr.lut i) (fs.length - 1) := by
  have hw : ∀ c ∈ header_literal i ++ join_fields fs, c ≠ 36 ∧ c ≠ 42 := by
    intro c hc
    rcases List.mem_append.1 hc with h | h
    · exact header_literal_plain i hi c h
    · exact join_fields_plain fs hfs c h
  have hst := to_star n (header_literal i ++ join_fields fs) hw
  have hfield := field_at_star n i hi fs hfs hlen hne
  -- the handlers follow the field kind from the first comma on
  have hfh : (test_parse_string n
      (36 :: ((header_literal i ++ join_fields fs) ++ [42]))).state.field_handlers
      = (test_parse_string n
      (36 :: ((header_literal i ++ join_fields fs) ++ [42]))).state.field := by
    obtain ⟨f, fs1, rfl⟩ := List.exists_cons_of_ne_nil hne
    have hsplit : (36 : Int) :: ((header_literal i ++ join_fields (f :: fs1)) ++ [42])
        = (36 :: header_literal i) ++ 44 :: ((f ++ join_fields fs1) ++ [42]) := by
      simp [join_fields]
    rw [hsplit, test_parse_string_append, test_parse_string_cons]
    have hcl := header_closed n i hi
    refine handlers_field_run _ _ ?_ (parse_comma _ hcl.1).2.1
    intro c hc
    rcases List.mem_append.1 hc with h | h
    · rcases List.mem_append.1 h with h | h
      · exact (hfs f (List.mem_cons_self _ _) c h).1
      · exact (join_fields_plain fs1 (fun g hg => hfs g (List.mem_cons_of_mem _ hg)) c h).1
    · rw [List.mem_singleton.1 h]
      decide
  have hsplit2 : (36 : Int) :: ((header_literal i ++ join_fields fs) ++ [42, x, y])
      = (36 :: ((header_literal i ++ join_fields fs) ++ [42])) ++ [x, y] := by
    simp
  rw [hsplit2, test_parse_string_append]
  have hac := after_checksum (test_parse_string n
      (36 :: ((header_literal i ++ join_fields fs) ++ [42]))) x y hx hy
      (by rw [hst.2.2.2.1]; decide) hst.2.2.2.2.1
  exact ⟨hac.1, by rw [hac.2.2, hfh, hfield]⟩

/-- The kinds whose start handler initialises the fixed point decoder, other
than the tracked PRN kind. -/
theorem inits_decoder_kinds (k : nmea_fields) (hk : inits_decoder k)
    (hne : k ≠ NMEA_FIELD_PRNS_TRACKED) :
    k ∈ [NMEA_FIELD_LONGITUDE, NMEA_FIELD_LATITUDE, NMEA_FIELD_FIX_QUALITY,
      NMEA_FIELD_SATELLITES_TRACKED, NMEA_FIELD_SATELLITES_IN_VIEW, NMEA_FIELD_ALTITUDE,
      NMEA_FIELD_GEOID_HEIGHT, NMEA_FIELD_FIX_3D, NMEA_FIELD_PRN, NMEA_FIELD_PDOP,
      NMEA_FIELD_HDOP, NMEA_FIELD_VDOP, NMEA_FIELD_SPEED, NMEA_FIELD_MAGNETIC_VARIATION,
      NMEA_FIELD_GSV_SENTENCES_TOTAL, NMEA_FIELD_SENTENCE_NO, NMEA_FIELD_AZIMUTH,
      NMEA_FIELD_ELEVATION, NMEA_FIELD_SNR, NMEA_FIELD_TRUE_TRACK,
      NMEA_FIELD_MAGNETIC_TRACK] := by
  have hp := (hk decoder_probe).1
  cases k <;> first
    | decide
    | exact absurd rfl hne
    | exact absurd hp (by decide)

/-- A field without characters of a kind that initialises the fixed point
decoder: the end handler, run right after the start handler, stores 0. -/
theorem empty_decode (k : nmea_fields) (hk : inits_decoder k)
    (hne : k ≠ NMEA_FIELD_PRNS_TRACKED) (e : nmea)
    (hslot : k ∈ sat_kinds → e.state.gsv_satellite_index < NMEA_MAX_SATS ∧
      e.data.sats.length = NMEA_MAX_SATS) :
    numeric_value k e.state.gsv_satellite_index (decode_field k [] e) = 0 := by
  have hmem := inits_decoder_kinds k hk hne
  simp only [List.mem_cons, List.mem_singleton, List.not_mem_nil, or_false] at hmem
  have hsat : ∀ (_ : k ∈ sat_kinds),
      e.state.gsv_satellite_index < e.data.sats.length ∧
      ¬ e.state.gsv_satellite_index ≥ NMEA_MAX_SATS := by
    intro h
    have hs := hslot h
    exact ⟨by rw [hs.2]; exact hs.1, Nat.not_le.2 hs.1⟩
  rcases hmem with h | h | h | h | h | h | h | h | h | h | h | h | h | h | h | h | h | h | h
    | h | h <;> subst h
  case inr.inr.inr.inr.inr.inr.inr.inr.inl =>
    have hs := hsat (by decide)
    simp [numeric_value, decode_field, read_field, HANDLER_LUT, ufxp_init_start_handler,
      ufxp_init, ufxp_get_val, prn_end_handler, hs.2, sat_at_set _ _ _ hs.1]
  case inr.inr.inr.inr.inr.inr.inr.inr.inr.inr.inr.inr.inr.inr.inr.inr.inl =>
    have hs := hsat (by decide)
    simp [numeric_value, decode_field, read_field, HANDLER_LUT, ufxp_init_start_handler,
      ufxp_init, ufxp_get_val, azimuth_end_handler, hs.2, sat_at_set _ _ _ hs.1]
  case inr.inr.inr.inr.inr.inr.inr.inr.inr.inr.inr.inr.inr.inr.inr.inr.inr.inl =>
    have hs := hsat (by decide)
    simp [numeric_value, decode_field, read_field, HANDLER_LUT, ufxp_init_start_handler,
      ufxp_init, ufxp_get_val, elevation_end_handler, hs.2, sat_at_set _ _ _ hs.1]
  case inr.inr.inr.inr.inr.inr.inr.inr.inr.inr.inr.inr.inr.inr.inr.inr.inr.inr.inl =>
    have hs := hsat (by decide)
    simp [numeric_value, decode_field, read_field, HANDLER_LUT, ufxp_init_start_handler,
      ufxp_init, ufxp_get_val, snr_end_handler, hs.2, sat_at_set _ _ _ hs.1]
  all_goals
    simp [numeric_value, decode_field, read_field, HANDLER_LUT, ufxp_init_start_handler,
      fxp_init_start_handler, longitude_start_handler, latitude_start_handler,
      ufxp_init, fxp_init, ufxp_get_val, fxp_get_val, LLONG_MAX,
      longitude_end_handler, latitude_end_handler, wrap64, to_s64,
      fix_quality_end_handler, satellites_tracked_end_handler, satellites_in_view_end_handler,
      altitude_end_handler, geoid_height_end_handler, fix_3d_end_handler, pdop_end_handler,
      hdop_end_handler, vdop_end_handler, speed_end_handler, magnetic_variation_end_handler,
      gsv_sentences_total_end_handler, sentence_no_end_handler,
      true_track_end_handler, magnetic_track_end_handler]

theorem numeric_value_congr (k : nmea_fields) (slot : Nat) (a b : nmea) (hd : a.data = b.data)
    (ht : a.state.gsv_sentences_total = b.state.gsv_sentences_total)
    (hn : a.state.gsv_sentence_no = b.state.gsv_sentence_no) :
    numeric_value k slot a = numeric_value k slot b := by
  cases k <;> simp only [numeric_value, hd, ht, hn]

theorem start_counters (k : nmea_fields) (n : nmea) :
    ((HANDLER_LUT k).start_handler n).state.gsv_sentences_total = n.state.gsv_sentences_total ∧
    ((HANDLER_LUT k).start_handler n).state.gsv_sentence_no = n.state.gsv_sentence_no := by
  cases k <;> exact ⟨rfl, rfl⟩

/-- At a delimiter the fix snapshot and the GSV counters are those the end
handler of the closed field leaves. -/
theorem close_counters (y : nmea) (d : Int) (hr : y.state.checksum_recording = 0)
    (hd : d = 44 ∨ d = 42) :
    (nmea_parse y d).state.gsv_sentences_total
      = ((HANDLER_LUT y.state.field_handlers).end_handler (unready y)).state.gsv_sentences_total ∧
    (nmea_parse y d).state.gsv_sentence_no
      = ((HANDLER_LUT y.state.field_handlers).end_handler (unready y)).state.gsv_sentence_no := by
  rcases hd with h | h <;> subst h
  · rw [nmea_parse_comma y hr]
    have hs := start_counters
      (field_update ((HANDLER_LUT y.state.field_handlers).end_handler
        (unready y))).state.field_handlers
      (next_comma (field_update ((HANDLER_LUT y.state.field_handlers).end_handler (unready y))))
    refine ⟨hs.1.trans ?_, hs.2.trans ?_⟩
    · rw [field_update_eq]; rfl
    · rw [field_update_eq]; rfl
  · rw [nmea_parse_star y hr]
    exact ⟨rfl, rfl⟩

theorem comma_gsv_index (x : nmea) (hr : x.state.checksum_recording = 0) :
    (nmea_parse x 44).state.gsv_satellite_index
      = ((HANDLER_LUT x.state.field_handlers).end_handler (unready x)).state.gsv_satellite_index := by
  rw [nmea_parse_comma x hr]
  show ((HANDLER_LUT _).start_handler _).state.gsv_satellite_index = _
  rw [start_gsv_satellite_index, field_update_eq]
  rfl

/-- The parser at a comma: the handlers of the kind `field_update` selected are
current and its start handler has run on what the end handler of the closed
field left. -/
theorem comma_core (x e : nmea) (hr : x.state.checksum_recording = 0)
    (he : core_eq ((HANDLER_LUT x.state.field_handlers).end_handler (unready x)) e) :
    core_eq (nmea_parse x 44)
      ((HANDLER_LUT (nmea_parse x 44).state.field_handlers).start_handler e) := by
  have hp := parse_comma x hr
  rw [hp.2.1, hp.1, hp.2.2.2.2.2.2.2]
  rw [nmea_parse_comma x hr, field_update_eq]
  have hfc : ((HANDLER_LUT x.state.field_handlers).end_handler (unready x)).state.comma_count
      = x.state.comma_count := (frame_end x.state.field_handlers (unready x)).comma_count
  generalize (HANDLER_LUT x.state.field_handlers).end_handler (unready x) = E at he hfc ⊢
  refine core_eq_trans (core_fold_checksum _ 44) ?_
  show core_eq ((HANDLER_LUT (kind_at E.state.sentence E.state.comma_count)).start_handler _) _
  rw [hfc]
  exact core_start _ (kind_at_ne_header _ _) _ _
    (core_eq_trans (core_next_comma _) (core_eq_trans (core_select E _) he))

/-- The kind at a position of the field list of a format of `SENTENCE_LUT`. -/
theorem kind_at_of_fields (i : Nat) (hi : i < 6) (j : Nat) (k : nmea_fields)
    (hk : (sentence_format (sentence_ptr.lut i)).fields[j]? = some k) :
    kind_at (sentence_ptr.lut i) j = k ∧ j < 19 := by
  have hlen : (sentence_format (sentence_ptr.lut i)).length
      = (sentence_format (sentence_ptr.lut i)).fields.length ∧
      (sentence_format (sentence_ptr.lut i)).fields.length ≤ 19 := by
    rcases i with _ | _ | _ | _ | _ | _ | i
    · exact ⟨rfl, by decide⟩
    · exact ⟨rfl, by decide⟩
    · exact ⟨rfl, by decide⟩
    · exact ⟨rfl, by decide⟩
    · exact ⟨rfl, by decide⟩
    · exact ⟨rfl, by decide⟩
    · omega
  have hj : j < (sentence_format (sentence_ptr.lut i)).fields.length := by
    rcases List.getElem?_eq_some_iff.1 hk with ⟨h, _⟩
    exact h
  refine ⟨?_, by omega⟩
  unfold kind_at
  rw [if_pos (by rw [hlen.1]; exact hj)]
  simp [List.getD, hk]

theorem index_inv_of_eq {a b : nmea}
    (h1 : b.state.gsv_satellite_index = a.state.gsv_satellite_index)
    (h2 : b.state.gsa_satellite_index = a.state.gsa_satellite_index)
    (h3 : b.data = a.data) (h : index_inv a) : index_inv b := by
  unfold index_inv at *
  rw [h1, h2, h3]
  exact h

theorem index_inv_start (k : nmea_fields) (n : nmea) (h : index_inv n) :
    index_inv ((HANDLER_LUT k).start_handler n) :=
  index_inv_of_eq (start_gsv_satellite_index k n) (start_gsa_satellite_index k n)
    (start_data k n) h

theorem index_inv_char (k : nmea_fields) (n : nmea) (c : Int) (h : index_inv n) :
    index_inv ((HANDLER_LUT k).char_handler n c) := by
  cases k <;>
    simp only [HANDLER_LUT, longitude_char_handler, latitude_char_handler, lon_lat_char_handler,
      longitude_dir_char_handler, latitude_dir_char_handler, ui_char_handler,
      altitude_char_handler, geoid_height_char_handler, pdop_char_handler, hdop_char_handler,
      vdop_char_handler, gll_active_char_handler, rmc_active_char_handler, speed_char_handler,
      time_char_handler, date_char_handler, magnetic_variation_char_handler,
      magnetic_variation_dir_char_handler, ignore_char_handler, true_track_char_handler,
      magnetic_track_char_handler, header_char_handler] <;>
    first
    | exact h
    | exact index_inv_of_eq rfl rfl rfl h
    | (split_ifs <;> exact index_inv_of_eq rfl rfl rfl h)

theorem index_inv_sentence_start (p : sentence_ptr) (n : nmea) (h : index_inv n) :
    index_inv ((sentence_format p).start_handler n) := by
  rcases sentence_start_handler_eq p n with e | e <;> rw [e]
  · exact h
  · exact ⟨h.1, Nat.zero_le _, h.2.2.1, h.2.2.2⟩

theorem index_inv_sentence_end (p : sentence_ptr) (n : nmea) (h : index_inv n) :
    index_inv ((sentence_format p).end_handler n) := by
  rcases sentence_end_handler_eq p n with e | e | e <;> rw [e]
  · exact h
  · exact h
  · unfold gsv_end_handler
    simp only
    split_ifs
    · exact h
    · exact ⟨Nat.zero_le _, h.2.1, h.2.2.1, h.2.2.2⟩
    · exact h

theorem index_inv_sentence_fail (p : sentence_ptr) (n : nmea) (h : index_inv n) :
    index_inv ((sentence_format p).checksum_fail_handler n) := by
  rcases sentence_fail_handler_eq p n with e | e <;> rw [e]
  · exact h
  · exact ⟨Nat.zero_le _, h.2.1, h.2.2.1, h.2.2.2⟩

theorem index_inv_end (k : nmea_fields) (n : nmea) (h : index_inv n) :
    index_inv ((HANDLER_LUT k).end_handler n) := by
  have h20 : NMEA_MAX_SATS = 20 := rfl
  have h12 : NMEA_MAX_PRNS_TRACKED = 12 := rfl
  cases k <;>
    simp only [HANDLER_LUT, ignore_handler, longitude_end_handler, latitude_end_handler,
      fix_quality_end_handler, satellites_tracked_end_handler, satellites_in_view_end_handler,
      altitude_end_handler, geoid_height_end_handler, fix_3d_end_handler,
      prns_tracked_end_handler, prn_end_handler, pdop_end_handler, hdop_end_handler,
      vdop_end_handler, speed_end_handler, time_end_handler, date_end_handler,
      magnetic_variation_end_handler, gsv_sentences_total_end_handler, sentence_no_end_handler,
      azimuth_end_handler, elevation_end_handler, snr_end_handler, true_track_end_handler,
      magnetic_track_end_handler] <;>
    first
    | exact ⟨h.1, h.2.1, h.2.2.1, h.2.2.2⟩
    | (split_ifs with hc <;> first
        | exact ⟨h.1, h.2.1, h.2.2.1, h.2.2.2⟩
        | exact ⟨h.1, h.2.1, by simpa using h.2.2.1, h.2.2.2⟩
        | (refine ⟨h.1, ?_, h.2.2.1, by simpa using h.2.2.2⟩
           show (n.state.gsa_satellite_index + 1) % 256 ≤ NMEA_MAX_PRNS_TRACKED
           have := hc.2
           omega)
        | (refine ⟨?_, h.2.1, by simpa using h.2.2.1, h.2.2.2⟩
           show (n.state.gsv_satellite_index + 1) % 256 ≤ NMEA_MAX_SATS
           omega))
    | (unfold header_end_handler
       simp only
       split_ifs
       · exact index_inv_sentence_start _ _ h
       · exact h)

theorem index_inv_parse (n : nmea) (c : Int) (h : index_inv n) : index_inv (nmea_parse n c) := by
  by_cases h36 : c = 36
  · subst h36
    rw [nmea_parse_dollar]
    exact h
  by_cases hr : n.state.checksum_recording = 0
  · by_cases h44 : c = 44
    · subst h44
      rw [nmea_parse_comma n hr]
      have he := index_inv_end n.state.field_handlers (unready n) h
      have hs := index_inv_start
        (field_update ((HANDLER_LUT n.state.field_handlers).end_handler
          (unready n))).state.field_handlers
        (next_comma (field_update ((HANDLER_LUT n.state.field_handlers).end_handler (unready n))))
        (by rw [field_update_eq]; exact he)
      exact hs
    · by_cases h42 : c = 42
      · subst h42
        rw [nmea_parse_star n hr]
        exact index_inv_end n.state.field_handlers (unready n) h
      · rw [nmea_parse_char n c h36 h44 h42 hr]
        exact index_inv_char n.state.field_handlers (touch n) c h
  · by_cases hc : n.state.char_count = 0
    · rw [nmea_parse_first_digit n c h36 hr hc]
      exact h
    · by_cases hv : (n.state.fxpse.val ||| hex_to_nibble c) = n.state.checksum
      · rw [nmea_parse_second_digit_pass n c h36 hr hc hv]
        exact index_inv_sentence_end _ _ h
      · rw [nmea_parse_second_digit_fail n c h36 hr hc hv]
        exact index_inv_sentence_fail _ _ h

theorem index_inv_run (cs : List call) (n : nmea) (h : index_inv n) :
    index_inv (run_calls n cs) := by
  induction cs generalizing n with
  | nil => exact h
  | cons a t ih =>
    apply ih
    cases a with
    | parse c => exact index_inv_parse n c h
    | fields_ready f =>
      show index_inv (nmea_fields_ready n f).1
      unfold nmea_fields_ready
      split_ifs
      · exact h
      · exact h

/-! Link between the traced functions and the functions of the embedding:
the parser a traced function returns is the one the function returns. -/

theorem end_handler_traced_fst (k : nmea_fields) (n : nmea) :
    (end_handler_traced k n).1 = (HANDLER_LUT k).end_handler n := by
  cases k <;> first
    | rfl
    | (simp only [end_handler_traced, HANDLER_LUT, prns_tracked_end_handler_traced,
        prns_tracked_end_handler, prn_end_handler_traced, prn_end_handler,
        azimuth_end_handler_traced, azimuth_end_handler, elevation_end_handler_traced,
        elevation_end_handler, snr_end_handler_traced, snr_end_handler, sats_write,
        prns_tracked_write]
       split_ifs <;> rfl)

theorem date_month_loop_traced_fst (limit fuel i scratch : Nat) :
    (date_month_loop_traced limit fuel i scratch).1 = date_month_loop limit fuel i scratch := by
  induction fuel generalizing i scratch with
  | zero => rfl
  | succ f ih =>
    unfold date_month_loop_traced date_month_loop
    split_ifs
    · exact ih _ _
    · rfl

theorem date_month_table_traced_fst (m se1 scratch : Nat) :
    (date_month_table_traced m se1 scratch).1
      = (m, se1, if m > month_days.length then scratch else date_month_loop m 12 0 scratch) := by
  unfold date_month_table_traced
  split_ifs
  · rfl
  · show (m, se1, (date_month_loop_traced m 12 0 scratch).1) = _
    rw [date_month_loop_traced_fst]

theorem date_month_regs_traced_fst (se0 se1 scratch digit : Nat) :
    (date_month_regs_traced se0 se1 scratch digit).1 = date_month_regs se0 se1 scratch digit := by
  rw [date_month_regs_eq se0 se1 scratch digit _ rfl]
  exact date_month_table_traced_fst _ se1 scratch

theorem date_switch_fst {α β : Type} (cc : Nat) (a0 a1 a2 a4 a5 a6 : α) (T : α × List β)
    (t : α) (h : T.1 = t) :
    (date_switch cc (fun _ => (a0, ([] : List β))) (fun _ => (a1, [])) (fun _ => (a2, []))
      (fun _ => T) (fun _ => (a4, [])) (fun _ => (a5, [])) (fun _ => (a6, []))).1
      = date_switch cc (fun _ => a0) (fun _ => a1) (fun _ => a2) (fun _ => t) (fun _ => a4)
          (fun _ => a5) (fun _ => a6) := by
  unfold date_switch
  split <;> first
    | rfl
    | exact h

theorem date_switch_snd {α β : Type} (P : List β → Prop) (cc : Nat) (a0 a1 a2 a4 a5 a6 : α)
    (T : α × List β) (hnil : P []) (hT : P T.2) :
    P (date_switch cc (fun _ => (a0, ([] : List β))) (fun _ => (a1, [])) (fun _ => (a2, []))
      (fun _ => T) (fun _ => (a4, [])) (fun _ => (a5, [])) (fun _ => (a6, []))).2 := by
  unfold date_switch
  split <;> first
    | exact hnil
    | exact hT

theorem date_char_store_switch (n : nmea) (c : Int) :
    date_char_switch n c
      = date_char_store n
          (date_switch n.state.char_count
            (fun _ => (n.state.fxpse.val, n.state.fxpse.div,
              wrap64 (to_u64 (c - 48) * 10 * SECONDS_IN_DAY)))
            (fun _ => (n.state.fxpse.val, n.state.fxpse.div,
              wrap64 (wrap64 (n.state.scratch + wrap64 (to_u64 (c - 48) * SECONDS_IN_DAY))
                + (18446744073709551616 - SECONDS_IN_DAY))))
            (fun _ => (wrap64 (to_u64 (c - 48) * 10), n.state.fxpse.div, n.state.scratch))
            (fun _ => date_month_regs n.state.fxpse.val n.state.fxpse.div n.state.scratch
              (to_u64 (c - 48)))
            (fun _ => (n.state.fxpse.val, wrap64 (to_u64 (c - 48) * 10), n.state.scratch))
            (fun _ => date_year_regs n.state.fxpse.val n.state.fxpse.div n.state.scratch
              (to_u64 (c - 48)))
            (fun _ => (n.state.fxpse.val, n.state.fxpse.div, n.state.scratch))) := rfl

theorem date_char_handler_traced_eq (n : nmea) (c : Int) :
    date_char_handler_traced n c
      = (date_char_store n
          (date_switch n.state.char_count
            (fun _ => ((n.state.fxpse.val, n.state.fxpse.div,
              wrap64 (to_u64 (c - 48) * 10 * SECONDS_IN_DAY)), ([] : List access)))
            (fun _ => ((n.state.fxpse.val, n.state.fxpse.div,
              wrap64 (wrap64 (n.state.scratch + wrap64 (to_u64 (c - 48) * SECONDS_IN_DAY))
                + (18446744073709551616 - SECONDS_IN_DAY))), []))
            (fun _ => ((wrap64 (to_u64 (c - 48) * 10), n.state.fxpse.div, n.state.scratch), []))
            (fun _ => date_month_regs_traced n.state.fxpse.val n.state.fxpse.div
              n.state.scratch (to_u64 (c - 48)))
            (fun _ => ((n.state.fxpse.val, wrap64 (to_u64 (c - 48) * 10), n.state.scratch), []))
            (fun _ => (date_year_regs n.state.fxpse.val n.state.fxpse.div n.state.scratch
              (to_u64 (c - 48)), []))
            (fun _ => ((n.state.fxpse.val, n.state.fxpse.div, n.state.scratch), []))).1,
         (date_switch n.state.char_count
            (fun _ => ((n.state.fxpse.val, n.state.fxpse.div,
              wrap64 (to_u64 (c - 48) * 10 * SECONDS_IN_DAY)), ([] : List access)))
            (fun _ => ((n.state.fxpse.val, n.state.fxpse.div,
              wrap64 (wrap64 (n.state.scratch + wrap64 (to_u64 (c - 48) * SECONDS_IN_DAY))
                + (18446744073709551616 - SECONDS_IN_DAY))), []))
            (fun _ => ((wrap64 (to_u64 (c - 48) * 10), n.state.fxpse.div, n.state.scratch), []))
            (fun _ => date_month_regs_traced n.state.fxpse.val n.state.fxpse.div
              n.state.scratch (to_u64 (c - 48)))
            (fun _ => ((n.state.fxpse.val, wrap64 (to_u64 (c - 48) * 10), n.state.scratch), []))
            (fun _ => (date_year_regs n.state.fxpse.val n.state.fxpse.div n.state.scratch
              (to_u64 (c - 48)), []))
            (fun _ => ((n.state.fxpse.val, n.state.fxpse.div, n.state.scratch), []))).2) := rfl

theorem date_char_handler_traced_fst (n : nmea) (c : Int) :
    (date_char_handler_traced n c).1 = date_char_handler n c := by
  rewrite [date_char_handler_eq, date_char_store_switch, date_char_handler_traced_eq]
  refine congrArg (date_char_store n) ?_
  exact date_switch_fst n.state.char_count _ _ _ _ _ _ _ _ (date_month_regs_traced_fst _ _ _ _)

theorem month_loop_accesses (limit fuel i scratch : Nat) :
    ∀ a ∈ (date_month_loop_traced limit fuel i scratch).2,
      ∃ j, a = access.month_days j ∧ j < limit := by
  induction fuel generalizing i scratch with
  | zero => intro a ha; simp [date_month_loop_traced] at ha
  | succ f ih =>
    intro a ha
    unfold date_month_loop_traced at ha
    split_ifs at ha with hlt
    · simp only [month_days_read, List.singleton_append, List.mem_cons] at ha
      rcases ha with h | h
      · exact ⟨i, h, hlt⟩
      · exact ih _ _ a h
    · simp at ha

theorem month_table_accesses (m se1 scratch : Nat) :
    ∀ a ∈ (date_month_table_traced m se1 scratch).2, access_in_range a = true := by
  intro a ha
  unfold date_month_table_traced at ha
  split_ifs at ha with hm
  · simp at ha
  · obtain ⟨j, hj, hlt⟩ := month_loop_accesses _ _ _ _ a ha
    subst hj
    simp only [access_in_range, decide_eq_true_eq]
    exact Nat.lt_of_lt_of_le hlt (Nat.le_of_not_lt hm)

theorem date_char_accesses (n : nmea) (c : Int) :
    ∀ a ∈ (date_char_handler_traced n c).2, access_in_range a = true := by
  rewrite [date_char_handler_traced_eq]
  exact date_switch_snd (fun l => ∀ a ∈ l, access_in_range a = true) n.state.char_count
    _ _ _ _ _ _ _ (fun a ha => absurd ha (List.not_mem_nil a))
    (month_table_accesses _ _ _)

theorem char_handler_traced_fst (k : nmea_fields) (n : nmea) (c : Int) :
    (char_handler_traced k n c).1 = (HANDLER_LUT k).char_handler n c := by
  by_cases hk : k = NMEA_FIELD_DATE
  · subst hk
    exact date_char_handler_traced_fst n c
  · cases k <;> first
      | exact absurd rfl hk
      | rfl

theorem field_update_traced_fst (n : nmea) : (field_update_traced n).1 = field_update n := by
  unfold field_update_traced field_update fields_read
  simp only
  split_ifs <;> rfl

theorem nmea_parse_traced_fst (n : nmea) (c : Int) :
    (nmea_parse_traced n c).1 = nmea_parse n c := by
  unfold nmea_parse_traced
  split_ifs with h36 hr h44 h42
  · rfl
  · rfl
  · subst h44
    rw [nmea_parse_comma n (not_not.1 hr)]
    simp only [end_handler_traced_fst, field_update_traced_fst]
    rfl
  · subst h42
    rw [nmea_parse_star n (not_not.1 hr)]
    simp only [end_handler_traced_fst]
    rfl
  · rw [nmea_parse_char n c h36 h44 h42 (not_not.1 hr)]
    simp only [char_handler_traced_fst]
    rfl

/-! The recorded accesses are in range. -/

theorem sentence_length_eq (p : sentence_ptr) :
    (sentence_format p).length = (sentence_format p).fields.length := by
  rcases sentence_format_cases p with h | h | h | h | h | h | h
  · rw [h]; rfl
  all_goals subst h; rfl

theorem end_accesses_in_range (k : nmea_fields) (n : nmea) :
    ∀ a ∈ (end_handler_traced k n).2, access_in_range a = true := by
  intro a ha
  cases k <;>
    simp only [end_handler_traced, List.not_mem_nil, prns_tracked_end_handler_traced,
      prn_end_handler_traced, azimuth_end_handler_traced, elevation_end_handler_traced,
      snr_end_handler_traced, sats_write, prns_tracked_write] at ha
  all_goals
    split_ifs at ha with hc
    all_goals simp only [List.mem_singleton, List.not_mem_nil] at ha
    all_goals subst ha
    all_goals simp only [access_in_range, decide_eq_true_eq]
  · exact hc.2
  all_goals exact Nat.lt_of_not_le hc

theorem char_accesses_in_range (k : nmea_fields) (n : nmea) (c : Int) :
    ∀ a ∈ (char_handler_traced k n c).2, access_in_range a = true := by
  by_cases hk : k = NMEA_FIELD_DATE
  · subst hk
    exact date_char_accesses n c
  · intro a ha
    cases k <;> first
      | exact absurd rfl hk
      | (simp only [char_handler_traced, List.not_mem_nil] at ha)

theorem field_update_accesses_in_range (n : nmea) :
    ∀ a ∈ (field_update_traced n).2, access_in_range a = true := by
  intro a ha
  unfold field_update_traced fields_read at ha
  simp only at ha
  split_ifs at ha with hc
  · rw [List.mem_singleton.1 ha]
    simp only [access_in_range, decide_eq_true_eq]
    rw [← sentence_length_eq]
    exact hc
  · simp at ha

theorem parse_accesses_in_range (n : nmea) (c : Int) :
    ∀ a ∈ (nmea_parse_traced n c).2, access_in_range a = true := by
  intro a ha
  unfold nmea_parse_traced at ha
  split_ifs at ha
  · simp at ha
  · simp at ha
  · rcases List.mem_append.1 ha with h | h
    · exact end_accesses_in_range _ _ a h
    · exact field_update_accesses_in_range _ a h
  · exact end_accesses_in_range _ _ a ha
  · exact char_accesses_in_range _ _ _ a ha

/-! Nothing is stored beyond the arrays. -/

theorem beyond_kept_refl (a : nmea) : beyond_kept a a := ⟨fun _ _ => rfl, fun _ _ => rfl⟩

theorem beyond_kept_of_data {a b : nmea} (h : b.data = a.data) : beyond_kept a b := by
  unfold beyond_kept
  rw [h]
  exact ⟨fun _ _ => rfl, fun _ _ => rfl⟩

theorem beyond_kept_trans {a b c : nmea} (h1 : beyond_kept a b) (h2 : beyond_kept b c) :
    beyond_kept a c :=
  ⟨fun j hj => (h2.1 j hj).trans (h1.1 j hj), fun j hj => (h2.2 j hj).trans (h1.2 j hj)⟩

theorem beyond_kept_char (k : nmea_fields) (n : nmea) (c : Int) :
    beyond_kept n ((HANDLER_LUT k).char_handler n c) := by
  cases k <;>
    simp only [HANDLER_LUT, longitude_char_handler, latitude_char_handler, lon_lat_char_handler,
      longitude_dir_char_handler, latitude_dir_char_handler, ui_char_handler,
      altitude_char_handler, geoid_height_char_handler, pdop_char_handler, hdop_char_handler,
      vdop_char_handler, gll_active_char_handler, rmc_active_char_handler, speed_char_handler,
      time_char_handler, date_char_handler, magnetic_variation_char_handler,
      magnetic_variation_dir_char_handler, ignore_char_handler, true_track_char_handler,
      magnetic_track_char_handler, header_char_handler] <;>
    first
    | exact ⟨fun _ _ => rfl, fun _ _ => rfl⟩
    | (split_ifs <;> exact ⟨fun _ _ => rfl, fun _ _ => rfl⟩)

theorem beyond_kept_end (k : nmea_fields) (n : nmea) :
    beyond_kept n ((HANDLER_LUT k).end_handler n) := by
  by_cases hk : k = NMEA_FIELD_HEADER
  · subst hk
    exact beyond_kept_of_data (header_end_data n)
  have h20 : NMEA_MAX_SATS = 20 := rfl
  have h12 : NMEA_MAX_PRNS_TRACKED = 12 := rfl
  cases k <;>
    first
    | exact absurd rfl hk
    | (simp only [HANDLER_LUT, ignore_handler, longitude_end_handler, latitude_end_handler,
        fix_quality_end_handler, satellites_tracked_end_handler, satellites_in_view_end_handler,
        altitude_end_handler, geoid_height_end_handler, fix_3d_end_handler,
        prns_tracked_end_handler, prn_end_handler, pdop_end_handler, hdop_end_handler,
        vdop_end_handler, speed_end_handler, time_end_handler, date_end_handler,
        magnetic_variation_end_handler, gsv_sentences_total_end_handler,
        sentence_no_end_handler, azimuth_end_handler, elevation_end_handler, snr_end_handler,
        true_track_end_handler, magnetic_track_end_handler]
       first
       | exact ⟨fun _ _ => rfl, fun _ _ => rfl⟩
       | (split_ifs with hc <;> first
           | exact ⟨fun _ _ => rfl, fun _ _ => rfl⟩
           | (refine ⟨fun _ _ => rfl, fun j hj => ?_⟩
              show (n.data.prns_tracked.set n.state.gsa_satellite_index _)[j]? = _
              rw [List.getElem?_set_ne]
              have := hc.2
              omega)
           | (refine ⟨fun j hj => ?_, fun _ _ => rfl⟩
              show (n.data.sats.set n.state.gsv_satellite_index _)[j]? = _
              rw [List.getElem?_set_ne]
              omega)))

theorem beyond_kept_parse (n : nmea) (c : Int) : beyond_kept n (nmea_parse n c) := by
  by_cases h36 : c = 36
  · subst h36
    rw [nmea_parse_dollar]
    exact beyond_kept_refl _
  by_cases hr : n.state.checksum_recording = 0
  · by_cases h44 : c = 44
    · subst h44
      exact beyond_kept_of_data (close_data n 44 hr (Or.inl rfl)) |>.elim
        (fun h1 h2 => beyond_kept_trans (beyond_kept_end n.state.field_handlers (unready n))
          ⟨h1, h2⟩)
    · by_cases h42 : c = 42
      · subst h42
        rw [nmea_parse_star n hr]
        exact beyond_kept_end n.state.field_handlers (unready n)
      · rw [nmea_parse_char n c h36 h44 h42 hr]
        exact beyond_kept_char n.state.field_handlers (touch n) c
  · by_cases hc : n.state.char_count = 0
    · rw [nmea_parse_first_digit n c h36 hr hc]
      exact beyond_kept_refl _
    · by_cases hv : (n.state.fxpse.val ||| hex_to_nibble c) = n.state.checksum
      · rw [nmea_parse_second_digit_pass n c h36 hr hc hv]
        rcases sentence_end_handler_eq n.state.sentence n with e | e | e
        · exact beyond_kept_of_data (by rw [e])
        · exact beyond_kept_of_data (by rw [e]; rfl)
        · exact beyond_kept_of_data (by rw [e]; exact (gsv_end_handler_frame n).2)
      · rw [nmea_parse_second_digit_fail n c h36 hr hc hv]
        exact beyond_kept_of_data (fail_handler_received n.state.sentence n).2

theorem member_eq_of_eq (f : snapshot_member) {a b : nmea_data} (h : a = b) : member_eq f a b := by
  subst h
  cases f <;> rfl

theorem member_eq_trans (f : snapshot_member) {a b c : nmea_data} (h1 : member_eq f a b)
    (h2 : member_eq f b c) : member_eq f a c := by
  cases f <;> exact Eq.trans h1 h2

/-- The char handler of a kind leaves every snapshot member alone that the
kind does not write. -/
theorem char_writes (k : nmea_fields) (f : snapshot_member) (hf : written_by k ≠ some f)
    (n : nmea) (c : Int) : member_eq f ((HANDLER_LUT k).char_handler n c).data n.data := by
  cases k <;>
    simp only [HANDLER_LUT, longitude_char_handler, latitude_char_handler, lon_lat_char_handler,
      longitude_dir_char_handler, latitude_dir_char_handler, ui_char_handler,
      altitude_char_handler, geoid_height_char_handler, pdop_char_handler, hdop_char_handler,
      vdop_char_handler, gll_active_char_handler, rmc_active_char_handler, speed_char_handler,
      time_char_handler, date_char_handler, magnetic_variation_char_handler,
      magnetic_variation_dir_char_handler, ignore_char_handler, true_track_char_handler,
      magnetic_track_char_handler, header_char_handler] <;>
    cases f <;>
    first
    | exact absurd rfl hf
    | rfl
    | (split_ifs <;> rfl)

/-- The end handler of a kind leaves every snapshot member alone that the
kind does not write. -/
theorem end_writes (k : nmea_fields) (f : snapshot_member) (hf : written_by k ≠ some f)
    (n : nmea) : member_eq f ((HANDLER_LUT k).end_handler n).data n.data := by
  by_cases hk : k = NMEA_FIELD_HEADER
  · subst hk
    exact member_eq_of_eq f (header_end_data n)
  cases k <;>
    first
    | exact absurd rfl hk
    | (simp only [HANDLER_LUT, ignore_handler, longitude_end_handler, latitude_end_handler,
        fix_quality_end_handler, satellites_tracked_end_handler, satellites_in_view_end_handler,
        altitude_end_handler, geoid_height_end_handler, fix_3d_end_handler,
        prns_tracked_end_handler, prn_end_handler, pdop_end_handler, hdop_end_handler,
        vdop_end_handler, speed_end_handler, time_end_handler, date_end_handler,
        magnetic_variation_end_handler, gsv_sentences_total_end_handler,
        sentence_no_end_handler, azimuth_end_handler, elevation_end_handler, snr_end_handler,
        true_track_end_handler, magnetic_track_end_handler] <;>
      cases f <;>
      first
      | exact absurd rfl hf
      | rfl
      | (split_ifs <;> rfl))

/-- The sentence hooks leave the fix snapshot, the selected format and the
candidate bitmap alone. -/
theorem hooks_keep (p : sentence_ptr) (n : nmea) :
    (((sentence_format p).end_handler n).data = n.data ∧
      ((sentence_format p).end_handler n).state.sentence = n.state.sentence ∧
      ((sentence_format p).end_handler n).state.sentence_bitmap = n.state.sentence_bitmap) ∧
    (((sentence_format p).checksum_fail_handler n).data = n.data ∧
      ((sentence_format p).checksum_fail_handler n).state.sentence = n.state.sentence ∧
      ((sentence_format p).checksum_fail_handler n).state.sentence_bitmap
        = n.state.sentence_bitmap) := by
  constructor
  · rcases sentence_end_handler_eq p n with h | h | h <;> rw [h]
    · exact ⟨rfl, rfl, rfl⟩
    · exact ⟨rfl, rfl, rfl⟩
    · unfold gsv_end_handler
      simp only
      split_ifs <;> exact ⟨rfl, rfl, rfl⟩
  · rcases sentence_fail_handler_eq p n with h | h <;> rw [h]
    · exact ⟨rfl, rfl, rfl⟩
    · exact ⟨rfl, rfl, rfl⟩

theorem header_end_bitmap (n : nmea) :
    (header_end_handler n).state.sentence_bitmap = n.state.sentence_bitmap := by
  unfold header_end_handler
  simp only
  split_ifs
  · rcases sentence_start_handler_eq
      (sentence_ptr.lut (header_end_loop 16 n.state.sentence_bitmap 0))
      { n with state := { n.state with
          sentence := sentence_ptr.lut (header_end_loop 16 n.state.sentence_bitmap 0) } }
      with h | h <;> rw [h] <;> rfl
  · rfl

/-- The classifier loop on a candidate bitmap with the only candidate `i`, or
with none: the candidate stays or goes, none is added. -/
theorem loop_single (c : Int) (cc i : Nat) (hi : i < 6) (bm : Nat)
    (hbm : bm = 1 <<< i ∨ bm = 0) :
    header_char_loop c cc SENTENCE_LUT.length 0 bm = 1 <<< i ∨
    header_char_loop c cc SENTENCE_LUT.length 0 bm = 0 := by
  rcases hbm with h | h
  · subst h
    have hle := header_char_loop_le c cc SENTENCE_LUT.length 0 (1 <<< i)
    have hlt : 1 <<< i < 2 ^ 16 := by
      rw [Nat.one_shiftLeft]
      exact Nat.pow_lt_pow_right (by decide) (by omega)
    have hbit : ∀ j, (header_char_loop c cc SENTENCE_LUT.length 0 (1 <<< i)).testBit j = true →
        j = i := by
      intro j hj
      by_cases h16 : j < 16
      · rw [header_char_loop_testBit c cc _ 0 _ j h16, Nat.one_shiftLeft, Nat.testBit_two_pow]
          at hj
        simp only [Bool.and_eq_true, decide_eq_true_eq] at hj
        exact hj.1.symm
      · have : (header_char_loop c cc SENTENCE_LUT.length 0 (1 <<< i)) < 2 ^ j :=
          Nat.lt_of_le_of_lt hle (Nat.lt_of_lt_of_le hlt
            (Nat.pow_le_pow_right (by decide) (by omega)))
        rw [Nat.testBit_lt_two_pow this] at hj
        exact absurd hj (by decide)
    generalize header_char_loop c cc SENTENCE_LUT.length 0 (1 <<< i) = R at hbit ⊢
    by_cases hb : R.testBit i = true
    · left
      apply Nat.eq_of_testBit_eq
      intro j
      rw [Nat.one_shiftLeft, Nat.testBit_two_pow]
      by_cases hj : i = j
      · subst hj
        rw [hb]
        simp
      · cases hx : R.testBit j with
        | false => simp [hj]
        | true => exact absurd (hbit j hx).symm hj
    · right
      apply Nat.eq_of_testBit_eq
      intro j
      rw [Nat.zero_testBit]
      cases hx : R.testBit j with
      | false => rfl
      | true =>
        have := hbit j hx
        subst this
        exact absurd hx hb
  · subst h
    right
    exact loop_zero c cc _ 0

theorem kind_at_listed (i j : Nat) : listed i (kind_at (sentence_ptr.lut i) j) := by
  unfold kind_at
  split_ifs with h
  · rw [sentence_length_eq] at h
    right
    rw [List.getD_eq_getElem _ _ h]
    exact List.getElem_mem _
  · exact Or.inl rfl

theorem listed_ne_header (i : Nat) (k : nmea_fields) (h : listed i k) :
    k ≠ NMEA_FIELD_HEADER := by
  rcases h with h | h
  · rw [h]; decide
  · intro hk
    subst hk
    rcases sentence_format_cases (sentence_ptr.lut i) with e | e | e | e | e | e | e
    · rw [e] at h; simp [IGNORE_SENTENCE] at h
    all_goals
      rw [e] at h
      revert h
      decide

theorem frame_inv_comma (i : Nat) (hi : i < 6) (n : nmea) (hinv : frame_inv i n) :
    ((HANDLER_LUT n.state.field_handlers).end_handler (unready n)).state.sentence
      = sentence_ptr.lut i ∨
    ((HANDLER_LUT n.state.field_handlers).end_handler (unready n)).state.sentence
      = sentence_ptr.ignore := by
  rcases hinv with ⟨hh, hb⟩ | ⟨hl, hs⟩
  · rw [hh]
    have he : ((HANDLER_LUT NMEA_FIELD_HEADER).end_handler (unready n)).state.sentence
        = (if (n.state.sentence_bitmap &&& (n.state.sentence_bitmap - 1)) = 0
            ∧ n.state.sentence_bitmap ≠ 0
          then sentence_ptr.lut (header_end_loop 16 n.state.sentence_bitmap 0)
          else sentence_ptr.ignore) := header_end_sentence (unready n)
    rw [he]
    rcases hb with hb | hb
    · rw [hb, if_pos (hdr_bitmap_literal i hi).2.2.2.2, (hdr_bitmap_literal i hi).2.2.2.1]
      exact Or.inl rfl
    · rw [hb, if_neg (by simp)]
      exact Or.inr rfl
  · rw [sentence_end _ (listed_ne_header i _ hl)]
    exact hs

theorem kind_listed (i : Nat) (p : sentence_ptr) (j : Nat)
    (hp : p = sentence_ptr.lut i ∨ p = sentence_ptr.ignore) : listed i (kind_at p j) := by
  rcases hp with h | h <;> subst h
  · exact kind_at_listed i j
  · rw [kind_at_ignore]
    exact Or.inl rfl

/-- One character of a sentence of format `i`, not `$`: the invariant is
kept and a snapshot member that no kind of the format writes keeps its
value. -/
theorem frame_step (i : Nat) (hi : i < 6) (n : nmea) (c : Int) (h36 : c ≠ 36)
    (hinv : frame_inv i n) (f : snapshot_member)
    (hw : ∀ k, listed i k → written_by k ≠ some f) :
    frame_inv i (nmea_parse n c) ∧ member_eq f (nmea_parse n c).data n.data := by
  have hhead : written_by NMEA_FIELD_HEADER ≠ some f := by simp [written_by]
  have hcur : written_by n.state.field_handlers ≠ some f := by
    rcases hinv with ⟨hh, _⟩ | ⟨hl, _⟩
    · rw [hh]; exact hhead
    · exact hw _ hl
  by_cases hr : n.state.checksum_recording = 0
  · by_cases h44 : c = 44
    · subst h44
      have hp := parse_comma n hr
      have hs := frame_inv_comma i hi n hinv
      rw [← hp.2.2.2.2.2.2.2] at hs
      refine ⟨Or.inr ⟨?_, hs⟩, ?_⟩
      · rw [hp.2.1, hp.1]
        exact kind_listed i _ _ hs
      · rw [close_data n 44 hr (Or.inl rfl)]
        exact end_writes _ f hcur (unready n)
    · by_cases h42 : c = 42
      · subst h42
        have hp := parse_star n hr
        have hs := frame_inv_comma i hi n hinv
        rw [← hp.2.2.2.2.2.2.2.2] at hs
        constructor
        · rcases hinv with ⟨hh, hb⟩ | ⟨hl, _⟩
          · left
            refine ⟨by rw [hp.2.1]; exact hh, ?_⟩
            have hbm : (nmea_parse n 42).state.sentence_bitmap = n.state.sentence_bitmap := by
              rw [nmea_parse_star n hr, hh]
              exact header_end_bitmap (unready n)
            rw [hbm]
            exact hb
          · right
            exact ⟨by rw [hp.2.1]; exact hl, hs⟩
        · rw [close_data n 42 hr (Or.inr rfl)]
          exact end_writes _ f hcur (unready n)
      · have hp := parse_char n c h36 h44 h42 hr
        constructor
        · rcases hinv with ⟨hh, hb⟩ | ⟨hl, hs⟩
          · left
            refine ⟨by rw [hp.2.1]; exact hh, ?_⟩
            rw [nmea_parse_hdr n c h36 h44 h42 hr hh]
            exact loop_single c n.state.char_count i hi _ hb
          · right
            exact ⟨by rw [hp.2.1]; exact hl, by rw [hp.2.2.2.2.2.2.2]; exact hs⟩
        · rw [nmea_parse_char n c h36 h44 h42 hr]
          exact char_writes _ f hcur (touch n) c
  · by_cases hc : n.state.char_count = 0
    · rw [nmea_parse_first_digit n c h36 hr hc]
      exact ⟨hinv, member_eq_of_eq f rfl⟩
    · have hk := hooks_keep n.state.sentence n
      have hf := hooks_field n.state.sentence n
      by_cases hv : (n.state.fxpse.val ||| hex_to_nibble c) = n.state.checksum
      · rw [nmea_parse_second_digit_pass n c h36 hr hc hv]
        refine ⟨?_, member_eq_of_eq f hk.1.1⟩
        unfold frame_inv
        show (((sentence_format n.state.sentence).end_handler n).state.field_handlers = _ ∧
            (((sentence_format n.state.sentence).end_handler n).state.sentence_bitmap = _ ∨
              ((sentence_format n.state.sentence).end_handler n).state.sentence_bitmap = _)) ∨
          (listed i ((sentence_format n.state.sentence).end_handler n).state.field_handlers ∧
            (((sentence_format n.state.sentence).end_handler n).state.sentence = _ ∨
              ((sentence_format n.state.sentence).end_handler n).state.sentence = _))
        rw [hf.2.1, hk.1.2.1, hk.1.2.2]
        exact hinv
      · rw [nmea_parse_second_digit_fail n c h36 hr hc hv]
        refine ⟨?_, member_eq_of_eq f hk.2.1⟩
        unfold frame_inv
        show (((sentence_format n.state.sentence).checksum_fail_handler n).state.field_handlers
              = _ ∧
            (((sentence_format n.state.sentence).checksum_fail_handler n).state.sentence_bitmap
                = _ ∨
              ((sentence_format n.state.sentence).checksum_fail_handler n).state.sentence_bitmap
                = _)) ∨
          (listed i
              ((sentence_format n.state.sentence).checksum_fail_handler n).state.field_handlers ∧
            (((sentence_format n.state.sentence).checksum_fail_handler n).state.sentence = _ ∨
              ((sentence_format n.state.sentence).checksum_fail_handler n).state.sentence = _))
        rw [hf.2.2.2, hk.2.2.1, hk.2.2.2]
        exact hinv

theorem frame_run (i : Nat) (hi : i < 6) (s : List Int) (n : nmea) (hs : ∀ c ∈ s, c ≠ 36)
    (hinv : frame_inv i n) (f : snapshot_member)
    (hw : ∀ k, listed i k → written_by k ≠ some f) :
    member_eq f (test_parse_string n s).data n.data := by
  induction s generalizing n with
  | nil => exact member_eq_of_eq f rfl
  | cons c t ih =>
    have hst := frame_step i hi n c (hs c (List.mem_cons_self _ _)) hinv f hw
    rw [test_parse_string_cons]
    exact member_eq_trans f (ih _ (fun d hd => hs d (List.mem_cons_of_mem _ hd)) hst.1) hst.2

theorem written_members_iff (l : List nmea_fields) (f : snapshot_member) :
    f ∉ written_members l ↔ ∀ k ∈ l, written_by k ≠ some f := by
  unfold written_members
  rw [List.mem_dedup, List.mem_filterMap]
  constructor
  · intro h k hk he
    exact h ⟨k, hk, he⟩
  · rintro h ⟨k, hk, he⟩
    exact h k hk he


/-! ## The claims -/


/-- C1: for every parser value and every mask `m`, `nmea_fields_ready` returns 1
exactly when every bit of `m` is set in `state.received`; when it returns 1 the
new `state.received` has bit `i` set exactly when the old one had it and `m` does
not; when it returns 0 the parser is unchanged; it returns 1 or 0, and the fix
snapshot `data` is untouched in both cases. -/
theorem nmea_fields_ready_contract (n : nmea) (m : Nat) :
    ((nmea_fields_ready n m).2 = 1 ↔
      ∀ i, m.testBit i = true → n.state.received.testBit i = true) ∧
    ((nmea_fields_ready n m).2 = 1 →
      ∀ i, (nmea_fields_ready n m).1.state.received.testBit i
            = (n.state.received.testBit i && !m.testBit i)) ∧
    ((nmea_fields_ready n m).2 = 0 → (nmea_fields_ready n m).1 = n) ∧
    ((nmea_fields_ready n m).2 = 1 ∨ (nmea_fields_ready n m).2 = 0) ∧
    (nmea_fields_ready n m).1.data = n.data := by
  unfold nmea_fields_ready
  by_cases h : n.state.received &&& m = m
  · simp only [h, if_true]
    have hb := (and_eq_right_iff_testBit _ _).1 h
    refine ⟨⟨fun _ => hb, fun _ => trivial⟩, ?_, ?_, Or.inl trivial, trivial⟩
    · intro _ i
      simp only [Nat.testBit_xor]
      cases hm : m.testBit i
      · simp
      · simp [hb i hm]
    · intro h0; exact absurd h0 (by decide)
  · simp only [h, if_false]
    refine ⟨⟨fun h0 => absurd h0 (by decide),
      fun hb => absurd ((and_eq_right_iff_testBit _ _).2 hb) h⟩, ?_, ?_, Or.inr trivial, trivial⟩
    · intro h0; exact absurd h0 (by decide)
    · intro _; trivial

set_option maxRecDepth 100000 in
/-- C1 at the VTG test sentence and the mask of its two documented bits: the check
succeeds, only the ignore bit is left, the snapshot is as before. -/
theorem nmea_fields_ready_contract_witness :
    (nmea_fields_ready (test_parse_string fresh
        (chars "$GPVTG,213.73,T,,M,34.075,N,63.106,K,A*3E"))
      (mask_of [NMEA_FIELD_TRUE_TRACK, NMEA_FIELD_SPEED])).2 = 1 ∧
    (nmea_fields_ready (test_parse_string fresh
        (chars "$GPVTG,213.73,T,,M,34.075,N,63.106,K,A*3E"))
      (mask_of [NMEA_FIELD_TRUE_TRACK, NMEA_FIELD_SPEED])).1.state.received
      = field_mask NMEA_FIELD_IGNORE ∧
    (nmea_fields_ready (test_parse_string fresh
        (chars "$GPVTG,213.73,T,,M,34.075,N,63.106,K,A*3E"))
      (mask_of [NMEA_FIELD_TRUE_TRACK, NMEA_FIELD_SPEED])).1.data
      = (test_parse_string fresh (chars "$GPVTG,213.73,T,,M,34.075,N,63.106,K,A*3E")).data :=
  ⟨by decide, by decide,
   (nmea_fields_ready_contract (test_parse_string fresh
        (chars "$GPVTG,213.73,T,,M,34.075,N,63.106,K,A*3E"))
      (mask_of [NMEA_FIELD_TRUE_TRACK, NMEA_FIELD_SPEED])).2.2.2.2⟩

/-- C2 fails for the empty mask: `nmea_fields_ready` with mask 0 returns 1, and
the immediately repeated call with mask 0 returns 1 again. -/
theorem ready_repeat_empty_mask :
    (nmea_fields_ready fresh 0).2 = 1 ∧
    (nmea_fields_ready (nmea_fields_ready fresh 0).1 0).2 = 1 := by
  decide

/-- C2, amended: for every parser value and every mask `m` other than 0, if
`nmea_fields_ready` returns 1 then the immediately repeated call with the same
mask returns 0. -/
theorem ready_repeat_fails (n : nmea) (m : Nat) (hm : m ≠ 0)
    (h : (nmea_fields_ready n m).2 = 1) :
    (nmea_fields_ready (nmea_fields_ready n m).1 m).2 = 0 := by
  unfold nmea_fields_ready at h ⊢
  by_cases h1 : n.state.received &&& m = m
  · simp only [h1, if_true]
    have : (n.state.received ^^^ m) &&& m ≠ m := by
      intro h2
      apply hm
      apply Nat.eq_of_testBit_eq
      intro i
      have h3 := congrArg (fun x => x.testBit i) h2
      have h4 := congrArg (fun x => x.testBit i) h1
      simp only [Nat.testBit_and, Nat.testBit_xor] at h3 h4
      rw [Nat.zero_testBit]
      cases hmi : m.testBit i
      · rfl
      · rw [hmi] at h3 h4; simp at h3 h4; simp [h4] at h3
    simp only [this, if_false]
  · simp only [h1, if_false] at h
    exact absurd h (by decide)

set_option maxRecDepth 100000 in
/-- C2, amended, at the VTG test sentence and the mask of its two documented
bits. -/
theorem ready_repeat_fails_witness :
    mask_of [NMEA_FIELD_TRUE_TRACK, NMEA_FIELD_SPEED] ≠ 0 ∧
    (nmea_fields_ready (test_parse_string fresh
        (chars "$GPVTG,213.73,T,,M,34.075,N,63.106,K,A*3E"))
      (mask_of [NMEA_FIELD_TRUE_TRACK, NMEA_FIELD_SPEED])).2 = 1 ∧
    (nmea_fields_ready (nmea_fields_ready (test_parse_string fresh
        (chars "$GPVTG,213.73,T,,M,34.075,N,63.106,K,A*3E"))
      (mask_of [NMEA_FIELD_TRUE_TRACK, NMEA_FIELD_SPEED])).1
      (mask_of [NMEA_FIELD_TRUE_TRACK, NMEA_FIELD_SPEED])).2 = 0 :=
  ⟨by decide, by decide,
   ready_repeat_fails (test_parse_string fresh
        (chars "$GPVTG,213.73,T,,M,34.075,N,63.106,K,A*3E"))
      (mask_of [NMEA_FIELD_TRUE_TRACK, NMEA_FIELD_SPEED]) (by decide) (by decide)⟩

set_option maxRecDepth 100000 in
/-- C3: from a freshly initialised parser, after one sentence of format GGA, GLL,
GSA, RMC or VTG (`i` = 0, 1, 2, 4, 5) made of the header literal, at most 256
comma-led fields without `$`, `,` and `*`, then `*` and the two uppercase
hexadecimal digits of the XOR of its characters, bit `b` of the readiness
bitmap is set exactly when `b` is the ignore bit or the sentence has a
non-empty field whose kind has the value `b`; and for the five test sentences
the readiness bitmap without the ignore bit is exactly the mask the test
documents. -/
theorem sentence_sets_documented_bits :
    (∀ (i : Nat) (fs : List (List Int)) (n0 : nmea),
      (i = 0 ∨ i = 1 ∨ i = 2 ∨ i = 4 ∨ i = 5) →
      (∀ f ∈ fs, ∀ c ∈ f, c ≠ 36 ∧ c ≠ 44 ∧ c ≠ 42) → fs.length ≤ 256 →
      ∀ b : Nat,
        (test_parse_string (nmea_init n0) (36 :: ((header_literal i ++ join_fields fs) ++
          [42, hex_digit (xor_sum (header_literal i ++ join_fields fs) / 16),
            hex_digit (xor_sum (header_literal i ++ join_fields fs) % 16)]))).state.received.testBit b
          = true ↔
        (b = field_value NMEA_FIELD_IGNORE ∨
          ∃ t f, fs[t]? = some f ∧ f ≠ [] ∧ field_value (kind_at (sentence_ptr.lut i) t) = b)) ∧
    and_not64 (test_parse_string fresh (chars
        "$GPRMC,175456.00,A,5104.34432,N,00147.29814,W,34.075,213.73,080321,,,A*47")).state.received
        (field_mask NMEA_FIELD_IGNORE)
      = mask_of [NMEA_FIELD_TIME, NMEA_FIELD_RMC_ACTIVE, NMEA_FIELD_LATITUDE,
          NMEA_FIELD_LATITUDE_DIR, NMEA_FIELD_LONGITUDE, NMEA_FIELD_LONGITUDE_DIR,
          NMEA_FIELD_SPEED, NMEA_FIELD_TRUE_TRACK, NMEA_FIELD_DATE] ∧
    and_not64 (test_parse_string fresh (chars
        "$GPVTG,213.73,T,,M,34.075,N,63.106,K,A*3E")).state.received
        (field_mask NMEA_FIELD_IGNORE)
      = mask_of [NMEA_FIELD_TRUE_TRACK, NMEA_FIELD_SPEED] ∧
    and_not64 (test_parse_string fresh (chars
        "$GPGGA,175456.00,5104.34432,N,00147.29814,W,1,03,2.88,61.8,M,47.5,M,,*74")).state.received
        (field_mask NMEA_FIELD_IGNORE)
      = mask_of [NMEA_FIELD_TIME, NMEA_FIELD_LATITUDE, NMEA_FIELD_LATITUDE_DIR,
          NMEA_FIELD_LONGITUDE, NMEA_FIELD_LONGITUDE_DIR, NMEA_FIELD_FIX_QUALITY,
          NMEA_FIELD_SATELLITES_TRACKED, NMEA_FIELD_HDOP, NMEA_FIELD_ALTITUDE,
          NMEA_FIELD_GEOID_HEIGHT] ∧
    and_not64 (test_parse_string fresh (chars
        "$GPGSA,A,2,18,16,23,,,,,,,,,,3.05,2.88,1.00*09")).state.received
        (field_mask NMEA_FIELD_IGNORE)
      = mask_of [NMEA_FIELD_FIX_3D, NMEA_FIELD_PRNS_TRACKED, NMEA_FIELD_PDOP, NMEA_FIELD_HDOP,
          NMEA_FIELD_VDOP] ∧
    and_not64 (test_parse_string fresh (chars
        "$GPGLL,5104.34432,N,00147.29814,W,175456.00,A,A*79")).state.received
        (field_mask NMEA_FIELD_IGNORE)
      = mask_of [NMEA_FIELD_LATITUDE, NMEA_FIELD_LATITUDE_DIR, NMEA_FIELD_LONGITUDE,
          NMEA_FIELD_LONGITUDE_DIR, NMEA_FIELD_TIME, NMEA_FIELD_GLL_ACTIVE] := by
  refine ⟨?_, by decide, by decide, by decide, by decide, by decide⟩
  intro i fs n0 hi hfs hlen b
  have hi6 : i < 6 := by omega
  have hi3 : i ≠ 3 := by omega
  have hw : ∀ c ∈ header_literal i ++ join_fields fs, c ≠ 36 ∧ c ≠ 42 := by
    intro c hc
    rcases List.mem_append.mp hc with h | h
    · exact header_literal_plain i hi6 c h
    · exact join_fields_plain fs hfs c h
  have hst := to_star (nmea_init n0) _ hw
  have hfa := fields_at_star (nmea_init n0) i hi6 fs hfs hlen
  rw [sentence_tail]
  obtain ⟨-, -, -, hr, hc, hck, hrec, -⟩ := hst
  generalize test_parse_string (nmea_init n0)
    (36 :: ((header_literal i ++ join_fields fs) ++ [42])) = m at hr hc hck hrec hfa
  have hr' : m.state.checksum_recording ≠ 0 := by rw [hr]; decide
  have hm0 : m.state.received = 0 := eq_zero_of_bits_subset_zero hrec
  rw [digits_pass m _ _ (hex_digit_ne_dollar _) (hex_digit_ne_dollar _) hr' hc
      ((hex_digits_value _ (xor_sum_lt _)).trans hck.symm), hfa.1]
  have hgen : ∀ m : nmea, (sentence_format (sentence_ptr.lut i)).end_handler m
      = generic_end_handler m := by
    intro m
    rcases hi with h | h | h | h | h <;> subst h <;> rfl
  rw [hgen]
  show (m.state.received ||| m.state.field_bitmap).testBit b = true ↔ _
  rw [hm0, Nat.zero_or, hfa.2, Nat.testBit_or, Bool.or_eq_true, touched_testBit]
  have hfield : (nmea_init n0).state.field = NMEA_FIELD_IGNORE := rfl
  rw [hfield, field_mask_testBit, decide_eq_true_eq]
  simp only [Nat.zero_add]
  constructor
  · rintro (h | h)
    · exact Or.inl h.symm
    · exact Or.inr h
  · rintro (h | h)
    · exact Or.inl h.symm
    · exact Or.inr h

set_option maxRecDepth 100000 in
/-- C3 at the fields of the RMC test sentence: the hypotheses hold, the text is
the test sentence, and the DATE bit (19) is set exactly as the statement says. -/
theorem sentence_sets_documented_bits_witness :
    (∀ f ∈ rmc_test_fields, ∀ c ∈ f, c ≠ 36 ∧ c ≠ 44 ∧ c ≠ 42) ∧
    rmc_test_fields.length ≤ 256 ∧
    36 :: ((header_literal 4 ++ join_fields rmc_test_fields) ++
        [42, hex_digit (xor_sum (header_literal 4 ++ join_fields rmc_test_fields) / 16),
          hex_digit (xor_sum (header_literal 4 ++ join_fields rmc_test_fields) % 16)])
      = chars "$GPRMC,175456.00,A,5104.34432,N,00147.29814,W,34.075,213.73,080321,,,A*47" ∧
    ((test_parse_string (nmea_init fresh) (36 :: ((header_literal 4 ++ join_fields rmc_test_fields)
        ++ [42, hex_digit (xor_sum (header_literal 4 ++ join_fields rmc_test_fields) / 16),
          hex_digit (xor_sum (header_literal 4 ++ join_fields rmc_test_fields) % 16)]))).state.received.testBit
        19 = true ↔
      (19 = field_value NMEA_FIELD_IGNORE ∨
        ∃ t f, rmc_test_fields[t]? = some f ∧ f ≠ [] ∧
          field_value (kind_at (sentence_ptr.lut 4) t) = 19)) :=
  ⟨by decide, by decide, by decide,
   sentence_sets_documented_bits.1 4 rmc_test_fields fresh (by decide) (by decide) (by decide) 19⟩

/-- C4: from every parser value, `$`, the five characters of a header literal and
`,` select the format of that literal with its first field kind current (TIME,
LATITUDE, IGNORE, GSV_SENTENCES_TOTAL, TIME, TRUE_TRACK for GPGGA, GPGLL, GPGSA,
GPGSV, GPRMC, GPVTG), outside checksum capture, and the next ordinary character
is handed to the char handler of that kind. -/
theorem header_selects_format (n : nmea) :
    selects (test_parse_string n (chars "$GPGGA,")) 0 NMEA_FIELD_TIME ∧
    selects (test_parse_string n (chars "$GPGLL,")) 1 NMEA_FIELD_LATITUDE ∧
    selects (test_parse_string n (chars "$GPGSA,")) 2 NMEA_FIELD_IGNORE ∧
    selects (test_parse_string n (chars "$GPGSV,")) 3 NMEA_FIELD_GSV_SENTENCES_TOTAL ∧
    selects (test_parse_string n (chars "$GPRMC,")) 4 NMEA_FIELD_TIME ∧
    selects (test_parse_string n (chars "$GPVTG,")) 5 NMEA_FIELD_TRUE_TRACK ∧
    (∀ i, i < 6 → ∀ c, c ≠ 36 → c ≠ 44 → c ≠ 42 →
      nmea_parse (test_parse_string n (36 :: (header_literal i ++ [44]))) c
        = fold_checksum ((HANDLER_LUT (kind_at (sentence_ptr.lut i) 0)).char_handler
            (touch (test_parse_string n (36 :: (header_literal i ++ [44])))) c) c) := by
  refine ⟨selects_of_literal n 0 (by decide) _ _ (by decide) (by decide),
    selects_of_literal n 1 (by decide) _ _ (by decide) (by decide),
    selects_of_literal n 2 (by decide) _ _ (by decide) (by decide),
    selects_of_literal n 3 (by decide) _ _ (by decide) (by decide),
    selects_of_literal n 4 (by decide) _ _ (by decide) (by decide),
    selects_of_literal n 5 (by decide) _ _ (by decide) (by decide), ?_⟩
  intro i hi c h36 h44 h42
  have h := select_literal n i hi
  rw [nmea_parse_char _ c h36 h44 h42 h.2.2.2.1, h.2.2.1]

/-- C4 at a freshly initialised parser and the header GPRMC. -/
theorem header_selects_format_witness :
    selects (test_parse_string fresh (chars "$GPRMC,")) 4 NMEA_FIELD_TIME :=
  (header_selects_format fresh).2.2.2.2.1

set_option maxRecDepth 100000 in
/-- C6 as stated fails: the classifier compares the header characters with the
6 byte head arrays, whose sixth byte is the terminating 0 of the literal.  The
header `GPRMC` followed by a 0 byte has six characters and is a prefix of none
of the six header literals, but it is the head array of the RMC format: from
`nmea_init` the sentence selects RMC, its time field `175456.00` is decoded
(`data.time` goes from 0 to 64496) and with the matching checksum `4D` the
readiness bits of the TIME and the IGNORE kind are set. -/
theorem literal_with_nul_selects_format :
    (chars "GPRMC" ++ [0]).length ≤ 6 ∧
    (∀ c ∈ chars "GPRMC" ++ [0], c ≠ 36 ∧ c ≠ 44 ∧ c ≠ 42) ∧
    (∀ j, j < 6 → ¬ (chars "GPRMC" ++ [0]) <+: header_literal j) ∧
    (∀ c ∈ chars "175456.00", c ≠ 36) ∧
    (test_parse_string (nmea_init fresh)
      (36 :: ((chars "GPRMC" ++ [0]) ++ [44]))).state.sentence = sentence_ptr.lut 4 ∧
    (nmea_init fresh).data.time = 0 ∧
    (test_parse_string (nmea_init fresh)
      (36 :: ((chars "GPRMC" ++ [0]) ++ 44 :: (chars "175456.00" ++ [42, 52, 68])))).data.time
      = 64496 ∧
    (test_parse_string (nmea_init fresh)
      (36 :: ((chars "GPRMC" ++ [0]) ++ 44 ::
        (chars "175456.00" ++ [42, 52, 68])))).state.received
      = field_mask NMEA_FIELD_TIME ||| field_mask NMEA_FIELD_IGNORE := by
  refine ⟨by decide, by decide, by decide, by decide, by decide, by decide, by decide,
    by decide⟩

/-- C6, amended: for every parser value and every sentence `$` h `,` body `*`
x y whose header `h` (at most 6 characters, none of them `$`, `,` or `*`) is
an initial segment of none of the six 6 byte head arrays (each header literal
followed by its terminating 0) and whose body and checksum characters contain
no `$`, the fix snapshot after the sentence equals the one before it, every
readiness bit set afterwards was set before, and from a parser with readiness
bitmap 0, in particular a freshly initialised one, the bitmap is 0. -/
theorem unsupported_sentence_inert (n : nmea) (h body : List Int) (x y : Int)
    (hh : ∀ c ∈ h, c ≠ 36 ∧ c ≠ 44 ∧ c ≠ 42) (hlen : h.length ≤ 6)
    (hnp : ∀ j, j < 6 → ¬ starts_head h j)
    (hbody : ∀ c ∈ body, c ≠ 36) (hx : x ≠ 36) (hy : y ≠ 36) :
    (test_parse_string n (36 :: (h ++ 44 :: (body ++ [42, x, y])))).data = n.data ∧
    bits_subset (test_parse_string n (36 :: (h ++ 44 :: (body ++ [42, x, y])))).state.received
      n.state.received ∧
    (n.state.received = 0 →
      (test_parse_string n (36 :: (h ++ 44 :: (body ++ [42, x, y])))).state.received = 0) ∧
    (∀ n0 : nmea,
      (test_parse_string (nmea_init n0)
        (36 :: (h ++ 44 :: (body ++ [42, x, y])))).state.received = 0) := by
  have hrest : ∀ c ∈ body ++ [42, x, y], c ≠ 36 := by
    intro c hc
    rcases List.mem_append.mp hc with hc | hc
    · exact hbody c hc
    · simp only [List.mem_cons, List.mem_singleton, List.not_mem_nil, or_false] at hc
      rcases hc with hc | hc | hc
      · subst hc; decide
      · subst hc; exact hx
      · subst hc; exact hy
  have htake : h.take 6 = h := List.take_of_length_le hlen
  have hb := not_single_of_none h (by rw [htake]; exact hnp)
  have key : ∀ m : nmea,
      (test_parse_string m (36 :: (h ++ 44 :: (body ++ [42, x, y])))).data = m.data ∧
      bits_subset (test_parse_string m (36 :: (h ++ 44 :: (body ++ [42, x, y])))).state.received
        m.state.received := fun m => (ignored_sentence m h _ hh hrest hb).2
  refine ⟨(key n).1, (key n).2, ?_, ?_⟩
  · intro h0
    apply eq_zero_of_bits_subset_zero
    rw [← h0]
    exact (key n).2
  · intro n0
    apply eq_zero_of_bits_subset_zero
    exact (key (nmea_init n0)).2

set_option maxRecDepth 100000 in
/-- C6, amended, at the sentence of `test_txt`, `$GPTXT,01,01,02,ANTSTATUS=OK*3B`. -/
theorem unsupported_sentence_inert_witness :
    (∀ c ∈ chars "GPTXT", c ≠ 36 ∧ c ≠ 44 ∧ c ≠ 42) ∧ (chars "GPTXT").length ≤ 6 ∧
    (∀ j, j < 6 → ¬ starts_head (chars "GPTXT") j) ∧
    (∀ c ∈ chars "01,01,02,ANTSTATUS=OK", c ≠ 36) ∧
    36 :: (chars "GPTXT" ++ 44 :: (chars "01,01,02,ANTSTATUS=OK" ++ [42, 51, 66]))
      = chars "$GPTXT,01,01,02,ANTSTATUS=OK*3B" ∧
    (test_parse_string fresh (36 :: (chars "GPTXT" ++ 44 ::
      (chars "01,01,02,ANTSTATUS=OK" ++ [42, 51, 66])))).data = fresh.data :=
  ⟨by decide, by decide, by decide, by decide, by decide,
   (unsupported_sentence_inert fresh (chars "GPTXT") (chars "01,01,02,ANTSTATUS=OK") 51 66
      (by decide) (by decide) (by decide) (by decide) (by decide) (by decide)).1⟩

/-- C7: for every parser value and every character sequence `s` without `$` and
`*`, after `$` and `s` the running checksum is the XOR of the character codes
of `s` (commas included); it is unchanged by the `*`, which switches checksum
capture on, and the value of the two characters after the `*` is compared with
exactly this XOR to choose between the end hook and the checksum-fail hook. -/
theorem running_checksum_is_xor (n : nmea) (s : List Int) (hs : ∀ c ∈ s, c ≠ 36 ∧ c ≠ 42) :
    (test_parse_string n (36 :: s)).state.checksum = xor_sum s ∧
    (test_parse_string n (36 :: (s ++ [42]))).state.checksum = xor_sum s ∧
    (test_parse_string n (36 :: (s ++ [42]))).state.checksum_recording = 1 ∧
    ∀ x y : Int, x ≠ 36 → y ≠ 36 →
      test_parse_string n (36 :: (s ++ [42, x, y])) =
        capture_off
          (if (hex_to_nibble x <<< 4 ||| hex_to_nibble y) = xor_sum s then
            (sentence_format (test_parse_string n (36 :: (s ++ [42]))).state.sentence).end_handler
              (first_digit (test_parse_string n (36 :: (s ++ [42]))) x)
           else
            (sentence_format (test_parse_string n (36 :: (s ++ [42]))).state.sentence).checksum_fail_handler
              (first_digit (test_parse_string n (36 :: (s ++ [42]))) x)) := by
  have h := to_star n s hs
  refine ⟨h.2.1, h.2.2.2.2.2.1, h.2.2.2.1, ?_⟩
  intro x y hx hy
  have e : test_parse_string n (36 :: (s ++ [42, x, y]))
      = test_parse_string (test_parse_string n (36 :: (s ++ [42]))) [x, y] := by
    simp only [test_parse_string, List.foldl_cons, List.foldl_append, List.foldl_nil]
  rw [e]
  obtain ⟨-, -, -, hr, hc, hck, -, -⟩ := h
  generalize test_parse_string n (36 :: (s ++ [42])) = m at hr hc hck
  have hr' : m.state.checksum_recording ≠ 0 := by rw [hr]; decide
  split_ifs with hv
  · exact digits_pass m x y hx hy hr' hc (hv.trans hck.symm)
  · exact digits_fail m x y hx hy hr' hc (fun h => hv (h.trans hck))

/-- C7 at the characters of the VTG test sentence, whose XOR is 0x3E. -/
theorem running_checksum_is_xor_witness :
    (∀ c ∈ chars "GPVTG,213.73,T,,M,34.075,N,63.106,K,A", c ≠ 36 ∧ c ≠ 42) ∧
    (test_parse_string fresh (36 :: chars "GPVTG,213.73,T,,M,34.075,N,63.106,K,A")).state.checksum
      = xor_sum (chars "GPVTG,213.73,T,,M,34.075,N,63.106,K,A") ∧
    xor_sum (chars "GPVTG,213.73,T,,M,34.075,N,63.106,K,A") = 0x3E :=
  ⟨by decide,
   (running_checksum_is_xor fresh (chars "GPVTG,213.73,T,,M,34.075,N,63.106,K,A")
      (by decide)).1,
   by decide⟩

set_option maxRecDepth 100000 in
/-- C9 fails for characters that are not uppercase hexadecimal digits: the VTG
test sentence has checksum 0x3E, and with `:E` or `3e` written after the `*`
instead of `3E` the end hook still runs and the sentence sets its readiness
bits; with `:E` the parser ends in the very state `3E` gives. -/
theorem checksum_nonhex_accepted :
    xor_sum (chars "GPVTG,213.73,T,,M,34.075,N,63.106,K,A") = 0x3E ∧
    chars ":E" ≠ [hex_digit 3, hex_digit 14] ∧
    chars "3e" ≠ [hex_digit 3, hex_digit 14] ∧
    (test_parse_string fresh (chars "$GPVTG,213.73,T,,M,34.075,N,63.106,K,A*:E")).state.received
      = field_mask NMEA_FIELD_TRUE_TRACK ||| field_mask NMEA_FIELD_SPEED
        ||| field_mask NMEA_FIELD_IGNORE ∧
    (test_parse_string fresh (chars "$GPVTG,213.73,T,,M,34.075,N,63.106,K,A*3e")).state.received
      = field_mask NMEA_FIELD_TRUE_TRACK ||| field_mask NMEA_FIELD_SPEED
        ||| field_mask NMEA_FIELD_IGNORE ∧
    (test_parse_string fresh (chars "$GPVTG,213.73,T,,M,34.075,N,63.106,K,A*:E"))
      = (test_parse_string fresh (chars "$GPVTG,213.73,T,,M,34.075,N,63.106,K,A*3E")) := by
  decide

/-- C9, amended: for every sentence of a supported format `i` and every two
characters `x`, `y` other than `$` after the `*` whose value as the code
computes it, `(hex_to_nibble x << 4) | hex_to_nibble y`, differs from the
running XOR checksum (so for every two uppercase hexadecimal digits that
encode another value), the result is the checksum-fail hook of format `i`
applied to the state after `x`, with checksum capture switched off: the end
hook does not run, and the readiness bitmap and the fix snapshot are what
they were at the `*`. -/
theorem checksum_mismatch_skips_end_hook (n : nmea) (i : Nat) (hi : i < 6) (body : List Int)
    (hb : ∀ c ∈ body, c ≠ 36 ∧ c ≠ 42) (x y : Int) (hx : x ≠ 36) (hy : y ≠ 36)
    (hv : (hex_to_nibble x <<< 4 ||| hex_to_nibble y) ≠ xor_sum (payload i body)
          ∨ ∃ a b, a < 16 ∧ b < 16 ∧ x = hex_digit a ∧ y = hex_digit b
              ∧ 16 * a + b ≠ xor_sum (payload i body)) :
    test_parse_string n (36 :: (payload i body ++ [42, x, y]))
      = capture_off ((sentence_format (sentence_ptr.lut i)).checksum_fail_handler
          (first_digit (test_parse_string n (36 :: (payload i body ++ [42]))) x)) ∧
    (test_parse_string n (36 :: (payload i body ++ [42, x, y]))).state.received
      = (test_parse_string n (36 :: (payload i body ++ [42]))).state.received ∧
    (test_parse_string n (36 :: (payload i body ++ [42, x, y]))).data
      = (test_parse_string n (36 :: (payload i body ++ [42]))).data := by
  have hv' : (hex_to_nibble x <<< 4 ||| hex_to_nibble y) ≠ xor_sum (payload i body) := by
    rcases hv with h | ⟨a, b, ha, hb', hxa, hyb, hne⟩
    · exact h
    · subst hxa; subst hyb
      rw [hex_pair_value_fin ⟨a, ha⟩ ⟨b, hb'⟩]
      exact hne
  have hm := mismatch_runs_fail_hook n (payload i body) (payload_plain i hi body hb) x y hx hy hv'
  rw [format_at_star n i hi body hb] at hm
  have hfr := fail_handler_received (sentence_ptr.lut i)
    (first_digit (test_parse_string n (36 :: (payload i body ++ [42]))) x)
  rw [hm]
  exact ⟨rfl, hfr.1, hfr.2⟩

set_option maxRecDepth 100000 in
/-- C9, amended, at the VTG test sentence with the wrong checksum `3F`. -/
theorem checksum_mismatch_skips_end_hook_witness :
    (5 < 6) ∧ (∀ c ∈ vtg_test_body, c ≠ 36 ∧ c ≠ 42) ∧ (51 : Int) ≠ 36 ∧ (70 : Int) ≠ 36 ∧
    36 :: (payload 5 vtg_test_body ++ [42, 51, 70])
      = chars "$GPVTG,213.73,T,,M,34.075,N,63.106,K,A*3F" ∧
    (test_parse_string fresh (36 :: (payload 5 vtg_test_body ++ [42, 51, 70]))).state.received
      = (test_parse_string fresh (36 :: (payload 5 vtg_test_body ++ [42]))).state.received ∧
    (test_parse_string fresh (36 :: (payload 5 vtg_test_body ++ [42]))).state.received = 0 :=
  ⟨by decide, by decide, by decide, by decide, by decide,
   (checksum_mismatch_skips_end_hook fresh 5 (by decide) vtg_test_body (by decide) 51 70
      (by decide) (by decide) (Or.inl (by decide))).2.1,
   by decide⟩

set_option maxRecDepth 100000 in
/-- C10 fails: after the GGA test sentence the readiness bitmap is 0x4421BF; the
same sentence repeated with the wrong checksum `75` leaves the bitmap 0, not
what it was before the second `$`. -/
theorem checksum_mismatch_clears_bits :
    (test_parse_string fresh (chars
      "$GPGGA,175456.00,5104.34432,N,00147.29814,W,1,03,2.88,61.8,M,47.5,M,,*74")).state.received
      = 4465087 ∧
    xor_sum (chars "GPGGA,175456.00,5104.34432,N,00147.29814,W,1,03,2.88,61.8,M,47.5,M,,") ≠ 0x75 ∧
    (test_parse_string (test_parse_string fresh (chars
      "$GPGGA,175456.00,5104.34432,N,00147.29814,W,1,03,2.88,61.8,M,47.5,M,,*74")) (chars
      "$GPGGA,175456.00,5104.34432,N,00147.29814,W,1,03,2.88,61.8,M,47.5,M,,*75")).state.received
      = 0 := by
  decide

/-- C10, amended: for every parser value and every sentence `$` w `*` x y (`w`
without `$` and `*`, `x` and `y` other than `$`) whose checksum characters do
not match the XOR of `w`, every readiness bit set after the sentence was set
before its `$`, and the two checksum characters leave the bitmap as it was at
the `*`. -/
theorem checksum_mismatch_adds_no_bit (n : nmea) (w : List Int)
    (hw : ∀ c ∈ w, c ≠ 36 ∧ c ≠ 42) (x y : Int) (hx : x ≠ 36) (hy : y ≠ 36)
    (hv : (hex_to_nibble x <<< 4 ||| hex_to_nibble y) ≠ xor_sum w) :
    bits_subset (test_parse_string n (36 :: (w ++ [42, x, y]))).state.received n.state.received ∧
    (test_parse_string n (36 :: (w ++ [42, x, y]))).state.received
      = (test_parse_string n (36 :: (w ++ [42]))).state.received := by
  have hm := mismatch_runs_fail_hook n w hw x y hx hy hv
  have hfr := fail_handler_received (test_parse_string n (36 :: (w ++ [42]))).state.sentence
    (first_digit (test_parse_string n (36 :: (w ++ [42]))) x)
  have heq : (test_parse_string n (36 :: (w ++ [42, x, y]))).state.received
      = (test_parse_string n (36 :: (w ++ [42]))).state.received := by
    rw [hm]; exact hfr.1
  refine ⟨?_, heq⟩
  rw [heq]
  exact (to_star n w hw).2.2.2.2.2.2.1

set_option maxRecDepth 100000 in
/-- C10, amended, at the GGA test sentence repeated with the wrong checksum
`75`. -/
theorem checksum_mismatch_adds_no_bit_witness :
    (∀ c ∈ chars "GPGGA,175456.00,5104.34432,N,00147.29814,W,1,03,2.88,61.8,M,47.5,M,,",
        c ≠ 36 ∧ c ≠ 42) ∧
    (hex_to_nibble 55 <<< 4 ||| hex_to_nibble 53) ≠
      xor_sum (chars "GPGGA,175456.00,5104.34432,N,00147.29814,W,1,03,2.88,61.8,M,47.5,M,,") ∧
    bits_subset
      (test_parse_string (test_parse_string fresh (chars
        "$GPGGA,175456.00,5104.34432,N,00147.29814,W,1,03,2.88,61.8,M,47.5,M,,*74"))
        (36 :: (chars "GPGGA,175456.00,5104.34432,N,00147.29814,W,1,03,2.88,61.8,M,47.5,M,,"
          ++ [42, 55, 53]))).state.received
      (test_parse_string fresh (chars
        "$GPGGA,175456.00,5104.34432,N,00147.29814,W,1,03,2.88,61.8,M,47.5,M,,*74")).state.received :=
  ⟨by decide, by decide,
   (checksum_mismatch_adds_no_bit (test_parse_string fresh (chars
        "$GPGGA,175456.00,5104.34432,N,00147.29814,W,1,03,2.88,61.8,M,47.5,M,,*74"))
      (chars "GPGGA,175456.00,5104.34432,N,00147.29814,W,1,03,2.88,61.8,M,47.5,M,,")
      (by decide) 55 53 (by decide) (by decide) (by decide)).1⟩

set_option maxRecDepth 100000 in
/-- C11 as stated fails: a byte sequence can be a sentence.  From a fresh
parser the seven bytes `$GPR*45` set a readiness bit, and so does the RMC
sentence of `test_rmc`. -/
theorem byte_sequence_sets_bits :
    (test_parse_string fresh (chars "$GPR*45")).state.received = 4194304 ∧
    (test_parse_string fresh (chars
      "$GPRMC,175456.00,A,5104.34432,N,00147.29814,W,34.075,213.73,080321,,,A*47")).state.received
      ≠ 0 := by
  refine ⟨by decide, by decide⟩

/-- C11, amended: after a byte sequence fed to a freshly initialised parser
the readiness bitmap is 0 unless some character of the sequence passes the
checksum comparison; in particular it is 0 after every sequence without `*`. -/
theorem random_bytes_need_checksum_pass (m : nmea) (s : List Int)
    (h : (42 : Int) ∉ s ∨ no_pass (nmea_init m) s = true) :
    (test_parse_string (nmea_init m) s).state.received = 0 := by
  have hnp : no_pass (nmea_init m) s = true := by
    rcases h with h | h
    · exact no_star_no_pass s (nmea_init m) rfl h
    · exact h
  exact bits_subset_zero _ (run_without_pass s (nmea_init m) hnp)

set_option maxRecDepth 100000 in
/-- C11, amended, at the RMC test sentence with its last checksum character
changed (`*46`), a sequence with `*` in which no comparison passes, and at
its part before the `*`. -/
theorem random_bytes_need_checksum_pass_witness :
    (test_parse_string (nmea_init fresh) (chars
      "$GPRMC,175456.00,A,5104.34432,N,00147.29814,W,34.075,213.73,080321,,,A*46")).state.received
      = 0 ∧
    (test_parse_string (nmea_init fresh) (chars
      "$GPRMC,175456.00,A,5104.34432,N,00147.29814,W,34.075,213.73,080321,,,A")).state.received
      = 0 :=
  ⟨random_bytes_need_checksum_pass fresh _ (Or.inr (by decide)),
   random_bytes_need_checksum_pass fresh _ (Or.inl (by decide))⟩


set_option maxRecDepth 100000 in
/-- C12 as stated fails: the touched-field bitmap is cleared at every `$`, so
only the kinds touched by the second sentence are committed.  With the second
sentence of `test_gsv` written without its two elevations, the pair from a
fresh parser leaves the ELEVATION bit unset. -/
theorem gsv_pair_elevation_unset :
    (test_parse_string fresh (chars
      ("$GPGSV,2,1,08,05,02,020,,07,,,33,16,76,272,33,18,58,069,31*48"
        ++ "$GPGSV,2,2,08,20,,,24,23,,121,20,26,,,31,27,,274,32*77"))).state.received
      = 192940096 ∧
    (192940096 : Nat).testBit (field_value NMEA_FIELD_ELEVATION) = false ∧
    (test_parse_string fresh (chars
      ("$GPGSV,2,1,08,05,02,020,,07,,,33,16,76,272,33,18,58,069,31*48"
        ++ "$GPGSV,2,2,08,20,,,24,23,,121,20,26,,,31,27,,274,32*77"))).data.sats.take 8
      = [⟨20, 5, 2, 0⟩, ⟨0, 7, 0, 33⟩, ⟨272, 16, 76, 33⟩, ⟨69, 18, 58, 31⟩,
         ⟨0, 20, 0, 24⟩, ⟨121, 23, 0, 20⟩, ⟨0, 26, 0, 31⟩, ⟨274, 27, 0, 32⟩] := by
  refine ⟨by decide, by decide, by decide⟩

/-- C12, amended: from a freshly initialised parser, a correctly checksummed
GSV sentence 1 of 2 and then one 2 of 2, four satellites each, the attributes
written as digits or left empty.  After the first the readiness bitmap is 0.
After the second it is the SNR bit (the kind left current by the first
sentence, marked by the header characters of the second) together with the
kinds of the non-empty fields of the second sentence: a bit is set exactly
when it is the SNR bit or the second sentence has a non-empty field of that
kind; the total, the number and the SNR bit are always set.  The satellite
array holds the first sentence's satellites in slots 0-3 and the second's in
slots 4-7, an empty attribute as 0. -/
theorem gsv_pair_reassembly (z : nmea) (m1 m2 : gsv_msg) (v1 v2 : List Nat)
    (p0 p1 p2 p3 q0 q1 q2 q3 : sat_text)
    (h1 : gsv_wf 2 m1) (h2 : gsv_wf 2 m2) (hn1 : dec m1.number = 1) (hn2 : dec m2.number = 2)
    (hr1 : m1.rest = gsv_rest4 v1 p0 p1 p2 p3) (hr2 : m2.rest = gsv_rest4 v2 q0 q1 q2 q3)
    (hp : sat_ok p0 ∧ sat_ok p1 ∧ sat_ok p2 ∧ sat_ok p3)
    (hq : sat_ok q0 ∧ sat_ok q1 ∧ sat_ok q2 ∧ sat_ok q3) :
    (test_parse_string (nmea_init z) (gsv_text m1)).state.received = 0 ∧
    (test_parse_string (nmea_init z) (gsv_text m1 ++ gsv_text m2)).state.received
      = field_mask NMEA_FIELD_SNR ||| touched (sentence_ptr.lut 3) 0 (gsv_fields m2) ∧
    (∀ b, (test_parse_string (nmea_init z) (gsv_text m1 ++ gsv_text m2)).state.received.testBit b
        = true ↔
      (b = field_value NMEA_FIELD_SNR ∨
        ∃ t f, (gsv_fields m2)[t]? = some f ∧ f ≠ [] ∧
          field_value (kind_at (sentence_ptr.lut 3) t) = b)) ∧
    ((test_parse_string (nmea_init z) (gsv_text m1 ++ gsv_text m2)).state.received.testBit
        (field_value NMEA_FIELD_GSV_SENTENCES_TOTAL) = true ∧
      (test_parse_string (nmea_init z) (gsv_text m1 ++ gsv_text m2)).state.received.testBit
        (field_value NMEA_FIELD_SENTENCE_NO) = true ∧
      (test_parse_string (nmea_init z) (gsv_text m1 ++ gsv_text m2)).state.received.testBit
        (field_value NMEA_FIELD_SNR) = true) ∧
    (test_parse_string (nmea_init z) (gsv_text m1 ++ gsv_text m2)).data.sats.take 8
      = [sat_value p0, sat_value p1, sat_value p2, sat_value p3,
         sat_value q0, sat_value q1, sat_value q2, sat_value q3] := by
  -- the first sentence
  have s1 := gsv_step (nmea_init z) 2 m1 [] (by decide) h1 marks_zero
    (List.nodup_singleton _) (fun j hj => absurd hj (List.not_mem_nil _))
  obtain ⟨-, s1b, s1sub, -⟩ := s1
  obtain ⟨s1r, s1m, s1i⟩ := s1b (by decide)
  have a1 := gsv_sentence_after (nmea_init z) 2 m1 (by decide) h1
  have d1 := gsv_sentence_sats (digits m1.total) (digits m1.number) v1 p0 p1 p2 p3
    hp.1 hp.2.1 hp.2.2.1 hp.2.2.2 (nmea_init z)
    (by show 0 + 4 ≤ NMEA_MAX_SATS; decide)
    (by show 0 + 4 ≤ (List.replicate NMEA_MAX_SATS (⟨0, 0, 0, 0⟩ : nmea_sat)).length; decide)
  have hf1 : gsv_fields m1 = digits m1.total :: digits m1.number :: gsv_rest4 v1 p0 p1 p2 p3 := by
    unfold gsv_fields; rw [hr1]
  have hf2 : gsv_fields m2 = digits m2.total :: digits m2.number :: gsv_rest4 v2 q0 q1 q2 q3 := by
    unfold gsv_fields; rw [hr2]
  rw [← hf1] at d1
  have hrec1 : (test_parse_string (nmea_init z) (gsv_text m1)).state.received = 0 := by
    rw [s1r]
    exact bits_subset_zero _ s1sub
  have hfield1 : (test_parse_string (nmea_init z) (gsv_text m1)).state.field = NMEA_FIELD_SNR := by
    rw [a1.1, hr1, gsv_rest4_length]
    decide
  have hidx1 : (test_parse_string (nmea_init z) (gsv_text m1)).state.gsv_satellite_index = 4 := by
    rw [s1i, a1.2.2, d1.2]
    rfl
  have hsats1 : (test_parse_string (nmea_init z) (gsv_text m1)).data.sats
      = ((((List.replicate NMEA_MAX_SATS (⟨0, 0, 0, 0⟩ : nmea_sat)).set 0 (sat_value p0)).set 1
          (sat_value p1)).set 2 (sat_value p2)).set 3 (sat_value p3) := by
    rw [a1.2.1, d1.1]
    rfl
  rw [hn1] at s1m
  -- the second sentence
  rw [test_parse_string_append]
  generalize test_parse_string (nmea_init z) (gsv_text m1) = r1
    at hrec1 hfield1 hidx1 hsats1 s1m
  have s2 := gsv_step r1 2 m2 [1] (by decide) h2 s1m (by rw [hn2]; decide)
    (fun j hj => by
      rw [List.mem_singleton] at hj
      subst hj
      decide)
  obtain ⟨s2a, -, s2sub, s2fb⟩ := s2
  obtain ⟨s2r, -, -⟩ := s2a rfl
  have a2 := gsv_sentence_after r1 2 m2 (by decide) h2
  have d2 := gsv_sentence_sats (digits m2.total) (digits m2.number) v2 q0 q1 q2 q3
    hq.1 hq.2.1 hq.2.2.1 hq.2.2.2 r1 (by rw [hidx1]; decide)
    (by
      rw [hidx1, hsats1, List.length_set, List.length_set, List.length_set, List.length_set]
      decide)
  rw [← hf2] at d2
  have hrec2 : (test_parse_string r1 (gsv_text m2)).state.received
      = field_mask NMEA_FIELD_SNR ||| touched (sentence_ptr.lut 3) 0 (gsv_fields m2) := by
    rw [hrec1] at s2sub
    rw [s2r, bits_subset_zero _ s2sub, s2fb, hfield1, Nat.zero_or]
  have hbits : ∀ b, (test_parse_string r1 (gsv_text m2)).state.received.testBit b = true ↔
      (b = field_value NMEA_FIELD_SNR ∨
        ∃ t f, (gsv_fields m2)[t]? = some f ∧ f ≠ [] ∧
          field_value (kind_at (sentence_ptr.lut 3) t) = b) := by
    intro b
    rw [hrec2, Nat.testBit_or, Bool.or_eq_true, field_mask_testBit, decide_eq_true_iff,
      touched_testBit]
    simp only [Nat.zero_add]
    constructor
    · rintro (h | h)
      · exact Or.inl h.symm
      · exact Or.inr h
    · rintro (h | h)
      · exact Or.inl h.symm
      · exact Or.inr h
  refine ⟨hrec1, hrec2, hbits, ⟨?_, ?_, ?_⟩, ?_⟩
  · rw [hbits]
    refine Or.inr ⟨0, digits m2.total, by unfold gsv_fields; rfl, ?_, by decide⟩
    exact dec_ne_zero_ne_nil _ (by rw [h2.2.2.1]; decide)
  · rw [hbits]
    refine Or.inr ⟨1, digits m2.number, by unfold gsv_fields; simp, ?_, by decide⟩
    exact dec_ne_zero_ne_nil _ (by rw [hn2]; decide)
  · rw [hbits]
    exact Or.inl rfl
  · rw [a2.2.1, d2.1, hsats1, hidx1]
    rfl

set_option maxRecDepth 100000 in
/-- C12, amended, at the two GSV sentences of `test_gsv`: the seven GSV bits
are set after the second sentence and the eight slots hold the satellites the
test expects. -/
theorem gsv_pair_reassembly_witness :
    gsv_text gsv_test_msg_1 ++ gsv_text gsv_test_msg_2
      = chars ("$GPGSV,2,1,08,05,02,020,,07,,,33,16,76,272,33,18,58,069,31*48"
          ++ "$GPGSV,2,2,08,20,,,24,23,28,121,20,26,,,31,27,46,274,32*7F") ∧
    (gsv_wf 2 gsv_test_msg_1 ∧ gsv_wf 2 gsv_test_msg_2 ∧ dec gsv_test_msg_1.number = 1 ∧
      dec gsv_test_msg_2.number = 2 ∧
      gsv_test_msg_1.rest = gsv_rest4 [0, 8] test_sat_05 test_sat_07 test_sat_16 test_sat_18 ∧
      gsv_test_msg_2.rest = gsv_rest4 [0, 8] test_sat_20 test_sat_23 test_sat_26 test_sat_27) ∧
    ((test_parse_string (nmea_init fresh) (gsv_text gsv_test_msg_1)).state.received = 0 ∧
     (test_parse_string (nmea_init fresh)
        (gsv_text gsv_test_msg_1 ++ gsv_text gsv_test_msg_2)).state.received
      = field_mask NMEA_FIELD_SNR
        ||| touched (sentence_ptr.lut 3) 0 (gsv_fields gsv_test_msg_2) ∧
     (test_parse_string (nmea_init fresh)
        (gsv_text gsv_test_msg_1 ++ gsv_text gsv_test_msg_2)).data.sats.take 8
      = [sat_value test_sat_05, sat_value test_sat_07, sat_value test_sat_16,
         sat_value test_sat_18, sat_value test_sat_20, sat_value test_sat_23,
         sat_value test_sat_26, sat_value test_sat_27]) ∧
    field_mask NMEA_FIELD_SNR ||| touched (sentence_ptr.lut 3) 0 (gsv_fields gsv_test_msg_2)
      = mask_of [NMEA_FIELD_GSV_SENTENCES_TOTAL, NMEA_FIELD_SENTENCE_NO,
          NMEA_FIELD_SATELLITES_IN_VIEW, NMEA_FIELD_PRN, NMEA_FIELD_ELEVATION,
          NMEA_FIELD_AZIMUTH, NMEA_FIELD_SNR] ∧
    [sat_value test_sat_05, sat_value test_sat_07, sat_value test_sat_16,
      sat_value test_sat_18, sat_value test_sat_20, sat_value test_sat_23,
      sat_value test_sat_26, sat_value test_sat_27]
      = [⟨20, 5, 2, 0⟩, ⟨0, 7, 0, 33⟩, ⟨272, 16, 76, 33⟩, ⟨69, 18, 58, 31⟩,
         ⟨0, 20, 0, 24⟩, ⟨121, 23, 28, 20⟩, ⟨0, 26, 0, 31⟩, ⟨274, 27, 46, 32⟩] :=
  ⟨by decide, ⟨by decide, by decide, by decide, by decide, by decide, by decide⟩,
   (fun h => ⟨h.1, h.2.1, h.2.2.2.2⟩)
     (gsv_pair_reassembly fresh gsv_test_msg_1 gsv_test_msg_2 [0, 8] [0, 8]
       test_sat_05 test_sat_07 test_sat_16 test_sat_18
       test_sat_20 test_sat_23 test_sat_26 test_sat_27
       (by decide) (by decide) (by decide) (by decide) (by decide) (by decide)
       (by decide) (by decide)),
   by decide, by decide⟩


/-- C14: a GSV sentence whose two checksum characters do not give the running
checksum, from any parser state and with any characters other than `$` and `*`
after the header: the satellite slot index and the received-sentence bitmap
are 0 afterwards, the readiness bitmap has no bit it did not have before the
sentence (it is the bitmap at the `*`), and the fix snapshot, satellite slots
included, is the one at the `*`. -/
theorem gsv_checksum_failure_resets (n : nmea) (body : List Int)
    (hb : ∀ c ∈ body, c ≠ 36 ∧ c ≠ 42) (x y : Int) (hx : x ≠ 36) (hy : y ≠ 36)
    (hv : (hex_to_nibble x <<< 4 ||| hex_to_nibble y) ≠ xor_sum (payload 3 body)) :
    (test_parse_string n (36 :: (payload 3 body ++ [42, x, y]))).state.gsv_satellite_index = 0 ∧
    (test_parse_string n (36 :: (payload 3 body ++ [42, x, y]))).state.gsv_sentences_received = 0 ∧
    bits_subset (test_parse_string n (36 :: (payload 3 body ++ [42, x, y]))).state.received
      n.state.received ∧
    (test_parse_string n (36 :: (payload 3 body ++ [42, x, y]))).state.received
      = (test_parse_string n (36 :: (payload 3 body ++ [42]))).state.received ∧
    (test_parse_string n (36 :: (payload 3 body ++ [42, x, y]))).data
      = (test_parse_string n (36 :: (payload 3 body ++ [42]))).data := by
  have hw := payload_plain 3 (by decide) body hb
  have hm := mismatch_runs_fail_hook n (payload 3 body) hw x y hx hy hv
  rw [format_at_star n 3 (by decide) body hb] at hm
  have hs := (to_star n (payload 3 body) hw).2.2.2.2.2.2.1
  rw [hm]
  exact ⟨rfl, rfl, hs, rfl, rfl⟩

set_option maxRecDepth 100000 in
/-- C14 at the second GSV sentence of `test_gsv` with the wrong checksum `7E`,
fed after the first: the index 4 and the bitmap 1 left by the first sentence
are reset, slot 5 keeps the satellite 23 written by the failed sentence. -/
theorem gsv_checksum_failure_resets_witness :
    gsv_after_first.state.gsv_satellite_index = 4 ∧
    gsv_after_first.state.gsv_sentences_received = 1 ∧
    36 :: (payload 3 gsv_test_body_2 ++ [42, 55, 69])
      = chars "$GPGSV,2,2,08,20,,,24,23,28,121,20,26,,,31,27,46,274,32*7E" ∧
    ((test_parse_string gsv_after_first
        (36 :: (payload 3 gsv_test_body_2 ++ [42, 55, 69]))).state.gsv_satellite_index = 0 ∧
     (test_parse_string gsv_after_first
        (36 :: (payload 3 gsv_test_body_2 ++ [42, 55, 69]))).state.gsv_sentences_received = 0 ∧
     bits_subset (test_parse_string gsv_after_first
        (36 :: (payload 3 gsv_test_body_2 ++ [42, 55, 69]))).state.received
       gsv_after_first.state.received ∧
     (test_parse_string gsv_after_first
        (36 :: (payload 3 gsv_test_body_2 ++ [42, 55, 69]))).state.received
       = (test_parse_string gsv_after_first
          (36 :: (payload 3 gsv_test_body_2 ++ [42]))).state.received ∧
     (test_parse_string gsv_after_first
        (36 :: (payload 3 gsv_test_body_2 ++ [42, 55, 69]))).data
       = (test_parse_string gsv_after_first
          (36 :: (payload 3 gsv_test_body_2 ++ [42]))).data) ∧
    (test_parse_string gsv_after_first
        (36 :: (payload 3 gsv_test_body_2 ++ [42]))).data.sats.getD 5 ⟨0, 0, 0, 0⟩
      = ⟨121, 23, 28, 20⟩ :=
  ⟨by decide, by decide, by decide,
   gsv_checksum_failure_resets gsv_after_first gsv_test_body_2 (by decide) 55 69
     (by decide) (by decide) (by decide),
   by decide⟩


set_option maxRecDepth 100000 in
/-- C15: only the checksum-fail hook resets the GSV aggregation; a sentence
abandoned at the next `$` and a group whose last sentence never arrives leave
the satellite index and the received-sentence bitmap as they are.  After the
abandoned sentence the complete group of `test_gsv` is stored from slot 1,
behind the abandoned satellite.  After the unfinished group of three the
group of `test_gsv` is committed at the checksum of its first sentence, the
second sentence overwrites the satellites of the first in slots 0-3, and at
the end of the group no GSV readiness bit is set. -/
theorem gsv_truncation_corrupts_next_group :
    (test_parse_string fresh gsv_abandoned).state.gsv_satellite_index = 1 ∧
    (test_parse_string fresh
        (gsv_abandoned ++ gsv_stream [gsv_test_msg_1, gsv_test_msg_2])).data.sats.take 9
      = [⟨77, 99, 88, 66⟩, ⟨20, 5, 2, 0⟩, ⟨0, 7, 0, 33⟩, ⟨272, 16, 76, 33⟩, ⟨69, 18, 58, 31⟩,
         ⟨0, 20, 0, 24⟩, ⟨121, 23, 28, 20⟩, ⟨0, 26, 0, 31⟩, ⟨274, 27, 46, 32⟩] ∧
    (test_parse_string fresh gsv_unfinished).state.gsv_sentences_received = 3 ∧
    (test_parse_string fresh gsv_unfinished).state.received = 0 ∧
    (test_parse_string fresh (gsv_unfinished ++ gsv_stream [gsv_test_msg_1])).state.received
      = 260048960 ∧
    (test_parse_string fresh
        (gsv_unfinished ++ gsv_stream [gsv_test_msg_1, gsv_test_msg_2])).state.received = 0 ∧
    (test_parse_string fresh
        (gsv_unfinished ++ gsv_stream [gsv_test_msg_1, gsv_test_msg_2])).data.sats.take 8
      = [⟨0, 20, 0, 24⟩, ⟨121, 23, 28, 20⟩, ⟨0, 26, 0, 31⟩, ⟨274, 27, 46, 32⟩,
         ⟨0, 0, 0, 0⟩, ⟨0, 0, 0, 0⟩, ⟨0, 0, 0, 0⟩, ⟨0, 0, 0, 0⟩] := by
  refine ⟨by decide, by decide, by decide, by decide, by decide, by decide, by decide⟩


/-- C16: with the satellite index at (or beyond) the capacity `NMEA_MAX_SATS`,
the end handlers of the PRN, ELEVATION, AZIMUTH and SNR kinds return the parser
unchanged, and a delimiter that ends such a field leaves every entry of the
satellite array and the satellite index as they were. -/
theorem satellites_beyond_capacity_dropped (n : nmea) (k : nmea_fields) (d : Int)
    (hk : k = NMEA_FIELD_PRN ∨ k = NMEA_FIELD_ELEVATION ∨ k = NMEA_FIELD_AZIMUTH ∨
      k = NMEA_FIELD_SNR)
    (hidx : NMEA_MAX_SATS ≤ n.state.gsv_satellite_index)
    (hf : n.state.field_handlers = k) (hr : n.state.checksum_recording = 0)
    (hd : d = 44 ∨ d = 42) :
    (HANDLER_LUT k).end_handler n = n ∧
    (nmea_parse n d).data.sats = n.data.sats ∧
    (nmea_parse n d).state.gsv_satellite_index = n.state.gsv_satellite_index := by
  have hend : ∀ m : nmea, NMEA_MAX_SATS ≤ m.state.gsv_satellite_index →
      (HANDLER_LUT k).end_handler m = m := by
    intro m hm
    rcases hk with rfl | rfl | rfl | rfl
    · show prn_end_handler m = m
      unfold prn_end_handler
      exact if_pos hm
    · show elevation_end_handler m = m
      unfold elevation_end_handler
      exact if_pos hm
    · show azimuth_end_handler m = m
      unfold azimuth_end_handler
      exact if_pos hm
    · show snr_end_handler m = m
      unfold snr_end_handler
      exact if_pos hm
  have hu : (HANDLER_LUT n.state.field_handlers).end_handler (unready n) = unready n := by
    rw [hf]; exact hend (unready n) hidx
  refine ⟨hend n hidx, ?_, ?_⟩
  · rw [close_data n d hr hd, hu]
    rfl
  · rcases hd with rfl | rfl
    · rw [nmea_parse_comma n hr, field_update_eq, hu]
      exact start_gsv_satellite_index _ _
    · rw [nmea_parse_star n hr, hu]
      rfl

set_option maxRecDepth 100000 in
/-- C16 at the state reached by five unterminated GSV sentences of four
satellites each and the start of a sixth: the index is 20 and the PRN field
`05` of the twenty-first satellite is dropped at its comma. -/
theorem satellites_beyond_capacity_dropped_witness :
    (test_parse_string fresh gsv_overfull_text).state.gsv_satellite_index = 20 ∧
    ((HANDLER_LUT NMEA_FIELD_PRN).end_handler (test_parse_string fresh gsv_overfull_text)
        = test_parse_string fresh gsv_overfull_text ∧
      (nmea_parse (test_parse_string fresh gsv_overfull_text) 44).data.sats
        = (test_parse_string fresh gsv_overfull_text).data.sats ∧
      (nmea_parse (test_parse_string fresh gsv_overfull_text) 44).state.gsv_satellite_index
        = (test_parse_string fresh gsv_overfull_text).state.gsv_satellite_index) :=
  ⟨by decide, satellites_beyond_capacity_dropped (test_parse_string fresh gsv_overfull_text)
    NMEA_FIELD_PRN 44 (Or.inl rfl) (by decide) (by decide) (by decide) (Or.inl rfl)⟩


/-- C17: a comma that opens a latitude field, two degree digits `d1 d2`, the
minutes text (two digits `m1 m2` and optionally `.` with fractional digits)
and the closing delimiter.  The latitude stored is dd * 2^56 + floor(M / 60),
with dd = 10 d1 + d2 and M the Q56 decode of the minutes text; M is
(10 m1 + m2) * 2^56 plus the floors of f * 2^56 / 10^i over the fractional
digits; the stored value never exceeds the exact (dd + minutes / 60) * 2^56
and falls short of it by less than the number of fractional digits plus one. -/
theorem latitude_decode (x : nmea) (d1 d2 m1 m2 : Nat) (frac : Option (List Nat)) (d : Int)
    (hr : x.state.checksum_recording = 0)
    (hk : (nmea_parse x 44).state.field_handlers = NMEA_FIELD_LATITUDE)
    (a1 : d1 < 10) (a2 : d2 < 10) (a3 : m1 < 10) (a4 : m2 < 10)
    (hfr : ∀ f ∈ frac.getD [], f < 10) (hd : d = 44 ∨ d = 42) :
    (test_parse_string x
        (44 :: ((digits [d1, d2] ++ minutes_text m1 m2 frac) ++ [d]))).data.latitude
      = (fixed_angle 56 (10 * d1 + d2) (minutes_text m1 m2 frac) : Int) ∧
    ufxp_decode 56 (minutes_text m1 m2 frac)
      = (10 * m1 + m2) * 2 ^ 56 + frac_sum 56 0 (frac.getD []) ∧
    (fixed_angle 56 (10 * d1 + d2) (minutes_text m1 m2 frac) : ℚ)
      ≤ exact_angle (10 * d1 + d2) m1 m2 frac * 2 ^ 56 ∧
    exact_angle (10 * d1 + d2) m1 m2 frac * 2 ^ 56
        - (fixed_angle 56 (10 * d1 + d2) (minutes_text m1 m2 frac) : ℚ)
      < ((frac.getD []).length : ℚ) + 1 := by
  have hM := ufxp_decode_minutes 56 (le_refl _) m1 m2 a3 a4 frac hfr
  have hb := fixed_angle_bounds 56 (le_refl _) (10 * d1 + d2) m1 m2 a3 a4 frac hfr
  refine ⟨?_, hM, hb.1, hb.2⟩
  have hdeg : ∀ c ∈ digits [d1, d2], c ≠ 36 ∧ c ≠ 44 ∧ c ≠ 42 := by
    apply digits_plain
    intro k hk'
    simp only [List.mem_cons, List.mem_singleton, List.not_mem_nil, or_false] at hk'
    omega
  have ht : ∀ c ∈ digits [d1, d2] ++ minutes_text m1 m2 frac, c ≠ 36 ∧ c ≠ 44 ∧ c ≠ 42 := by
    intro c hc
    rcases List.mem_append.mp hc with h | h
    · exact hdeg c h
    · exact minutes_text_plain m1 m2 a3 a4 frac hfr c h
  rw [field_decoded x _ d hr ht hd, hk, latitude_field _ d1 d2 a1 a2, ufxp_run_init]
  unfold fixed_angle
  rw [hM]
  have hfs := frac_sum_le_pow 56 (frac.getD []) hfr
  have h56 : 2 ^ 56 = 72057594037927936 := by decide
  rw [Nat.shiftLeft_eq, h56] at *
  generalize frac_sum 56 0 (frac.getD []) = s at hfs
  rw [wrap64_of_lt ((10 * d1 + d2) * 72057594037927936) (by omega),
    wrap64_of_lt _ (by omega), to_s64_of_lt _ (by omega)]

set_option maxRecDepth 100000 in
/-- C17 at the latitude `5104.34432` of the RMC test sentence: the stored
value is 3680154650049838920, the direction `N` leaves it, and it is within
10^-6 of 51.072405 degrees. -/
theorem latitude_decode_witness :
    rmc_before_latitude.state.checksum_recording = 0 ∧
    (nmea_parse rmc_before_latitude 44).state.field_handlers = NMEA_FIELD_LATITUDE ∧
    44 :: ((digits [5, 1] ++ minutes_text 0 4 (some [3, 4, 4, 3, 2])) ++ [44])
      = chars ",5104.34432," ∧
    ((test_parse_string rmc_before_latitude
        (44 :: ((digits [5, 1] ++ minutes_text 0 4 (some [3, 4, 4, 3, 2])) ++ [44]))).data.latitude
      = (fixed_angle 56 (10 * 5 + 1) (minutes_text 0 4 (some [3, 4, 4, 3, 2])) : Int) ∧
     ufxp_decode 56 (minutes_text 0 4 (some [3, 4, 4, 3, 2]))
      = (10 * 0 + 4) * 2 ^ 56 + frac_sum 56 0 ((some [3, 4, 4, 3, 2]).getD []) ∧
     (fixed_angle 56 (10 * 5 + 1) (minutes_text 0 4 (some [3, 4, 4, 3, 2])) : ℚ)
      ≤ exact_angle (10 * 5 + 1) 0 4 (some [3, 4, 4, 3, 2]) * 2 ^ 56 ∧
     exact_angle (10 * 5 + 1) 0 4 (some [3, 4, 4, 3, 2]) * 2 ^ 56
        - (fixed_angle 56 (10 * 5 + 1) (minutes_text 0 4 (some [3, 4, 4, 3, 2])) : ℚ)
      < (((some [3, 4, 4, 3, 2]).getD []).length : ℚ) + 1) ∧
    fixed_angle 56 (10 * 5 + 1) (minutes_text 0 4 (some [3, 4, 4, 3, 2])) = 3680154650049838920 ∧
    (test_parse_string fresh (chars "$GPRMC,175456.00,A,5104.34432,N,")).data.latitude
      = 3680154650049838920 ∧
    |(3680154650049838920 : ℚ) / 2 ^ 56 - 51072405 / 1000000| < 1 / 1000000 :=
  ⟨by decide, by decide, by decide,
   latitude_decode rmc_before_latitude 5 1 0 4 (some [3, 4, 4, 3, 2]) 44 (by decide) (by decide)
     (by decide) (by decide) (by decide) (by decide) (by decide) (Or.inl rfl),
   by decide, by decide, by rw [abs_lt]; constructor <;> norm_num⟩


/-- C18: a comma that opens a longitude field, three degree digits with
ddd = 100 d1 + 10 d2 + d3 at most 180, the minutes text (two digits and
optionally `.` with fractional digits), and then the direction field of the
format with the single letter `w`.  With `w` = `W` the longitude stored is
-(ddd * 2^55 + floor(M / 60)), with `w` = `E` it is ddd * 2^55 + floor(M / 60),
where M is the Q55 decode of the minutes text. -/
theorem longitude_decode (x : nmea) (d1 d2 d3 m1 m2 : Nat) (frac : Option (List Nat))
    (w d : Int) (hr : x.state.checksum_recording = 0)
    (hk : (nmea_parse x 44).state.field_handlers = NMEA_FIELD_LONGITUDE)
    (hk2 : kind_at (nmea_parse x 44).state.sentence (nmea_parse x 44).state.comma_count
      = NMEA_FIELD_LONGITUDE_DIR)
    (a1 : d1 < 10) (a2 : d2 < 10) (a3 : d3 < 10) (a4 : m1 < 10) (a5 : m2 < 10)
    (hdeg : 100 * d1 + 10 * d2 + d3 ≤ 180)
    (hfr : ∀ f ∈ frac.getD [], f < 10) (hw : w = 87 ∨ w = 69) (hd : d = 44 ∨ d = 42) :
    (test_parse_string x
        (44 :: ((digits [d1, d2, d3] ++ minutes_text m1 m2 frac) ++ 44 :: ([w] ++ [d])))).data.longitude
      = (if w = 87 then -1 else 1)
          * (fixed_angle 55 (100 * d1 + 10 * d2 + d3) (minutes_text m1 m2 frac) : Int) ∧
    ufxp_decode 55 (minutes_text m1 m2 frac)
      = (10 * m1 + m2) * 2 ^ 55 + frac_sum 55 0 (frac.getD []) := by
  have hM := ufxp_decode_minutes 55 (by decide) m1 m2 a4 a5 frac hfr
  refine ⟨?_, hM⟩
  have hdg : ∀ c ∈ digits [d1, d2, d3], c ≠ 36 ∧ c ≠ 44 ∧ c ≠ 42 := by
    apply digits_plain
    intro k hk'
    simp only [List.mem_cons, List.mem_singleton, List.not_mem_nil, or_false] at hk'
    omega
  have ht : ∀ c ∈ digits [d1, d2, d3] ++ minutes_text m1 m2 frac, c ≠ 36 ∧ c ≠ 44 ∧ c ≠ 42 := by
    intro c hc
    rcases List.mem_append.mp hc with h | h
    · exact hdg c h
    · exact minutes_text_plain m1 m2 a4 a5 frac hfr c h
  have hwp : ∀ c ∈ [w], c ≠ 36 ∧ c ≠ 44 ∧ c ≠ 42 := by
    intro c hc
    rw [List.mem_singleton] at hc
    subst hc
    rcases hw with rfl | rfl <;> decide
  rw [two_fields_decoded x _ [w] d hr ht hwp hd, hk, hk2]
  have hlon := longitude_field ((HANDLER_LUT x.state.field_handlers).end_handler (unready x))
    d1 d2 d3 a1 a2 a3 (minutes_text m1 m2 frac)
  rw [ufxp_run_init, hM] at hlon
  have hfs := frac_sum_le_pow 55 (frac.getD []) hfr
  have h55 : 2 ^ 55 = 36028797018963968 := by decide
  have hval : (decode_field NMEA_FIELD_LONGITUDE
      (digits [d1, d2, d3] ++ minutes_text m1 m2 frac)
      ((HANDLER_LUT x.state.field_handlers).end_handler (unready x))).data.longitude
      = (fixed_angle 55 (100 * d1 + 10 * d2 + d3) (minutes_text m1 m2 frac) : Int) := by
    rw [hlon]
    unfold fixed_angle
    rw [hM, Nat.shiftLeft_eq, h55]
    rw [h55] at hfs
    generalize frac_sum 55 0 (frac.getD []) = s at hfs
    rw [wrap64_of_lt ((100 * d1 + 10 * d2 + d3) * 36028797018963968) (by omega),
      wrap64_of_lt _ (by omega), to_s64_of_lt _ (by omega)]
  have hbound : fixed_angle 55 (100 * d1 + 10 * d2 + d3) (minutes_text m1 m2 frac)
      < 9223372036854775808 := by
    unfold fixed_angle
    rw [hM, h55]
    rw [h55] at hfs
    omega
  generalize decode_field NMEA_FIELD_LONGITUDE
      (digits [d1, d2, d3] ++ minutes_text m1 m2 frac)
      ((HANDLER_LUT x.state.field_handlers).end_handler (unready x)) = y at hval
  generalize fixed_angle 55 (100 * d1 + 10 * d2 + d3) (minutes_text m1 m2 frac) = v at hval hbound
  show dir_value NMEA_FIELD_LONGITUDE_DIR
    ((HANDLER_LUT NMEA_FIELD_LONGITUDE_DIR).char_handler y w).data = _
  rw [dir_char_value NMEA_FIELD_LONGITUDE_DIR (Or.inr (Or.inl rfl)) y w]
  show dir_step 87 69 w y.data.longitude = _
  rw [hval, dir_step_eq 87 69 w v (by omega) (by omega)]
  rcases hw with rfl | rfl
  · by_cases hv : (v : Int) > 0
    · simp [hv]
    · have : (v : Int) = 0 := by omega
      simp [this]
  · have hv : ¬ ((v : Int) < 0) := by omega
    simp [hv]

set_option maxRecDepth 100000 in
/-- C18 at the longitude `00147.29814` and the direction `W` of the RMC test
sentence: the stored value is -64430381776206308, within 10^-6 of -1.788302
degrees. -/
theorem longitude_decode_witness :
    rmc_before_longitude.state.checksum_recording = 0 ∧
    (nmea_parse rmc_before_longitude 44).state.field_handlers = NMEA_FIELD_LONGITUDE ∧
    kind_at (nmea_parse rmc_before_longitude 44).state.sentence
      (nmea_parse rmc_before_longitude 44).state.comma_count = NMEA_FIELD_LONGITUDE_DIR ∧
    44 :: ((digits [0, 0, 1] ++ minutes_text 4 7 (some [2, 9, 8, 1, 4])) ++ 44 :: ([87] ++ [44]))
      = chars ",00147.29814,W," ∧
    ((test_parse_string rmc_before_longitude
        (44 :: ((digits [0, 0, 1] ++ minutes_text 4 7 (some [2, 9, 8, 1, 4]))
          ++ 44 :: ([87] ++ [44])))).data.longitude
      = (if (87 : Int) = 87 then -1 else 1)
          * (fixed_angle 55 (100 * 0 + 10 * 0 + 1) (minutes_text 4 7 (some [2, 9, 8, 1, 4])) : Int) ∧
     ufxp_decode 55 (minutes_text 4 7 (some [2, 9, 8, 1, 4]))
      = (10 * 4 + 7) * 2 ^ 55 + frac_sum 55 0 ((some [2, 9, 8, 1, 4]).getD [])) ∧
    fixed_angle 55 (100 * 0 + 10 * 0 + 1) (minutes_text 4 7 (some [2, 9, 8, 1, 4]))
      = 64430381776206308 ∧
    (test_parse_string fresh (chars "$GPRMC,175456.00,A,5104.34432,N,00147.29814,W,")).data.longitude
      = -64430381776206308 ∧
    |(-64430381776206308 : ℚ) / 2 ^ 55 - (-1788302 / 1000000)| < 1 / 1000000 :=
  ⟨by decide, by decide, by decide, by decide,
   longitude_decode rmc_before_longitude 0 0 1 4 7 (some [2, 9, 8, 1, 4]) 87 44 (by decide)
     (by decide) (by decide) (by decide) (by decide) (by decide) (by decide) (by decide)
     (by decide) (by decide) (Or.inl rfl) (Or.inl rfl),
   by decide, by decide, by rw [abs_lt]; constructor <;> norm_num⟩


/-- C19: while a latitude, longitude or magnetic variation direction field is
current, a character `c` handed to its char handler keeps the magnitude of the
stored value `v` (any value other than the minimum signed one), leaves it
`<= 0` when `c` is the negative letter of the kind (`S` for latitude, `W`
otherwise), `>= 0` when it is the positive letter (`N`, respectively `E`), and
unchanged for any other character; the same character a second time changes
nothing more. -/
theorem direction_letter_fixes_sign (n : nmea) (k : nmea_fields) (c : Int)
    (hk : k = NMEA_FIELD_LATITUDE_DIR ∨ k = NMEA_FIELD_LONGITUDE_DIR ∨
      k = NMEA_FIELD_MAGNETIC_VARIATION_DIR)
    (hf : n.state.field_handlers = k) (hr : n.state.checksum_recording = 0)
    (h36 : c ≠ 36) (h44 : c ≠ 44) (h42 : c ≠ 42)
    (hmin : -9223372036854775808 < dir_value k n.data)
    (hmax : dir_value k n.data < 9223372036854775808) :
    |dir_value k (nmea_parse n c).data| = |dir_value k n.data| ∧
    (c = dir_negative k → dir_value k (nmea_parse n c).data ≤ 0) ∧
    (c = dir_positive k → 0 ≤ dir_value k (nmea_parse n c).data) ∧
    (c ≠ dir_negative k → c ≠ dir_positive k →
      dir_value k (nmea_parse n c).data = dir_value k n.data) ∧
    dir_value k (nmea_parse (nmea_parse n c) c).data = dir_value k (nmea_parse n c).data := by
  have hnp : dir_negative k ≠ dir_positive k := by
    unfold dir_negative dir_positive
    split_ifs <;> decide
  have hstep : ∀ m : nmea, m.state.field_handlers = k → m.state.checksum_recording = 0 →
      dir_value k (nmea_parse m c).data
        = dir_step (dir_negative k) (dir_positive k) c (dir_value k m.data) := by
    intro m hmf hmr
    rw [nmea_parse_char m c h36 h44 h42 hmr, hmf]
    exact dir_char_value k hk (touch m) c
  have hpc := parse_char n c h36 h44 h42 hr
  have h1 := hstep n hf hr
  have h2 := hstep (nmea_parse n c) (hpc.2.1.trans hf) hpc.2.2.2.2.1
  rw [h2, h1]
  exact dir_step_spec _ _ c _ hnp hmin hmax

set_option maxRecDepth 100000 in
/-- C19 at the longitude direction field of the RMC test sentence with the
letter `W`: the stored longitude 64430381776206308 becomes its negative, and
a second `W` leaves it there. -/
theorem direction_letter_fixes_sign_witness :
    (rmc_at_longitude_dir.state.field_handlers = NMEA_FIELD_LONGITUDE_DIR ∧
      rmc_at_longitude_dir.state.checksum_recording = 0 ∧
      dir_value NMEA_FIELD_LONGITUDE_DIR rmc_at_longitude_dir.data = 64430381776206308) ∧
    (|dir_value NMEA_FIELD_LONGITUDE_DIR (nmea_parse rmc_at_longitude_dir 87).data|
        = |dir_value NMEA_FIELD_LONGITUDE_DIR rmc_at_longitude_dir.data| ∧
      ((87 : Int) = dir_negative NMEA_FIELD_LONGITUDE_DIR →
        dir_value NMEA_FIELD_LONGITUDE_DIR (nmea_parse rmc_at_longitude_dir 87).data ≤ 0) ∧
      ((87 : Int) = dir_positive NMEA_FIELD_LONGITUDE_DIR →
        0 ≤ dir_value NMEA_FIELD_LONGITUDE_DIR (nmea_parse rmc_at_longitude_dir 87).data) ∧
      ((87 : Int) ≠ dir_negative NMEA_FIELD_LONGITUDE_DIR →
        (87 : Int) ≠ dir_positive NMEA_FIELD_LONGITUDE_DIR →
        dir_value NMEA_FIELD_LONGITUDE_DIR (nmea_parse rmc_at_longitude_dir 87).data
          = dir_value NMEA_FIELD_LONGITUDE_DIR rmc_at_longitude_dir.data) ∧
      dir_value NMEA_FIELD_LONGITUDE_DIR
          (nmea_parse (nmea_parse rmc_at_longitude_dir 87) 87).data
        = dir_value NMEA_FIELD_LONGITUDE_DIR (nmea_parse rmc_at_longitude_dir 87).data) ∧
    dir_value NMEA_FIELD_LONGITUDE_DIR (nmea_parse rmc_at_longitude_dir 87).data
      = -64430381776206308 :=
  ⟨⟨by decide, by decide, by decide⟩,
   direction_letter_fixes_sign rmc_at_longitude_dir NMEA_FIELD_LONGITUDE_DIR 87
     (Or.inr (Or.inl rfl)) (by decide) (by decide) (by decide) (by decide) (by decide)
     (by decide) (by decide),
   by decide⟩


set_option maxRecDepth 100000 in
/-- C20 as stated fails in two ways.  The 8 bit character count wraps after
256 characters, so in a time field of 257 characters the last one is read as
the tens of hours again: from a fresh parser (time 0) the GGA time field
`175456` followed by 251 zeros leaves `data.time = 0`, not 64496.  And the sum
is formed in 64 bit unsigned arithmetic and stored into the signed
`data.time`: with the old time `LLONG_MAX` the time field `235959` leaves a
negative `data.time`. -/
theorem long_time_field_wraps :
    (nmea_parse (test_parse_string fresh (chars "$GPGGA")) 44).data.time = 0 ∧
    (test_parse_string fresh (chars "$GPGGA" ++ 44 :: (long_time_field ++ [44]))).data.time = 0 ∧
    (0 : Int) / 86400 * 86400 + ((10 * 1 + 7) * 3600 + (10 * 5 + 4) * 60 + (10 * 5 + 6)) = 64496 ∧
    (nmea_parse (test_parse_string late_clock (chars "$GPGGA")) 44).data.time
      = 9223372036854775807 ∧
    (test_parse_string late_clock (chars "$GPGGA,235959,")).data.time = -9223372036854745217 ∧
    (9223372036854775807 : Int) / 86400 * 86400
      + ((10 * 2 + 3) * 3600 + (10 * 5 + 9) * 60 + (10 * 5 + 9)) = 9223372036854806399 := by
  refine ⟨by decide, by decide, by decide, by decide, by decide, by decide⟩

/-- C20, amended: a comma that opens a time field, six digits `h1 h2 m1 m2 s1
s2`, at most 250 further characters and the closing delimiter.  When the time
`t` at the start of the field is non-negative and floor(t / 86400) * 86400
plus the seconds of the day is below 2^63, `data.time` is that sum at the end
of the field. -/
theorem time_decode (x : nmea) (h1 h2 m1 m2 s1 s2 : Nat) (rest : List Int) (d : Int)
    (hr : x.state.checksum_recording = 0)
    (hk : (nmea_parse x 44).state.field_handlers = NMEA_FIELD_TIME)
    (a1 : h1 < 10) (a2 : h2 < 10) (a3 : m1 < 10) (a4 : m2 < 10) (a5 : s1 < 10) (a6 : s2 < 10)
    (hrest : ∀ c ∈ rest, c ≠ 36 ∧ c ≠ 44 ∧ c ≠ 42) (hlen : rest.length ≤ 250)
    (hd : d = 44 ∨ d = 42)
    (h0 : 0 ≤ (nmea_parse x 44).data.time)
    (hmax : (nmea_parse x 44).data.time / 86400 * 86400
        + (((10 * h1 + h2) * 3600 + (10 * m1 + m2) * 60 + (10 * s1 + s2) : Nat) : Int)
        < 9223372036854775808) :
    (test_parse_string x (44 :: ((digits [h1, h2, m1, m2, s1, s2] ++ rest) ++ [d]))).data.time
      = (nmea_parse x 44).data.time / 86400 * 86400
        + (((10 * h1 + h2) * 3600 + (10 * m1 + m2) * 60 + (10 * s1 + s2) : Nat) : Int) := by
  have hsix : ∀ c ∈ digits [h1, h2, m1, m2, s1, s2], c ≠ 36 ∧ c ≠ 44 ∧ c ≠ 42 := by
    apply digits_plain
    intro k hk'
    simp only [List.mem_cons, List.mem_singleton, List.not_mem_nil, or_false] at hk'
    omega
  have ht : ∀ c ∈ digits [h1, h2, m1, m2, s1, s2] ++ rest, c ≠ 36 ∧ c ≠ 44 ∧ c ≠ 42 := by
    intro c hc
    rcases List.mem_append.mp hc with h | h
    · exact hsix c h
    · exact hrest c h
  rw [field_decoded x _ d hr ht hd, hk]
  have hold := close_data x 44 hr (Or.inl rfl)
  rw [hold] at h0 hmax ⊢
  generalize (HANDLER_LUT x.state.field_handlers).end_handler (unready x) = e at h0 hmax
  show (time_end_handler ((digits [h1, h2, m1, m2, s1, s2] ++ rest).foldl time_char_handler
    (reset_cc_start_handler e))).data.time = _
  rw [List.foldl_append]
  have h6 := time_six (reset_cc_start_handler e) h1 h2 m1 m2 s1 s2 a1 a2 a3 a4 a5 a6 rfl
  generalize (digits [h1, h2, m1, m2, s1, s2]).foldl time_char_handler
    (reset_cc_start_handler e) = r at h6
  obtain ⟨hs, hc, hdat⟩ := h6
  have hrst := time_rest rest r (by rw [hc]) (by rw [hc]; omega)
  generalize rest.foldl time_char_handler r = q at hrst
  have hqd : q.data.time = e.data.time := by
    rw [hrst.2, hdat]; rfl
  have hqs : q.state.scratch = (10 * h1 + h2) * 3600 + (10 * m1 + m2) * 60 + (10 * s1 + s2) :=
    hrst.1.trans hs
  have := time_end_value q (by rw [hqd]; exact h0) (by rw [hqd, hqs]; exact hmax)
  rw [this, hqd, hqs]

set_option maxRecDepth 100000 in
/-- C20, amended, at the time field `175456.00` of the GGA and of the GLL test
sentence, from a fresh parser: `data.time` is 64496 (0xfbf0). -/
theorem time_decode_witness :
    (test_parse_string fresh (chars "$GPGGA,175456.00,")).data.time = 64496 ∧
    (test_parse_string fresh (chars "$GPGLL,5104.34432,N,00147.29814,W,175456.00,")).data.time
      = 64496 :=
  ⟨time_decode (test_parse_string fresh (chars "$GPGGA")) 1 7 5 4 5 6 (chars ".00") 44
      (by decide) (by decide) (by decide) (by decide) (by decide) (by decide) (by decide)
      (by decide) (by decide) (by decide) (Or.inl rfl) (by decide) (by decide),
   time_decode (test_parse_string fresh (chars "$GPGLL,5104.34432,N,00147.29814,W"))
      1 7 5 4 5 6 (chars ".00") 44
      (by decide) (by decide) (by decide) (by decide) (by decide) (by decide) (by decide)
      (by decide) (by decide) (by decide) (Or.inl rfl) (by decide) (by decide)⟩

set_option maxRecDepth 100000 in
/-- C21 fails in March of every year with `yy mod 4 = 0`: the leap day is
removed when `se.scratch[0] < 3`, and that cell holds the month minus one, so
it is removed for March as well.  From the fresh parser the RMC sentence with
time `000000` and date `010324` (1 March 2024) stores 1709164800, the epoch
time of 29 February 2024 00:00:00, which the date `290224` stores as well;
the epoch time of 1 March 2024 00:00:00 is 1709251200.  The date `010300`
(1 March 2000) stores 951782400 instead of 951868800.  Outside March, and in
the other years, the value is the epoch time: `010424` stores 1711929600 and
the test date `080321` with time `175456` stores 1615226096. -/
theorem leap_year_march_is_a_day_short :
    (test_parse_string fresh (chars "$GPRMC,000000,A,,,,,,,010324,,,A*")).data.time
      = 1709164800 ∧
    epoch_seconds 24 3 1 0 = 1709251200 ∧
    days_since_2000 24 3 1 = 8826 ∧
    (test_parse_string fresh (chars "$GPRMC,000000,A,,,,,,,290224,,,A*")).data.time
      = 1709164800 ∧
    epoch_seconds 24 2 29 0 = 1709164800 ∧
    (test_parse_string fresh (chars "$GPRMC,000000,A,,,,,,,010300,,,A*")).data.time
      = 951782400 ∧
    epoch_seconds 0 3 1 0 = 951868800 ∧
    (test_parse_string fresh (chars "$GPRMC,000000,A,,,,,,,010424,,,A*")).data.time
      = 1711929600 ∧
    epoch_seconds 24 4 1 0 = 1711929600 ∧
    (test_parse_string fresh (chars "$GPRMC,175456,A,,,,,,,080321,,,A*")).data.time
      = 1615226096 ∧
    epoch_seconds 21 3 8 (time_of_day [1, 7, 5, 4, 5, 6]) = 1615226096 := by
  refine ⟨by decide, by decide, by decide, by decide, by decide, by decide, by decide,
    by decide, by decide, by decide, by decide⟩


set_option maxRecDepth 100000 in
/-- C22 as stated fails for a long time field: the 8 bit character count
wraps after 256 characters, so the 257th character of a time field is read as
the tens of hours again.  From the fresh parser (time 0) the RMC sentence with
the time field `175456.00` and the date `080321` gives 1615226096, and the
same sentence with the time field `175456` followed by 251 zeros, which starts
with the same six digits, gives 1615161600. -/
theorem long_time_field_changes_date_time :
    (0 : Int) ≤ fresh.data.time ∧
    long_time_field.take 6 = chars "175456" ∧
    long_time_field.length = 257 ∧
    (test_parse_string fresh (chars "$GPRMC,175456.00,,,,,,,,080321,")).data.time
      = 1615226096 ∧
    (test_parse_string fresh
      (chars "$GPRMC," ++ long_time_field ++ chars ",,,,,,,,080321,")).data.time
      = 1615161600 := by
  refine ⟨by decide, by decide, by decide, by decide, by decide⟩

/-- C22, amended: in an RMC sentence of at most 256 fields whose time field
starts with six digits `td` of a time of day below 24:00:00 and has at most
256 characters and whose date field is six digits `dd`, read from any parser
with a non-negative `data.time` (a `long long`, at most 2^63 - 1), the
`data.time` at the delimiter that closes the last field is
`time_date_value td dd`, a function of the twelve digits only. -/
theorem time_and_date_reproducible (n : nmea) (td dd : List Nat) (trest : List Int)
    (mid tail : List (List Int)) (d : Int)
    (hn0 : 0 ≤ n.data.time) (hn1 : n.data.time ≤ 9223372036854775807)
    (htd : td.length = 6) (htd10 : ∀ x ∈ td, x < 10) (hday : time_of_day td < 86400)
    (hdd : dd.length = 6) (hdd10 : ∀ x ∈ dd, x < 10)
    (htr : ∀ c ∈ trest, c ≠ 36 ∧ c ≠ 44 ∧ c ≠ 42) (htl : trest.length ≤ 250)
    (hmid : ∀ f ∈ mid, ∀ c ∈ f, c ≠ 36 ∧ c ≠ 44 ∧ c ≠ 42) (hml : mid.length = 7)
    (htail : ∀ f ∈ tail, ∀ c ∈ f, c ≠ 36 ∧ c ≠ 44 ∧ c ≠ 42) (htll : tail.length ≤ 247)
    (hd : d = 44 ∨ d = 42) :
    (test_parse_string n (36 :: ((header_literal 4
        ++ join_fields (rmc_fields td trest mid dd tail)) ++ [d]))).data.time
      = time_date_value td dd :=
  rmc_sentence_time n td dd trest mid tail d hn0 hn1 htd htd10 hday hdd hdd10 htr htl hmid hml
    htail htll hd

set_option maxRecDepth 100000 in
/-- C22, amended, at the RMC test sentence (time `175456.00`, date `080321`)
from the fresh parser: the result is 0x604664f0 = 1615226096; the same
sentence from a parser whose old time is the largest signed value gives the
same result. -/
theorem time_and_date_reproducible_witness :
    (((0 : Int) ≤ fresh.data.time ∧ fresh.data.time ≤ 9223372036854775807 ∧
      [1, 7, 5, 4, 5, 6].length = 6 ∧ (∀ x ∈ [1, 7, 5, 4, 5, 6], x < 10) ∧
      time_of_day [1, 7, 5, 4, 5, 6] < 86400 ∧
      [0, 8, 0, 3, 2, 1].length = 6 ∧ (∀ x ∈ [0, 8, 0, 3, 2, 1], x < 10) ∧
      (∀ c ∈ chars ".00", c ≠ 36 ∧ c ≠ 44 ∧ c ≠ 42) ∧ (chars ".00").length ≤ 250 ∧
      (∀ f ∈ rmc_test_mid, ∀ c ∈ f, c ≠ 36 ∧ c ≠ 44 ∧ c ≠ 42) ∧ rmc_test_mid.length = 7 ∧
      (∀ f ∈ [[], [], chars "A"], ∀ c ∈ f, c ≠ 36 ∧ c ≠ 44 ∧ c ≠ 42) ∧
      ([[], [], chars "A"] : List (List Int)).length ≤ 247) ∧
    36 :: ((header_literal 4 ++ join_fields (rmc_fields [1, 7, 5, 4, 5, 6] (chars ".00")
        rmc_test_mid [0, 8, 0, 3, 2, 1] [[], [], chars "A"])) ++ [42])
      = chars "$GPRMC,175456.00,A,5104.34432,N,00147.29814,W,34.075,213.73,080321,,,A*") ∧
    (test_parse_string fresh (36 :: ((header_literal 4
        ++ join_fields (rmc_fields [1, 7, 5, 4, 5, 6] (chars ".00") rmc_test_mid
          [0, 8, 0, 3, 2, 1] [[], [], chars "A"])) ++ [42]))).data.time
      = time_date_value [1, 7, 5, 4, 5, 6] [0, 8, 0, 3, 2, 1] ∧
    time_date_value [1, 7, 5, 4, 5, 6] [0, 8, 0, 3, 2, 1] = 1615226096 ∧
    (1615226096 : Int) = 0x604664f0 ∧
    (test_parse_string late_clock
      (chars "$GPRMC,175456.00,A,5104.34432,N,00147.29814,W,34.075,213.73,080321,,,A*47")).data.time
      = 1615226096 :=
  ⟨⟨⟨by decide, by decide, by decide, by decide, by decide, by decide, by decide, by decide,
      by decide, by decide, by decide, by decide, by decide⟩, by decide⟩,
   time_and_date_reproducible fresh [1, 7, 5, 4, 5, 6] [0, 8, 0, 3, 2, 1] (chars ".00")
     rmc_test_mid [[], [], chars "A"] 42 (by decide) (by decide) (by decide) (by decide)
     (by decide) (by decide) (by decide) (by decide) (by decide) (by decide) (by decide)
     (by decide) (by decide) (Or.inr rfl),
   by decide, by decide, by decide⟩


set_option maxRecDepth 100000 in
/-- C23 fails: the product `val * 10` wraps without being noticed, only a
wrap of the following addition saturates.  With no fractional bits twenty
nines decode to 7766279631452241919 and `18446744073709551620` to 4, not to
the maximum; with 16 fractional bits (the speed field) fifteen nines decode to
10195767778871279616; with 56 fractional bits `300` decodes to 44 * 2^56; and
a saturated value does not stay: with 56 fractional bits `256` gives the
maximum and `2560` gives 2^64 - 10.  The VTG sentence with the speed field
`999999999999999` stores the wrapped value. -/
theorem digit_overflow_wraps :
    ufxp_decode 0 (digits (List.replicate 20 9)) = 7766279631452241919 ∧
    min (dec (List.replicate 20 9) * 2 ^ 0) (2 ^ 64 - 1) = 18446744073709551615 ∧
    ufxp_decode 0 (chars "18446744073709551620") = 4 ∧
    ufxp_decode 16 (digits (List.replicate 15 9)) = 10195767778871279616 ∧
    min (dec (List.replicate 15 9) * 2 ^ 16) (2 ^ 64 - 1) = 18446744073709551615 ∧
    ufxp_decode 56 (chars "300") = 44 * 2 ^ 56 ∧
    min (300 * 2 ^ 56) (2 ^ 64 - 1) = 18446744073709551615 ∧
    ufxp_decode 56 (chars "256") = 18446744073709551615 ∧
    ufxp_decode 56 (chars "2560") = 18446744073709551606 ∧
    (test_parse_string fresh (chars "$GPVTG,,,,,999999999999999,")).data.speed
      = 10195767778871279616 := by
  refine ⟨by decide, by decide, by decide, by decide, by decide, by decide, by decide,
    by decide, by decide, by decide⟩


/-- C24: for `q <= 56` and a literal with integer digits `ip` (value `I`) and,
optionally, `.` and `k` fractional digits, with `(I + 1) * 2^q <= 2^64`, the
unsigned decoder started by `ufxp_init` from any cell content yields exactly
the reference value with an unbounded divisor, `I * 2^q` plus the floors
`floor(f_i * 2^q / 10^i)` (whatever `k` is); a literal without fractional
digits decodes to exactly `I * 2^q`; the result never exceeds the exact value
in units of `2^-q` and, with at least one fractional digit, is short of it by
less than `k` units. -/
theorem decode_equals_reference (q : Nat) (hq : q ≤ 56) (ip : List Nat)
    (hip : ∀ d ∈ ip, d < 10) (frac : Option (List Nat)) (hfr : ∀ f ∈ frac.getD [], f < 10)
    (hfit : (dec ip + 1) * 2 ^ q ≤ 18446744073709551616) (st : nmea_fxp_state) :
    ufxp_get_val (ufxp_run q (fixed_literal ip frac) (ufxp_init st))
      = reference_decode q ip frac ∧
    (frac.getD [] = [] →
      ufxp_get_val (ufxp_run q (fixed_literal ip frac) (ufxp_init st)) = dec ip * 2 ^ q) ∧
    (ufxp_get_val (ufxp_run q (fixed_literal ip frac) (ufxp_init st)) : ℚ)
      ≤ exact_literal ip frac * 2 ^ q ∧
    (frac.getD [] ≠ [] →
      exact_literal ip frac * 2 ^ q
        - (ufxp_get_val (ufxp_run q (fixed_literal ip frac) (ufxp_init st)) : ℚ)
        < (frac.getD []).length) := by
  have hval : ufxp_get_val (ufxp_run q (fixed_literal ip frac) (ufxp_init st))
      = reference_decode q ip frac :=
    literal_value q hq ip hip frac hfr hfit (ufxp_init st) rfl rfl
  rw [hval]
  have hle := frac_sum_le q (frac.getD []) 0
  unfold reference_decode exact_literal
  refine ⟨rfl, ?_, ?_, ?_⟩
  · intro h
    rw [h]
    simp [frac_sum]
  · push_cast
    have e : ((dec ip : ℚ) + dec_frac 0 (frac.getD [])) * 2 ^ q
        = (dec ip : ℚ) * 2 ^ q + dec_frac 0 (frac.getD []) * 2 ^ q := by ring
    rw [e]
    linarith
  · intro h
    have hgt := frac_sum_gt q (frac.getD []) h 0
    push_cast
    have e : ((dec ip : ℚ) + dec_frac 0 (frac.getD [])) * 2 ^ q
        = (dec ip : ℚ) * 2 ^ q + dec_frac 0 (frac.getD []) * 2 ^ q := by ring
    rw [e]
    linarith

/-- C24 at the two literals of the VTG test: `34.075` with 16 fractional bits
decodes to 2233138, within 0.001 of 34.075, and `213.73` to 14007009, within
0.001 of 213.73. -/
theorem decode_equals_reference_witness :
    ((16 ≤ 56 ∧ (∀ d ∈ [3, 4], d < 10) ∧ (∀ f ∈ (some [0, 7, 5]).getD [], f < 10) ∧
      (dec [3, 4] + 1) * 2 ^ 16 ≤ 18446744073709551616) ∧
    fixed_literal [3, 4] (some [0, 7, 5]) = chars "34.075" ∧
    fixed_literal [2, 1, 3] (some [7, 3]) = chars "213.73") ∧
    (ufxp_get_val (ufxp_run 16 (fixed_literal [3, 4] (some [0, 7, 5])) (ufxp_init ⟨7, 7, 7, 7⟩))
        = reference_decode 16 [3, 4] (some [0, 7, 5]) ∧
      ((some [0, 7, 5]).getD [] = [] →
        ufxp_get_val (ufxp_run 16 (fixed_literal [3, 4] (some [0, 7, 5])) (ufxp_init ⟨7, 7, 7, 7⟩))
          = dec [3, 4] * 2 ^ 16) ∧
      (ufxp_get_val (ufxp_run 16 (fixed_literal [3, 4] (some [0, 7, 5]))
          (ufxp_init ⟨7, 7, 7, 7⟩)) : ℚ)
        ≤ exact_literal [3, 4] (some [0, 7, 5]) * 2 ^ 16 ∧
      ((some [0, 7, 5]).getD [] ≠ [] →
        exact_literal [3, 4] (some [0, 7, 5]) * 2 ^ 16
          - (ufxp_get_val (ufxp_run 16 (fixed_literal [3, 4] (some [0, 7, 5]))
              (ufxp_init ⟨7, 7, 7, 7⟩)) : ℚ)
          < ((some [0, 7, 5]).getD []).length)) ∧
    reference_decode 16 [3, 4] (some [0, 7, 5]) = 2233138 ∧
    ufxp_decode 16 (chars "34.075") = 2233138 ∧
    |(2233138 : ℚ) / 2 ^ 16 - 34075 / 1000| < 1 / 1000 ∧
    ufxp_decode 16 (chars "213.73") = 14007009 ∧
    |(14007009 : ℚ) / 2 ^ 16 - 21373 / 100| < 1 / 1000 :=
  ⟨⟨⟨by decide, by decide, by decide, by decide⟩, by decide, by decide⟩,
   decode_equals_reference 16 (by decide) [3, 4] (by decide) (some [0, 7, 5]) (by decide)
     (by decide) ⟨7, 7, 7, 7⟩,
   by decide, by decide, by rw [abs_lt]; constructor <;> norm_num,
   by decide, by rw [abs_lt]; constructor <;> norm_num⟩


/-- C25: for every decoder state `s` the signed result is `min(u, 2^63 - 1)`
with `u` the unsigned magnitude when the sign cell is clear and its negative
when it is set, so it lies in `[-(2^63 - 1), 2^63 - 1]`; after `fxp_init` and
the characters of a field the sign cell is set exactly when the field holds a
`-`, the magnitude is the unsigned decode of the other characters, and an
empty field gives 0. -/
theorem signed_finalisation (s st : nmea_fxp_state) (q : Nat) (text : List Int) :
    fxp_get_val s
      = (if s.neg ≠ 0 then -(min (s.val : Int) 9223372036854775807)
         else min (s.val : Int) 9223372036854775807) ∧
    -9223372036854775807 ≤ fxp_get_val s ∧ fxp_get_val s ≤ 9223372036854775807 ∧
    fxp_get_val (fxp_run q text (fxp_init st))
      = (if (45 : Int) ∈ text
         then -(min ((fxp_run q text (fxp_init st)).val : Int) 9223372036854775807)
         else min ((fxp_run q text (fxp_init st)).val : Int) 9223372036854775807) ∧
    (fxp_run q text (fxp_init st)).val
      = (ufxp_run q (text.filter (fun c => decide (c ≠ 45))) (ufxp_init st)).val ∧
    fxp_get_val (fxp_run q [] (fxp_init st)) = 0 := by
  have hgen : ∀ s : nmea_fxp_state, fxp_get_val s
      = (if s.neg ≠ 0 then -(min (s.val : Int) 9223372036854775807)
         else min (s.val : Int) 9223372036854775807) := by
    intro s
    unfold fxp_get_val ufxp_get_val LLONG_MAX
    simp only []
    by_cases hu : s.val > 9223372036854775807
    · rw [if_pos hu]
      have : min (s.val : Int) 9223372036854775807 = 9223372036854775807 := by omega
      rw [this]; rfl
    · rw [if_neg hu]
      have : min (s.val : Int) 9223372036854775807 = (s.val : Int) := by omega
      rw [this]
  refine ⟨hgen s, ?_, ?_, ?_, ?_, ?_⟩
  · rw [hgen s]; split_ifs <;> omega
  · rw [hgen s]; split_ifs <;> omega
  · rw [hgen]
    have := fxp_run_neg q text (fxp_init st)
    have h0 : (fxp_init st).neg = 0 := rfl
    rw [h0] at this
    by_cases hm : (45 : Int) ∈ text
    · rw [if_pos (this.mpr (Or.inr hm)), if_pos hm]
    · rw [if_neg (fun h => (this.mp h).elim (fun h' => h' rfl) hm), if_neg hm]
  · exact fxp_run_val q text _ _ rfl rfl rfl
  · rfl


/-- C26: in a GSA sentence whose twelve PRN fields each hold nothing or the
digits of a value in 1..255, the slot index is 0 after the header's comma, and
at the delimiter that closes the twelfth PRN field the tracked PRN array
starts with the `k` values of the non-empty fields in sentence order (`k <=
12`, the slot index is `k`), followed by its previous entries from slot `k`
on. -/
theorem tracked_prn_list (n : nmea) (f0 f1 : List Int) (ps : List (List Nat)) (d : Int)
    (h0 : ∀ c ∈ f0, c ≠ 36 ∧ c ≠ 44 ∧ c ≠ 42) (h1 : ∀ c ∈ f1, c ≠ 36 ∧ c ≠ 44 ∧ c ≠ 42)
    (hlen : ps.length = 12)
    (hps : ∀ p ∈ ps, (∀ x ∈ p, x < 10) ∧ (p = [] ∨ (1 ≤ dec p ∧ dec p ≤ 255)))
    (hd : d = 44 ∨ d = 42) (harr : n.data.prns_tracked.length = NMEA_MAX_PRNS_TRACKED) :
    (test_parse_string n (36 :: (header_literal 2 ++ [44]))).state.gsa_satellite_index = 0 ∧
    (test_parse_string n (36 :: ((header_literal 2
        ++ join_fields (f0 :: f1 :: ps.map digits)) ++ [d]))).data.prns_tracked
      = prn_values ps ++ n.data.prns_tracked.drop (prn_values ps).length ∧
    (prn_values ps).length ≤ 12 ∧
    (test_parse_string n (36 :: ((header_literal 2
        ++ join_fields (f0 :: f1 :: ps.map digits)) ++ [d]))).state.gsa_satellite_index
      = (prn_values ps).length := by
  have hfs : ∀ f ∈ f0 :: f1 :: ps.map digits, ∀ c ∈ f, c ≠ 36 ∧ c ≠ 44 ∧ c ≠ 42 := by
    intro f hf
    rcases List.mem_cons.mp hf with h | h
    · rw [h]; exact h0
    · rcases List.mem_cons.mp h with h | h
      · rw [h]; exact h1
      · obtain ⟨p, hp, rfl⟩ := List.mem_map.mp h
        exact digits_plain p (hps p hp).1
  have hl : (f0 :: f1 :: ps.map digits).length ≤ 256 := by
    simp only [List.length_cons, List.length_map, hlen]
    decide
  -- the header and its comma
  have hopen : (test_parse_string n (36 :: (header_literal 2 ++ [44]))).state.gsa_satellite_index
      = 0 := by
    have e : test_parse_string n (36 :: (header_literal 2 ++ [44]))
        = nmea_parse (test_parse_string n (36 :: header_literal 2)) 44 := by
      simp only [test_parse_string, List.foldl_cons, List.foldl_append, List.foldl_nil]
    obtain ⟨hr, -, -, hc⟩ := header_closed n 2 (by decide)
    rw [e, close_gsa_index _ 44 hr (Or.inl rfl), hc.gsa_satellite_index]
    rfl
  -- the fields decoded in turn
  have hy0 : (decode_field (kind_at (sentence_ptr.lut 2) 1) f1
      (decode_field (kind_at (sentence_ptr.lut 2) 0) f0
        (sentence_open 2 n))).state.gsa_satellite_index = 0 := by
    have hf1 := slot_frame_decode_field (kind_at (sentence_ptr.lut 2) 1)
      (kind_at_ne_header _ _) f1
      (decode_field (kind_at (sentence_ptr.lut 2) 0) f0 (sentence_open 2 n))
    have hf0 := slot_frame_decode_field (kind_at (sentence_ptr.lut 2) 0)
      (kind_at_ne_header _ _) f0 (sentence_open 2 n)
    rw [hf1.index (by decide), hf0.index (by decide)]
    rfl
  have hy1 : (decode_field (kind_at (sentence_ptr.lut 2) 1) f1
      (decode_field (kind_at (sentence_ptr.lut 2) 0) f0
        (sentence_open 2 n))).data.prns_tracked = n.data.prns_tracked := by
    have hf1 := slot_frame_decode_field (kind_at (sentence_ptr.lut 2) 1)
      (kind_at_ne_header _ _) f1
      (decode_field (kind_at (sentence_ptr.lut 2) 0) f0 (sentence_open 2 n))
    have hf0 := slot_frame_decode_field (kind_at (sentence_ptr.lut 2) 0)
      (kind_at_ne_header _ _) f0 (sentence_open 2 n)
    rw [hf1.prns (by decide), hf0.prns (by decide)]
    rfl
  have hdec : decode_sentence 2 (f0 :: f1 :: ps.map digits) n
      = decode_fields (sentence_ptr.lut 2) 2 (ps.map digits)
          (decode_field (kind_at (sentence_ptr.lut 2) 1) f1
            (decode_field (kind_at (sentence_ptr.lut 2) 0) f0 (sentence_open 2 n))) := rfl
  have hp := prn_fields ps 2 _ (le_refl 2) (by rw [hlen]) hps
    (by rw [hy0, hlen]) (by rw [hy1]; exact harr)
  rw [hy0, hy1, ← hdec] at hp
  simp only [Nat.zero_add, List.take_zero, List.nil_append] at hp
  have hk := prn_values_length ps
  rw [hlen] at hk
  refine ⟨hopen, ?_, hk, ?_⟩
  · rw [sentence_close_data n 2 (by decide) _ hfs hl d hd]
    exact hp.1
  · have e : test_parse_string n (36 :: ((header_literal 2
          ++ join_fields (f0 :: f1 :: ps.map digits)) ++ [d]))
        = nmea_parse (test_parse_string n (36 :: (header_literal 2
            ++ join_fields (f0 :: f1 :: ps.map digits)))) d := by
      simp only [test_parse_string, List.foldl_cons, List.foldl_append, List.foldl_nil]
    obtain ⟨hr, -, hc⟩ := sentence_fields_core n 2 (by decide) _ hfs hl
    rw [e, close_gsa_index _ d hr hd, hc.gsa_satellite_index]
    exact hp.2

set_option maxRecDepth 100000 in
/-- C26 at the GSA test sentence, from a fresh parser: the PRN fields 18, 16,
23 and nine empty fields give the tracked PRN list 18, 16, 23 followed by the
nine zeros that were there. -/
theorem tracked_prn_list_witness :
    ((∀ c ∈ chars "A", c ≠ 36 ∧ c ≠ 44 ∧ c ≠ 42) ∧ (∀ c ∈ chars "2", c ≠ 36 ∧ c ≠ 44 ∧ c ≠ 42) ∧
      gsa_test_prns.length = 12 ∧
      (∀ p ∈ gsa_test_prns, (∀ x ∈ p, x < 10) ∧ (p = [] ∨ (1 ≤ dec p ∧ dec p ≤ 255))) ∧
      fresh.data.prns_tracked.length = NMEA_MAX_PRNS_TRACKED ∧
      36 :: ((header_literal 2 ++ join_fields (chars "A" :: chars "2" :: gsa_test_prns.map digits))
          ++ [44]) = chars "$GPGSA,A,2,18,16,23,,,,,,,,,," ∧
      prn_values gsa_test_prns = [18, 16, 23]) ∧
    ((test_parse_string fresh (36 :: (header_literal 2 ++ [44]))).state.gsa_satellite_index = 0 ∧
      (test_parse_string fresh (36 :: ((header_literal 2
          ++ join_fields (chars "A" :: chars "2" :: gsa_test_prns.map digits))
          ++ [44]))).data.prns_tracked
        = prn_values gsa_test_prns ++ fresh.data.prns_tracked.drop (prn_values gsa_test_prns).length ∧
      (prn_values gsa_test_prns).length ≤ 12 ∧
      (test_parse_string fresh (36 :: ((header_literal 2
          ++ join_fields (chars "A" :: chars "2" :: gsa_test_prns.map digits))
          ++ [44]))).state.gsa_satellite_index
        = (prn_values gsa_test_prns).length) ∧
    (test_parse_string fresh
        (chars "$GPGSA,A,2,18,16,23,,,,,,,,,,3.05,2.88,1.00*09")).data.prns_tracked
      = [18, 16, 23, 0, 0, 0, 0, 0, 0, 0, 0, 0] :=
  ⟨⟨by decide, by decide, by decide, by decide, by decide, by decide, by decide⟩,
   tracked_prn_list fresh (chars "A") (chars "2") gsa_test_prns 44 (by decide) (by decide)
     (by decide) (by decide) (Or.inl rfl) (by decide),
   by decide⟩


/-- C27: a comma that selects the GLL or the RMC status kind, one character
`c` (any character that is not `$`, `,` or `*`) and the closing delimiter
leave the flag of that kind at NMEA_ACTIVE when `c` is `A` and at NMEA_VOID
for every other `c`. -/
theorem active_void_flag (x : nmea) (k : nmea_fields) (c d : Int)
    (hk : k = NMEA_FIELD_GLL_ACTIVE ∨ k = NMEA_FIELD_RMC_ACTIVE)
    (hr : x.state.checksum_recording = 0)
    (hsel : (nmea_parse x 44).state.field_handlers = k)
    (h36 : c ≠ 36) (h44 : c ≠ 44) (h42 : c ≠ 42) (hd : d = 44 ∨ d = 42) :
    active_flag k (test_parse_string x [44, c, d]).data
      = (if c = 65 then NMEA_ACTIVE else NMEA_VOID) := by
  have h := field_decoded x [c] d hr
    (by intro y hy; rw [List.mem_singleton] at hy; subst hy; exact ⟨h36, h44, h42⟩) hd
  have e : (44 : Int) :: ([c] ++ [d]) = [44, c, d] := rfl
  rw [e] at h
  rw [h, hsel]
  rcases hk with rfl | rfl <;> rfl

set_option maxRecDepth 100000 in
/-- C27 at the status field of the GLL test sentence, with `A` and with `V`,
and at the status field of the RMC test sentence with `A`. -/
theorem active_void_flag_witness :
    (gll_before_status.state.checksum_recording = 0 ∧
      (nmea_parse gll_before_status 44).state.field_handlers = NMEA_FIELD_GLL_ACTIVE) ∧
    active_flag NMEA_FIELD_GLL_ACTIVE (test_parse_string gll_before_status [44, 65, 44]).data
      = (if (65 : Int) = 65 then NMEA_ACTIVE else NMEA_VOID) ∧
    (test_parse_string gll_before_status [44, 65, 44]).data.gll_active = NMEA_ACTIVE ∧
    (test_parse_string gll_before_status [44, 86, 44]).data.gll_active = NMEA_VOID ∧
    (test_parse_string rmc_before_status [44, 65, 44]).data.rmc_active = NMEA_ACTIVE :=
  ⟨⟨by decide, by decide⟩,
   active_void_flag gll_before_status NMEA_FIELD_GLL_ACTIVE 65 44 (Or.inl rfl) (by decide)
     (by decide) (by decide) (by decide) (by decide) (Or.inl rfl),
   by decide, by decide, by decide⟩


/-- C28: from every parser state the character `$` sets the character count,
the comma count and the running checksum to 0, leaves checksum capture, clears
the touched-field bitmap, arms the candidate bitmap with all six formats
(0x3F) and makes the header handlers current; the fix snapshot, the readiness
bitmap and the other cells of the state are unchanged. -/
theorem dollar_resynchronises (n : nmea) :
    (nmea_parse n 36).state.char_count = 0 ∧
    (nmea_parse n 36).state.comma_count = 0 ∧
    (nmea_parse n 36).state.checksum = 0 ∧
    (nmea_parse n 36).state.checksum_recording = 0 ∧
    (nmea_parse n 36).state.field_bitmap = 0 ∧
    (nmea_parse n 36).state.sentence_bitmap = 63 ∧
    (nmea_parse n 36).state.field_handlers = NMEA_FIELD_HEADER ∧
    (nmea_parse n 36).data = n.data ∧
    (nmea_parse n 36).state.received = n.state.received ∧
    nmea_parse n 36 = { n with state := { n.state with
      char_count := 0, comma_count := 0, checksum := 0, checksum_recording := 0,
      field_bitmap := 0, sentence_bitmap := 63, field_handlers := NMEA_FIELD_HEADER } } := by
  rw [nmea_parse_dollar]
  exact ⟨rfl, rfl, rfl, rfl, rfl, rfl, rfl, rfl, rfl, rfl⟩


/-- C29: `nmea_init` gives one and the same parser for every prior content;
in it the readiness bitmap is 0, every field of the snapshot is 0 (all twenty
satellite records and all twelve tracked PRNs included), the GSV satellite
index and received-sentence bitmap are 0, the ignore format is selected and
the current field kind is IGNORE, whose handlers change nothing. -/
theorem init_discards_everything (m m' x : nmea) (c : Int) :
    nmea_init m = nmea_init m' ∧
    (nmea_init m).state.received = 0 ∧
    (nmea_init m).data
      = ⟨0, 0, 0, 0, 0, 0, 0, 0, 0, 0, 0, 0, 0, 0, 0, 0,
         List.replicate 20 ⟨0, 0, 0, 0⟩, List.replicate 12 0, 0, 0⟩ ∧
    (nmea_init m).state.gsv_satellite_index = 0 ∧
    (nmea_init m).state.gsv_sentences_received = 0 ∧
    (nmea_init m).state.sentence = sentence_ptr.ignore ∧
    (nmea_init m).state.field = NMEA_FIELD_IGNORE ∧
    (nmea_init m).state.field_handlers = NMEA_FIELD_IGNORE ∧
    (HANDLER_LUT (nmea_init m).state.field_handlers).start_handler x = x ∧
    (HANDLER_LUT (nmea_init m).state.field_handlers).char_handler x c = x ∧
    (HANDLER_LUT (nmea_init m).state.field_handlers).end_handler x = x :=
  ⟨rfl, rfl, rfl, rfl, rfl, rfl, rfl, rfl, rfl, rfl, rfl⟩


set_option maxRecDepth 100000 in
/-- C30 fails for a large comma number: the comma count is an 8 bit cell and
wraps at 256.  In an RMC sentence (field list of 12 kinds) the field after the
257th comma is handled as the time field again: from a fresh parser the text
`235959` there moves `data.time` from 946684800 (left by the empty date field)
to 946771199. -/
theorem comma_count_wraps :
    (sentence_format (sentence_ptr.lut 4)).length = 12 ∧
    header_literal 4 = chars "GPRMC" ∧
    (test_parse_string fresh rmc_257_commas).state.comma_count = 1 ∧
    (test_parse_string fresh rmc_257_commas).state.field = NMEA_FIELD_TIME ∧
    (test_parse_string fresh rmc_257_commas).state.field_handlers = NMEA_FIELD_TIME ∧
    (test_parse_string fresh rmc_257_commas).data.time = 946684800 ∧
    (test_parse_string (test_parse_string fresh rmc_257_commas) (chars "235959,")).data.time
      = 946771199 := by
  refine ⟨by decide, by decide, by decide, by decide, by decide, by decide, by decide⟩

/-- C30, amended: in a sentence of a supported format `i`, the comma that
follows the fields `fs` is comma number `k = fs.length + 1` (the comma after
the header is number 1).  When `(k - 1) mod 256` is not below the length of
the field list of the format, in particular for every `k` greater than that
length up to 256, that comma selects the IGNORE kind with the ignore
handlers, and the field text up to its closing delimiter leaves the fix
snapshot as it was after the comma. -/
theorem excess_commas_select_ignore (n : nmea) (i : Nat) (hi : i < 6) (fs : List (List Int))
    (hfs : ∀ f ∈ fs, ∀ c ∈ f, c ≠ 36 ∧ c ≠ 44 ∧ c ≠ 42)
    (hk : (sentence_format (sentence_ptr.lut i)).length ≤ fs.length % 256)
    (f : List Int) (hf : ∀ c ∈ f, c ≠ 36 ∧ c ≠ 44 ∧ c ≠ 42) (d : Int) (hd : d = 44 ∨ d = 42) :
    (test_parse_string n (36 :: ((header_literal i ++ join_fields fs) ++ [44]))).state.field
      = NMEA_FIELD_IGNORE ∧
    (test_parse_string n
        (36 :: ((header_literal i ++ join_fields fs) ++ [44]))).state.field_handlers
      = NMEA_FIELD_IGNORE ∧
    (test_parse_string
        (test_parse_string n (36 :: ((header_literal i ++ join_fields fs) ++ [44])))
        (f ++ [d])).data
      = (test_parse_string n (36 :: ((header_literal i ++ join_fields fs) ++ [44]))).data := by
  have e : test_parse_string n (36 :: ((header_literal i ++ join_fields fs) ++ [44]))
      = nmea_parse (test_parse_string (test_parse_string n (36 :: header_literal i))
          (join_fields fs)) 44 := by
    simp only [test_parse_string, List.foldl_cons, List.foldl_append, List.foldl_nil]
  rw [e]
  obtain ⟨hr, hcl, hcc, -⟩ := header_closed n i hi
  generalize test_parse_string n (36 :: header_literal i) = a at hr hcl hcc
  have hrun := fields_run_count fs a (sentence_ptr.lut i) hfs hr hcl (by rw [hcc]; decide)
  rw [hcc, Nat.zero_add] at hrun
  generalize test_parse_string a (join_fields fs) = b at hrun
  obtain ⟨hbr, hbp, hbc⟩ := hrun
  have hcm := parse_comma b hbr
  have hsel : (nmea_parse b 44).state.sentence = sentence_ptr.lut i :=
    hcm.2.2.2.2.2.2.2.trans hbp
  have hkind : (nmea_parse b 44).state.field = NMEA_FIELD_IGNORE := by
    rw [hcm.1, hsel, hbc]
    unfold kind_at
    rw [if_neg (by omega)]
  have hfh : (nmea_parse b 44).state.field_handlers = NMEA_FIELD_IGNORE :=
    hcm.2.1.trans hkind
  refine ⟨hkind, hfh, ?_⟩
  have hdec := field_decoded b f d hbr hf hd
  rw [hfh, decode_field_ignore] at hdec
  have e2 : test_parse_string (nmea_parse b 44) (f ++ [d])
      = test_parse_string b (44 :: (f ++ [d])) := rfl
  rw [e2, hdec, close_data b 44 hbr (Or.inl rfl)]

set_option maxRecDepth 100000 in
/-- C30, amended, at the field after the 13th comma of an RMC sentence (twelve
fields before it), with the text `235959`: the kind is IGNORE and the
snapshot keeps the time 946749296 that the first field and the empty date
field left. -/
theorem excess_commas_select_ignore_witness :
    ((4 < 6 ∧
      (∀ f ∈ chars "175456" :: List.replicate 11 ([] : List Int),
        ∀ c ∈ f, c ≠ 36 ∧ c ≠ 44 ∧ c ≠ 42) ∧
      (sentence_format (sentence_ptr.lut 4)).length
        ≤ (chars "175456" :: List.replicate 11 ([] : List Int)).length % 256 ∧
      (∀ c ∈ chars "235959", c ≠ 36 ∧ c ≠ 44 ∧ c ≠ 42)) ∧
    36 :: ((header_literal 4 ++ join_fields (chars "175456" :: List.replicate 11 [])) ++ [44])
      = chars "$GPRMC,175456,,,,,,,,,,,,") ∧
    ((test_parse_string fresh (36 :: ((header_literal 4
          ++ join_fields (chars "175456" :: List.replicate 11 [])) ++ [44]))).state.field
        = NMEA_FIELD_IGNORE ∧
      (test_parse_string fresh (36 :: ((header_literal 4
          ++ join_fields (chars "175456" :: List.replicate 11 [])) ++ [44]))).state.field_handlers
        = NMEA_FIELD_IGNORE ∧
      (test_parse_string
          (test_parse_string fresh (36 :: ((header_literal 4
            ++ join_fields (chars "175456" :: List.replicate 11 [])) ++ [44])))
          (chars "235959" ++ [44])).data
        = (test_parse_string fresh (36 :: ((header_literal 4
            ++ join_fields (chars "175456" :: List.replicate 11 [])) ++ [44]))).data) ∧
    (test_parse_string fresh (chars "$GPRMC,175456,,,,,,,,,,,,235959,")).data.time = 946749296 :=
  ⟨⟨⟨by decide, by decide, by decide, by decide⟩, by decide⟩,
   excess_commas_select_ignore fresh 4 (by decide)
     (chars "175456" :: List.replicate 11 []) (by decide) (by decide)
     (chars "235959") (by decide) 44 (Or.inl rfl),
   by decide⟩

/-- C31: a sentence of a supported format `i` (`$`, the header literal and any
further characters without `$`: well formed or not, with a passing or a
failing checksum or none, with anything after the checksum), fed to the parser
in any state, leaves every member of the fix snapshot at its value that is not
written by the handlers of a field kind of the field list of the format. -/
theorem sentence_frame (n : nmea) (i : Nat) (hi : i < 6) (rest : List Int)
    (hrest : ∀ c ∈ rest, c ≠ 36) (f : snapshot_member)
    (hf : f ∉ written_members (sentence_format (sentence_ptr.lut i)).fields) :
    member_eq f (test_parse_string n (36 :: (header_literal i ++ rest))).data n.data := by
  have hlit := hdr_bitmap_literal i hi
  have hrun := hdr_run (header_literal i) (nmea_parse n 36) hlit.2.1 rfl rfl
  have hsplit : test_parse_string n (36 :: (header_literal i ++ rest))
      = test_parse_string (test_parse_string (nmea_parse n 36) (header_literal i)) rest := by
    rw [test_parse_string_cons, test_parse_string_append]
  rw [hsplit]
  have hinv : frame_inv i (test_parse_string (nmea_parse n 36) (header_literal i)) := by
    left
    refine ⟨hrun.2.1, Or.inl ?_⟩
    rw [hrun.2.2.1]
    exact hlit.1
  have hw : ∀ k, listed i k → written_by k ≠ some f := by
    intro k hk
    rcases hk with h | h
    · rw [h]; simp [written_by]
    · exact (written_members_iff _ f).1 hf k h
  have hfr := frame_run i hi rest _ hrest hinv f hw
  refine member_eq_trans f hfr (member_eq_of_eq f ?_)
  rw [hrun.2.2.2.2.2.2.2]
  rfl

set_option maxRecDepth 100000 in
/-- C31 at the VTG test sentence followed by CR LF, fed after the GSA test
sentence: the members written by the kinds of VTG are the true track, the
magnetic track and the speed, those of GLL the latitude, the longitude, the
time and the GLL status, and the VDOP of the GSA sentence is kept. -/
theorem sentence_frame_witness :
    written_members VTG_FIELDS
      = [snapshot_member.true_track, snapshot_member.magnetic_track, snapshot_member.speed] ∧
    written_members GLL_FIELDS
      = [snapshot_member.latitude, snapshot_member.longitude, snapshot_member.time,
         snapshot_member.gll_active] ∧
    36 :: (header_literal 5 ++ (chars ",213.73,T,,M,34.075,N,63.106,K,A*3E" ++ [13, 10]))
      = vtg_test_sentence ++ [13, 10] ∧
    member_eq snapshot_member.vdop
      (test_parse_string (test_parse_string (nmea_init fresh) gsa_test_sentence)
        (36 :: (header_literal 5 ++ (chars ",213.73,T,,M,34.075,N,63.106,K,A*3E"
          ++ [13, 10])))).data
      (test_parse_string (nmea_init fresh) gsa_test_sentence).data :=
  ⟨by decide, by decide, by decide,
   sentence_frame (test_parse_string (nmea_init fresh) gsa_test_sentence) 5 (by decide)
     (chars ",213.73,T,,M,34.075,N,63.106,K,A*3E" ++ [13, 10]) (by decide)
     snapshot_member.vdop (by decide)⟩


/-- C32: field dispatch order.  In a sentence of a supported format `i`, from
any parser state, let `pre` be the fields before the `k`-th one and `kind`
the entry `F[k-1]` of the field list of the format (`k - 1 = pre.length`).
At the `k`-th comma after the header the kind `kind` becomes current and its
start handler runs on what the earlier fields left; the characters `f` up to
the next delimiter are passed, one by one, to the char handler of `kind`; and
the next delimiter (`,` or `*`) runs the end handler of `kind`, so that the fix
snapshot is the one the three handlers of `kind` give in turn. -/
theorem field_dispatch_order (n : nmea) (i : Nat) (hi : i < 6) (pre : List (List Int))
    (f : List Int) (kind : nmea_fields) (d : Int)
    (hpre : ∀ g ∈ pre, ∀ c ∈ g, c ≠ 36 ∧ c ≠ 44 ∧ c ≠ 42)
    (hf : ∀ c ∈ f, c ≠ 36 ∧ c ≠ 44 ∧ c ≠ 42)
    (hk : (sentence_format (sentence_ptr.lut i)).fields[pre.length]? = some kind)
    (hd : d = 44 ∨ d = 42) :
    ((field_opened n i pre).state.field = kind ∧
      (field_opened n i pre).state.field_handlers = kind ∧
      (field_opened n i pre).state.comma_count = pre.length + 1 ∧
      core_eq (field_opened n i pre)
        ((HANDLER_LUT kind).start_handler (decode_sentence i pre n))) ∧
    ((test_parse_string (field_opened n i pre) f).state.field_handlers = kind ∧
      core_eq (test_parse_string (field_opened n i pre) f)
        (f.foldl (HANDLER_LUT kind).char_handler
          ((HANDLER_LUT kind).start_handler (decode_sentence i pre n)))) ∧
    (nmea_parse (test_parse_string (field_opened n i pre) f) d).data
      = ((HANDLER_LUT kind).end_handler (f.foldl (HANDLER_LUT kind).char_handler
          ((HANDLER_LUT kind).start_handler (decode_sentence i pre n)))).data := by
  have hka := kind_at_of_fields i hi pre.length kind hk
  have hlen : pre.length ≤ 256 := by omega
  have hsc := sentence_fields_core n i hi pre hpre hlen
  have hcl := header_closed n i hi
  have hcount := fields_run_count pre (test_parse_string n (36 :: header_literal i))
    (sentence_ptr.lut i) hpre hcl.1 hcl.2.1 (by rw [hcl.2.2.1]; decide)
  have happ : test_parse_string n (36 :: (header_literal i ++ join_fields pre))
      = test_parse_string (test_parse_string n (36 :: header_literal i)) (join_fields pre) := by
    rw [← test_parse_string_append]; rfl
  have hopen : field_opened n i pre
      = nmea_parse (test_parse_string n (36 :: (header_literal i ++ join_fields pre))) 44 := by
    unfold field_opened
    rw [show (36 : Int) :: ((header_literal i ++ join_fields pre) ++ [44])
      = (36 :: (header_literal i ++ join_fields pre)) ++ [44] from rfl, test_parse_string_append]
    rfl
  have hcc : (test_parse_string n (36 :: (header_literal i ++ join_fields pre))).state.comma_count
      = pre.length := by
    rw [happ, hcount.2.2, hcl.2.2.1, Nat.zero_add]
    exact Nat.mod_eq_of_lt (by omega)
  generalize test_parse_string n (36 :: (header_literal i ++ join_fields pre)) = S0
    at hsc hopen hcc
  have hp := parse_comma S0 hsc.1
  have hsent : (nmea_parse S0 44).state.sentence = sentence_ptr.lut i := by
    rw [hp.2.2.2.2.2.2.2]; exact hsc.2.1
  have hfield : (nmea_parse S0 44).state.field = kind := by
    rw [hp.1, hsent, hcc]; exact hka.1
  have hfh : (nmea_parse S0 44).state.field_handlers = kind := by rw [hp.2.1, hfield]
  have hcore := comma_core S0 (decode_sentence i pre n) hsc.1 hsc.2.2
  rw [hfh] at hcore
  rw [hopen]
  have hrun := field_run f (nmea_parse S0 44) hf hp.2.2.2.2.1
  have hcr := core_field_run f (nmea_parse S0 44) _ hcore hf hp.2.2.2.2.1
  rw [hfh] at hcr
  refine ⟨⟨hfield, hfh, ?_, hcore⟩, ⟨by rw [hrun.2.2.1, hfh], hcr⟩, ?_⟩
  · rw [hp.2.2.2.2.2.1, hcc]
    exact Nat.mod_eq_of_lt (by omega)
  · rw [close_data _ d hrun.1 hd, hrun.2.2.1, hfh]
    have hkh : kind ≠ NMEA_FIELD_HEADER := by
      rw [← hka.1]; exact kind_at_ne_header _ _
    exact (core_end kind hkh _ _ (core_eq_trans (core_unready _) hcr)).data

set_option maxRecDepth 100000 in
/-- C32 at the date field of the RMC test sentence: the ninth field, of the
kind `RMC_FIELDS[8]`. -/
theorem field_dispatch_order_witness :
    36 :: ((header_literal 4 ++ join_fields rmc_test_before_date) ++ [44])
      = chars "$GPRMC,175456.00,A,5104.34432,N,00147.29814,W,34.075,213.73," ∧
    RMC_FIELDS[8]? = some NMEA_FIELD_DATE ∧
    (test_parse_string (field_opened (nmea_init fresh) 4 rmc_test_before_date)
        (chars "080321")).state.field_handlers = NMEA_FIELD_DATE ∧
    (nmea_parse (test_parse_string (field_opened (nmea_init fresh) 4 rmc_test_before_date)
        (chars "080321")) 44).data
      = ((HANDLER_LUT NMEA_FIELD_DATE).end_handler
          ((chars "080321").foldl (HANDLER_LUT NMEA_FIELD_DATE).char_handler
            ((HANDLER_LUT NMEA_FIELD_DATE).start_handler
              (decode_sentence 4 rmc_test_before_date (nmea_init fresh))))).data :=
  ⟨by decide, by decide,
   (field_dispatch_order (nmea_init fresh) 4 (by decide) rmc_test_before_date (chars "080321")
      NMEA_FIELD_DATE 44 (by decide) (by decide) (by decide) (Or.inl rfl)).2.1.1,
   (field_dispatch_order (nmea_init fresh) 4 (by decide) rmc_test_before_date (chars "080321")
      NMEA_FIELD_DATE 44 (by decide) (by decide) (by decide) (Or.inl rfl)).2.2⟩


set_option maxRecDepth 100000 in
/-- C33 fails for the time and the date kind: their start handler
`reset_cc_start_handler` resets the character count only, and the end handler
of an empty field commits the scratch left by earlier characters.  From
`nmea_init`, the RMC header alone and the RMC header after a sentence
abandoned in its time field (`$GPRMC,12`) give the same fix snapshot and
different scratch; the comma that closes the empty time field then commits
`data.time = 0` in the first and `43200` in the second.  Likewise the
longitude fields `00100` and `00060` give the same snapshot and the scratch
values 2^55 and 0, and the empty date field that follows commits
`946684800 + 2^55` in the first and `946684800` in the second. -/
theorem empty_time_field_commits_stale_scratch :
    (test_parse_string (nmea_init fresh) (chars "$GPRMC,")).data
      = (test_parse_string (nmea_init fresh) (chars "$GPRMC,12$GPRMC,")).data ∧
    (test_parse_string (nmea_init fresh) (chars "$GPRMC,")).state.field_handlers
      = NMEA_FIELD_TIME ∧
    (test_parse_string (nmea_init fresh) (chars "$GPRMC,12$GPRMC,")).state.field_handlers
      = NMEA_FIELD_TIME ∧
    (test_parse_string (nmea_init fresh) (chars "$GPRMC,")).state.scratch = 0 ∧
    (test_parse_string (nmea_init fresh) (chars "$GPRMC,12$GPRMC,")).state.scratch = 43200 ∧
    (test_parse_string (nmea_init fresh) (chars "$GPRMC,,")).data.time = 0 ∧
    (test_parse_string (nmea_init fresh) (chars "$GPRMC,12$GPRMC,,")).data.time = 43200 ∧
    (test_parse_string (nmea_init fresh) (chars "$GPRMC,,,,,00100,,,,")).data
      = (test_parse_string (nmea_init fresh) (chars "$GPRMC,,,,,00060,,,,")).data ∧
    (test_parse_string (nmea_init fresh) (chars "$GPRMC,,,,,00100,,,,")).state.field_handlers
      = NMEA_FIELD_DATE ∧
    (test_parse_string (nmea_init fresh) (chars "$GPRMC,,,,,00060,,,,")).state.field_handlers
      = NMEA_FIELD_DATE ∧
    (test_parse_string (nmea_init fresh) (chars "$GPRMC,,,,,00100,,,,,")).data.time
      = 36028797965648768 ∧
    (test_parse_string (nmea_init fresh) (chars "$GPRMC,,,,,00060,,,,,")).data.time
      = 946684800 := by
  refine ⟨by decide, by decide, by decide, by decide, by decide, by decide, by decide,
    by decide, by decide, by decide, by decide, by decide⟩


set_option maxRecDepth 100000 in
/-- C34 as stated fails for the tracked PRN kind, which is decoded by the
unsigned fixed point decoder (`ufxp_init_start_handler`, `ui_char_handler`)
but whose end handler stores nonzero values only: after the GSA test sentence
the list starts 18, 16, 23, and the empty first tracked PRN field of a second
GSA sentence leaves the element 18 where it is instead of storing 0.  A
satellite attribute has no element to store to when the satellite index has
reached the capacity: after twenty satellites with SNR 9 the empty SNR field
of a further satellite is opened at index 20 and every element keeps its SNR
9. -/
theorem empty_tracked_prn_field_keeps_slot :
    (nmea_parse gsa_before_second_prns 44).state.field_handlers = NMEA_FIELD_PRNS_TRACKED ∧
    (nmea_parse gsa_before_second_prns 44).state.gsa_satellite_index = 0 ∧
    gsa_before_second_prns.data.prns_tracked = [18, 16, 23, 0, 0, 0, 0, 0, 0, 0, 0, 0] ∧
    (test_parse_string gsa_before_second_prns [44, 44]).data.prns_tracked
      = [18, 16, 23, 0, 0, 0, 0, 0, 0, 0, 0, 0] ∧
    (nmea_parse gsv_full_before_snr 44).state.field_handlers = NMEA_FIELD_SNR ∧
    (nmea_parse gsv_full_before_snr 44).state.gsv_satellite_index = 20 ∧
    (test_parse_string gsv_full_before_snr [44, 44]).data.sats.map (fun s => s.snr)
      = List.replicate 20 9 := by
  refine ⟨by decide, by decide, by decide, by decide, by decide, by decide, by decide⟩

/-- C34, amended: a comma that opens a field of a kind `k` whose start
handler initialises the fixed point decoder, other than the tracked PRN kind,
followed at once by the next delimiter: the end handler stores 0 in the cell
of `k` (a member of the fix snapshot; for the two GSV counters their cell of
the parser state) and the touched-field bitmap is the one before the field, so
the empty field marks no kind.  For the four satellite attributes the cell is
the member of the array element at the GSV satellite index, which has to be
below the capacity. -/
theorem empty_numeric_field_is_zero (x : nmea) (k : nmea_fields) (d : Int)
    (hr : x.state.checksum_recording = 0) (hk : inits_decoder k)
    (hne : k ≠ NMEA_FIELD_PRNS_TRACKED)
    (hsel : (nmea_parse x 44).state.field_handlers = k) (hd : d = 44 ∨ d = 42)
    (hslot : k ∈ sat_kinds →
      (nmea_parse x 44).state.gsv_satellite_index < NMEA_MAX_SATS ∧
      (nmea_parse x 44).data.sats.length = NMEA_MAX_SATS) :
    numeric_value k (nmea_parse x 44).state.gsv_satellite_index
      (test_parse_string x [44, d]) = 0 ∧
    (test_parse_string x [44, d]).state.field_bitmap = x.state.field_bitmap := by
  have hfc := field_core x _ [] hr (by simp) (core_eq_refl _)
  have hT1 : test_parse_string x [44] = nmea_parse x 44 := rfl
  rw [hT1, hsel] at hfc
  have hidx := comma_gsv_index x hr
  have hcd := close_data x 44 hr (Or.inl rfl)
  have hpc := parse_comma x hr
  have hcl := close_data (nmea_parse x 44) d hpc.2.2.2.2.1 hd
  have hcc := close_counters (nmea_parse x 44) d hpc.2.2.2.2.1 hd
  rw [hsel] at hcl hcc
  constructor
  · show numeric_value k _ (nmea_parse (nmea_parse x 44) d) = 0
    rw [numeric_value_congr k _ _ _ (hcl.trans hfc.2.2.2.2.data)
      (hcc.1.trans hfc.2.2.2.2.gsv_sentences_total)
      (hcc.2.trans hfc.2.2.2.2.gsv_sentence_no), hidx]
    apply empty_decode k hk hne
    intro hs
    have := hslot hs
    rw [hidx, hcd] at this
    exact this
  · show (nmea_parse (nmea_parse x 44) d).state.field_bitmap = x.state.field_bitmap
    rcases hd with h | h <;> subst h
    · rw [(parse_comma _ hpc.2.2.2.2.1).2.2.1, hpc.2.2.1]
    · rw [(parse_star _ hpc.2.2.2.2.1).2.2.1, hpc.2.2.1]

set_option maxRecDepth 100000 in
/-- C34, amended, at the empty magnetic variation field of the RMC test
sentence and at the empty SNR field of the first satellite of the first GSV
test sentence. -/
theorem empty_numeric_field_is_zero_witness :
    ((test_parse_string rmc_before_variation [44, 44]).data.magnetic_variation = 0 ∧
      (test_parse_string rmc_before_variation [44, 44]).state.field_bitmap
        = rmc_before_variation.state.field_bitmap) ∧
    (numeric_value NMEA_FIELD_SNR
        (nmea_parse gsv_before_first_snr 44).state.gsv_satellite_index
        (test_parse_string gsv_before_first_snr [44, 44]) = 0 ∧
      (test_parse_string gsv_before_first_snr [44, 44]).state.field_bitmap
        = gsv_before_first_snr.state.field_bitmap) :=
  ⟨empty_numeric_field_is_zero rmc_before_variation NMEA_FIELD_MAGNETIC_VARIATION 44
      (by decide) (fun _ => ⟨rfl, rfl⟩) (by decide) (by decide) (Or.inl rfl) (by decide),
   empty_numeric_field_is_zero gsv_before_first_snr NMEA_FIELD_SNR 44
      (by decide) (fun _ => ⟨rfl, rfl⟩) (by decide) (by decide) (Or.inl rfl) (by decide)⟩


/-- C35: the readiness bitmap after `nmea_parse n c` is a subset of the one
before unless the parser is in checksum capture waiting for the second digit
and the value completed by `c` equals the running checksum; and after a
character sequence in which no character passes the checksum comparison the
readiness bitmap is a subset of the one before. -/
theorem readiness_gained_only_at_pass (n : nmea) (c : Int) (s : List Int) :
    (¬ (n.state.checksum_recording ≠ 0 ∧ n.state.char_count ≠ 0 ∧
        (n.state.fxpse.val ||| hex_to_nibble c) = n.state.checksum) →
      bits_subset (nmea_parse n c).state.received n.state.received) ∧
    (no_pass n s = true →
      bits_subset (test_parse_string n s).state.received n.state.received) := by
  refine ⟨fun h => step_without_pass n c ?_, run_without_pass s n⟩
  by_cases h36 : c = 36
  · simp [checksum_passes, h36]
  · by_cases hr : n.state.checksum_recording = 0
    · simp [checksum_passes, hr]
    · by_cases hc : n.state.char_count = 0
      · simp [checksum_passes, hc]
      · have hv : (n.state.fxpse.val ||| hex_to_nibble c) ≠ n.state.checksum :=
          fun hv => h ⟨hr, hc, hv⟩
        simp [checksum_passes, hv]

set_option maxRecDepth 100000 in
/-- C35 at the RMC test sentence with its last checksum character changed:
the character `6` arrives in checksum capture after `*4` and does not complete
the running checksum, and no character of the whole sentence passes the
comparison. -/
theorem readiness_gained_only_at_pass_witness :
    bits_subset
      (nmea_parse (test_parse_string fresh (chars
        "$GPRMC,175456.00,A,5104.34432,N,00147.29814,W,34.075,213.73,080321,,,A*4")) 54).state.received
      (test_parse_string fresh (chars
        "$GPRMC,175456.00,A,5104.34432,N,00147.29814,W,34.075,213.73,080321,,,A*4")).state.received ∧
    bits_subset
      (test_parse_string fresh (chars
        "$GPRMC,175456.00,A,5104.34432,N,00147.29814,W,34.075,213.73,080321,,,A*46")).state.received
      fresh.state.received :=
  ⟨(readiness_gained_only_at_pass _ 54 []).1 (by decide),
   (readiness_gained_only_at_pass fresh 0 _).2 (by decide)⟩


set_option maxRecDepth 100000 in
/-- C36 fails: `$` leaves `state.field` at the last field kind of the previous
sentence, the header characters of the next sentence mark that kind as touched
and its checksum commits the mark.  From `nmea_init`, after the GSA test
sentence a poll for the VDOP kind succeeds and clears the VDOP bit; the VTG
test sentence then sets the VDOP bit again, although VDOP is no field kind of
VTG (and is not the ignore kind). -/
theorem vtg_sets_consumed_vdop_bit :
    (nmea_fields_ready (test_parse_string (nmea_init fresh) gsa_test_sentence)
      (field_mask NMEA_FIELD_VDOP)).2 = 1 ∧
    gsa_polled.state.field = NMEA_FIELD_VDOP ∧
    gsa_polled.state.received.testBit (field_value NMEA_FIELD_VDOP) = false ∧
    (test_parse_string gsa_polled vtg_test_sentence).state.received.testBit
      (field_value NMEA_FIELD_VDOP) = true ∧
    NMEA_FIELD_VDOP ∉ VTG_FIELDS ∧ NMEA_FIELD_VDOP ≠ NMEA_FIELD_IGNORE ∧
    (test_parse_string gsa_polled vtg_test_sentence).data.vdop = gsa_polled.data.vdop := by
  refine ⟨by decide, by decide, by decide, by decide, by decide, by decide, by decide⟩


set_option maxRecDepth 100000 in
/-- C37 as stated fails: after the checksum the handlers of the last field
stay current.  A GLL sentence that ends with its status field `A`, correctly
checksummed, leaves `gll_active = NMEA_ACTIVE` and the GLL_ACTIVE readiness
bit set; the CR LF that follows is passed to `gll_active_char_handler`, which
stores `NMEA_VOID` and clears the bit.  A comma after the checksum of the GSA
test sentence runs `vdop_end_handler` again: `data.vdop` goes from 65536 to 0
and the VDOP bit is cleared. -/
theorem line_terminator_voids_gll :
    (test_parse_string (nmea_init fresh) gll_status_last).data.gll_active = NMEA_ACTIVE ∧
    (test_parse_string (nmea_init fresh) gll_status_last).state.received.testBit
      (field_value NMEA_FIELD_GLL_ACTIVE) = true ∧
    (test_parse_string (nmea_init fresh) (gll_status_last ++ [13, 10])).data.gll_active
      = NMEA_VOID ∧
    (test_parse_string (nmea_init fresh) (gll_status_last ++ [13, 10])).state.received.testBit
      (field_value NMEA_FIELD_GLL_ACTIVE) = false ∧
    (test_parse_string (nmea_init fresh) gsa_test_sentence).data.vdop = 65536 ∧
    (test_parse_string (nmea_init fresh) gsa_test_sentence).state.received.testBit
      (field_value NMEA_FIELD_VDOP) = true ∧
    (test_parse_string (nmea_init fresh) (gsa_test_sentence ++ [44])).data.vdop = 0 ∧
    (test_parse_string (nmea_init fresh) (gsa_test_sentence ++ [44])).state.received.testBit
      (field_value NMEA_FIELD_VDOP) = false := by
  refine ⟨by decide, by decide, by decide, by decide, by decide, by decide, by decide, by decide⟩

/-- C37, amended: after a sentence of a supported format and its two checksum
characters, from any parser state, the characters that follow change neither
the fix snapshot nor the readiness bitmap, provided none of them is `$`, `,`
or `*` and the last field of the sentence is not of a direction or status
kind (whose char handler stores a value and clears a readiness bit). -/
theorem trailing_characters_inert (n : nmea) (i : Nat) (hi : i < 6) (fs : List (List Int))
    (hfs : ∀ f ∈ fs, ∀ c ∈ f, c ≠ 36 ∧ c ≠ 44 ∧ c ≠ 42) (hlen : fs.length ≤ 256)
    (hne : fs ≠ []) (x y : Int) (hx : x ≠ 36) (hy : y ≠ 36)
    (hk : kind_at (sentence_ptr.lut i) (fs.length - 1) ∉ letter_kinds)
    (tail : List Int) (ht : ∀ c ∈ tail, c ≠ 36 ∧ c ≠ 44 ∧ c ≠ 42) :
    (test_parse_string n
      (36 :: ((header_literal i ++ join_fields fs) ++ [42, x, y]) ++ tail)).data
      = (test_parse_string n
          (36 :: ((header_literal i ++ join_fields fs) ++ [42, x, y]))).data ∧
    (test_parse_string n
      (36 :: ((header_literal i ++ join_fields fs) ++ [42, x, y]) ++ tail)).state.received
      = (test_parse_string n
          (36 :: ((header_literal i ++ join_fields fs) ++ [42, x, y]))).state.received := by
  have he := sentence_end_state n i hi fs hfs hlen hne x y hx hy
  rw [test_parse_string_append]
  exact silent_run tail _ ht he.1 (by rw [he.2]; exact hk)

set_option maxRecDepth 100000 in
/-- C37, amended, at the GLL test sentence (seven fields, the last of the
ignore kind) followed by CR LF. -/
theorem trailing_characters_inert_witness :
    36 :: ((header_literal 1 ++ join_fields gll_test_fields) ++ [42, 55, 57])
      = chars "$GPGLL,5104.34432,N,00147.29814,W,175456.00,A,A*79" ∧
    (test_parse_string (nmea_init fresh)
      (36 :: ((header_literal 1 ++ join_fields gll_test_fields) ++ [42, 55, 57])
        ++ [13, 10])).data
      = (test_parse_string (nmea_init fresh)
          (36 :: ((header_literal 1 ++ join_fields gll_test_fields) ++ [42, 55, 57]))).data ∧
    (test_parse_string (nmea_init fresh)
      (36 :: ((header_literal 1 ++ join_fields gll_test_fields) ++ [42, 55, 57])
        ++ [13, 10])).state.received
      = (test_parse_string (nmea_init fresh)
          (36 :: ((header_literal 1 ++ join_fields gll_test_fields)
            ++ [42, 55, 57]))).state.received :=
  ⟨by decide,
   trailing_characters_inert (nmea_init fresh) 1 (by decide) gll_test_fields (by decide)
     (by decide) (by decide) 55 57 (by decide) (by decide) (by decide) [13, 10] (by decide)⟩


/-- C38: feeding a byte sequence without `$` (commas, `*` and any length
allowed) to a freshly initialised parser leaves the readiness bitmap 0 and the
fix snapshot as `nmea_init` made it, every member 0. -/
theorem no_dollar_nothing_happens (m : nmea) (s : List Int) (hs : ∀ c ∈ s, c ≠ 36) :
    (test_parse_string (nmea_init m) s).state.received = 0 ∧
    (test_parse_string (nmea_init m) s).data = (nmea_init m).data ∧
    (nmea_init m).data =
      ⟨0, 0, 0, 0, 0, 0, 0, 0, 0, 0, 0, 0, 0, 0, 0, 0,
        List.replicate 20 ⟨0, 0, 0, 0⟩, List.replicate 12 0, 0, 0⟩ := by
  have h := ignoring_run s (nmea_init m) hs (init_ignoring m)
  exact ⟨bits_subset_zero _ h.2.2, h.2.1, rfl⟩

/-- C38 at the bytes `,A*47,12*2B` followed by CR LF. -/
theorem no_dollar_nothing_happens_witness :
    (test_parse_string (nmea_init fresh) (chars ",A*47,12*2B" ++ [13, 10])).state.received = 0 ∧
    (test_parse_string (nmea_init fresh) (chars ",A*47,12*2B" ++ [13, 10])).data
      = (nmea_init fresh).data :=
  ⟨(no_dollar_nothing_happens fresh (chars ",A*47,12*2B" ++ [13, 10]) (by decide)).1,
   (no_dollar_nothing_happens fresh (chars ",A*47,12*2B" ++ [13, 10]) (by decide)).2.1⟩


/-- C39: in every state reached from `nmea_init` by a sequence of `nmea_parse`
and `nmea_fields_ready` calls the GSV satellite index is at most
`NMEA_MAX_SATS` (20) and the GSA tracked PRN index at most
`NMEA_MAX_PRNS_TRACKED` (12), and the satellite array and the tracked PRN list
have their 20 and 12 elements.  Every array access of a further `nmea_parse`
call, as recorded by `nmea_parse_traced`, is in range: a write of the
satellite array below 20, a write of the tracked PRN list below 12, a read of
the month table below 11, a read of the field list of the current format below
its length.  For every parser and character `nmea_parse_traced` returns the
parser that `nmea_parse` returns, and `nmea_parse` leaves the elements of
lists longer than the arrays alone from index 20 and index 12 on. -/
theorem indices_stay_in_range (m : nmea) (cs : List call) (c : Int) :
    (run_calls (nmea_init m) cs).state.gsv_satellite_index ≤ NMEA_MAX_SATS ∧
    (run_calls (nmea_init m) cs).state.gsa_satellite_index ≤ NMEA_MAX_PRNS_TRACKED ∧
    (run_calls (nmea_init m) cs).data.sats.length = NMEA_MAX_SATS ∧
    (run_calls (nmea_init m) cs).data.prns_tracked.length = NMEA_MAX_PRNS_TRACKED ∧
    (∀ a ∈ (nmea_parse_traced (run_calls (nmea_init m) cs) c).2, access_in_range a = true) ∧
    (∀ (n : nmea) (d : Int),
      (nmea_parse_traced n d).1 = nmea_parse n d ∧ beyond_kept n (nmea_parse n d)) ∧
    (access_in_range (access.sats 20) = false ∧ access_in_range (access.prns_tracked 12) = false ∧
      access_in_range (access.month_days 11) = false) := by
  have h := index_inv_run cs (nmea_init m) ⟨Nat.zero_le _, Nat.zero_le _, rfl, rfl⟩
  exact ⟨h.1, h.2.1, h.2.2.1, h.2.2.2, parse_accesses_in_range _ c,
    fun n d => ⟨nmea_parse_traced_fst n d, beyond_kept_parse n d⟩, by decide, by decide,
    by decide⟩


set_option maxRecDepth 100000 in
/-- C40 fails: `header_char_handler` reads `head[char_count]` of every format
without a bound on the character count.  From `nmea_init`, after `$PMTK00`
(six header characters) the parser is in the header with character count 6,
and the next character `1` makes the six reads `SENTENCE_LUT[i].head[6]`,
one past the end of each 6 byte head array. -/
theorem long_header_reads_past_head :
    (test_parse_string (nmea_init fresh) (chars "$PMTK00")).state.field_handlers
      = NMEA_FIELD_HEADER ∧
    (test_parse_string (nmea_init fresh) (chars "$PMTK00")).state.char_count = 6 ∧
    nmea_parse_head_reads (test_parse_string (nmea_init fresh) (chars "$PMTK00")) 49
      = [(0, 6), (1, 6), (2, 6), (3, 6), (4, 6), (5, 6)] ∧
    (∀ i, i < SENTENCE_LUT.length →
      (SENTENCE_LUT.getD i IGNORE_SENTENCE).head.length = 6 ∧ head_at i 6 = none) := by
  refine ⟨by decide, by decide, by decide, by decide⟩


end Nmea
